import Mathlib

/-!
# A shallow embedding of the ray tracer `src/main.c`

The C program casts one ray per pixel at a single object and stores three
bytes per pixel in a 512 x 512 x 3 framebuffer, tile by tile.

## Numbers

A C `float` is modelled by `Flt α`: either one of the three IEEE-754 special
values (`nan`, `pinf`, `ninf`) or a finite value `fin x` with `x` in a linearly
ordered field `α`.

* The special values follow IEEE-754: every comparison with `nan` is false,
  `x / 0` is an infinity for `x ≠ 0` and `nan` for `x = 0`, `∞ - ∞`, `0 * ∞`
  and `∞ / ∞` are `nan`.  Zero carries no sign and behaves as `+0`.
* The program is transcribed twice.  In the first transcription (section
  `Code`) the operations on finite values are exact; it carries the statements
  about the stores, the tiles and the conversion to bytes.  In the second
  (namespace `B32`) every operation returns its exact result rounded to
  binary32, to nearest with ties to even, with overflow to an infinity and
  gradual underflow, as a C implementation with `FLT_EVAL_METHOD` 0 and
  without contraction to fused multiply-add computes it; it carries the
  statements about the values that the routines return.
* The libm functions `sqrtf`, `sqrt` and `powf` are not part of the program;
  they are parameters (`Libm`), and every theorem that needs a fact about
  them states it as a hypothesis.

## Memory

The framebuffer is a function from byte index to byte value.  The row
pointers of a `RenderRegion` are offsets into it.  `render_region` is
modelled by the sequence of stores it performs, in program order; the
framebuffer after a run is the fold of these stores (`run`).  The program
never reads the framebuffer while rendering.
-/

namespace Raytracer

/-! ## Floating-point values -/

/-- C `float`: the IEEE-754 special values and exact finite values. -/
inductive Flt (α : Type) where
  | nan : Flt α
  | pinf : Flt α
  | ninf : Flt α
  | fin : α → Flt α
  deriving DecidableEq

namespace Flt

variable {α : Type} [LinearOrderedField α]

/-- Unary minus. -/
def neg : Flt α → Flt α
  | nan => nan
  | pinf => ninf
  | ninf => pinf
  | fin x => fin (-x)

/-- Addition; `∞ + (-∞)` is `nan`. -/
def add : Flt α → Flt α → Flt α
  | nan, _ => nan
  | _, nan => nan
  | pinf, ninf => nan
  | ninf, pinf => nan
  | pinf, _ => pinf
  | ninf, _ => ninf
  | fin _, pinf => pinf
  | fin _, ninf => ninf
  | fin x, fin y => fin (x + y)

/-- Subtraction, `a - b = a + (-b)`. -/
def sub (a b : Flt α) : Flt α := add a (neg b)

/-- The infinity with the sign of `s * x`, or `nan` when `x = 0`
(`s = true` stands for `+∞`). -/
def infTimes (s : Bool) (x : α) : Flt α :=
  if x = 0 then nan
  else if decide (0 < x) = s then pinf else ninf

/-- Multiplication; `0 * ∞` is `nan`. -/
def mul : Flt α → Flt α → Flt α
  | nan, _ => nan
  | _, nan => nan
  | pinf, pinf => pinf
  | pinf, ninf => ninf
  | ninf, pinf => ninf
  | ninf, ninf => pinf
  | pinf, fin y => infTimes true y
  | ninf, fin y => infTimes false y
  | fin x, pinf => infTimes true x
  | fin x, ninf => infTimes false x
  | fin x, fin y => fin (x * y)

/-- Division; `x / 0` is an infinity with the sign of `x` for `x ≠ 0`,
and `0 / 0` and `∞ / ∞` are `nan`. -/
def div : Flt α → Flt α → Flt α
  | nan, _ => nan
  | _, nan => nan
  | pinf, pinf => nan
  | pinf, ninf => nan
  | ninf, pinf => nan
  | ninf, ninf => nan
  | pinf, fin y => if y < 0 then ninf else pinf
  | ninf, fin y => if y < 0 then pinf else ninf
  | fin _, pinf => fin 0
  | fin _, ninf => fin 0
  | fin x, fin y =>
      if y = 0 then (if x = 0 then nan else if 0 < x then pinf else ninf)
      else fin (x / y)

/-- The C comparison `a < b`; false whenever an operand is `nan`. -/
def lt : Flt α → Flt α → Bool
  | nan, _ => false
  | _, nan => false
  | pinf, _ => false
  | _, ninf => false
  | ninf, _ => true
  | fin _, pinf => true
  | fin x, fin y => decide (x < y)

/-- The C comparison `a > b`. -/
def gt (a b : Flt α) : Bool := lt b a

instance : Neg (Flt α) := ⟨neg⟩
instance : Add (Flt α) := ⟨add⟩
instance : Sub (Flt α) := ⟨sub⟩
instance : Mul (Flt α) := ⟨mul⟩
instance : Div (Flt α) := ⟨div⟩

/-- Conversion of a `size_t` to `float` (exact for the sizes that occur). -/
def ofNat (n : Nat) : Flt α := fin (n : α)

/-- Conversion `(unsigned char) v`: the value is truncated toward zero and
reduced modulo 256.  (In C the conversion is defined only when the truncated
value is in `0 .. 255`; for a special value the model stores 0.) -/
def toUChar [FloorRing α] : Flt α → Nat
  | fin x => ((if 0 ≤ x then ⌊x⌋ else ⌈x⌉) % 256).toNat
  | _ => 0

end Flt

open Flt

/-- The libm functions the program calls. -/
structure Libm (α : Type) where
  /-- The function `sqrtf` of libm (`vec3_norm`). -/
  sqrtf : Flt α → Flt α
  /-- The function `sqrt` of libm (`intersect_sphere`). -/
  sqrt : Flt α → Flt α
  /-- The function `powf` of libm (`render_region`). -/
  powf : Flt α → Flt α → Flt α

/-! ## Constants and macros -/

/-- Macro `FB_WIDTH`. -/
def FB_WIDTH : Nat := 512
/-- Macro `FB_HEIGHT`. -/
def FB_HEIGHT : Nat := 512
/-- Macro `FB_BYTES`. -/
def FB_BYTES : Nat := 3
/-- Macro `FB_SIZE`. -/
def FB_SIZE : Nat := FB_WIDTH * FB_HEIGHT * FB_BYTES
/-- Macro `REGION_SIZE`. -/
def REGION_SIZE : Nat := 8

section Code

variable {α : Type} [LinearOrderedField α]

/-- Macro `FOCAL_LENGTH`: the decimal value of the literal `-0.024f`; its
binary32 value is `B32.FOCAL_LENGTH`. -/
def FOCAL_LENGTH : Flt α := fin (-(24 / 1000))
/-- Macro `WIDTH`: the decimal value of the literal `0.028f`; its binary32
value is `B32.WIDTH`. -/
def WIDTH : Flt α := fin (28 / 1000)

/-- Macro `min(x, y)`: `(x < y ? x : y)`. -/
def min (x y : Flt α) : Flt α := if Flt.lt x y then x else y
/-- Macro `max(x, y)`: `(x > y ? x : y)`. -/
def max (x y : Flt α) : Flt α := if Flt.gt x y then x else y
/-- Macro `clamp(a, b, x)`: `(max(a, min(x, b)))`. -/
def clamp (a b x : Flt α) : Flt α := max a (min x b)

/-! ## Data -/

/-- The type `Vec2`. -/
structure Vec2 (α : Type) where
  e0 : Flt α
  e1 : Flt α

/-- The type `Vec3`. -/
structure Vec3 (α : Type) where
  e0 : Flt α
  e1 : Flt α
  e2 : Flt α

/-- The struct `Sphere`. -/
structure Sphere (α : Type) where
  pos : Vec3 α
  radius : Flt α

/-- The struct `Plane`. -/
structure Plane (α : Type) where
  pos : Vec3 α
  normal : Vec3 α

/-- The struct `Box`. -/
structure Box (α : Type) where
  min : Vec3 α
  max : Vec3 α

/-- An object with its `ObjectType` tag: what the `void*` handed to
`intersect` points to. -/
inductive Object (α : Type) where
  | PLANE : Plane α → Object α
  | SPHERE : Sphere α → Object α
  | BOX : Box α → Object α

/-- The struct `RenderRegion` for tiles of `R` rows: `framebuffer i` is the
offset into the framebuffer that the row pointer `framebuffer[i]` points to. -/
structure RenderRegion (α : Type) where
  pos : Vec3 α
  cam : Vec3 α
  framebuffer : Nat → Nat

/-- The global variables `range_fb_w`, `range_fb_h`, `range_w`, `range_h`. -/
structure Globals (α : Type) where
  range_fb_w : Vec2 α
  range_fb_h : Vec2 α
  range_w : Vec2 α
  range_h : Vec2 α

/-! ## Vector math -/

/-- The function `vec3_sub`. -/
def vec3_sub (a b : Vec3 α) : Vec3 α :=
  ⟨a.e0 - b.e0, a.e1 - b.e1, a.e2 - b.e2⟩

/-- The function `vec3_dot`. -/
def vec3_dot (a b : Vec3 α) : Flt α :=
  a.e0 * b.e0 + a.e1 * b.e1 + a.e2 * b.e2

/-- The function `vec3_norm2`. -/
def vec3_norm2 (a : Vec3 α) : Flt α := vec3_dot a a

/-- The function `vec3_norm`. -/
def vec3_norm (L : Libm α) (a : Vec3 α) : Flt α := L.sqrtf (vec3_norm2 a)

/-- The function `vec3_scale`. -/
def vec3_scale (src : Vec3 α) (s : Flt α) : Vec3 α :=
  ⟨src.e0 * s, src.e1 * s, src.e2 * s⟩

/-- The function `vec3_normalize`. -/
def vec3_normalize (L : Libm α) (src : Vec3 α) : Vec3 α :=
  let norm := vec3_norm L src
  vec3_scale src (fin 1 / norm)

/-! ## Intersection routines -/

/-- The function `intersect_plane`. -/
def intersect_plane (plane : Plane α) (cam raydir : Vec3 α) : Flt α :=
  let dn := vec3_dot plane.normal raydir
  let pn := vec3_dot plane.normal plane.pos
  (pn - vec3_dot cam plane.normal) / dn

/-- The function `intersect_sphere`. -/
def intersect_sphere (L : Libm α) (sphere : Sphere α) (cam raydir : Vec3 α) : Flt α :=
  let q := vec3_sub cam sphere.pos
  let raydir_norm := vec3_norm2 raydir
  let delta := (vec3_dot raydir q * vec3_dot raydir q)
    - raydir_norm * (vec3_norm2 q - sphere.radius * sphere.radius)
  let sqrt_delta := L.sqrt delta
  let t1 := (-vec3_dot raydir q + sqrt_delta) / raydir_norm
  let t2 := (-vec3_dot raydir q - sqrt_delta) / raydir_norm
  min t1 t2

/-- The function `intersect_box`. -/
def intersect_box (box : Box α) (cam raydir : Vec3 α) : Flt α :=
  let t1_x := (box.min.e0 - cam.e0) / raydir.e0
  let t2_x := (box.max.e0 - cam.e0) / raydir.e0
  let tmin_x := min t1_x t2_x
  let tmax_x := max t1_x t2_x
  let t1_y := (box.min.e1 - cam.e1) / raydir.e1
  let t2_y := (box.max.e1 - cam.e1) / raydir.e1
  let tmin_y := min t1_y t2_y
  let tmax_y := max t1_y t2_y
  if Flt.gt tmin_x tmax_y || Flt.gt tmin_y tmax_x then fin (-1)
  else
    let tmin := max tmin_x tmin_y
    let tmax := min tmax_x tmax_y
    let t1_z := (box.min.e2 - cam.e2) / raydir.e2
    let t2_z := (box.max.e2 - cam.e2) / raydir.e2
    let tmin_z := min t1_z t2_z
    let tmax_z := max t1_z t2_z
    if Flt.gt tmin tmax_z || Flt.gt tmin_z tmax then fin (-1)
    else
      let tmin := max tmin tmin_z
      let tmax := min tmax tmax_z
      min tmin tmax

/-- The function `intersect`: dispatch on the object's type tag. -/
def intersect (L : Libm α) (object : Object α) (cam raydir : Vec3 α) : Flt α :=
  match object with
  | Object.PLANE p => intersect_plane p cam raydir
  | Object.SPHERE s => intersect_sphere L s cam raydir
  | Object.BOX b => intersect_box b cam raydir

/-- The function `map`. -/
def map (a b : Vec2 α) (x : Flt α) : Flt α :=
  (x - a.e0) * ((b.e1 - b.e0) / (a.e1 - a.e0)) + b.e0

/-! ## Rendering -/

/-- One byte store `framebuffer[index] = value`. -/
abbrev Store := Nat × Nat

/-- The framebuffer: the byte at every index. -/
abbrev Framebuffer := Nat → Nat

/-- Perform a sequence of stores, first to last. -/
def run (stores : List Store) (fb : Framebuffer) : Framebuffer :=
  stores.foldl (fun m s => Function.update m s.1 s.2) fb

/-- Lines 183-188 of `render_region`: the direction `dir` of the ray through
the pixel in row `y` and column `x` of the tile. -/
def pixel_dir (G : Globals α) (L : Libm α) (rr : RenderRegion α) (y x : Nat) : Vec3 α :=
  let p_proj : Vec3 α :=
    ⟨map G.range_fb_w G.range_w (Flt.ofNat x + rr.pos.e0 + fin (1 / 2)),
     map G.range_fb_h G.range_h (Flt.ofNat y + rr.pos.e1 + fin (1 / 2)),
     FOCAL_LENGTH⟩
  let dif := vec3_sub p_proj rr.cam
  vec3_normalize L dif

/-- Lines 183-187 of `render_region`: the vector `dif` from the camera to the
sensor point of the pixel in row `y` and column `x` of the tile, the argument
of `vec3_normalize`. -/
def pixel_dif (G : Globals α) (rr : RenderRegion α) (y x : Nat) : Vec3 α :=
  let p_proj : Vec3 α :=
    ⟨map G.range_fb_w G.range_w (Flt.ofNat x + rr.pos.e0 + fin (1 / 2)),
     map G.range_fb_h G.range_h (Flt.ofNat y + rr.pos.e1 + fin (1 / 2)),
     FOCAL_LENGTH⟩
  vec3_sub p_proj rr.cam

/-- The body of the inner loop of `render_region`, for row `y` and column `x`
of the tile: the three stores it performs. -/
def render_pixel [FloorRing α] (G : Globals α) (L : Libm α) (rr : RenderRegion α)
    (object : Object α) (y x : Nat) : List Store :=
  let fb := rr.framebuffer y
  let dir := pixel_dir G L rr y x
  let cur := x * FB_BYTES
  let t := intersect L object rr.cam dir
  if Flt.gt t (fin 0) then
    let c := fin 1 / t
    let c_gamma := L.powf c (fin 1 / fin (22 / 10))
    [(fb + (cur + 0), toUChar (clamp (fin 0) (fin 1) c_gamma * fin 255)),
     (fb + (cur + 1), toUChar (clamp (fin 0) (fin 1) c_gamma * fin 255)),
     (fb + (cur + 2), toUChar (clamp (fin 0) (fin 1) c_gamma * fin 255))]
  else
    [(fb + (cur + 0), 0), (fb + (cur + 1), 0), (fb + (cur + 2), 0)]

/-- The function `render_region` for tiles of edge `R` (`REGION_SIZE`): the
stores of the two nested loops, in program order. -/
def render_region [FloorRing α] (G : Globals α) (L : Libm α) (R : Nat)
    (rr : RenderRegion α) (object : Object α) : List Store :=
  (List.range R).flatMap fun y =>
    (List.range R).flatMap fun x => render_pixel G L rr object y x

/-! ## The frame driver (`main`) -/

/-- The sphere `s` of `main`. -/
def main_s : Sphere α :=
  { pos := ⟨fin 0, fin 0, fin (-3)⟩, radius := fin 1 }

/-- The box `b` of `main`. -/
def main_b : Box α :=
  { min := ⟨fin (-(1 / 2)), fin (-(1 / 2)), fin (-3)⟩,
    max := ⟨fin (1 / 2), fin (1 / 2), fin (-2)⟩ }

/-- The values `main` gives the four global ranges. -/
def main_globals : Globals α :=
  let a : Flt α := Flt.ofNat FB_WIDTH / Flt.ofNat FB_HEIGHT
  let w : Flt α := WIDTH
  let h : Flt α := w / a
  { range_fb_w := ⟨fin 0, Flt.ofNat FB_WIDTH⟩,
    range_fb_h := ⟨fin 0, Flt.ofNat FB_HEIGHT⟩,
    range_w := ⟨-w / fin 2, w / fin 2⟩,
    range_h := ⟨h / fin 2, -h / fin 2⟩ }

/-- The values of the loop variable of `for (v = 0; v < n; v += R)`, for
`R > 0`: the multiples of `R` below `n`, ascending. -/
def tileOrigins (n R : Nat) : List Nat :=
  (List.range ((n + R - 1) / R)).map fun k => k * R

/-- The region descriptor `rr` that `main` builds for the tile with origin
`(x, y)`.  The row pointer `i` is `&framebuffer[fb_region_idx]`.  The
component `pos[2]` is never assigned and never read. -/
def main_rr (x y : Nat) : RenderRegion α :=
  { pos := ⟨Flt.ofNat x, Flt.ofNat y, fin 0⟩,
    cam := ⟨fin 0, fin 0, fin 0⟩,
    framebuffer := fun i => (x * FB_BYTES) + (y + i) * (FB_WIDTH * FB_BYTES) }

/-- The stores of one iteration of the tile loops of `main`: the call of
`render_region` for the tile with origin `(x, y)`. -/
def tile_stores [FloorRing α] (L : Libm α) (R : Nat) (object : Object α)
    (tile : Nat × Nat) : List Store :=
  render_region main_globals L R (main_rr tile.1 tile.2) object

/-- The tile origins `(x, y)` in the order in which `main` visits them. -/
def main_tiles (R : Nat) : List (Nat × Nat) :=
  (tileOrigins FB_HEIGHT R).flatMap fun y =>
    (tileOrigins FB_WIDTH R).map fun x => (x, y)

/-- Render the given tiles one after the other into `fb`. -/
def render_tiles [FloorRing α] (L : Libm α) (R : Nat) (object : Object α)
    (tiles : List (Nat × Nat)) (fb : Framebuffer) : Framebuffer :=
  run (tiles.flatMap (tile_stores L R object)) fb

/-- The framebuffer at the end of the tile loops of `main`, with tile edge
`R` and the given object: it starts as all zero. -/
def frame [FloorRing α] (L : Libm α) (R : Nat) (object : Object α) : Framebuffer :=
  render_tiles L R object (main_tiles R) (fun _ => 0)

/-- The framebuffer that `main` writes to the file: tiles of edge
`REGION_SIZE`, the sphere `s`. -/
def main_framebuffer [FloorRing α] (L : Libm α) : Framebuffer :=
  frame L REGION_SIZE (Object.SPHERE main_s)

/-! ## Finite vectors

Points of `α³`, used to state the properties of the code on finite inputs. -/

/-- A vector with three finite components. -/
structure Pt (α : Type) where
  x : α
  y : α
  z : α

/-- The `Vec3` with the components of `p`. -/
def Pt.toVec3 (p : Pt α) : Vec3 α := ⟨fin p.x, fin p.y, fin p.z⟩

/-- The dot product. -/
def Pt.dot (a b : Pt α) : α := a.x * b.x + a.y * b.y + a.z * b.z

/-- The difference `a - b`. -/
def Pt.sub (a b : Pt α) : Pt α := ⟨a.x - b.x, a.y - b.y, a.z - b.z⟩

/-- The point `o + t * d` of the ray from `o` in direction `d`. -/
def Pt.ray (o d : Pt α) (t : α) : Pt α := ⟨o.x + t * d.x, o.y + t * d.y, o.z + t * d.z⟩

/-- The near end of the parameter interval in which the line `o + t * d`
is between the planes at `lo` and `hi` on one axis. -/
def slabNear (lo hi o d : α) : α := Min.min ((lo - o) / d) ((hi - o) / d)

/-- The far end of that interval. -/
def slabFar (lo hi o d : α) : α := Max.max ((lo - o) / d) ((hi - o) / d)

/-- The vector `k * d`. -/
def Pt.smul (k : α) (d : Pt α) : Pt α := ⟨k * d.x, k * d.y, k * d.z⟩

/-! ## Fixtures for evaluating the program on concrete inputs -/

/-- A square root on `Flt ℚ`: `nan` for negative arguments and for `nan`,
`Rat.sqrt` on the finite ones (exact on squares of rationals). -/
def ratSqrt : Flt ℚ → Flt ℚ
  | fin x => if x < 0 then nan else fin (Rat.sqrt x)
  | pinf => pinf
  | _ => nan

/-- A libm over the rationals: both square roots are `ratSqrt`, and `powf`
returns its base (exact for the bases 0 and 1). -/
def ratLibm : Libm ℚ := ⟨ratSqrt, ratSqrt, fun x _ => x⟩

/-- A region whose origin is offset by half a pixel, so that the ray of its
pixel in row 256 and column 256 is the optical axis `(0, 0, -1)`. -/
def axis_rr : RenderRegion ℚ :=
  { pos := ⟨fin (-(1 / 2)), fin (-(1 / 2)), fin 0⟩,
    cam := ⟨fin 0, fin 0, fin 0⟩,
    framebuffer := fun i => i * (FB_WIDTH * FB_BYTES) }

/-- A libm whose `sqrtf` returns `a` and whose `sqrt` returns `b` at every
argument, for evaluating a single pixel; `powf` returns its base. -/
def constLibm (a b : ℚ) : Libm ℚ := ⟨fun _ => fin a, fun _ => fin b, fun x _ => x⟩

end Code

/-! ## Binary32 arithmetic

The routines once more, with the arithmetic of the C type `float` on the
usual platforms: every operation returns the exact result rounded to the
nearest binary32 value, ties to even, with gradual underflow and overflow to
an infinity.  Values are still `Flt ℚ`; a finite value is a binary32 value
when `round32` leaves it unchanged.  Zero carries no sign. -/

namespace B32

/-- Round to the nearest integer, ties to the even one. -/
def rne (y : ℚ) : ℤ :=
  if y - ⌊y⌋ < 1 / 2 then ⌊y⌋
  else if 1 / 2 < y - ⌊y⌋ then ⌊y⌋ + 1
  else if ⌊y⌋ % 2 = 0 then ⌊y⌋ else ⌊y⌋ + 1

/-- The exponent of the spacing of the binary32 values around `x`: 24
significant bits, and the spacing `2^(-149)` below `2^(-126)`. -/
def quantum (x : ℚ) : ℤ := Max.max (Int.log 2 |x|) (-126) - 23

/-- The binary32 value nearest to `x`, ties to even; an infinity when the
rounded magnitude reaches `2^128`. -/
def round32 (x : ℚ) : Flt ℚ :=
  if x = 0 then fin 0
  else if (2 : ℚ) ^ (128 : ℕ) ≤ |(rne (x / 2 ^ quantum x) : ℚ) * 2 ^ quantum x| then
    (if 0 < x then pinf else ninf)
  else fin ((rne (x / 2 ^ quantum x) : ℚ) * 2 ^ quantum x)

/-- Rounding of the exact result of an operation: the special values are
kept. -/
def rnd : Flt ℚ → Flt ℚ
  | fin x => round32 x
  | v => v

/-- The C operation `a + b` on `float`. -/
def fadd (a b : Flt ℚ) : Flt ℚ := rnd (a + b)
/-- The C operation `a - b` on `float`. -/
def fsub (a b : Flt ℚ) : Flt ℚ := rnd (a - b)
/-- The C operation `a * b` on `float`. -/
def fmul (a b : Flt ℚ) : Flt ℚ := rnd (a * b)
/-- The C operation `a / b` on `float`. -/
def fdiv (a b : Flt ℚ) : Flt ℚ := rnd (a / b)

/-- Conversion of a `size_t` to `float`. -/
def ofNat (n : Nat) : Flt ℚ := round32 (n : ℚ)

/-- Macro `FOCAL_LENGTH`: the literal `-0.024f`. -/
def FOCAL_LENGTH : Flt ℚ := -round32 (24 / 1000)
/-- Macro `WIDTH`: the literal `0.028f`. -/
def WIDTH : Flt ℚ := round32 (28 / 1000)

/-- The function `vec3_sub`. -/
def vec3_sub (a b : Vec3 ℚ) : Vec3 ℚ :=
  ⟨fsub a.e0 b.e0, fsub a.e1 b.e1, fsub a.e2 b.e2⟩

/-- The function `vec3_dot`. -/
def vec3_dot (a b : Vec3 ℚ) : Flt ℚ :=
  fadd (fadd (fmul a.e0 b.e0) (fmul a.e1 b.e1)) (fmul a.e2 b.e2)

/-- The function `vec3_norm2`. -/
def vec3_norm2 (a : Vec3 ℚ) : Flt ℚ := vec3_dot a a

/-- The function `vec3_norm`. -/
def vec3_norm (L : Libm ℚ) (a : Vec3 ℚ) : Flt ℚ := L.sqrtf (vec3_norm2 a)

/-- The function `vec3_scale`. -/
def vec3_scale (src : Vec3 ℚ) (s : Flt ℚ) : Vec3 ℚ :=
  ⟨fmul src.e0 s, fmul src.e1 s, fmul src.e2 s⟩

/-- The function `vec3_normalize`. -/
def vec3_normalize (L : Libm ℚ) (src : Vec3 ℚ) : Vec3 ℚ :=
  let norm := vec3_norm L src
  vec3_scale src (fdiv (fin 1) norm)

/-- The function `intersect_plane`. -/
def intersect_plane (plane : Plane ℚ) (cam raydir : Vec3 ℚ) : Flt ℚ :=
  let dn := vec3_dot plane.normal raydir
  let pn := vec3_dot plane.normal plane.pos
  fdiv (fsub pn (vec3_dot cam plane.normal)) dn

/-- The variable `delta` of `intersect_sphere`. -/
def sphere_delta (sphere : Sphere ℚ) (cam raydir : Vec3 ℚ) : Flt ℚ :=
  let q := vec3_sub cam sphere.pos
  let raydir_norm := vec3_norm2 raydir
  fsub (fmul (vec3_dot raydir q) (vec3_dot raydir q))
    (fmul raydir_norm (fsub (vec3_norm2 q) (fmul sphere.radius sphere.radius)))

/-- The function `intersect_sphere`.  The call `sqrt(delta)` converts `delta`
to `double` and its result back to `float`; `L.sqrt` stands for the three
steps together. -/
def intersect_sphere (L : Libm ℚ) (sphere : Sphere ℚ) (cam raydir : Vec3 ℚ) : Flt ℚ :=
  let q := vec3_sub cam sphere.pos
  let raydir_norm := vec3_norm2 raydir
  let delta := fsub (fmul (vec3_dot raydir q) (vec3_dot raydir q))
    (fmul raydir_norm (fsub (vec3_norm2 q) (fmul sphere.radius sphere.radius)))
  let sqrt_delta := L.sqrt delta
  let t1 := fdiv (fadd (-vec3_dot raydir q) sqrt_delta) raydir_norm
  let t2 := fdiv (fsub (-vec3_dot raydir q) sqrt_delta) raydir_norm
  min t1 t2

/-- The variables `tmin_x`, `tmin_y`, `tmin_z` of `intersect_box`, for the
axis with box bounds `lo`, `hi`, camera coordinate `c` and direction
component `d`. -/
def box_tmin (lo hi c d : Flt ℚ) : Flt ℚ := min (fdiv (fsub lo c) d) (fdiv (fsub hi c) d)

/-- The variables `tmax_x`, `tmax_y`, `tmax_z` of `intersect_box`. -/
def box_tmax (lo hi c d : Flt ℚ) : Flt ℚ := max (fdiv (fsub lo c) d) (fdiv (fsub hi c) d)

/-- The function `intersect_box`. -/
def intersect_box (box : Box ℚ) (cam raydir : Vec3 ℚ) : Flt ℚ :=
  let t1_x := fdiv (fsub box.min.e0 cam.e0) raydir.e0
  let t2_x := fdiv (fsub box.max.e0 cam.e0) raydir.e0
  let tmin_x := min t1_x t2_x
  let tmax_x := max t1_x t2_x
  let t1_y := fdiv (fsub box.min.e1 cam.e1) raydir.e1
  let t2_y := fdiv (fsub box.max.e1 cam.e1) raydir.e1
  let tmin_y := min t1_y t2_y
  let tmax_y := max t1_y t2_y
  if Flt.gt tmin_x tmax_y || Flt.gt tmin_y tmax_x then fin (-1)
  else
    let tmin := max tmin_x tmin_y
    let tmax := min tmax_x tmax_y
    let t1_z := fdiv (fsub box.min.e2 cam.e2) raydir.e2
    let t2_z := fdiv (fsub box.max.e2 cam.e2) raydir.e2
    let tmin_z := min t1_z t2_z
    let tmax_z := max t1_z t2_z
    if Flt.gt tmin tmax_z || Flt.gt tmin_z tmax then fin (-1)
    else
      let tmin := max tmin tmin_z
      let tmax := min tmax tmax_z
      min tmin tmax

/-- The function `intersect`: dispatch on the object's type tag. -/
def intersect (L : Libm ℚ) (object : Object ℚ) (cam raydir : Vec3 ℚ) : Flt ℚ :=
  match object with
  | Object.PLANE p => intersect_plane p cam raydir
  | Object.SPHERE s => intersect_sphere L s cam raydir
  | Object.BOX b => intersect_box b cam raydir

/-- The function `map`. -/
def map (a b : Vec2 ℚ) (x : Flt ℚ) : Flt ℚ :=
  fadd (fmul (fsub x a.e0) (fdiv (fsub b.e1 b.e0) (fsub a.e1 a.e0))) b.e0

/-- Lines 183-186 of `render_region`: the point `p_proj` of the sensor for
the pixel in row `y` and column `x` of the tile. -/
def pixel_proj (G : Globals ℚ) (rr : RenderRegion ℚ) (y x : Nat) : Vec3 ℚ :=
  ⟨map G.range_fb_w G.range_w (fadd (fadd (ofNat x) rr.pos.e0) (fin (1 / 2))),
   map G.range_fb_h G.range_h (fadd (fadd (ofNat y) rr.pos.e1) (fin (1 / 2))),
   FOCAL_LENGTH⟩

/-- Line 187 of `render_region`: the vector `dif` handed to
`vec3_normalize`. -/
def pixel_dif (G : Globals ℚ) (rr : RenderRegion ℚ) (y x : Nat) : Vec3 ℚ :=
  vec3_sub (pixel_proj G rr y x) rr.cam

/-- Lines 183-188 of `render_region`: the direction `dir` of the ray. -/
def pixel_dir (G : Globals ℚ) (L : Libm ℚ) (rr : RenderRegion ℚ) (y x : Nat) : Vec3 ℚ :=
  vec3_normalize L (pixel_dif G rr y x)

/-- The body of the inner loop of `render_region`: the three stores of the
pixel in row `y` and column `x` of the tile. -/
def render_pixel (G : Globals ℚ) (L : Libm ℚ) (rr : RenderRegion ℚ)
    (object : Object ℚ) (y x : Nat) : List Store :=
  let fb := rr.framebuffer y
  let dir := pixel_dir G L rr y x
  let cur := x * FB_BYTES
  let t := intersect L object rr.cam dir
  if Flt.gt t (fin 0) then
    let c := fdiv (fin 1) t
    let c_gamma := L.powf c (fdiv (fin 1) (round32 (22 / 10)))
    [(fb + (cur + 0), toUChar (fmul (clamp (fin 0) (fin 1) c_gamma) (fin 255))),
     (fb + (cur + 1), toUChar (fmul (clamp (fin 0) (fin 1) c_gamma) (fin 255))),
     (fb + (cur + 2), toUChar (fmul (clamp (fin 0) (fin 1) c_gamma) (fin 255)))]
  else
    [(fb + (cur + 0), 0), (fb + (cur + 1), 0), (fb + (cur + 2), 0)]

/-- The plane `p` of `main`. -/
def main_p : Plane ℚ :=
  { pos := ⟨fin 1, fin (-2), fin (-3)⟩,
    normal := ⟨fin (-1), round32 (15 / 10), round32 (8 / 10)⟩ }

/-- The sphere `s` of `main`. -/
def main_s : Sphere ℚ :=
  { pos := ⟨fin 0, fin 0, fin (-3)⟩, radius := fin 1 }

/-- The box `b` of `main`. -/
def main_b : Box ℚ :=
  { min := ⟨fin (-(1 / 2)), fin (-(1 / 2)), fin (-3)⟩,
    max := ⟨fin (1 / 2), fin (1 / 2), fin (-2)⟩ }

/-- The values `main` gives the four global ranges. -/
def main_globals : Globals ℚ :=
  let a : Flt ℚ := fdiv (ofNat FB_WIDTH) (ofNat FB_HEIGHT)
  let w : Flt ℚ := WIDTH
  let h : Flt ℚ := fdiv w a
  { range_fb_w := ⟨fin 0, ofNat FB_WIDTH⟩,
    range_fb_h := ⟨fin 0, ofNat FB_HEIGHT⟩,
    range_w := ⟨fdiv (-w) (fin 2), fdiv w (fin 2)⟩,
    range_h := ⟨fdiv h (fin 2), fdiv (-h) (fin 2)⟩ }

/-- The region descriptor `rr` of `main` for the tile with origin `(x, y)`. -/
def main_rr (x y : Nat) : RenderRegion ℚ :=
  { pos := ⟨ofNat x, ofNat y, fin 0⟩,
    cam := ⟨fin 0, fin 0, fin 0⟩,
    framebuffer := fun i => (x * FB_BYTES) + (y + i) * (FB_WIDTH * FB_BYTES) }

end B32

/-! ## Order and representability of binary32 values -/

namespace B32

/-- The comparison `a <= b` of C on `float`: false when an operand is `nan`. -/
def le : Flt ℚ → Flt ℚ → Bool
  | nan, _ => false
  | _, nan => false
  | ninf, _ => true
  | _, pinf => true
  | pinf, _ => false
  | _, ninf => false
  | fin x, fin y => decide (x ≤ y)

/-- The position of a value other than `nan` on the extended line. -/
def key : Flt ℚ → WithBot (WithTop ℚ)
  | fin x => ((x : WithTop ℚ) : WithBot (WithTop ℚ))
  | pinf => ((⊤ : WithTop ℚ) : WithBot (WithTop ℚ))
  | _ => ⊥

/-- The multiple of the spacing nearest to `x`: the value of `round32 x`
unless it overflows. -/
def nearest (x : ℚ) : ℚ := (rne (x / 2 ^ quantum x) : ℚ) * 2 ^ quantum x

/-- The rational `x` is a binary32 value: rounding leaves it unchanged. -/
def IsFloat (x : ℚ) : Prop := round32 x = fin x

/-- The value `r` is the square root of `v` rounded to binary32: the square
root lies between two non-negative rationals `lo` and `hi` which both round
to `r`. -/
def IsRoot32 (v r : ℚ) : Prop :=
  ∃ lo hi : ℚ, 0 ≤ lo ∧ 0 ≤ hi ∧ lo * lo ≤ v ∧ v ≤ hi * hi ∧
    round32 lo = fin r ∧ round32 hi = fin r

/-- The point `o + t * d` of a ray, computed in binary32. -/
def ray (o d : Vec3 ℚ) (t : Flt ℚ) : Vec3 ℚ :=
  ⟨fadd o.e0 (fmul t d.e0), fadd o.e1 (fmul t d.e1), fadd o.e2 (fmul t d.e2)⟩

/-- No operation of `vec3_dot(a, b)` rounds. -/
def DotExact (a b : Pt ℚ) : Prop :=
  IsFloat (a.x * b.x) ∧ IsFloat (a.y * b.y) ∧ IsFloat (a.z * b.z) ∧
  IsFloat (a.x * b.x + a.y * b.y) ∧ IsFloat (a.x * b.x + a.y * b.y + a.z * b.z)

/-- No operation of `vec3_sub(a, b)` rounds. -/
def SubExact (a b : Pt ℚ) : Prop :=
  IsFloat (a.x - b.x) ∧ IsFloat (a.y - b.y) ∧ IsFloat (a.z - b.z)

/-- No operation of `intersect_plane` rounds. -/
def PlaneExact (pos normal cam dir : Pt ℚ) : Prop :=
  DotExact normal dir ∧ DotExact normal pos ∧ DotExact cam normal ∧
  IsFloat (Pt.dot normal pos - Pt.dot cam normal) ∧
  IsFloat ((Pt.dot normal pos - Pt.dot cam normal) / Pt.dot normal dir)

/-- No operation of `intersect_sphere` rounds, `s` being the value that
`sqrt` returns. -/
def SphereExact (center cam dir : Pt ℚ) (radius s : ℚ) : Prop :=
  SubExact cam center ∧ DotExact dir dir ∧ DotExact dir (Pt.sub cam center) ∧
  DotExact (Pt.sub cam center) (Pt.sub cam center) ∧
  IsFloat (Pt.dot dir (Pt.sub cam center) * Pt.dot dir (Pt.sub cam center)) ∧
  IsFloat (radius * radius) ∧
  IsFloat (Pt.dot (Pt.sub cam center) (Pt.sub cam center) - radius * radius) ∧
  IsFloat (Pt.dot dir dir *
    (Pt.dot (Pt.sub cam center) (Pt.sub cam center) - radius * radius)) ∧
  IsFloat (Pt.dot dir (Pt.sub cam center) * Pt.dot dir (Pt.sub cam center) -
    Pt.dot dir dir * (Pt.dot (Pt.sub cam center) (Pt.sub cam center) - radius * radius)) ∧
  IsFloat (-Pt.dot dir (Pt.sub cam center) + s) ∧
  IsFloat (-Pt.dot dir (Pt.sub cam center) - s) ∧
  IsFloat ((-Pt.dot dir (Pt.sub cam center) + s) / Pt.dot dir dir) ∧
  IsFloat ((-Pt.dot dir (Pt.sub cam center) - s) / Pt.dot dir dir)

/-- No operation of `intersect_box` rounds on the axis with box bounds `lo`,
`hi`, camera coordinate `c` and direction component `d`. -/
def SlabExact (lo hi c d : ℚ) : Prop :=
  IsFloat (lo - c) ∧ IsFloat (hi - c) ∧ IsFloat ((lo - c) / d) ∧ IsFloat ((hi - c) / d)

/-- No operation of `map(a, b, x)` rounds. -/
def MapExact (a0 a1 b0 b1 x : ℚ) : Prop :=
  IsFloat (x - a0) ∧ IsFloat (b1 - b0) ∧ IsFloat (a1 - a0) ∧
  IsFloat ((b1 - b0) / (a1 - a0)) ∧ IsFloat ((x - a0) * ((b1 - b0) / (a1 - a0))) ∧
  IsFloat ((x - a0) * ((b1 - b0) / (a1 - a0)) + b0)

end B32

/-! ## The arithmetic of finite values -/

section FltLemmas

variable {α : Type} [LinearOrderedField α]

@[simp] theorem fin_add_fin (x y : α) : (fin x + fin y : Flt α) = fin (x + y) := rfl

@[simp] theorem fin_sub_fin (x y : α) : (fin x - fin y : Flt α) = fin (x - y) := by
  show Flt.add (fin x) (Flt.neg (fin y)) = _
  simp [Flt.add, Flt.neg, sub_eq_add_neg]

@[simp] theorem fin_mul_fin (x y : α) : (fin x * fin y : Flt α) = fin (x * y) := rfl

@[simp] theorem neg_fin (x : α) : (-(fin x) : Flt α) = fin (-x) := rfl

theorem fin_div_fin (x y : α) (h : y ≠ 0) : (fin x / fin y : Flt α) = fin (x / y) := by
  show Flt.div (fin x) (fin y) = _
  simp [Flt.div, h]

@[simp] theorem lt_fin_fin (x y : α) : Flt.lt (fin x) (fin y) = decide (x < y) := rfl

@[simp] theorem gt_fin_fin (x y : α) : Flt.gt (fin x) (fin y) = decide (y < x) := rfl

theorem min_fin_fin (x y : α) : min (fin x) (fin y) = fin (Min.min x y) := by
  unfold min
  by_cases h : x < y
  · simp [h, le_of_lt h]
  · simp [h, not_lt.mp h]

theorem max_fin_fin (x y : α) : max (fin x) (fin y) = fin (Max.max x y) := by
  unfold max
  by_cases h : y < x
  · simp [h, le_of_lt h]
  · simp [h, not_lt.mp h]

theorem vec3_dot_toVec3 (a b : Pt α) :
    vec3_dot a.toVec3 b.toVec3 = fin (Pt.dot a b) := by
  simp [vec3_dot, Pt.toVec3, Pt.dot]

theorem vec3_sub_toVec3 (a b : Pt α) :
    vec3_sub a.toVec3 b.toVec3 = (Pt.sub a b).toVec3 := by
  simp [vec3_sub, Pt.toVec3, Pt.sub]

end FltLemmas

section Intersections

variable {α : Type} [LinearOrderedField α]

theorem slabNear_le_slabFar (lo hi o d : α) : slabNear lo hi o d ≤ slabFar lo hi o d :=
  le_trans (min_le_left _ _) (le_max_left _ _)

/-- A parameter inside the slab interval of an axis gives a coordinate
between the two planes of the axis. -/
theorem slab_mem (lo hi o d t : α) (hd : d ≠ 0) (hb : lo ≤ hi)
    (h1 : slabNear lo hi o d ≤ t) (h2 : t ≤ slabFar lo hi o d) :
    lo ≤ o + t * d ∧ o + t * d ≤ hi := by
  rcases lt_or_gt_of_ne hd with hneg | hpos
  · have e1 : (hi - o) / d ≤ (lo - o) / d :=
      div_le_div_of_nonpos_of_le (le_of_lt hneg) (by linarith)
    rw [slabNear, min_eq_right e1] at h1
    rw [slabFar, max_eq_left e1] at h2
    rw [div_le_iff_of_neg hneg] at h1
    rw [le_div_iff_of_neg hneg] at h2
    constructor <;> linarith
  · have e1 : (lo - o) / d ≤ (hi - o) / d :=
      div_le_div_of_nonneg_right (by linarith) (le_of_lt hpos)
    rw [slabNear, min_eq_left e1] at h1
    rw [slabFar, max_eq_right e1] at h2
    rw [div_le_iff₀ hpos] at h1
    rw [le_div_iff₀ hpos] at h2
    constructor <;> linarith

/-- At the near end of the slab interval of an axis the coordinate is on one
of the two planes of the axis. -/
theorem slab_face (lo hi o d : α) (hd : d ≠ 0) :
    o + slabNear lo hi o d * d = lo ∨ o + slabNear lo hi o d * d = hi := by
  rcases min_choice ((lo - o) / d) ((hi - o) / d) with h | h
  · left; rw [slabNear, h, div_mul_cancel₀ _ hd]; ring
  · right; rw [slabNear, h, div_mul_cancel₀ _ hd]; ring

end Intersections

section Shading

variable {α : Type} [LinearOrderedField α]

/-- The macro `clamp(0, 1, v)` yields a finite value in `[0, 1]` for every
`v`, special values included. -/
theorem clamp_unit (v : Flt α) :
    ∃ c : α, clamp (fin 0) (fin 1) v = fin c ∧ 0 ≤ c ∧ c ≤ 1 := by
  cases v with
  | nan => exact ⟨1, by simp [clamp, min, max, Flt.lt, Flt.gt], zero_le_one, le_refl _⟩
  | pinf => exact ⟨1, by simp [clamp, min, max, Flt.lt, Flt.gt], zero_le_one, le_refl _⟩
  | ninf => exact ⟨0, by simp [clamp, min, max, Flt.lt, Flt.gt], le_refl _, zero_le_one⟩
  | fin x =>
    refine ⟨Max.max 0 (Min.min x 1), ?_, le_max_left _ _, max_le zero_le_one (min_le_right _ _)⟩
    rw [clamp, min_fin_fin, max_fin_fin]

variable [FloorRing α]

/-- The byte stored for a finite value in `[0, 255]` is its integer part:
the reduction modulo 256 of the conversion does nothing. -/
theorem toUChar_fin (v : α) (h0 : 0 ≤ v) (h1 : v ≤ 255) :
    (Flt.toUChar (fin v) : ℤ) = ⌊v⌋ ∧ Flt.toUChar (fin v) ≤ 255 := by
  have hf0 : 0 ≤ ⌊v⌋ := Int.floor_nonneg.mpr h0
  have hf1 : ⌊v⌋ ≤ 255 := by
    have : ⌊v⌋ ≤ ⌊(255 : α)⌋ := Int.floor_le_floor h1
    have h255 : ⌊(255 : α)⌋ = 255 := by
      simp
    omega
  simp only [Flt.toUChar, if_pos h0]
  have hmod : ⌊v⌋ % 256 = ⌊v⌋ := Int.emod_eq_of_lt hf0 (by omega)
  rw [hmod]
  constructor
  · exact Int.toNat_of_nonneg hf0
  · omega

/-- C8 (background exactness): for every pixel of a tile, if the value `t`
returned by `intersect` is `nan`, infinite or a finite value `≤ 0`,
`render_pixel` stores the three bytes `0, 0, 0`.  For `t = +∞` the test
`t > 0` succeeds and the stored byte is the conversion of
`clamp(0, 1, powf(1 / ∞, 1 / 2.2)) * 255`; this is `0` when `powf(0, y) = 0`,
the only fact about libm that is used, and only in that case. -/
theorem C8_background_exactness (G : Globals α) (L : Libm α) (rr : RenderRegion α)
    (object : Object α) (y x : Nat)
    (hpow : intersect L object rr.cam (pixel_dir G L rr y x) = pinf →
      L.powf (fin 0) (fin 1 / fin (22 / 10)) = fin 0)
    (ht : intersect L object rr.cam (pixel_dir G L rr y x) = nan
      ∨ intersect L object rr.cam (pixel_dir G L rr y x) = pinf
      ∨ intersect L object rr.cam (pixel_dir G L rr y x) = ninf
      ∨ ∃ v : α, v ≤ 0 ∧ intersect L object rr.cam (pixel_dir G L rr y x) = fin v) :
    render_pixel G L rr object y x
      = [(rr.framebuffer y + (x * FB_BYTES + 0), 0),
         (rr.framebuffer y + (x * FB_BYTES + 1), 0),
         (rr.framebuffer y + (x * FB_BYTES + 2), 0)] := by
  rcases ht with h | h | h | ⟨v, hv, h⟩
  · simp [render_pixel, h, Flt.gt, Flt.lt]
  · have h0 : (fin 1 / pinf : Flt α) = fin 0 := rfl
    have hc : clamp (fin 0) (fin 1) (fin (0 : α)) = fin 0 := by
      rw [clamp, min_fin_fin, max_fin_fin]; simp
    have hb : Flt.toUChar (fin (0 : α)) = 0 := by
      simp [Flt.toUChar]
    simp [render_pixel, h, Flt.gt, Flt.lt, h0, hpow h, hc, hb]
  · simp [render_pixel, h, Flt.gt, Flt.lt]
  · simp [render_pixel, h, not_lt.mpr hv]

/-- C9 (gamma byte bound): for every pixel whose `t` passes the test `t > 0`,
the value `clamp(0, 1, powf(1 / t, 1 / 2.2))` is a finite `c` in `[0, 1]`, the
value `c * 255` that is converted lies in `[0, 255]`, the byte stored is its
integer part `b ≤ 255` (the conversion does not wrap), and the three stores
of the pixel carry this same byte. -/
theorem C9_gamma_byte_bound (G : Globals α) (L : Libm α) (rr : RenderRegion α)
    (object : Object α) (y x : Nat)
    (hpos : Flt.gt (intersect L object rr.cam (pixel_dir G L rr y x)) (fin 0) = true) :
    ∃ c : α,
      clamp (fin 0) (fin 1) (L.powf (fin 1 / intersect L object rr.cam (pixel_dir G L rr y x))
          (fin 1 / fin (22 / 10))) = fin c
        ∧ 0 ≤ c ∧ c ≤ 1
        ∧ fin c * fin 255 = fin (c * 255) ∧ 0 ≤ c * 255 ∧ c * 255 ≤ 255
        ∧ ∃ b : Nat, (b : ℤ) = ⌊c * 255⌋ ∧ b ≤ 255
          ∧ render_pixel G L rr object y x
            = [(rr.framebuffer y + (x * FB_BYTES + 0), b),
               (rr.framebuffer y + (x * FB_BYTES + 1), b),
               (rr.framebuffer y + (x * FB_BYTES + 2), b)] := by
  obtain ⟨c, hc, h0, h1⟩ := clamp_unit
    (L.powf (fin 1 / intersect L object rr.cam (pixel_dir G L rr y x)) (fin 1 / fin (22 / 10)))
  have hc0 : 0 ≤ c * 255 := by positivity
  have hc1 : c * 255 ≤ 255 := by linarith
  obtain ⟨hb, hb255⟩ := toUChar_fin (c * 255) hc0 hc1
  refine ⟨c, hc, h0, h1, rfl, hc0, hc1, Flt.toUChar (fin (c * 255)), hb, hb255, ?_⟩
  simp only [render_pixel, hpos, if_true, hc, fin_mul_fin]

end Shading

/-! ## Stores and the framebuffer -/

section Stores

theorem run_cons (s : Store) (l : List Store) (fb : Framebuffer) :
    run (s :: l) fb = run l (Function.update fb s.1 s.2) := rfl

/-- A byte that no store addresses keeps its value. -/
theorem run_of_not_mem (l : List Store) (fb : Framebuffer) (j : Nat)
    (h : ∀ s ∈ l, s.1 ≠ j) : run l fb j = fb j := by
  induction l generalizing fb with
  | nil => rfl
  | cons s l ih =>
    rw [run_cons, ih _ (fun s' hs' => h s' (List.mem_cons_of_mem _ hs'))]
    have hne : j ≠ s.1 := fun e => h s (List.mem_cons_self _ _) e.symm
    simp [Function.update, hne]

/-- A byte that is stored to, always with the value `v`, ends up as `v`. -/
theorem run_of_mem (l : List Store) (fb : Framebuffer) (j v : Nat)
    (hmem : (j, v) ∈ l) (hfun : ∀ s ∈ l, s.1 = j → s.2 = v) : run l fb j = v := by
  induction l generalizing fb with
  | nil => exact absurd hmem (List.not_mem_nil _)
  | cons s l ih =>
    rw [run_cons]
    by_cases h : ∃ s' ∈ l, s'.1 = j
    · obtain ⟨s', hs', hj⟩ := h
      have hv : s'.2 = v := hfun s' (List.mem_cons_of_mem _ hs') hj
      have hjv : (j, v) ∈ l := by
        have : s' = (j, v) := Prod.ext hj hv
        rw [← this]; exact hs'
      exact ih _ hjv (fun t ht => hfun t (List.mem_cons_of_mem _ ht))
    · have hnot : ∀ s' ∈ l, s'.1 ≠ j := fun s' hs' e => h ⟨s', hs', e⟩
      rw [run_of_not_mem _ _ _ hnot]
      rcases List.mem_cons.mp hmem with e | e
      · rw [← e]; simp [Function.update]
      · exact absurd rfl (hnot _ e)

/-- Two store sequences with the same stores, in which the index determines
the value, produce the same framebuffer. -/
theorem run_congr (l₁ l₂ : List Store) (fb : Framebuffer)
    (hmem : ∀ s, s ∈ l₁ ↔ s ∈ l₂)
    (hfun : ∀ s ∈ l₁, ∀ s' ∈ l₁, s.1 = s'.1 → s.2 = s'.2) : run l₁ fb = run l₂ fb := by
  funext j
  by_cases h : ∃ s ∈ l₁, s.1 = j
  · obtain ⟨s, hs, hj⟩ := h
    have hs1 : (j, s.2) ∈ l₁ := by rw [← hj]; exact hs
    rw [run_of_mem l₁ fb j s.2 hs1 (fun t ht e => hfun t ht s hs (e.trans hj.symm)),
      run_of_mem l₂ fb j s.2 ((hmem _).mp hs1)
        (fun t ht e => hfun t ((hmem _).mpr ht) s hs (e.trans hj.symm))]
  · have hnot : ∀ s ∈ l₁, s.1 ≠ j := fun s hs e => h ⟨s, hs, e⟩
    rw [run_of_not_mem _ _ _ hnot,
      run_of_not_mem _ _ _ (fun s hs => hnot s ((hmem _).mpr hs))]

end Stores

section Frame

variable {α : Type} [LinearOrderedField α] [FloorRing α]

/-- The three stores of a pixel go to consecutive bytes from the pixel's
offset in its row. -/
theorem render_pixel_form (G : Globals α) (L : Libm α) (rr : RenderRegion α)
    (object : Object α) (y x : Nat) :
    ∃ b0 b1 b2 : Nat, render_pixel G L rr object y x
      = [(rr.framebuffer y + (x * FB_BYTES + 0), b0),
         (rr.framebuffer y + (x * FB_BYTES + 1), b1),
         (rr.framebuffer y + (x * FB_BYTES + 2), b2)] := by
  simp only [render_pixel]
  split_ifs
  · exact ⟨_, _, _, rfl⟩
  · exact ⟨_, _, _, rfl⟩

/-- The stores of the pixel in row `i` and column `px` of the tile with
origin `(x, y)` are those of the pixel in row `y + i` and column `x + px` of
a tile with origin `(0, 0)`. -/
theorem render_pixel_tile (L : Libm α) (object : Object α) (x y i px : Nat) :
    render_pixel main_globals L (main_rr x y) object i px
      = render_pixel main_globals L (main_rr 0 0) object (y + i) (x + px) := by
  have hdir : pixel_dir main_globals L (main_rr x y) i px
      = pixel_dir main_globals L (main_rr 0 0) (y + i) (x + px) := by
    simp only [pixel_dir, main_rr, Flt.ofNat, fin_add_fin, Nat.cast_add, Nat.cast_zero,
      add_zero, add_comm (i : α) (y : α), add_comm (px : α) (x : α)]
  have hcam : (main_rr x y : RenderRegion α).cam = (main_rr 0 0 : RenderRegion α).cam := rfl
  have hfb : ∀ c : Nat, (main_rr x y : RenderRegion α).framebuffer i + (px * FB_BYTES + c)
      = (main_rr 0 0 : RenderRegion α).framebuffer (y + i) + ((x + px) * FB_BYTES + c) := by
    intro c
    simp only [main_rr, FB_BYTES, FB_WIDTH]
    omega
  simp only [render_pixel, hdir, hcam, hfb]

/-- Membership in the stores of `render_region`. -/
theorem mem_render_region (G : Globals α) (L : Libm α) (R : Nat) (rr : RenderRegion α)
    (object : Object α) (s : Store) :
    s ∈ render_region G L R rr object
      ↔ ∃ i, i < R ∧ ∃ px, px < R ∧ s ∈ render_pixel G L rr object i px := by
  simp only [render_region, List.mem_flatMap, List.mem_range]

/-- Membership in the tile list of `main`. -/
theorem mem_main_tiles (R : Nat) (t : Nat × Nat) :
    t ∈ main_tiles R ↔ t.1 ∈ tileOrigins FB_WIDTH R ∧ t.2 ∈ tileOrigins FB_HEIGHT R := by
  simp only [main_tiles, List.mem_flatMap, List.mem_map]
  constructor
  · rintro ⟨y, hy, x, hx, rfl⟩
    exact ⟨hx, hy⟩
  · rintro ⟨hx, hy⟩
    exact ⟨t.2, hy, t.1, hx, rfl⟩

/-- The values of the loop variable of `for (v = 0; v < n; v += R)`: the
multiples of `R` below `n`. -/
theorem mem_tileOrigins (n R v : Nat) (hR : 0 < R) :
    v ∈ tileOrigins n R ↔ R ∣ v ∧ v < n := by
  have hk : ∀ k : Nat, k < (n + R - 1) / R ↔ k * R < n := by
    intro k
    rw [Nat.lt_iff_add_one_le, Nat.le_div_iff_mul_le hR]
    have : (k + 1) * R = k * R + R := by ring
    omega
  simp only [tileOrigins, List.mem_map, List.mem_range]
  constructor
  · rintro ⟨k, hlt, rfl⟩
    exact ⟨Dvd.intro_left k rfl, (hk k).mp hlt⟩
  · rintro ⟨⟨k, rfl⟩, hv⟩
    exact ⟨k, (hk k).mpr (by rwa [Nat.mul_comm]), Nat.mul_comm _ _⟩

/-- The tile origins for an edge that divides the image size, together with
the offsets inside a tile, are exactly the coordinates below the image size. -/
theorem tileOrigins_cover (n R g : Nat) (hR : R ∣ n) (hn : 0 < n) :
    (∃ o, o ∈ tileOrigins n R ∧ ∃ i, i < R ∧ o + i = g) ↔ g < n := by
  obtain ⟨m, rfl⟩ := hR
  have hRpos : 0 < R := Nat.pos_of_ne_zero (fun h => by simp [h] at hn)
  have hcount : (R * m + R - 1) / R = m := by
    have : R * m + R - 1 = (R - 1) + R * m := by omega
    rw [this, Nat.add_mul_div_left _ _ hRpos, Nat.div_eq_of_lt (by omega)]
    simp
  simp only [tileOrigins, List.mem_map, List.mem_range, hcount]
  constructor
  · rintro ⟨o, ⟨k, hk, rfl⟩, i, hi, rfl⟩
    have h1 : (k + 1) * R ≤ m * R := Nat.mul_le_mul_right R hk
    have h2 : (k + 1) * R = k * R + R := by ring
    have h3 : m * R = R * m := Nat.mul_comm _ _
    omega
  · intro hg
    refine ⟨g / R * R, ⟨g / R, ?_, rfl⟩, g % R, Nat.mod_lt _ hRpos, Nat.div_add_mod' g R⟩
    exact Nat.div_lt_of_lt_mul hg

/-- The stores of the whole frame, for a tile edge that divides the image
size: those of the pixels `(gx, gy)` of the image, each rendered as in a
single tile with origin `(0, 0)`. -/
theorem mem_frame_stores (L : Libm α) (object : Object α) (R : Nat)
    (hW : R ∣ FB_WIDTH) (hH : R ∣ FB_HEIGHT) (s : Store) :
    s ∈ (main_tiles R).flatMap (tile_stores L R object)
      ↔ ∃ gy, gy < FB_HEIGHT ∧ ∃ gx, gx < FB_WIDTH
          ∧ s ∈ render_pixel main_globals L (main_rr 0 0) object gy gx := by
  simp only [List.mem_flatMap, mem_main_tiles, tile_stores, mem_render_region]
  constructor
  · rintro ⟨⟨x, y⟩, ⟨hx, hy⟩, i, hi, px, hpx, hs⟩
    rw [render_pixel_tile] at hs
    exact ⟨y + i, (tileOrigins_cover _ R _ hH (by decide)).mp ⟨y, hy, i, hi, rfl⟩,
      x + px, (tileOrigins_cover _ R _ hW (by decide)).mp ⟨x, hx, px, hpx, rfl⟩, hs⟩
  · rintro ⟨gy, hgy, gx, hgx, hs⟩
    obtain ⟨y, hy, i, hi, rfl⟩ := (tileOrigins_cover _ R _ hH (by decide)).mpr hgy
    obtain ⟨x, hx, px, hpx, rfl⟩ := (tileOrigins_cover _ R _ hW (by decide)).mpr hgx
    refine ⟨(x, y), ⟨hx, hy⟩, i, hi, px, hpx, ?_⟩
    rw [render_pixel_tile]
    exact hs

/-- The index of a store of the frame determines its value. -/
theorem frame_stores_functional (L : Libm α) (object : Object α) (R : Nat)
    (hW : R ∣ FB_WIDTH) (hH : R ∣ FB_HEIGHT) (s s' : Store)
    (hs : s ∈ (main_tiles R).flatMap (tile_stores L R object))
    (hs' : s' ∈ (main_tiles R).flatMap (tile_stores L R object))
    (h : s.1 = s'.1) : s.2 = s'.2 := by
  rw [mem_frame_stores L object R hW hH] at hs hs'
  obtain ⟨gy, -, gx, hgx, hs⟩ := hs
  obtain ⟨gy', -, gx', hgx', hs'⟩ := hs'
  obtain ⟨b0, b1, b2, e⟩ := render_pixel_form main_globals L (main_rr 0 0) object gy gx
  obtain ⟨c0, c1, c2, e'⟩ := render_pixel_form main_globals L (main_rr 0 0) object gy' gx'
  have hgg : gy = gy' ∧ gx = gx' := by
    rw [e] at hs
    rw [e'] at hs'
    simp only [main_rr, FB_BYTES, FB_WIDTH, List.mem_cons, List.mem_singleton,
      List.mem_nil_iff, or_false] at hs hs'
    simp only [FB_WIDTH] at hgx hgx'
    rcases hs with rfl | rfl | rfl <;> rcases hs' with rfl | rfl | rfl <;>
      simp only at h <;> omega
  obtain ⟨rfl, rfl⟩ := hgg
  rw [e] at hs hs'
  simp only [List.mem_cons, List.mem_singleton, List.mem_nil_iff, or_false] at hs hs'
  rcases hs with rfl | rfl | rfl <;> rcases hs' with rfl | rfl | rfl <;>
    first
      | rfl
      | (exfalso; simp only at h; omega)

end Frame

section FrameClaims

variable {α : Type} [LinearOrderedField α] [FloorRing α]

theorem region_dvd_width : REGION_SIZE ∣ FB_WIDTH := ⟨64, rfl⟩

theorem region_dvd_height : REGION_SIZE ∣ FB_HEIGHT := ⟨64, rfl⟩

/-- The tile origins of `main` on one axis: the multiples of 8 below 512. -/
theorem mem_tileOrigins_main (x : Nat) :
    x ∈ tileOrigins 512 REGION_SIZE ↔ x % 8 = 0 ∧ x < 512 := by
  simp only [tileOrigins, REGION_SIZE, List.mem_map, List.mem_range]
  constructor
  · rintro ⟨k, hk, rfl⟩
    have : (512 + 8 - 1) / 8 = 64 := by decide
    omega
  · rintro ⟨h1, h2⟩
    refine ⟨x / 8, ?_, ?_⟩
    · have : (512 + 8 - 1) / 8 = 64 := by decide
      omega
    · omega

/-- The indices of the stores of one tile of `main`. -/
theorem tile_store_index (L : Libm α) (object : Object α) (R x y : Nat) (s : Store)
    (hs : s ∈ tile_stores L R object (x, y)) :
    ∃ i px c, i < R ∧ px < R ∧ c < FB_BYTES
      ∧ s.1 = (x * FB_BYTES + (y + i) * (FB_WIDTH * FB_BYTES)) + px * FB_BYTES + c := by
  rw [tile_stores, mem_render_region] at hs
  obtain ⟨i, hi, px, hpx, hs⟩ := hs
  obtain ⟨b0, b1, b2, e⟩ := render_pixel_form main_globals L (main_rr x y) object i px
  rw [e] at hs
  simp only [main_rr, List.mem_cons, List.mem_singleton, List.mem_nil_iff, or_false] at hs
  rcases hs with rfl | rfl | rfl
  · exact ⟨i, px, 0, hi, hpx, by decide, by simp only []; omega⟩
  · exact ⟨i, px, 1, hi, hpx, by decide, by simp only []; omega⟩
  · exact ⟨i, px, 2, hi, hpx, by decide, by simp only []; omega⟩

/-- The byte index is injective on the tiles, rows, columns and channels of
the frame. -/
theorem fb_index_injective (x y i px c x' y' i' px' c' : Nat)
    (hx : x ∈ tileOrigins FB_WIDTH REGION_SIZE) (hy : y ∈ tileOrigins FB_HEIGHT REGION_SIZE)
    (hi : i < REGION_SIZE) (hpx : px < REGION_SIZE) (hc : c < FB_BYTES)
    (hx' : x' ∈ tileOrigins FB_WIDTH REGION_SIZE)
    (hy' : y' ∈ tileOrigins FB_HEIGHT REGION_SIZE)
    (hi' : i' < REGION_SIZE) (hpx' : px' < REGION_SIZE) (hc' : c' < FB_BYTES)
    (h : (x * FB_BYTES + (y + i) * (FB_WIDTH * FB_BYTES)) + px * FB_BYTES + c
      = (x' * FB_BYTES + (y' + i') * (FB_WIDTH * FB_BYTES)) + px' * FB_BYTES + c') :
    x = x' ∧ y = y' ∧ i = i' ∧ px = px' ∧ c = c' := by
  simp only [FB_WIDTH, FB_HEIGHT] at hx hy hx' hy'
  rw [mem_tileOrigins_main] at hx hy hx' hy'
  simp only [REGION_SIZE, FB_BYTES, FB_WIDTH] at hi hpx hc hi' hpx' hc' h
  omega

/-- C1 (tile disjointness): every store of the tile with origin `(x, y)` goes
to the byte index `(x*3 + (y+i)*(512*3)) + px*3 + c` for a row `i < 8`, a
column `px < 8` and a channel `c < 3`; this index is an injective function of
`(x, y, i, px, c)` for tile origins among the multiples of 8 below 512; two
distinct tiles of the frame never store to the same byte; and rendering the
tiles in any other order gives the same framebuffer. -/
theorem C1_tile_disjointness (L : Libm α) (object : Object α) :
    (∀ (x y : Nat) (s : Store), s ∈ tile_stores L REGION_SIZE object (x, y) →
      ∃ i px c, i < REGION_SIZE ∧ px < REGION_SIZE ∧ c < FB_BYTES
        ∧ s.1 = (x * FB_BYTES + (y + i) * (FB_WIDTH * FB_BYTES)) + px * FB_BYTES + c)
    ∧ (∀ x y i px c x' y' i' px' c' : Nat,
        x ∈ tileOrigins FB_WIDTH REGION_SIZE → y ∈ tileOrigins FB_HEIGHT REGION_SIZE →
        i < REGION_SIZE → px < REGION_SIZE → c < FB_BYTES →
        x' ∈ tileOrigins FB_WIDTH REGION_SIZE → y' ∈ tileOrigins FB_HEIGHT REGION_SIZE →
        i' < REGION_SIZE → px' < REGION_SIZE → c' < FB_BYTES →
        (x * FB_BYTES + (y + i) * (FB_WIDTH * FB_BYTES)) + px * FB_BYTES + c
          = (x' * FB_BYTES + (y' + i') * (FB_WIDTH * FB_BYTES)) + px' * FB_BYTES + c' →
        x = x' ∧ y = y' ∧ i = i' ∧ px = px' ∧ c = c')
    ∧ (∀ t ∈ main_tiles REGION_SIZE, ∀ t' ∈ main_tiles REGION_SIZE, t ≠ t' →
        ∀ s ∈ tile_stores L REGION_SIZE object t,
        ∀ s' ∈ tile_stores L REGION_SIZE object t', s.1 ≠ s'.1)
    ∧ (∀ (tiles : List (Nat × Nat)) (fb : Framebuffer),
        tiles.Perm (main_tiles REGION_SIZE) →
        render_tiles L REGION_SIZE object tiles fb
          = render_tiles L REGION_SIZE object (main_tiles REGION_SIZE) fb) := by
  refine ⟨fun x y s hs => tile_store_index L object REGION_SIZE x y s hs,
    fun x y i px c x' y' i' px' c' hx hy hi hpx hc hx' hy' hi' hpx' hc' h =>
      fb_index_injective x y i px c x' y' i' px' c' hx hy hi hpx hc hx' hy' hi' hpx' hc' h,
    ?_, ?_⟩
  · rintro ⟨x, y⟩ ht ⟨x', y'⟩ ht' hne s hs s' hs' he
    obtain ⟨i, px, c, hi, hpx, hc, e⟩ := tile_store_index L object REGION_SIZE x y s hs
    obtain ⟨i', px', c', hi', hpx', hc', e'⟩ :=
      tile_store_index L object REGION_SIZE x' y' s' hs'
    rw [mem_main_tiles] at ht ht'
    have := fb_index_injective x y i px c x' y' i' px' c' ht.1 ht.2 hi hpx hc
      ht'.1 ht'.2 hi' hpx' hc' (by rw [← e, ← e', he])
    exact hne (Prod.ext this.1 this.2.1)
  · intro tiles fb hperm
    unfold render_tiles
    symm
    apply run_congr
    · intro s
      simp only [List.mem_flatMap]
      constructor
      · rintro ⟨t, ht, hs⟩
        exact ⟨t, hperm.mem_iff.mpr ht, hs⟩
      · rintro ⟨t, ht, hs⟩
        exact ⟨t, hperm.mem_iff.mp ht, hs⟩
    · intro s hs s' hs' h
      exact frame_stores_functional L object REGION_SIZE region_dvd_width region_dvd_height
        s s' hs hs' h

/-- C2 (full coverage, in bounds): a byte index is stored to during the tile
loops of `main` exactly when it is below `FB_SIZE = 512 * 512 * 3`: no store is
out of bounds and every byte of the framebuffer is assigned. -/
theorem C2_full_coverage (L : Libm α) (object : Object α) (j : Nat) :
    (∃ v, (j, v) ∈ (main_tiles REGION_SIZE).flatMap (tile_stores L REGION_SIZE object))
      ↔ j < FB_SIZE := by
  simp only [mem_frame_stores L object REGION_SIZE region_dvd_width region_dvd_height]
  constructor
  · rintro ⟨v, gy, hgy, gx, hgx, hs⟩
    obtain ⟨b0, b1, b2, e⟩ := render_pixel_form main_globals L (main_rr 0 0) object gy gx
    rw [e] at hs
    simp only [main_rr, FB_BYTES, FB_WIDTH, FB_HEIGHT, FB_SIZE, List.mem_cons,
      List.mem_singleton, List.mem_nil_iff, or_false, Prod.mk.injEq] at hs hgy hgx ⊢
    omega
  · intro hj
    obtain ⟨b0, b1, b2, e⟩ := render_pixel_form main_globals L (main_rr 0 0) object
      (j / 1536) (j % 1536 / 3)
    simp only [FB_SIZE, FB_WIDTH, FB_HEIGHT, FB_BYTES] at hj
    have hc : j % 3 = 0 ∨ j % 3 = 1 ∨ j % 3 = 2 := by omega
    have hgy : j / 1536 < FB_HEIGHT := by simp only [FB_HEIGHT]; omega
    have hgx : j % 1536 / 3 < FB_WIDTH := by simp only [FB_WIDTH]; omega
    rcases hc with h | h | h
    · refine ⟨b0, j / 1536, hgy, j % 1536 / 3, hgx, ?_⟩
      rw [e]
      have : j = (main_rr 0 0 : RenderRegion α).framebuffer (j / 1536)
          + (j % 1536 / 3 * FB_BYTES + 0) := by
        simp only [main_rr, FB_BYTES, FB_WIDTH]; omega
      rw [← this]
      exact List.mem_cons_self _ _
    · refine ⟨b1, j / 1536, hgy, j % 1536 / 3, hgx, ?_⟩
      rw [e]
      have : j = (main_rr 0 0 : RenderRegion α).framebuffer (j / 1536)
          + (j % 1536 / 3 * FB_BYTES + 1) := by
        simp only [main_rr, FB_BYTES, FB_WIDTH]; omega
      rw [← this]
      exact List.mem_cons_of_mem _ (List.mem_cons_self _ _)
    · refine ⟨b2, j / 1536, hgy, j % 1536 / 3, hgx, ?_⟩
      rw [e]
      have : j = (main_rr 0 0 : RenderRegion α).framebuffer (j / 1536)
          + (j % 1536 / 3 * FB_BYTES + 2) := by
        simp only [main_rr, FB_BYTES, FB_WIDTH]; omega
      rw [← this]
      exact List.mem_cons_of_mem _ (List.mem_cons_of_mem _ (List.mem_cons_self _ _))

/-- C3 (tile independence): the stores of a pixel depend only on its global
coordinates (the pixel in row `i`, column `px` of the tile at `(x, y)` is
rendered as the pixel in row `y + i`, column `x + px` of a tile at `(0, 0)`);
for every tile edge `R` dividing 512 the byte at index `3 * (gy * 512 + gx) + c`
of the final framebuffer is the byte that rendering the image as one tile
computes for the pixel `(gx, gy)`; and the framebuffer is the same as for one
single 512 x 512 tile. -/
theorem C3_tile_independence (L : Libm α) (object : Object α) :
    (∀ x y i px : Nat,
      render_pixel main_globals L (main_rr x y) object i px
        = render_pixel main_globals L (main_rr 0 0) object (y + i) (x + px))
    ∧ (∀ R gy gx : Nat, R ∣ 512 → gy < 512 → gx < 512 →
        ∃ b0 b1 b2 : Nat,
          render_pixel main_globals L (main_rr 0 0) object gy gx
            = [(3 * (gy * 512 + gx) + 0, b0), (3 * (gy * 512 + gx) + 1, b1),
               (3 * (gy * 512 + gx) + 2, b2)]
          ∧ frame L R object (3 * (gy * 512 + gx) + 0) = b0
          ∧ frame L R object (3 * (gy * 512 + gx) + 1) = b1
          ∧ frame L R object (3 * (gy * 512 + gx) + 2) = b2)
    ∧ (∀ R : Nat, R ∣ 512 → frame L R object = frame L 512 object) := by
  have hmem : ∀ R : Nat, R ∣ 512 → ∀ s : Store,
      s ∈ (main_tiles R).flatMap (tile_stores L R object)
        ↔ ∃ gy, gy < FB_HEIGHT ∧ ∃ gx, gx < FB_WIDTH
          ∧ s ∈ render_pixel main_globals L (main_rr 0 0) object gy gx :=
    fun R hR s => mem_frame_stores L object R hR hR s
  refine ⟨render_pixel_tile L object, ?_, ?_⟩
  · intro R gy gx hR hgy hgx
    obtain ⟨b0, b1, b2, e⟩ := render_pixel_form main_globals L (main_rr 0 0) object gy gx
    have hidx : ∀ c : Nat, (main_rr 0 0 : RenderRegion α).framebuffer gy
        + (gx * FB_BYTES + c) = 3 * (gy * 512 + gx) + c := by
      intro c
      simp only [main_rr, FB_BYTES, FB_WIDTH]
      omega
    rw [hidx, hidx, hidx] at e
    have hval : ∀ s : Store, s ∈ render_pixel main_globals L (main_rr 0 0) object gy gx →
        frame L R object s.1 = s.2 := by
      intro s hs
      have hin : s ∈ (main_tiles R).flatMap (tile_stores L R object) :=
        (hmem R hR s).mpr ⟨gy, hgy, gx, hgx, hs⟩
      unfold frame render_tiles
      apply run_of_mem
      · exact hin
      · intro s' hs' h1
        exact frame_stores_functional L object R hR hR s' s hs' hin h1
    refine ⟨b0, b1, b2, e, ?_, ?_, ?_⟩
    · exact hval (_, b0) (by rw [e]; exact List.mem_cons_self _ _)
    · exact hval (_, b1) (by rw [e]; exact List.mem_cons_of_mem _ (List.mem_cons_self _ _))
    · exact hval (_, b2) (by
        rw [e]
        exact List.mem_cons_of_mem _ (List.mem_cons_of_mem _ (List.mem_cons_self _ _)))
  · intro R hR
    unfold frame render_tiles
    apply run_congr
    · intro s
      rw [hmem R hR s, hmem 512 (dvd_refl _) s]
    · intro s hs s' hs' h
      exact frame_stores_functional L object R hR hR s s' hs hs' h

end FrameClaims

section Witnesses

theorem rat_sqrt_sq (q : ℚ) (h : 0 ≤ q) : Rat.sqrt (q * q) = q := by
  rw [Rat.sqrt_eq, abs_of_nonneg h]

/-- The ray of pixel `(256, 256)` of `axis_rr` is the optical axis. -/
theorem axis_dir :
    pixel_dir main_globals ratLibm axis_rr 256 256 = ⟨fin 0, fin 0, fin (-1)⟩ := by
  have h1 : Rat.sqrt (9 / 15625) = 3 / 125 := by
    have := rat_sqrt_sq (3 / 125) (by norm_num)
    norm_num at this
    exact this
  simp only [pixel_dir, main_globals, axis_rr, map, Flt.ofNat, WIDTH, FOCAL_LENGTH, FB_WIDTH,
    FB_HEIGHT, vec3_sub, vec3_normalize, vec3_norm, vec3_norm2, vec3_dot, vec3_scale,
    fin_add_fin, fin_sub_fin, fin_mul_fin, neg_fin, ratLibm, ratSqrt]
  norm_num [fin_div_fin, h1]

/-- Along the optical axis the sphere of `main` is hit at `t = 2`. -/
theorem axis_sphere_t :
    intersect ratLibm (Object.SPHERE main_s) axis_rr.cam
      (pixel_dir main_globals ratLibm axis_rr 256 256) = fin 2 := by
  have h1 : Rat.sqrt 1 = 1 := by
    have := rat_sqrt_sq 1 (by norm_num)
    rwa [mul_one] at this
  rw [axis_dir]
  simp only [intersect, intersect_sphere, main_s, axis_rr, vec3_sub, vec3_norm2, vec3_dot,
    fin_add_fin, fin_sub_fin, fin_mul_fin, neg_fin, ratLibm, ratSqrt]
  norm_num [fin_div_fin, h1, min_fin_fin]

/-- Along the optical axis a plane that contains the direction of the axis
and not the camera gives `t = +∞`. -/
theorem axis_plane_t :
    intersect ratLibm (Object.PLANE ⟨⟨fin 1, fin 0, fin 0⟩, ⟨fin 1, fin 0, fin 0⟩⟩) axis_rr.cam
      (pixel_dir main_globals ratLibm axis_rr 256 256) = pinf := by
  rw [axis_dir]
  simp only [intersect, intersect_plane, axis_rr, vec3_dot, fin_add_fin, fin_sub_fin,
    fin_mul_fin]
  norm_num
  show Flt.div (fin 1) (fin 0) = pinf
  simp [Flt.div]

/-- C1 at the rationals: rendering the tiles of `main` in reverse order
gives the framebuffer of `main`. -/
theorem C1_tile_disjointness_witness :
    (main_tiles REGION_SIZE).reverse.Perm (main_tiles REGION_SIZE)
      ∧ render_tiles ratLibm REGION_SIZE (Object.SPHERE main_s)
          (main_tiles REGION_SIZE).reverse (fun _ => 0)
        = main_framebuffer ratLibm :=
  ⟨List.reverse_perm _,
   (C1_tile_disjointness ratLibm (Object.SPHERE main_s)).2.2.2 _ _ (List.reverse_perm _)⟩

/-- C3 at the rationals: the tile edge 8 of `main` divides 512 and gives the
framebuffer of a single 512 x 512 tile. -/
theorem C3_tile_independence_witness :
    REGION_SIZE ∣ 512
      ∧ main_framebuffer ratLibm = frame ratLibm 512 (Object.SPHERE main_s) :=
  ⟨⟨64, rfl⟩, (C3_tile_independence ratLibm (Object.SPHERE main_s)).2.2 REGION_SIZE ⟨64, rfl⟩⟩

/-- C8 at a plane parallel to the optical axis: `t` is `+∞` and the pixel is
black. -/
theorem C8_background_exactness_witness :
    intersect ratLibm (Object.PLANE ⟨⟨fin 1, fin 0, fin 0⟩, ⟨fin 1, fin 0, fin 0⟩⟩) axis_rr.cam
        (pixel_dir main_globals ratLibm axis_rr 256 256) = pinf
      ∧ render_pixel main_globals ratLibm axis_rr
          (Object.PLANE ⟨⟨fin 1, fin 0, fin 0⟩, ⟨fin 1, fin 0, fin 0⟩⟩) 256 256
        = [(axis_rr.framebuffer 256 + (256 * FB_BYTES + 0), 0),
           (axis_rr.framebuffer 256 + (256 * FB_BYTES + 1), 0),
           (axis_rr.framebuffer 256 + (256 * FB_BYTES + 2), 0)] :=
  ⟨axis_plane_t,
   C8_background_exactness main_globals ratLibm axis_rr _ 256 256 (fun _ => rfl)
     (Or.inr (Or.inl axis_plane_t))⟩

/-- C9 at the sphere of `main` along the optical axis, where `t = 2 > 0`:
with `powf` returning its base the value clamped is `1/2` and the three
bytes are `127`. -/
theorem C9_gamma_byte_bound_witness :
    Flt.gt (intersect ratLibm (Object.SPHERE main_s) axis_rr.cam
        (pixel_dir main_globals ratLibm axis_rr 256 256)) (fin 0) = true
      ∧ render_pixel main_globals ratLibm axis_rr (Object.SPHERE main_s) 256 256
        = [(axis_rr.framebuffer 256 + (256 * FB_BYTES + 0), 127),
           (axis_rr.framebuffer 256 + (256 * FB_BYTES + 1), 127),
           (axis_rr.framebuffer 256 + (256 * FB_BYTES + 2), 127)] := by
  have hpos : Flt.gt (intersect ratLibm (Object.SPHERE main_s) axis_rr.cam
      (pixel_dir main_globals ratLibm axis_rr 256 256)) (fin 0) = true := by
    rw [axis_sphere_t]
    simp
  obtain ⟨c, hc, -, -, -, -, -, b, hbf, -, hr⟩ :=
    C9_gamma_byte_bound main_globals ratLibm axis_rr (Object.SPHERE main_s) 256 256 hpos
  have hc2 : c = 1 / 2 := by
    rw [axis_sphere_t] at hc
    simp only [ratLibm, clamp] at hc
    rw [fin_div_fin _ _ (by norm_num), min_fin_fin, max_fin_fin] at hc
    have hinj := Flt.fin.inj hc
    rw [← hinj]
    norm_num
  subst hc2
  have hb2 : b = 127 := by
    have hfl : ⌊(1 / 2 : ℚ) * 255⌋ = 127 := by
      rw [Int.floor_eq_iff]
      norm_num
    omega
  subst hb2
  exact ⟨hpos, hr⟩

end Witnesses

/-! ## The box of `main` on the optical axis -/

section AxisBox

variable {α : Type} [LinearOrderedField α]

/-- C13 (box hit through the exact image centre): for the box of `main`, the
camera at the origin and the direction `(0, 0, -1)`, `intersect_box` returns
`2`.  The x and y slabs divide by zero and give the interval `[-∞, +∞]`; the
z slab gives `[2, 3]`. -/
theorem C13_box_axis_hit :
    intersect_box (main_b : Box α) ⟨fin 0, fin 0, fin 0⟩ ⟨fin 0, fin 0, fin (-1)⟩ = fin 2 := by
  have e1 : (fin (-(1 / 2) - 0) / fin 0 : Flt α) = ninf := by
    show Flt.div _ _ = _
    norm_num [Flt.div]
  have e2 : (fin (1 / 2 - 0) / fin 0 : Flt α) = pinf := by
    show Flt.div _ _ = _
    norm_num [Flt.div]
  have e3 : (fin (-3 - 0) / fin (-1) : Flt α) = fin 3 := by
    rw [fin_div_fin _ _ (by norm_num)]
    norm_num
  have e4 : (fin (-2 - 0) / fin (-1) : Flt α) = fin 2 := by
    rw [fin_div_fin _ _ (by norm_num)]
    norm_num
  simp only [intersect_box, main_b, fin_sub_fin, e1, e2, e3, e4]
  norm_num [min, max, Flt.lt, Flt.gt]

end AxisBox

section Scaling

variable {α : Type} [LinearOrderedField α]

theorem Pt.dot_smul_right (k : α) (n d : Pt α) : Pt.dot n (Pt.smul k d) = k * Pt.dot n d := by
  simp only [Pt.dot, Pt.smul]
  ring

theorem Pt.dot_smul_left (k : α) (d q : Pt α) : Pt.dot (Pt.smul k d) q = k * Pt.dot d q := by
  simp only [Pt.dot, Pt.smul]
  ring

theorem Pt.ray_smul (o d : Pt α) (k t : α) (hk : k ≠ 0) :
    Pt.ray o (Pt.smul k d) (t / k) = Pt.ray o d t := by
  have h : ∀ c : α, t / k * (k * c) = t * c := by
    intro c
    field_simp
    ring
  simp only [Pt.ray, Pt.smul, h]

end Scaling

section Brightness

variable {α : Type} [LinearOrderedField α] [FloorRing α]

/-- The byte of a hit at a finite `t > 0`, when `powf` returns the finite
value `p`: the integer part of `max(0, min(p, 1)) * 255`. -/
theorem hit_byte_fin (L : Libm α) (t p : α) (ht : 0 < t)
    (hp : L.powf (fin (1 / t)) (fin 1 / fin (22 / 10)) = fin p) :
    (Flt.toUChar (clamp (fin 0) (fin 1) (L.powf (fin 1 / fin t) (fin 1 / fin (22 / 10)))
        * fin 255) : ℤ) = ⌊Max.max 0 (Min.min p 1) * 255⌋ := by
  rw [fin_div_fin _ _ (ne_of_gt ht), hp, clamp, min_fin_fin, max_fin_fin, fin_mul_fin]
  have h0 : (0 : α) ≤ Max.max 0 (Min.min p 1) := le_max_left _ _
  have h1 : Max.max 0 (Min.min p 1) ≤ (1 : α) := max_le zero_le_one (min_le_right _ _)
  exact (toUChar_fin _ (by positivity) (by linarith)).1

/-- C20 (brightness is monotone and saturates): let `powf(v, 1 / 2.2)` be a
finite value `pw v` for finite `v > 0`, with `pw` monotone and `pw v ≥ 1` for
`v ≥ 1`.  A pixel whose `t` is finite and positive stores three times the byte
`B(t)`, the conversion of `clamp(0, 1, powf(1 / t, 1 / 2.2)) * 255`; for
`0 < t1 ≤ t2` the byte `B(t1)` is at least `B(t2)`; and `B(t) = 255` for
`0 < t ≤ 1`. -/
theorem C20_brightness_monotone (L : Libm α) (pw : α → α)
    (hpw : ∀ v : α, 0 < v → L.powf (fin v) (fin 1 / fin (22 / 10)) = fin (pw v))
    (hmono : ∀ u v : α, 0 < u → u ≤ v → pw u ≤ pw v)
    (hone : ∀ v : α, 1 ≤ v → 1 ≤ pw v) :
    (∀ (G : Globals α) (rr : RenderRegion α) (object : Object α) (y x : Nat) (t : α),
        intersect L object rr.cam (pixel_dir G L rr y x) = fin t → 0 < t →
        render_pixel G L rr object y x
          = [(rr.framebuffer y + (x * FB_BYTES + 0),
              Flt.toUChar (clamp (fin 0) (fin 1)
                (L.powf (fin 1 / fin t) (fin 1 / fin (22 / 10))) * fin 255)),
             (rr.framebuffer y + (x * FB_BYTES + 1),
              Flt.toUChar (clamp (fin 0) (fin 1)
                (L.powf (fin 1 / fin t) (fin 1 / fin (22 / 10))) * fin 255)),
             (rr.framebuffer y + (x * FB_BYTES + 2),
              Flt.toUChar (clamp (fin 0) (fin 1)
                (L.powf (fin 1 / fin t) (fin 1 / fin (22 / 10))) * fin 255))])
    ∧ (∀ t1 t2 : α, 0 < t1 → t1 ≤ t2 →
        Flt.toUChar (clamp (fin 0) (fin 1)
            (L.powf (fin 1 / fin t2) (fin 1 / fin (22 / 10))) * fin 255)
          ≤ Flt.toUChar (clamp (fin 0) (fin 1)
            (L.powf (fin 1 / fin t1) (fin 1 / fin (22 / 10))) * fin 255))
    ∧ (∀ t : α, 0 < t → t ≤ 1 →
        Flt.toUChar (clamp (fin 0) (fin 1)
            (L.powf (fin 1 / fin t) (fin 1 / fin (22 / 10))) * fin 255) = 255) := by
  refine ⟨?_, ?_, ?_⟩
  · intro G rr object y x t hi ht
    simp [render_pixel, hi, ht]
  · intro t1 t2 h1 h12
    have h2 : 0 < t2 := lt_of_lt_of_le h1 h12
    have hinv : 1 / t2 ≤ 1 / t1 := one_div_le_one_div_of_le h1 h12
    have hp : pw (1 / t2) ≤ pw (1 / t1) := hmono _ _ (one_div_pos.mpr h2) hinv
    have e1 := hit_byte_fin L t1 (pw (1 / t1)) h1 (hpw _ (one_div_pos.mpr h1))
    have e2 := hit_byte_fin L t2 (pw (1 / t2)) h2 (hpw _ (one_div_pos.mpr h2))
    have hfl : ⌊Max.max 0 (Min.min (pw (1 / t2)) 1) * 255⌋
        ≤ ⌊Max.max 0 (Min.min (pw (1 / t1)) 1) * 255⌋ := by
      apply Int.floor_le_floor
      apply mul_le_mul_of_nonneg_right _ (by norm_num)
      exact max_le_max (le_refl _) (min_le_min hp (le_refl _))
    omega
  · intro t h0 h1
    have hinv : 1 ≤ 1 / t := by
      rw [le_div_iff₀ h0]; linarith
    have hp : 1 ≤ pw (1 / t) := hone _ hinv
    have e := hit_byte_fin L t (pw (1 / t)) h0 (hpw _ (one_div_pos.mpr h0))
    rw [min_eq_right hp, max_eq_right zero_le_one, one_mul] at e
    have h255 : ⌊(255 : α)⌋ = 255 := by simp
    omega

/-- C20 over the rationals with `powf` returning its base: the byte at
`t = 1/2` is 255. -/
theorem C20_brightness_monotone_witness :
    (∀ v : ℚ, 0 < v → ratLibm.powf (fin v) (fin 1 / fin (22 / 10)) = fin v)
      ∧ Flt.toUChar (clamp (fin 0) (fin 1)
          (ratLibm.powf (fin 1 / fin (1 / 2 : ℚ)) (fin 1 / fin (22 / 10))) * fin 255) = 255 :=
  ⟨fun _ _ => rfl,
   (C20_brightness_monotone ratLibm (fun v => v) (fun _ _ => rfl) (fun _ _ _ h => h)
      (fun _ h => h)).2.2 (1 / 2) (by norm_num) (by norm_num)⟩

end Brightness

/-! ## The routines in exact arithmetic

What the formulas of the routines give when no operation rounds. -/

section ExactRoutines
variable {α : Type} [LinearOrderedField α]

/-- The value of `map` on finite ranges with `a0 ≠ a1`. -/
theorem map_fin (a0 a1 b0 b1 x : α) (ha : a0 ≠ a1) :
    map ⟨fin a0, fin a1⟩ ⟨fin b0, fin b1⟩ (fin x)
      = fin ((x - a0) * ((b1 - b0) / (a1 - a0)) + b0) := by
  have hne : a1 - a0 ≠ 0 := sub_ne_zero.mpr (Ne.symm ha)
  simp only [map, fin_sub_fin, fin_div_fin _ _ hne, fin_mul_fin, fin_add_fin]

theorem vec3_scale_toVec3 (d : Pt α) (k : α) :
    vec3_scale d.toVec3 (fin k) = (Pt.smul k d).toVec3 := by
  simp only [vec3_scale, Pt.toVec3, Pt.smul, fin_mul_fin, mul_comm k]

/-- The value of `intersect_plane` on finite inputs. -/
theorem intersect_plane_fin (planePos normal origin dir : Pt α) :
    intersect_plane ⟨planePos.toVec3, normal.toVec3⟩ origin.toVec3 dir.toVec3
      = fin (Pt.dot normal planePos - Pt.dot origin normal) / fin (Pt.dot normal dir) := by
  simp only [intersect_plane, vec3_dot_toVec3, fin_sub_fin]

/-- The value of `intersect_sphere` on finite inputs when `sqrt` returns a
finite value at the discriminant and `dot(dir, dir) ≠ 0`. -/
theorem intersect_sphere_fin (L : Libm α) (center origin dir : Pt α) (radius s : α)
    (ha : Pt.dot dir dir ≠ 0)
    (hsqrt : L.sqrt (fin (Pt.dot dir (Pt.sub origin center) * Pt.dot dir (Pt.sub origin center)
      - Pt.dot dir dir
        * (Pt.dot (Pt.sub origin center) (Pt.sub origin center) - radius * radius))) = fin s) :
    intersect_sphere L ⟨center.toVec3, fin radius⟩ origin.toVec3 dir.toVec3
      = fin (Min.min ((-Pt.dot dir (Pt.sub origin center) + s) / Pt.dot dir dir)
          ((-Pt.dot dir (Pt.sub origin center) - s) / Pt.dot dir dir)) := by
  simp only [intersect_sphere, vec3_norm2, vec3_sub_toVec3, vec3_dot_toVec3, fin_mul_fin,
    fin_sub_fin, hsqrt, neg_fin, fin_add_fin, fin_div_fin _ _ ha, min_fin_fin]

/-- The value of `intersect_box` on finite inputs, when no component of the
direction is zero. -/
theorem intersect_box_fin (lo hi o d : Pt α) (hx : d.x ≠ 0) (hy : d.y ≠ 0) (hz : d.z ≠ 0) :
    intersect_box ⟨lo.toVec3, hi.toVec3⟩ o.toVec3 d.toVec3
      = if slabFar lo.y hi.y o.y d.y < slabNear lo.x hi.x o.x d.x
            ∨ slabFar lo.x hi.x o.x d.x < slabNear lo.y hi.y o.y d.y then fin (-1)
        else if slabFar lo.z hi.z o.z d.z
              < Max.max (slabNear lo.x hi.x o.x d.x) (slabNear lo.y hi.y o.y d.y)
            ∨ Min.min (slabFar lo.x hi.x o.x d.x) (slabFar lo.y hi.y o.y d.y)
              < slabNear lo.z hi.z o.z d.z then fin (-1)
        else fin (Min.min
          (Max.max (Max.max (slabNear lo.x hi.x o.x d.x) (slabNear lo.y hi.y o.y d.y))
            (slabNear lo.z hi.z o.z d.z))
          (Min.min (Min.min (slabFar lo.x hi.x o.x d.x) (slabFar lo.y hi.y o.y d.y))
            (slabFar lo.z hi.z o.z d.z))) := by
  simp only [intersect_box, Pt.toVec3, fin_sub_fin, fin_div_fin _ _ hx, fin_div_fin _ _ hy,
    fin_div_fin _ _ hz, min_fin_fin, max_fin_fin, gt_fin_fin, Bool.or_eq_true,
    decide_eq_true_eq, slabNear, slabFar]

/-- In exact arithmetic `intersect_plane` returns the quotient of the dot
products, and the point of the ray at that parameter satisfies the plane
equation. -/
theorem plane_equation_exact (planePos normal origin dir : Pt α)
    (hdn : Pt.dot normal dir ≠ 0) :
    intersect_plane ⟨planePos.toVec3, normal.toVec3⟩ origin.toVec3 dir.toVec3
        = fin ((Pt.dot normal planePos - Pt.dot normal origin) / Pt.dot normal dir)
      ∧ Pt.dot normal (Pt.ray origin dir
          ((Pt.dot normal planePos - Pt.dot normal origin) / Pt.dot normal dir))
        = Pt.dot normal planePos := by
  constructor
  · simp only [intersect_plane, vec3_dot_toVec3, fin_sub_fin]
    rw [fin_div_fin _ _ hdn]
    congr 2
    simp only [Pt.dot]
    ring
  · simp only [Pt.dot, Pt.ray] at hdn ⊢
    field_simp
    ring

/-- In exact arithmetic, with `sqrt` returning a square root `s ≥ 0` of the
discriminant, `intersect_sphere` returns the smaller root, and the points of
the ray at both roots are on the sphere. -/
theorem sphere_roots_exact (L : Libm α) (center origin dir : Pt α) (radius s : α)
    (ha : 0 < Pt.dot dir dir)
    (_hD : 0 ≤ Pt.dot dir (Pt.sub origin center) ^ 2 - Pt.dot dir dir
      * (Pt.dot (Pt.sub origin center) (Pt.sub origin center) - radius ^ 2))
    (hsqrt : L.sqrt (fin (Pt.dot dir (Pt.sub origin center) ^ 2 - Pt.dot dir dir
      * (Pt.dot (Pt.sub origin center) (Pt.sub origin center) - radius ^ 2))) = fin s)
    (hs0 : 0 ≤ s)
    (hss : s * s = Pt.dot dir (Pt.sub origin center) ^ 2 - Pt.dot dir dir
      * (Pt.dot (Pt.sub origin center) (Pt.sub origin center) - radius ^ 2)) :
    intersect_sphere L ⟨center.toVec3, fin radius⟩ origin.toVec3 dir.toVec3
        = fin ((-Pt.dot dir (Pt.sub origin center) - s) / Pt.dot dir dir)
      ∧ (-Pt.dot dir (Pt.sub origin center) - s) / Pt.dot dir dir
          ≤ (-Pt.dot dir (Pt.sub origin center) + s) / Pt.dot dir dir
      ∧ Pt.dot
          (Pt.sub (Pt.ray origin dir
            ((-Pt.dot dir (Pt.sub origin center) - s) / Pt.dot dir dir)) center)
          (Pt.sub (Pt.ray origin dir
            ((-Pt.dot dir (Pt.sub origin center) - s) / Pt.dot dir dir)) center)
        = radius ^ 2
      ∧ Pt.dot
          (Pt.sub (Pt.ray origin dir
            ((-Pt.dot dir (Pt.sub origin center) + s) / Pt.dot dir dir)) center)
          (Pt.sub (Pt.ray origin dir
            ((-Pt.dot dir (Pt.sub origin center) + s) / Pt.dot dir dir)) center)
        = radius ^ 2 := by
  have hane : Pt.dot dir dir ≠ 0 := ne_of_gt ha
  have hle : (-Pt.dot dir (Pt.sub origin center) - s) / Pt.dot dir dir
      ≤ (-Pt.dot dir (Pt.sub origin center) + s) / Pt.dot dir dir := by
    apply div_le_div_of_nonneg_right _ (le_of_lt ha)
    linarith
  have hdelta : (fin (Pt.dot dir (Pt.sub origin center))
        * fin (Pt.dot dir (Pt.sub origin center))
        - fin (Pt.dot dir dir)
          * (fin (Pt.dot (Pt.sub origin center) (Pt.sub origin center))
            - fin radius * fin radius) : Flt α)
      = fin (Pt.dot dir (Pt.sub origin center) ^ 2 - Pt.dot dir dir
        * (Pt.dot (Pt.sub origin center) (Pt.sub origin center) - radius ^ 2)) := by
    simp only [fin_mul_fin, fin_sub_fin]
    congr 1
    ring
  have hroot : ∀ t : α,
      Pt.dot dir dir * t ^ 2 + 2 * Pt.dot dir (Pt.sub origin center) * t
        + (Pt.dot (Pt.sub origin center) (Pt.sub origin center) - radius ^ 2) = 0 →
      Pt.dot (Pt.sub (Pt.ray origin dir t) center) (Pt.sub (Pt.ray origin dir t) center)
        = radius ^ 2 := by
    intro t ht
    simp only [Pt.dot, Pt.sub, Pt.ray] at ht ⊢
    linear_combination ht
  refine ⟨?_, hle, ?_, ?_⟩
  · simp only [intersect_sphere, vec3_norm2, vec3_sub_toVec3, vec3_dot_toVec3, hdelta, hsqrt,
      neg_fin, fin_add_fin, fin_sub_fin]
    rw [fin_div_fin _ _ hane, fin_div_fin _ _ hane, min_fin_fin, min_eq_right hle]
  · apply hroot
    have hat : Pt.dot dir dir
        * ((-Pt.dot dir (Pt.sub origin center) - s) / Pt.dot dir dir)
        = -Pt.dot dir (Pt.sub origin center) - s := mul_div_cancel₀ _ hane
    apply mul_left_cancel₀ hane
    linear_combination
      (Pt.dot dir dir * ((-Pt.dot dir (Pt.sub origin center) - s) / Pt.dot dir dir)
        + (-Pt.dot dir (Pt.sub origin center) - s)
        + 2 * Pt.dot dir (Pt.sub origin center)) * hat + hss
  · apply hroot
    have hat : Pt.dot dir dir
        * ((-Pt.dot dir (Pt.sub origin center) + s) / Pt.dot dir dir)
        = -Pt.dot dir (Pt.sub origin center) + s := mul_div_cancel₀ _ hane
    apply mul_left_cancel₀ hane
    linear_combination
      (Pt.dot dir dir * ((-Pt.dot dir (Pt.sub origin center) + s) / Pt.dot dir dir)
        + (-Pt.dot dir (Pt.sub origin center) + s)
        + 2 * Pt.dot dir (Pt.sub origin center)) * hat + hss

/-- In exact arithmetic, when the three slab intervals have a common point,
`intersect_box` returns the largest near end, and the point of the ray at that
parameter is in the box and on one of its faces. -/
theorem box_near_hit_exact (bmin bmax cam dir : Pt α)
    (hbx : bmin.x ≤ bmax.x) (hby : bmin.y ≤ bmax.y) (hbz : bmin.z ≤ bmax.z)
    (hx : dir.x ≠ 0) (hy : dir.y ≠ 0) (hz : dir.z ≠ 0)
    (hcommon : ∃ t0 : α,
      slabNear bmin.x bmax.x cam.x dir.x ≤ t0 ∧ t0 ≤ slabFar bmin.x bmax.x cam.x dir.x
      ∧ slabNear bmin.y bmax.y cam.y dir.y ≤ t0 ∧ t0 ≤ slabFar bmin.y bmax.y cam.y dir.y
      ∧ slabNear bmin.z bmax.z cam.z dir.z ≤ t0 ∧ t0 ≤ slabFar bmin.z bmax.z cam.z dir.z) :
    intersect_box ⟨bmin.toVec3, bmax.toVec3⟩ cam.toVec3 dir.toVec3
        = fin (Max.max (Max.max (slabNear bmin.x bmax.x cam.x dir.x)
            (slabNear bmin.y bmax.y cam.y dir.y)) (slabNear bmin.z bmax.z cam.z dir.z))
      ∧ Max.max (Max.max (slabNear bmin.x bmax.x cam.x dir.x)
            (slabNear bmin.y bmax.y cam.y dir.y)) (slabNear bmin.z bmax.z cam.z dir.z)
          ≤ Min.min (Min.min (slabFar bmin.x bmax.x cam.x dir.x)
            (slabFar bmin.y bmax.y cam.y dir.y)) (slabFar bmin.z bmax.z cam.z dir.z)
      ∧ (∀ p : Pt α,
          p = Pt.ray cam dir (Max.max (Max.max (slabNear bmin.x bmax.x cam.x dir.x)
            (slabNear bmin.y bmax.y cam.y dir.y)) (slabNear bmin.z bmax.z cam.z dir.z)) →
          (bmin.x ≤ p.x ∧ p.x ≤ bmax.x ∧ bmin.y ≤ p.y ∧ p.y ≤ bmax.y
            ∧ bmin.z ≤ p.z ∧ p.z ≤ bmax.z)
          ∧ (p.x = bmin.x ∨ p.x = bmax.x ∨ p.y = bmin.y ∨ p.y = bmax.y
            ∨ p.z = bmin.z ∨ p.z = bmax.z)) := by
  obtain ⟨t0, hx1, hx2, hy1, hy2, hz1, hz2⟩ := hcommon
  have hnear : Max.max (Max.max (slabNear bmin.x bmax.x cam.x dir.x)
      (slabNear bmin.y bmax.y cam.y dir.y)) (slabNear bmin.z bmax.z cam.z dir.z) ≤ t0 :=
    max_le (max_le hx1 hy1) hz1
  have hfar : t0 ≤ Min.min (Min.min (slabFar bmin.x bmax.x cam.x dir.x)
      (slabFar bmin.y bmax.y cam.y dir.y)) (slabFar bmin.z bmax.z cam.z dir.z) :=
    le_min (le_min hx2 hy2) hz2
  refine ⟨?_, le_trans hnear hfar, ?_⟩
  · rw [intersect_box_fin _ _ _ _ hx hy hz]
    rw [if_neg, if_neg, min_eq_left (le_trans hnear hfar)]
    · rintro (h | h)
      · exact absurd (lt_of_le_of_lt (le_trans (max_le hx1 hy1) hz2) h) (lt_irrefl _)
      · exact absurd (lt_of_le_of_lt (le_trans hz1 (le_min hx2 hy2)) h) (lt_irrefl _)
    · rintro (h | h)
      · exact absurd (lt_of_le_of_lt (le_trans hx1 hy2) h) (lt_irrefl _)
      · exact absurd (lt_of_le_of_lt (le_trans hy1 hx2) h) (lt_irrefl _)
  · intro p hp
    subst hp
    have hT := fun (c : α) (h : t0 ≤ c) => le_trans hnear h
    refine ⟨⟨?_, ?_, ?_, ?_, ?_, ?_⟩, ?_⟩
    · exact (slab_mem _ _ _ _ _ hx hbx (le_trans (le_max_left _ _) (le_max_left _ _))
        (hT _ hx2)).1
    · exact (slab_mem _ _ _ _ _ hx hbx (le_trans (le_max_left _ _) (le_max_left _ _))
        (hT _ hx2)).2
    · exact (slab_mem _ _ _ _ _ hy hby (le_trans (le_max_right _ _) (le_max_left _ _))
        (hT _ hy2)).1
    · exact (slab_mem _ _ _ _ _ hy hby (le_trans (le_max_right _ _) (le_max_left _ _))
        (hT _ hy2)).2
    · exact (slab_mem _ _ _ _ _ hz hbz (le_max_right _ _) (hT _ hz2)).1
    · exact (slab_mem _ _ _ _ _ hz hbz (le_max_right _ _) (hT _ hz2)).2
    · simp only [Pt.ray]
      rcases max_choice (Max.max (slabNear bmin.x bmax.x cam.x dir.x)
          (slabNear bmin.y bmax.y cam.y dir.y)) (slabNear bmin.z bmax.z cam.z dir.z)
        with h | h
      · rcases max_choice (slabNear bmin.x bmax.x cam.x dir.x)
            (slabNear bmin.y bmax.y cam.y dir.y) with h' | h'
        · rw [h, h']
          rcases slab_face bmin.x bmax.x cam.x dir.x hx with e | e
          · exact Or.inl e
          · exact Or.inr (Or.inl e)
        · rw [h, h']
          rcases slab_face bmin.y bmax.y cam.y dir.y hy with e | e
          · exact Or.inr (Or.inr (Or.inl e))
          · exact Or.inr (Or.inr (Or.inr (Or.inl e)))
      · rw [h]
        rcases slab_face bmin.z bmax.z cam.z dir.z hz with e | e
        · exact Or.inr (Or.inr (Or.inr (Or.inr (Or.inl e))))
        · exact Or.inr (Or.inr (Or.inr (Or.inr (Or.inr e))))

/-- In exact arithmetic `intersect_plane` returns for `k * dir` the value for
`dir` divided by `k`. -/
theorem plane_scaling_exact (planePos normal origin dir : Pt α) (k : α)
    (hdn : Pt.dot normal dir ≠ 0) (hk : 0 < k) :
    intersect_plane ⟨planePos.toVec3, normal.toVec3⟩ origin.toVec3
        (vec3_scale dir.toVec3 (fin k))
      = intersect_plane ⟨planePos.toVec3, normal.toVec3⟩ origin.toVec3 dir.toVec3 / fin k
    ∧ intersect_plane ⟨planePos.toVec3, normal.toVec3⟩ origin.toVec3 dir.toVec3
      = fin ((Pt.dot normal planePos - Pt.dot normal origin) / Pt.dot normal dir)
    ∧ intersect_plane ⟨planePos.toVec3, normal.toVec3⟩ origin.toVec3
        (vec3_scale dir.toVec3 (fin k))
      = fin ((Pt.dot normal planePos - Pt.dot normal origin) / Pt.dot normal dir / k)
    ∧ Pt.ray origin (Pt.smul k dir)
        ((Pt.dot normal planePos - Pt.dot normal origin) / Pt.dot normal dir / k)
      = Pt.ray origin dir
        ((Pt.dot normal planePos - Pt.dot normal origin) / Pt.dot normal dir)
    ∧ (0 < (Pt.dot normal planePos - Pt.dot normal origin) / Pt.dot normal dir / k
      ↔ 0 < (Pt.dot normal planePos - Pt.dot normal origin) / Pt.dot normal dir) := by
  have hkne : k ≠ 0 := ne_of_gt hk
  have hcomm : Pt.dot origin normal = Pt.dot normal origin := by
    simp only [Pt.dot]; ring
  have h1 : intersect_plane ⟨planePos.toVec3, normal.toVec3⟩ origin.toVec3 dir.toVec3
      = fin ((Pt.dot normal planePos - Pt.dot normal origin) / Pt.dot normal dir) := by
    rw [intersect_plane_fin, fin_div_fin _ _ hdn, hcomm]
  have h2 : intersect_plane ⟨planePos.toVec3, normal.toVec3⟩ origin.toVec3
      (vec3_scale dir.toVec3 (fin k))
      = fin ((Pt.dot normal planePos - Pt.dot normal origin) / Pt.dot normal dir / k) := by
    rw [vec3_scale_toVec3, intersect_plane_fin, Pt.dot_smul_right,
      fin_div_fin _ _ (mul_ne_zero hkne hdn), hcomm, div_div, mul_comm k]
  refine ⟨?_, h1, h2, ?_, ?_⟩
  · rw [h2, h1, fin_div_fin _ _ hkne]
  · exact Pt.ray_smul _ _ _ _ hkne
  · constructor
    · intro h
      have := mul_pos h hk
      rwa [div_mul_cancel₀ _ hkne] at this
    · intro h
      exact div_pos h hk

/-- In exact arithmetic `intersect_sphere` returns for `k * dir` the value for
`dir` divided by `k`. -/
theorem sphere_scaling_exact (L : Libm α) (center origin dir : Pt α) (radius k s s' : α)
    (hk : 0 < k) (ha : 0 < Pt.dot dir dir)
    (_hD : 0 ≤ Pt.dot dir (Pt.sub origin center) * Pt.dot dir (Pt.sub origin center)
      - Pt.dot dir dir
        * (Pt.dot (Pt.sub origin center) (Pt.sub origin center) - radius * radius))
    (hsqrt : L.sqrt (fin (Pt.dot dir (Pt.sub origin center) * Pt.dot dir (Pt.sub origin center)
      - Pt.dot dir dir
        * (Pt.dot (Pt.sub origin center) (Pt.sub origin center) - radius * radius))) = fin s)
    (hs0 : 0 ≤ s)
    (hss : s * s = Pt.dot dir (Pt.sub origin center) * Pt.dot dir (Pt.sub origin center)
      - Pt.dot dir dir
        * (Pt.dot (Pt.sub origin center) (Pt.sub origin center) - radius * radius))
    (hsqrt' : L.sqrt (fin (Pt.dot (Pt.smul k dir) (Pt.sub origin center)
        * Pt.dot (Pt.smul k dir) (Pt.sub origin center)
      - Pt.dot (Pt.smul k dir) (Pt.smul k dir)
        * (Pt.dot (Pt.sub origin center) (Pt.sub origin center) - radius * radius))) = fin s')
    (hs0' : 0 ≤ s')
    (hss' : s' * s' = Pt.dot (Pt.smul k dir) (Pt.sub origin center)
        * Pt.dot (Pt.smul k dir) (Pt.sub origin center)
      - Pt.dot (Pt.smul k dir) (Pt.smul k dir)
        * (Pt.dot (Pt.sub origin center) (Pt.sub origin center) - radius * radius)) :
    intersect_sphere L ⟨center.toVec3, fin radius⟩ origin.toVec3
        (vec3_scale dir.toVec3 (fin k))
      = intersect_sphere L ⟨center.toVec3, fin radius⟩ origin.toVec3 dir.toVec3 / fin k
    ∧ intersect_sphere L ⟨center.toVec3, fin radius⟩ origin.toVec3 dir.toVec3
      = fin ((-Pt.dot dir (Pt.sub origin center) - s) / Pt.dot dir dir)
    ∧ intersect_sphere L ⟨center.toVec3, fin radius⟩ origin.toVec3
        (vec3_scale dir.toVec3 (fin k))
      = fin ((-Pt.dot dir (Pt.sub origin center) - s) / Pt.dot dir dir / k)
    ∧ Pt.ray origin (Pt.smul k dir)
        ((-Pt.dot dir (Pt.sub origin center) - s) / Pt.dot dir dir / k)
      = Pt.ray origin dir ((-Pt.dot dir (Pt.sub origin center) - s) / Pt.dot dir dir)
    ∧ (0 < (-Pt.dot dir (Pt.sub origin center) - s) / Pt.dot dir dir / k
      ↔ 0 < (-Pt.dot dir (Pt.sub origin center) - s) / Pt.dot dir dir) := by
  have hkne : k ≠ 0 := ne_of_gt hk
  have hane : Pt.dot dir dir ≠ 0 := ne_of_gt ha
  have ha' : Pt.dot (Pt.smul k dir) (Pt.smul k dir) = k * k * Pt.dot dir dir := by
    rw [Pt.dot_smul_left, Pt.dot_smul_right]; ring
  have hb' : Pt.dot (Pt.smul k dir) (Pt.sub origin center)
      = k * Pt.dot dir (Pt.sub origin center) := Pt.dot_smul_left _ _ _
  have hane' : Pt.dot (Pt.smul k dir) (Pt.smul k dir) ≠ 0 := by
    rw [ha']; exact mul_ne_zero (mul_ne_zero hkne hkne) hane
  have hs' : s' = k * s := by
    have h0 : 0 ≤ k * s := mul_nonneg (le_of_lt hk) hs0
    apply (mul_self_inj hs0' h0).mp
    rw [hss', ha', hb']
    linear_combination (-(k * k)) * hss
  have hle : ∀ (b a r : α), 0 < a → 0 ≤ r → Min.min ((-b + r) / a) ((-b - r) / a)
      = (-b - r) / a := by
    intro b a r hpa hr
    apply min_eq_right
    apply div_le_div_of_nonneg_right _ (le_of_lt hpa)
    linarith
  have h1 : intersect_sphere L ⟨center.toVec3, fin radius⟩ origin.toVec3 dir.toVec3
      = fin ((-Pt.dot dir (Pt.sub origin center) - s) / Pt.dot dir dir) := by
    rw [intersect_sphere_fin L center origin dir radius s hane hsqrt, hle _ _ _ ha hs0]
  have h2 : intersect_sphere L ⟨center.toVec3, fin radius⟩ origin.toVec3
      (vec3_scale dir.toVec3 (fin k))
      = fin ((-Pt.dot dir (Pt.sub origin center) - s) / Pt.dot dir dir / k) := by
    rw [vec3_scale_toVec3,
      intersect_sphere_fin L center origin (Pt.smul k dir) radius s' hane' hsqrt',
      hle _ _ _ (lt_of_le_of_ne (by rw [ha']; positivity) (Ne.symm hane')) hs0', ha', hb', hs']
    congr 1
    field_simp
    ring
  refine ⟨?_, h1, h2, ?_, ?_⟩
  · rw [h2, h1, fin_div_fin _ _ hkne]
  · exact Pt.ray_smul _ _ _ _ hkne
  · constructor
    · intro h
      have := mul_pos h hk
      rwa [div_mul_cancel₀ _ hkne] at this
    · intro h
      exact div_pos h hk

end ExactRoutines

/-! ## Rounding to binary32 -/

namespace B32

theorem rne_eq_of_near (y : ℚ) (m : ℤ) (h1 : (m : ℚ) - 1 / 2 < y) (h2 : y < (m : ℚ) + 1 / 2) :
    rne y = m := by
  have hf1 : (⌊y⌋ : ℚ) ≤ y := Int.floor_le y
  have hf2 : y < (⌊y⌋ : ℚ) + 1 := Int.lt_floor_add_one y
  unfold rne
  split_ifs with c1 c2 c3
  · have a1 : ((⌊y⌋ - m : ℤ) : ℚ) < 1 := by push_cast; linarith
    have a2 : (-1 : ℚ) < ((⌊y⌋ - m : ℤ) : ℚ) := by push_cast; linarith
    have b1 : ⌊y⌋ - m < 1 := by exact_mod_cast a1
    have b2 : -1 < ⌊y⌋ - m := by exact_mod_cast a2
    omega
  · have a1 : ((⌊y⌋ + 1 - m : ℤ) : ℚ) < 1 := by push_cast; linarith
    have a2 : (-1 : ℚ) < ((⌊y⌋ + 1 - m : ℤ) : ℚ) := by push_cast; linarith
    have b1 : ⌊y⌋ + 1 - m < 1 := by exact_mod_cast a1
    have b2 : -1 < ⌊y⌋ + 1 - m := by exact_mod_cast a2
    omega
  · exfalso
    have e : y - ⌊y⌋ = 1 / 2 := le_antisymm (not_lt.mp c2) (not_lt.mp c1)
    have a1 : ((2 * (m - ⌊y⌋) : ℤ) : ℚ) < 2 := by push_cast; linarith
    have a2 : (0 : ℚ) < ((2 * (m - ⌊y⌋) : ℤ) : ℚ) := by push_cast; linarith
    have b1 : 2 * (m - ⌊y⌋) < 2 := by exact_mod_cast a1
    have b2 : 0 < 2 * (m - ⌊y⌋) := by exact_mod_cast a2
    omega
  · exfalso
    have e : y - ⌊y⌋ = 1 / 2 := le_antisymm (not_lt.mp c2) (not_lt.mp c1)
    have a1 : ((2 * (m - ⌊y⌋) : ℤ) : ℚ) < 2 := by push_cast; linarith
    have a2 : (0 : ℚ) < ((2 * (m - ⌊y⌋) : ℤ) : ℚ) := by push_cast; linarith
    have b1 : 2 * (m - ⌊y⌋) < 2 := by exact_mod_cast a1
    have b2 : 0 < 2 * (m - ⌊y⌋) := by exact_mod_cast a2
    omega

/-- At a tie the even neighbour is chosen. -/
theorem rne_eq_of_tie (y : ℚ) (m : ℤ) (hm : m % 2 = 0)
    (h : y = (m : ℚ) + 1 / 2 ∨ y = (m : ℚ) - 1 / 2) : rne y = m := by
  rcases h with h | h
  · have hf : ⌊y⌋ = m := by
      rw [Int.floor_eq_iff]
      constructor <;> rw [h] <;> linarith
    unfold rne
    rw [hf, h]
    have c1 : ¬ ((m : ℚ) + 1 / 2 - m < 1 / 2) := by norm_num
    have c2 : ¬ ((1 / 2 : ℚ) < (m : ℚ) + 1 / 2 - m) := by norm_num
    rw [if_neg c1, if_neg c2, if_pos hm]
  · have hf : ⌊y⌋ = m - 1 := by
      rw [Int.floor_eq_iff]
      push_cast
      constructor <;> rw [h] <;> linarith
    unfold rne
    rw [hf, h]
    push_cast
    have c1 : ¬ ((m : ℚ) - 1 / 2 - (m - 1) < 1 / 2) := by norm_num
    have c2 : ¬ ((1 / 2 : ℚ) < (m : ℚ) - 1 / 2 - (m - 1)) := by norm_num
    have c3 : ¬ ((m - 1) % 2 = 0) := by omega
    rw [if_neg c1, if_neg c2, if_neg c3]
    ring

/-- The error of `rne` is at most one half. -/
theorem rne_error (y : ℚ) : |(rne y : ℚ) - y| ≤ 1 / 2 := by
  have hf1 : (⌊y⌋ : ℚ) ≤ y := Int.floor_le y
  have hf2 : y < (⌊y⌋ : ℚ) + 1 := Int.lt_floor_add_one y
  rw [abs_le]
  unfold rne
  split_ifs with c1 c2 c3
  · constructor <;> linarith
  · push_cast; constructor <;> linarith
  · have e : y - ⌊y⌋ = 1 / 2 := le_antisymm (not_lt.mp c2) (not_lt.mp c1)
    constructor <;> linarith
  · have e : y - ⌊y⌋ = 1 / 2 := le_antisymm (not_lt.mp c2) (not_lt.mp c1)
    push_cast; constructor <;> linarith

theorem rne_intCast (m : ℤ) : rne (m : ℚ) = m :=
  rne_eq_of_near _ m (by linarith) (by linarith)

/-- The binade of a non-zero rational. -/
theorem log_eq (x : ℚ) (e : ℤ) (h1 : (2 : ℚ) ^ e ≤ |x|) (h2 : |x| < (2 : ℚ) ^ (e + 1)) :
    Int.log 2 |x| = e := by
  have hpos : 0 < |x| := lt_of_lt_of_le (by positivity) h1
  have a1 : e ≤ Int.log 2 |x| := by
    have h := (@Int.zpow_le_iff_le_log ℚ _ _ 2 (by norm_num) e |x| hpos).mp
      (by simpa using h1)
    exact h
  have a2 : Int.log 2 |x| < e + 1 := by
    have h := (@Int.lt_zpow_iff_log_lt ℚ _ _ 2 (by norm_num) (e + 1) |x| hpos).mp
      (by simpa using h2)
    exact h
  omega

theorem quantum_eq (x : ℚ) (e : ℤ) (h1 : (2 : ℚ) ^ e ≤ |x|) (h2 : |x| < (2 : ℚ) ^ (e + 1)) :
    quantum x = Max.max e (-126) - 23 := by
  rw [quantum, log_eq x e h1 h2]

theorem round32_zero : round32 0 = fin 0 := by
  simp [round32]

/-- No rounding yields `nan`. -/
theorem round32_ne_nan (x : ℚ) : round32 x ≠ nan := by
  unfold round32
  split_ifs <;> simp

/-- Evaluation of `round32` at a value in a known binade whose nearest
multiple of the spacing is `m * 2^q`. -/
theorem round32_eval (x r : ℚ) (e m q : ℤ)
    (h1 : (2 : ℚ) ^ e ≤ |x|) (h2 : |x| < (2 : ℚ) ^ (e + 1))
    (hq : q = Max.max e (-126) - 23)
    (hlo : ((m : ℚ) - 1 / 2) * 2 ^ q < x) (hhi : x < ((m : ℚ) + 1 / 2) * 2 ^ q)
    (hr : r = (m : ℚ) * 2 ^ q) (hfin : |r| < (2 : ℚ) ^ (128 : ℕ)) :
    round32 x = fin r := by
  have hx : x ≠ 0 := by
    intro h
    rw [h, abs_zero] at h1
    exact absurd h1 (not_le.mpr (by positivity))
  have hqx : quantum x = q := by rw [quantum_eq x e h1 h2, hq]
  have hpow : (0 : ℚ) < 2 ^ q := by positivity
  have hm : rne (x / 2 ^ q) = m :=
    rne_eq_of_near _ m ((lt_div_iff₀ hpow).mpr hlo) ((div_lt_iff₀ hpow).mpr hhi)
  unfold round32
  rw [if_neg hx, hqx, hm, ← hr, if_neg (not_le.mpr hfin)]

/-- Evaluation of `round32` at a tie. -/
theorem round32_eval_tie (x r : ℚ) (e m q : ℤ)
    (h1 : (2 : ℚ) ^ e ≤ |x|) (h2 : |x| < (2 : ℚ) ^ (e + 1))
    (hq : q = Max.max e (-126) - 23) (hm : m % 2 = 0)
    (htie : x = ((m : ℚ) + 1 / 2) * 2 ^ q ∨ x = ((m : ℚ) - 1 / 2) * 2 ^ q)
    (hr : r = (m : ℚ) * 2 ^ q) (hfin : |r| < (2 : ℚ) ^ (128 : ℕ)) :
    round32 x = fin r := by
  have hx : x ≠ 0 := by
    intro h
    rw [h, abs_zero] at h1
    exact absurd h1 (not_le.mpr (by positivity))
  have hqx : quantum x = q := by rw [quantum_eq x e h1 h2, hq]
  have hpow : (0 : ℚ) < 2 ^ q := by positivity
  have hm' : rne (x / 2 ^ q) = m := by
    apply rne_eq_of_tie _ m hm
    rcases htie with h | h
    · left; rw [h, mul_div_assoc, div_self (ne_of_gt hpow), mul_one]
    · right; rw [h, mul_div_assoc, div_self (ne_of_gt hpow), mul_one]
  unfold round32
  rw [if_neg hx, hqx, hm', ← hr, if_neg (not_le.mpr hfin)]

/-- Evaluation of `round32` at a positive value that overflows. -/
theorem round32_eval_pinf (x : ℚ) (e m q : ℤ)
    (h1 : (2 : ℚ) ^ e ≤ |x|) (h2 : |x| < (2 : ℚ) ^ (e + 1))
    (hq : q = Max.max e (-126) - 23)
    (hlo : ((m : ℚ) - 1 / 2) * 2 ^ q < x) (hhi : x < ((m : ℚ) + 1 / 2) * 2 ^ q)
    (hov : (2 : ℚ) ^ (128 : ℕ) ≤ |(m : ℚ) * 2 ^ q|) (hpos : 0 < x) :
    round32 x = pinf := by
  have hx : x ≠ 0 := ne_of_gt hpos
  have hqx : quantum x = q := by rw [quantum_eq x e h1 h2, hq]
  have hpow : (0 : ℚ) < 2 ^ q := by positivity
  have hm : rne (x / 2 ^ q) = m :=
    rne_eq_of_near _ m ((lt_div_iff₀ hpow).mpr hlo) ((div_lt_iff₀ hpow).mpr hhi)
  unfold round32
  rw [if_neg hx, hqx, hm, if_pos hov, if_pos hpos]

theorem rnd_fin (x : ℚ) : rnd (fin x) = round32 x := rfl

theorem fadd_fin (a b : ℚ) : fadd (fin a) (fin b) = round32 (a + b) := rfl

theorem fsub_fin (a b : ℚ) : fsub (fin a) (fin b) = round32 (a - b) := by
  rw [fsub, fin_sub_fin, rnd_fin]

theorem fmul_fin (a b : ℚ) : fmul (fin a) (fin b) = round32 (a * b) := rfl

theorem fdiv_fin (a b : ℚ) (h : b ≠ 0) : fdiv (fin a) (fin b) = round32 (a / b) := by
  rw [fdiv, fin_div_fin _ _ h, rnd_fin]

/-- Evaluation of `round32` at a positive value. -/
theorem round32_pos (x r : ℚ) (e m q : ℤ)
    (h1 : (2 : ℚ) ^ e ≤ x) (h2 : x < (2 : ℚ) ^ (e + 1))
    (hq : q = Max.max e (-126) - 23)
    (hlo : ((m : ℚ) - 1 / 2) * 2 ^ q < x) (hhi : x < ((m : ℚ) + 1 / 2) * 2 ^ q)
    (hr : r = (m : ℚ) * 2 ^ q) (hr1 : -(2 : ℚ) ^ (128 : ℕ) < r) (hr2 : r < (2 : ℚ) ^ (128 : ℕ)) :
    round32 x = fin r := by
  have hx : 0 < x := lt_of_lt_of_le (by positivity) h1
  exact round32_eval x r e m q (le_of_le_of_eq h1 (abs_of_pos hx).symm)
    (lt_of_eq_of_lt (abs_of_pos hx) h2) hq hlo hhi hr
    (abs_lt.mpr ⟨hr1, hr2⟩)

/-- Evaluation of `round32` at a negative value. -/
theorem round32_neg (x r : ℚ) (e m q : ℤ)
    (h1 : (2 : ℚ) ^ e ≤ -x) (h2 : -x < (2 : ℚ) ^ (e + 1))
    (hq : q = Max.max e (-126) - 23)
    (hlo : ((m : ℚ) - 1 / 2) * 2 ^ q < x) (hhi : x < ((m : ℚ) + 1 / 2) * 2 ^ q)
    (hr : r = (m : ℚ) * 2 ^ q) (hr1 : -(2 : ℚ) ^ (128 : ℕ) < r) (hr2 : r < (2 : ℚ) ^ (128 : ℕ)) :
    round32 x = fin r := by
  have hx : x < 0 := by
    have : 0 < -x := lt_of_lt_of_le (by positivity) h1
    linarith
  exact round32_eval x r e m q (le_of_le_of_eq h1 (abs_of_neg hx).symm)
    (lt_of_eq_of_lt (abs_of_neg hx) h2) hq hlo hhi hr
    (abs_lt.mpr ⟨hr1, hr2⟩)

/-- Evaluation of `round32` at a positive tie. -/
theorem round32_pos_tie (x r : ℚ) (e m q : ℤ)
    (h1 : (2 : ℚ) ^ e ≤ x) (h2 : x < (2 : ℚ) ^ (e + 1))
    (hq : q = Max.max e (-126) - 23) (hm : m % 2 = 0)
    (htie : x = ((m : ℚ) + 1 / 2) * 2 ^ q ∨ x = ((m : ℚ) - 1 / 2) * 2 ^ q)
    (hr : r = (m : ℚ) * 2 ^ q) (hr1 : -(2 : ℚ) ^ (128 : ℕ) < r) (hr2 : r < (2 : ℚ) ^ (128 : ℕ)) :
    round32 x = fin r := by
  have hx : 0 < x := lt_of_lt_of_le (by positivity) h1
  exact round32_eval_tie x r e m q (le_of_le_of_eq h1 (abs_of_pos hx).symm)
    (lt_of_eq_of_lt (abs_of_pos hx) h2) hq hm htie hr
    (abs_lt.mpr ⟨hr1, hr2⟩)

/-- Evaluation of `round32` at a negative tie. -/
theorem round32_neg_tie (x r : ℚ) (e m q : ℤ)
    (h1 : (2 : ℚ) ^ e ≤ -x) (h2 : -x < (2 : ℚ) ^ (e + 1))
    (hq : q = Max.max e (-126) - 23) (hm : m % 2 = 0)
    (htie : x = ((m : ℚ) + 1 / 2) * 2 ^ q ∨ x = ((m : ℚ) - 1 / 2) * 2 ^ q)
    (hr : r = (m : ℚ) * 2 ^ q) (hr1 : -(2 : ℚ) ^ (128 : ℕ) < r) (hr2 : r < (2 : ℚ) ^ (128 : ℕ)) :
    round32 x = fin r := by
  have hx : x < 0 := by
    have : 0 < -x := lt_of_lt_of_le (by positivity) h1
    linarith
  exact round32_eval_tie x r e m q (le_of_le_of_eq h1 (abs_of_neg hx).symm)
    (lt_of_eq_of_lt (abs_of_neg hx) h2) hq hm htie hr
    (abs_lt.mpr ⟨hr1, hr2⟩)

/-- Evaluation of `round32` at a positive value that overflows. -/
theorem round32_pos_inf (x : ℚ) (e m q : ℤ)
    (h1 : (2 : ℚ) ^ e ≤ x) (h2 : x < (2 : ℚ) ^ (e + 1))
    (hq : q = Max.max e (-126) - 23)
    (hlo : ((m : ℚ) - 1 / 2) * 2 ^ q < x) (hhi : x < ((m : ℚ) + 1 / 2) * 2 ^ q)
    (hov : (2 : ℚ) ^ (128 : ℕ) ≤ (m : ℚ) * 2 ^ q) :
    round32 x = pinf := by
  have hx : 0 < x := lt_of_lt_of_le (by positivity) h1
  exact round32_eval_pinf x e m q (le_of_le_of_eq h1 (abs_of_pos hx).symm)
    (lt_of_eq_of_lt (abs_of_pos hx) h2) hq hlo hhi (le_trans hov (le_abs_self _)) hx

end B32

namespace B32
theorem rne_mono (y1 y2 : ℚ) (h : y1 ≤ y2) : rne y1 ≤ rne y2 := by
  have hf : ⌊y1⌋ ≤ ⌊y2⌋ := Int.floor_mono h
  have a1 : (⌊y1⌋ : ℚ) ≤ y1 := Int.floor_le y1
  have a2 : y1 < (⌊y1⌋ : ℚ) + 1 := Int.lt_floor_add_one y1
  have b1 : (⌊y2⌋ : ℚ) ≤ y2 := Int.floor_le y2
  have b2 : y2 < (⌊y2⌋ : ℚ) + 1 := Int.lt_floor_add_one y2
  rcases lt_or_eq_of_le hf with hlt | heq
  · have l1 : rne y1 ≤ ⌊y1⌋ + 1 := by
      unfold rne; split_ifs <;> omega
    have l2 : ⌊y2⌋ ≤ rne y2 := by
      unfold rne; split_ifs <;> omega
    omega
  · unfold rne
    rw [← heq]
    rw [← heq] at b1 b2
    split_ifs <;> first | omega | (exfalso; linarith)

theorem rne_neg (y : ℚ) : rne (-y) = -rne y := by
  have e := rne_error y
  rw [abs_le] at e
  by_cases h1 : |(rne y : ℚ) - y| < 1 / 2
  · rw [abs_lt] at h1
    apply rne_eq_of_near
    · push_cast; linarith [h1.1, h1.2]
    · push_cast; linarith [h1.1, h1.2]
  · have h2 : |(rne y : ℚ) - y| = 1 / 2 := le_antisymm (rne_error y) (not_lt.mp h1)
    have heven : rne y % 2 = 0 := by
      have a1 : (⌊y⌋ : ℚ) ≤ y := Int.floor_le y
      have a2 : y < (⌊y⌋ : ℚ) + 1 := Int.lt_floor_add_one y
      revert h2
      unfold rne
      split_ifs with c1 c2 c3
      · intro h2
        exfalso
        rw [abs_eq (by norm_num)] at h2
        rcases h2 with h2 | h2 <;> linarith
      · intro h2
        exfalso
        rw [abs_eq (by norm_num)] at h2
        push_cast at h2
        rcases h2 with h2 | h2 <;> linarith
      · intro _; exact c3
      · intro _; omega
    apply rne_eq_of_tie _ _ (by omega)
    rw [abs_eq (by norm_num)] at h2
    push_cast
    rcases h2 with h2 | h2
    · left; linarith
    · right; linarith

theorem rne_nonneg (y : ℚ) (h : 0 ≤ y) : 0 ≤ rne y := by
  have := rne_mono 0 y h
  have z : rne (0 : ℚ) = 0 := by simpa using rne_intCast 0
  omega

theorem rne_le_int (y : ℚ) (n : ℤ) (h : y ≤ n) : rne y ≤ n := by
  have := rne_mono y n h
  rwa [rne_intCast] at this

theorem int_le_rne (y : ℚ) (n : ℤ) (h : (n : ℚ) ≤ y) : n ≤ rne y := by
  have := rne_mono n y h
  rwa [rne_intCast] at this

theorem log_lt_of_lt (x : ℚ) (k : ℤ) (h0 : x ≠ 0) (h : |x| < (2 : ℚ) ^ k) : Int.log 2 |x| < k := by
  have hpos : 0 < |x| := abs_pos.mpr h0
  exact (@Int.lt_zpow_iff_log_lt ℚ _ _ 2 (by norm_num) k |x| hpos).mp (by simpa using h)

theorem le_log_of_le (x : ℚ) (k : ℤ) (h : (2 : ℚ) ^ k ≤ |x|) : k ≤ Int.log 2 |x| := by
  have hpos : 0 < |x| := lt_of_lt_of_le (by positivity) h
  exact (@Int.zpow_le_iff_le_log ℚ _ _ 2 (by norm_num) k |x| hpos).mp (by simpa using h)

theorem zpow_log_le (x : ℚ) (h0 : x ≠ 0) : (2 : ℚ) ^ Int.log 2 |x| ≤ |x| := by
  have hpos : 0 < |x| := abs_pos.mpr h0
  simpa using Int.zpow_log_le_self (by norm_num : 1 < 2) hpos

theorem lt_zpow_log (x : ℚ) : |x| < (2 : ℚ) ^ (Int.log 2 |x| + 1) := by
  simpa using Int.lt_zpow_succ_log_self (by norm_num : 1 < 2) |x|

/-- The value `round32` returns when it does not overflow. -/
theorem round32_of_lt (x : ℚ) (h0 : x ≠ 0)
    (h : |(rne (x / 2 ^ quantum x) : ℚ) * 2 ^ quantum x| < (2 : ℚ) ^ (128 : ℕ)) :
    round32 x = fin ((rne (x / 2 ^ quantum x) : ℚ) * 2 ^ quantum x) := by
  unfold round32
  rw [if_neg h0, if_neg (not_le.mpr h)]

/-- A non-zero multiple of its own spacing, below `2^128`, is a binary32
value. -/
theorem isFloat_of_multiple (x : ℚ) (M : ℤ) (h0 : x ≠ 0) (hM : x = (M : ℚ) * 2 ^ quantum x)
    (hfin : |x| < (2 : ℚ) ^ (128 : ℕ)) : IsFloat x := by
  have hpQ : (0 : ℚ) < 2 ^ quantum x := by positivity
  have hdiv : x / 2 ^ quantum x = (M : ℚ) := by
    rw [div_eq_iff (ne_of_gt hpQ)]
    exact hM
  have hval : (rne (x / 2 ^ quantum x) : ℚ) * 2 ^ quantum x = x := by
    rw [hdiv, rne_intCast, ← hM]
  unfold IsFloat
  rw [round32_of_lt x h0 (by rw [hval]; exact hfin), hval]

/-- A multiple `m * 2^q` of a power of two with `|m| < 2^24` in the exponent
range of binary32 is a binary32 value. -/
theorem isFloat_int_mul (m q : ℤ) (hm : |m| < 2 ^ 24) (hq1 : -149 ≤ q) (hq2 : q ≤ 104) :
    IsFloat ((m : ℚ) * 2 ^ q) := by
  by_cases hm0 : m = 0
  · unfold IsFloat
    simp [hm0, round32_zero]
  have hpq : (0 : ℚ) < 2 ^ q := by positivity
  have hx0 : (m : ℚ) * 2 ^ q ≠ 0 := mul_ne_zero (by exact_mod_cast hm0) (ne_of_gt hpq)
  have hmq : |(m : ℚ)| < 2 ^ (24 : ℤ) := by
    have : ((|m| : ℤ) : ℚ) < ((2 ^ 24 : ℤ) : ℚ) := by exact_mod_cast hm
    push_cast at this
    exact_mod_cast this
  have habs : |(m : ℚ) * 2 ^ q| < (2 : ℚ) ^ (24 + q) := by
    rw [abs_mul, abs_of_pos hpq, zpow_add₀ (by norm_num)]
    exact mul_lt_mul_of_pos_right hmq hpq
  have hlog : Int.log 2 |(m : ℚ) * 2 ^ q| < 24 + q := log_lt_of_lt _ _ hx0 habs
  have hQ : quantum ((m : ℚ) * 2 ^ q) ≤ q := by
    unfold quantum
    rcases max_cases (Int.log 2 |(m : ℚ) * 2 ^ q|) (-126) with ⟨e, _⟩ | ⟨e, _⟩ <;> rw [e] <;> omega
  have hfin : |(m : ℚ) * 2 ^ q| < (2 : ℚ) ^ (128 : ℕ) :=
    calc |(m : ℚ) * 2 ^ q| < (2 : ℚ) ^ (24 + q) := habs
      _ ≤ (2 : ℚ) ^ (128 : ℤ) := zpow_le_zpow_right₀ (by norm_num) (by omega)
      _ = (2 : ℚ) ^ (128 : ℕ) := by norm_num
  apply isFloat_of_multiple _ (m * 2 ^ (q - quantum ((m : ℚ) * 2 ^ q)).toNat) hx0 _ hfin
  generalize quantum ((m : ℚ) * 2 ^ q) = Q at hQ ⊢
  obtain ⟨n, rfl⟩ : ∃ n : ℕ, q = Q + n := ⟨(q - Q).toNat, by omega⟩
  have : (Q + (n : ℤ) - Q).toNat = n := by omega
  rw [this]
  push_cast
  rw [zpow_add₀ (by norm_num), zpow_natCast]
  ring

/-- Every natural number below `2^24` is a binary32 value. -/
theorem isFloat_nat (n : ℕ) (h : n < 2 ^ 24) : IsFloat (n : ℚ) := by
  have := isFloat_int_mul (n : ℤ) 0 (by rw [abs_of_nonneg (by positivity)]; exact_mod_cast h)
    (by norm_num) (by norm_num)
  simpa using this

/-- So is every such number plus one half, below `2^23`. -/
theorem isFloat_nat_half (n : ℕ) (h : n < 2 ^ 23) : IsFloat ((n : ℚ) + 1 / 2) := by
  have := isFloat_int_mul (2 * (n : ℤ) + 1) (-1)
    (by rw [abs_of_nonneg (by positivity)]; have : (n : ℤ) < 2 ^ 23 := by exact_mod_cast h
        omega)
    (by norm_num) (by norm_num)
  have e : (((2 * (n : ℤ) + 1 : ℤ)) : ℚ) * 2 ^ (-1 : ℤ) = (n : ℚ) + 1 / 2 := by
    push_cast
    rw [zpow_neg_one]
    ring
  rwa [e] at this

/-- The rounding error below `2^k`: at most `2^(k-25)`, and the rounded
value does not leave the interval. -/
theorem round32_error (x : ℚ) (k : ℤ) (hk1 : -125 ≤ k) (hk2 : k ≤ 127)
    (hx : |x| < (2 : ℚ) ^ k) :
    ∃ r, round32 x = fin r ∧ |r - x| ≤ (2 : ℚ) ^ (k - 25) ∧ |r| ≤ (2 : ℚ) ^ k := by
  by_cases h0 : x = 0
  · refine ⟨0, by rw [h0, round32_zero], ?_, ?_⟩
    · rw [h0]; simp; positivity
    · simp; positivity
  have hlog : Int.log 2 |x| < k := log_lt_of_lt x k h0 hx
  have hQ : quantum x ≤ k - 24 := by
    unfold quantum
    rcases max_cases (Int.log 2 |x|) (-126) with ⟨e, _⟩ | ⟨e, _⟩ <;> rw [e] <;> omega
  have hpQ : (0 : ℚ) < 2 ^ quantum x := by positivity
  obtain ⟨n, hn⟩ : ∃ n : ℕ, k = quantum x + n := ⟨(k - quantum x).toNat, by omega⟩
  have hk : (2 : ℚ) ^ k = ((2 ^ n : ℤ) : ℚ) * 2 ^ quantum x := by
    push_cast
    nth_rewrite 1 [hn]
    rw [zpow_add₀ (by norm_num), zpow_natCast]
    ring
  have hy : |x / 2 ^ quantum x| < ((2 ^ n : ℤ) : ℚ) := by
    rw [abs_div, abs_of_pos hpQ, div_lt_iff₀ hpQ, ← hk]
    exact hx
  rw [abs_lt] at hy
  have hr1 : rne (x / 2 ^ quantum x) ≤ 2 ^ n := rne_le_int _ _ (le_of_lt hy.2)
  have hr2 : -(2 ^ n) ≤ rne (x / 2 ^ quantum x) :=
    int_le_rne _ _ (by push_cast; push_cast at hy; exact le_of_lt hy.1)
  have hrabs : |(rne (x / 2 ^ quantum x) : ℚ) * 2 ^ quantum x| ≤ (2 : ℚ) ^ k := by
    rw [abs_mul, abs_of_pos hpQ, hk]
    apply mul_le_mul_of_nonneg_right _ (le_of_lt hpQ)
    rw [abs_le]
    constructor
    · exact_mod_cast hr2
    · exact_mod_cast hr1
  have hfin : |(rne (x / 2 ^ quantum x) : ℚ) * 2 ^ quantum x| < (2 : ℚ) ^ (128 : ℕ) := by
    calc _ ≤ (2 : ℚ) ^ k := hrabs
      _ ≤ (2 : ℚ) ^ (127 : ℤ) := zpow_le_zpow_right₀ (by norm_num) hk2
      _ < (2 : ℚ) ^ (128 : ℕ) := by norm_num
  refine ⟨_, round32_of_lt x h0 hfin, ?_, hrabs⟩
  have e : (rne (x / 2 ^ quantum x) : ℚ) * 2 ^ quantum x - x =
      ((rne (x / 2 ^ quantum x) : ℚ) - x / 2 ^ quantum x) * 2 ^ quantum x := by
    field_simp
  rw [e, abs_mul, abs_of_pos hpQ]
  calc |(rne (x / 2 ^ quantum x) : ℚ) - x / 2 ^ quantum x| * 2 ^ quantum x
      ≤ 1 / 2 * 2 ^ quantum x := mul_le_mul_of_nonneg_right (rne_error _) (le_of_lt hpQ)
    _ = (2 : ℚ) ^ (quantum x - 1) := by
        rw [zpow_sub₀ (by norm_num), zpow_one]; ring
    _ ≤ (2 : ℚ) ^ (k - 25) := zpow_le_zpow_right₀ (by norm_num) (by omega)

end B32

/-! ## The order of the binary32 values -/

namespace B32

theorem lt_iff_key (a b : Flt ℚ) (ha : a ≠ nan) (hb : b ≠ nan) :
    Flt.lt a b = true ↔ key a < key b := by
  cases a <;> cases b <;> simp_all [Flt.lt, key]
  rw [← WithBot.coe_top, WithBot.coe_lt_coe]
  exact WithTop.coe_lt_top _

theorem gt_iff_key (a b : Flt ℚ) (ha : a ≠ nan) (hb : b ≠ nan) :
    Flt.gt a b = true ↔ key b < key a := lt_iff_key b a hb ha

theorem le_iff_key (a b : Flt ℚ) (ha : a ≠ nan) (hb : b ≠ nan) :
    le a b = true ↔ key a ≤ key b := by
  cases a <;> cases b <;> simp_all [le, key]

theorem key_inj (a b : Flt ℚ) (ha : a ≠ nan) (hb : b ≠ nan) (h : key a = key b) : a = b := by
  cases a <;> cases b <;> simp_all [key]

theorem min_ne_nan (a b : Flt ℚ) (ha : a ≠ nan) (hb : b ≠ nan) : min a b ≠ nan := by
  unfold Raytracer.min
  split_ifs <;> assumption

theorem max_ne_nan (a b : Flt ℚ) (ha : a ≠ nan) (hb : b ≠ nan) : max a b ≠ nan := by
  unfold Raytracer.max
  split_ifs <;> assumption

theorem key_min (a b : Flt ℚ) (ha : a ≠ nan) (hb : b ≠ nan) :
    key (min a b) = Min.min (key a) (key b) := by
  unfold Raytracer.min
  split_ifs with h
  · rw [lt_iff_key a b ha hb] at h
    exact (min_eq_left (le_of_lt h)).symm
  · rw [lt_iff_key a b ha hb] at h
    exact (min_eq_right (not_lt.mp h)).symm

theorem key_max (a b : Flt ℚ) (ha : a ≠ nan) (hb : b ≠ nan) :
    key (max a b) = Max.max (key a) (key b) := by
  unfold Raytracer.max
  split_ifs with h
  · rw [gt_iff_key a b ha hb] at h
    exact (max_eq_left (le_of_lt h)).symm
  · rw [gt_iff_key a b ha hb] at h
    exact (max_eq_right (not_lt.mp h)).symm

theorem rnd_ne_nan (v : Flt ℚ) (h : v ≠ nan) : rnd v ≠ nan := by
  cases v
  · exact absurd rfl h
  · simp [rnd]
  · simp [rnd]
  · exact round32_ne_nan _

theorem div_fin_ne_nan (a : Flt ℚ) (d : ℚ) (ha : a ≠ nan) (hd : d ≠ 0) : a / fin d ≠ nan := by
  show Flt.div a (fin d) ≠ nan
  cases a
  · exact absurd rfl ha
  · simp only [Flt.div]; split_ifs <;> simp
  · simp only [Flt.div]; split_ifs <;> simp
  · simp [Flt.div, hd]

/-- The quotient `(lo - c) / d` of the slab routine is not `nan` when the
direction component `d` is finite and not zero. -/
theorem slab_ne_nan (lo c d : ℚ) (hd : d ≠ 0) : fdiv (fsub (fin lo) (fin c)) (fin d) ≠ nan := by
  apply rnd_ne_nan
  apply div_fin_ne_nan _ _ _ hd
  rw [fsub_fin]
  exact round32_ne_nan _

end B32

/-! ## The slab routine on computed intervals -/

namespace B32

theorem le_ne_nan_left (a b : Flt ℚ) (h : le a b = true) : a ≠ nan := by
  intro e; rw [e] at h; simp [le] at h

theorem le_ne_nan_right (a b : Flt ℚ) (h : le a b = true) : b ≠ nan := by
  intro e; rw [e] at h; cases a <;> simp [le] at h

/-- The two outcomes of `intersect_box` when none of the six quotients is
`nan`: either the result is `-1` and the three computed intervals have no
common point, or the result is the largest of the three computed near ends,
which is a common point of the three intervals. -/
theorem intersect_box_cases (box : Box ℚ) (cam dir : Vec3 ℚ)
    (hx1 : fdiv (fsub box.min.e0 cam.e0) dir.e0 ≠ nan)
    (hx2 : fdiv (fsub box.max.e0 cam.e0) dir.e0 ≠ nan)
    (hy1 : fdiv (fsub box.min.e1 cam.e1) dir.e1 ≠ nan)
    (hy2 : fdiv (fsub box.max.e1 cam.e1) dir.e1 ≠ nan)
    (hz1 : fdiv (fsub box.min.e2 cam.e2) dir.e2 ≠ nan)
    (hz2 : fdiv (fsub box.max.e2 cam.e2) dir.e2 ≠ nan) :
    (intersect_box box cam dir = fin (-1) ∧
      ∀ t : Flt ℚ,
        ¬ (le (box_tmin box.min.e0 box.max.e0 cam.e0 dir.e0) t = true ∧
           le t (box_tmax box.min.e0 box.max.e0 cam.e0 dir.e0) = true ∧
           le (box_tmin box.min.e1 box.max.e1 cam.e1 dir.e1) t = true ∧
           le t (box_tmax box.min.e1 box.max.e1 cam.e1 dir.e1) = true ∧
           le (box_tmin box.min.e2 box.max.e2 cam.e2 dir.e2) t = true ∧
           le t (box_tmax box.min.e2 box.max.e2 cam.e2 dir.e2) = true)) ∨
    (intersect_box box cam dir =
        max (max (box_tmin box.min.e0 box.max.e0 cam.e0 dir.e0)
                 (box_tmin box.min.e1 box.max.e1 cam.e1 dir.e1))
            (box_tmin box.min.e2 box.max.e2 cam.e2 dir.e2) ∧
      le (box_tmin box.min.e0 box.max.e0 cam.e0 dir.e0) (intersect_box box cam dir) = true ∧
      le (intersect_box box cam dir) (box_tmax box.min.e0 box.max.e0 cam.e0 dir.e0) = true ∧
      le (box_tmin box.min.e1 box.max.e1 cam.e1 dir.e1) (intersect_box box cam dir) = true ∧
      le (intersect_box box cam dir) (box_tmax box.min.e1 box.max.e1 cam.e1 dir.e1) = true ∧
      le (box_tmin box.min.e2 box.max.e2 cam.e2 dir.e2) (intersect_box box cam dir) = true ∧
      le (intersect_box box cam dir) (box_tmax box.min.e2 box.max.e2 cam.e2 dir.e2) = true) := by
  unfold box_tmin box_tmax
  generalize hX1 : fdiv (fsub box.min.e0 cam.e0) dir.e0 = X1 at hx1 ⊢
  generalize hX2 : fdiv (fsub box.max.e0 cam.e0) dir.e0 = X2 at hx2 ⊢
  generalize hY1 : fdiv (fsub box.min.e1 cam.e1) dir.e1 = Y1 at hy1 ⊢
  generalize hY2 : fdiv (fsub box.max.e1 cam.e1) dir.e1 = Y2 at hy2 ⊢
  generalize hZ1 : fdiv (fsub box.min.e2 cam.e2) dir.e2 = Z1 at hz1 ⊢
  generalize hZ2 : fdiv (fsub box.max.e2 cam.e2) dir.e2 = Z2 at hz2 ⊢
  have hdef : intersect_box box cam dir =
      if (Flt.gt (min X1 X2) (max Y1 Y2) || Flt.gt (min Y1 Y2) (max X1 X2)) = true then fin (-1)
      else if (Flt.gt (max (min X1 X2) (min Y1 Y2)) (max Z1 Z2) ||
          Flt.gt (min Z1 Z2) (min (max X1 X2) (max Y1 Y2))) = true then fin (-1)
      else min (max (max (min X1 X2) (min Y1 Y2)) (min Z1 Z2))
        (min (min (max X1 X2) (max Y1 Y2)) (max Z1 Z2)) := by
    subst hX1 hX2 hY1 hY2 hZ1 hZ2
    rfl
  have na := min_ne_nan X1 X2 hx1 hx2
  have nA := max_ne_nan X1 X2 hx1 hx2
  have nb := min_ne_nan Y1 Y2 hy1 hy2
  have nB := max_ne_nan Y1 Y2 hy1 hy2
  have nc := min_ne_nan Z1 Z2 hz1 hz2
  have nC := max_ne_nan Z1 Z2 hz1 hz2
  have nab := max_ne_nan _ _ na nb
  have nAB := min_ne_nan _ _ nA nB
  have nT := max_ne_nan _ _ nab nc
  have nM := min_ne_nan _ _ nAB nC
  have aA : key (min X1 X2) ≤ key (max X1 X2) := by
    rw [key_min X1 X2 hx1 hx2, key_max X1 X2 hx1 hx2]; exact min_le_max
  have bB : key (min Y1 Y2) ≤ key (max Y1 Y2) := by
    rw [key_min Y1 Y2 hy1 hy2, key_max Y1 Y2 hy1 hy2]; exact min_le_max
  have cC : key (min Z1 Z2) ≤ key (max Z1 Z2) := by
    rw [key_min Z1 Z2 hz1 hz2, key_max Z1 Z2 hz1 hz2]; exact min_le_max
  have kab := key_max _ _ na nb
  have kAB := key_min _ _ nA nB
  have kT := key_max _ _ nab nc
  have kM := key_min _ _ nAB nC
  by_cases c1 : (Flt.gt (min X1 X2) (max Y1 Y2) || Flt.gt (min Y1 Y2) (max X1 X2)) = true
  · left
    rw [hdef, if_pos c1]
    refine ⟨rfl, ?_⟩
    rintro t ⟨a1, a2, a3, a4, -, -⟩
    have nt := le_ne_nan_right _ _ a1
    rw [le_iff_key _ _ na nt] at a1
    rw [le_iff_key _ _ nt nA] at a2
    rw [le_iff_key _ _ nb nt] at a3
    rw [le_iff_key _ _ nt nB] at a4
    rw [Bool.or_eq_true, gt_iff_key _ _ na nB, gt_iff_key _ _ nb nA] at c1
    rcases c1 with h | h
    · exact absurd (le_trans a1 a4) (not_le.mpr h)
    · exact absurd (le_trans a3 a2) (not_le.mpr h)
  by_cases c2 : (Flt.gt (max (min X1 X2) (min Y1 Y2)) (max Z1 Z2) ||
          Flt.gt (min Z1 Z2) (min (max X1 X2) (max Y1 Y2))) = true
  · left
    rw [hdef, if_neg c1, if_pos c2]
    refine ⟨rfl, ?_⟩
    rintro t ⟨a1, a2, a3, a4, a5, a6⟩
    have nt := le_ne_nan_right _ _ a1
    rw [le_iff_key _ _ na nt] at a1
    rw [le_iff_key _ _ nt nA] at a2
    rw [le_iff_key _ _ nb nt] at a3
    rw [le_iff_key _ _ nt nB] at a4
    rw [le_iff_key _ _ nc nt] at a5
    rw [le_iff_key _ _ nt nC] at a6
    rw [Bool.or_eq_true, gt_iff_key _ _ nab nC, gt_iff_key _ _ nc nAB, kab, kAB] at c2
    rcases c2 with h | h
    · exact absurd (le_trans (max_le a1 a3) a6) (not_le.mpr h)
    · exact absurd (le_trans a5 (le_min a2 a4)) (not_le.mpr h)
  right
  have d1 := c1
  have d2 := c2
  rw [Bool.or_eq_true, gt_iff_key _ _ na nB, gt_iff_key _ _ nb nA, not_or, not_lt, not_lt] at c1
  rw [Bool.or_eq_true, gt_iff_key _ _ nab nC, gt_iff_key _ _ nc nAB, kab, kAB, not_or, not_lt,
    not_lt, max_le_iff, le_min_iff] at c2
  have hTM : key (max (max (min X1 X2) (min Y1 Y2)) (min Z1 Z2)) ≤
      key (min (min (max X1 X2) (max Y1 Y2)) (max Z1 Z2)) := by
    rw [kT, kM, kab, kAB]
    exact max_le (max_le (le_min (le_min aA c1.1) c2.1.1) (le_min (le_min c1.2 bB) c2.1.2))
      (le_min (le_min c2.2.1 c2.2.2) cC)
  have hres : intersect_box box cam dir = max (max (min X1 X2) (min Y1 Y2)) (min Z1 Z2) := by
    rw [hdef, if_neg d1, if_neg d2]
    apply key_inj _ _ (min_ne_nan _ _ nT nM) nT
    rw [key_min _ _ nT nM]
    exact min_eq_left hTM
  rw [hres]
  refine ⟨rfl, ?_, ?_, ?_, ?_, ?_, ?_⟩
  · rw [le_iff_key _ _ na nT, kT, kab]; exact le_max_of_le_left (le_max_left _ _)
  · rw [le_iff_key _ _ nT nA, kT, kab]; exact max_le (max_le aA c1.2) c2.2.1
  · rw [le_iff_key _ _ nb nT, kT, kab]; exact le_max_of_le_left (le_max_right _ _)
  · rw [le_iff_key _ _ nT nB, kT, kab]; exact max_le (max_le c1.1 bB) c2.2.2
  · rw [le_iff_key _ _ nc nT, kT]; exact le_max_right _ _
  · rw [le_iff_key _ _ nT nC, kT, kab]; exact max_le (max_le c2.1.1 c2.1.2) cC

end B32

/-! ## The binary32 routines when no operation rounds -/

namespace B32

theorem isFloat_zero : IsFloat 0 := round32_zero

/-- Every integer of magnitude below `2^24` is a binary32 value. -/
theorem isFloat_of_eq_int (x : ℚ) (m : ℤ) (h : x = (m : ℚ)) (hm : |m| < 2 ^ 24) : IsFloat x := by
  have := isFloat_int_mul m 0 hm (by norm_num) (by norm_num)
  rw [h]
  simpa using this

theorem fadd_exact (a b : ℚ) (h : IsFloat (a + b)) : fadd (fin a) (fin b) = fin (a + b) := by
  rw [fadd_fin]; exact h

theorem fsub_exact (a b : ℚ) (h : IsFloat (a - b)) : fsub (fin a) (fin b) = fin (a - b) := by
  rw [fsub_fin]; exact h

theorem fmul_exact (a b : ℚ) (h : IsFloat (a * b)) : fmul (fin a) (fin b) = fin (a * b) := by
  rw [fmul_fin]; exact h

theorem fdiv_exact (a b : ℚ) (hb : b ≠ 0) (h : IsFloat (a / b)) :
    fdiv (fin a) (fin b) = fin (a / b) := by
  rw [fdiv_fin _ _ hb]; exact h

theorem vec3_dot_exact (a b : Pt ℚ) (h : DotExact a b) :
    B32.vec3_dot a.toVec3 b.toVec3 = fin (Pt.dot a b) := by
  obtain ⟨h1, h2, h3, h4, h5⟩ := h
  simp only [B32.vec3_dot, Pt.toVec3, Pt.dot]
  rw [fmul_exact _ _ h1, fmul_exact _ _ h2, fmul_exact _ _ h3, fadd_exact _ _ h4,
    fadd_exact _ _ h5]

theorem vec3_sub_exact (a b : Pt ℚ) (h : SubExact a b) :
    B32.vec3_sub a.toVec3 b.toVec3 = (Pt.sub a b).toVec3 := by
  obtain ⟨h1, h2, h3⟩ := h
  simp only [B32.vec3_sub, Pt.toVec3, Pt.sub]
  rw [fsub_exact _ _ h1, fsub_exact _ _ h2, fsub_exact _ _ h3]

/-- The value of `intersect_plane` when none of its operations rounds. -/
theorem intersect_plane_exact (pos normal cam dir : Pt ℚ) (hdn : Pt.dot normal dir ≠ 0)
    (h : PlaneExact pos normal cam dir) :
    B32.intersect_plane ⟨pos.toVec3, normal.toVec3⟩ cam.toVec3 dir.toVec3 =
      fin ((Pt.dot normal pos - Pt.dot normal cam) / Pt.dot normal dir) := by
  obtain ⟨h1, h2, h3, h4, h5⟩ := h
  have hc : Pt.dot cam normal = Pt.dot normal cam := by simp only [Pt.dot]; ring
  simp only [B32.intersect_plane]
  rw [vec3_dot_exact _ _ h1, vec3_dot_exact _ _ h2, vec3_dot_exact _ _ h3,
    fsub_exact _ _ h4, fdiv_exact _ _ hdn h5, hc]

/-- The value of `intersect_sphere` when none of its operations rounds and
`sqrt` returns `s` at the discriminant. -/
theorem intersect_sphere_exact (L : Libm ℚ) (center cam dir : Pt ℚ) (radius s : ℚ)
    (ha : Pt.dot dir dir ≠ 0)
    (hsqrt : L.sqrt (fin (Pt.dot dir (Pt.sub cam center) * Pt.dot dir (Pt.sub cam center)
      - Pt.dot dir dir
        * (Pt.dot (Pt.sub cam center) (Pt.sub cam center) - radius * radius))) = fin s)
    (h : SphereExact center cam dir radius s) :
    B32.intersect_sphere L ⟨center.toVec3, fin radius⟩ cam.toVec3 dir.toVec3 =
      Raytracer.intersect_sphere L ⟨center.toVec3, fin radius⟩ cam.toVec3 dir.toVec3 := by
  obtain ⟨h1, h2, h3, h4, h5, h6, h7, h8, h9, h10, h11, h12, h13⟩ := h
  rw [intersect_sphere_fin L center cam dir radius s ha hsqrt]
  simp only [B32.intersect_sphere, B32.vec3_norm2]
  rw [vec3_sub_exact _ _ h1, vec3_dot_exact _ _ h2, vec3_dot_exact _ _ h3,
    vec3_dot_exact _ _ h4, fmul_exact _ _ h5, fmul_exact _ _ h6, fsub_exact _ _ h7,
    fmul_exact _ _ h8, fsub_exact _ _ h9, hsqrt, neg_fin, fadd_exact _ _ h10,
    fsub_exact _ _ h11, fdiv_exact _ _ ha h12, fdiv_exact _ _ ha h13, min_fin_fin]

/-- The quotients of `intersect_box` on an axis where no operation rounds. -/
theorem slab_exact (lo hi c d : ℚ) (hd : d ≠ 0) (h : SlabExact lo hi c d) :
    fdiv (fsub (fin lo) (fin c)) (fin d) = (fin lo - fin c) / fin d ∧
    fdiv (fsub (fin hi) (fin c)) (fin d) = (fin hi - fin c) / fin d := by
  obtain ⟨h1, h2, h3, h4⟩ := h
  rw [fsub_exact _ _ h1, fsub_exact _ _ h2, fdiv_exact _ _ hd h3, fdiv_exact _ _ hd h4,
    fin_sub_fin, fin_sub_fin, fin_div_fin _ _ hd, fin_div_fin _ _ hd]
  exact ⟨rfl, rfl⟩

/-- The routine `intersect_box` when none of its operations rounds. -/
theorem intersect_box_exact (bmin bmax cam dir : Pt ℚ)
    (hx : dir.x ≠ 0) (hy : dir.y ≠ 0) (hz : dir.z ≠ 0)
    (ex : SlabExact bmin.x bmax.x cam.x dir.x) (ey : SlabExact bmin.y bmax.y cam.y dir.y)
    (ez : SlabExact bmin.z bmax.z cam.z dir.z) :
    B32.intersect_box ⟨bmin.toVec3, bmax.toVec3⟩ cam.toVec3 dir.toVec3 =
      Raytracer.intersect_box ⟨bmin.toVec3, bmax.toVec3⟩ cam.toVec3 dir.toVec3 := by
  obtain ⟨x1, x2⟩ := slab_exact _ _ _ _ hx ex
  obtain ⟨y1, y2⟩ := slab_exact _ _ _ _ hy ey
  obtain ⟨z1, z2⟩ := slab_exact _ _ _ _ hz ez
  simp only [B32.intersect_box, Raytracer.intersect_box, Pt.toVec3, x1, x2, y1, y2, z1, z2]

/-- The value of `map` when none of its operations rounds. -/
theorem map_exact (a0 a1 b0 b1 x : ℚ) (ha : a0 ≠ a1) (h : MapExact a0 a1 b0 b1 x) :
    B32.map ⟨fin a0, fin a1⟩ ⟨fin b0, fin b1⟩ (fin x) =
      fin (b0 + (x - a0) * ((b1 - b0) / (a1 - a0))) := by
  obtain ⟨h1, h2, h3, h4, h5, h6⟩ := h
  have hne : a1 - a0 ≠ 0 := sub_ne_zero.mpr (Ne.symm ha)
  simp only [B32.map]
  rw [fsub_exact _ _ h1, fsub_exact _ _ h2, fsub_exact _ _ h3, fdiv_exact _ _ hne h4,
    fmul_exact _ _ h5, fadd_exact _ _ h6, add_comm]

end B32

/-! ## The slab intervals when no operation rounds -/

namespace B32

/-- Every multiple of a quarter with numerator below `2^24` is a binary32
value. -/
theorem isFloat_of_eq_quarters (x : ℚ) (m : ℤ) (h : x = (m : ℚ) / 4) (hm : |m| < 2 ^ 24) :
    IsFloat x := by
  have := isFloat_int_mul m (-2) hm (by norm_num) (by norm_num)
  rw [h]
  have e : (m : ℚ) * 2 ^ (-2 : ℤ) = (m : ℚ) / 4 := by
    rw [zpow_neg, div_eq_mul_inv]
    norm_num
  rwa [e] at this

theorem le_fin_fin (x y : ℚ) : le (fin x) (fin y) = decide (x ≤ y) := rfl

/-- The computed interval of an axis on which no operation rounds is the
exact slab interval. -/
theorem box_interval_exact (lo hi c d : ℚ) (hd : d ≠ 0) (h : SlabExact lo hi c d) :
    box_tmin (fin lo) (fin hi) (fin c) (fin d) = fin (slabNear lo hi c d) ∧
    box_tmax (fin lo) (fin hi) (fin c) (fin d) = fin (slabFar lo hi c d) := by
  obtain ⟨h1, h2, h3, h4⟩ := h
  unfold box_tmin box_tmax slabNear slabFar
  rw [fsub_exact _ _ h1, fsub_exact _ _ h2, fdiv_exact _ _ hd h3, fdiv_exact _ _ hd h4,
    min_fin_fin, max_fin_fin]
  exact ⟨rfl, rfl⟩

end B32

/-! ## Rounding is monotone -/

namespace B32

theorem quantum_neg (x : ℚ) : quantum (-x) = quantum x := by
  unfold quantum
  rw [abs_neg]

theorem nearest_neg (x : ℚ) : nearest (-x) = -nearest x := by
  unfold nearest
  rw [quantum_neg, neg_div, rne_neg]
  push_cast
  ring

theorem nearest_zero : nearest 0 = 0 := by
  unfold nearest
  rw [zero_div]
  have : rne (0 : ℚ) = 0 := by simpa using rne_intCast 0
  rw [this]
  simp

theorem nearest_nonneg (x : ℚ) (h : 0 ≤ x) : 0 ≤ nearest x := by
  unfold nearest
  have hp : (0 : ℚ) < 2 ^ quantum x := by positivity
  have := rne_nonneg (x / 2 ^ quantum x) (div_nonneg h (le_of_lt hp))
  have h2 : (0 : ℚ) ≤ (rne (x / 2 ^ quantum x) : ℚ) := by exact_mod_cast this
  exact mul_nonneg h2 (le_of_lt hp)

theorem quantum_mono (x y : ℚ) (hx : 0 < x) (h : x ≤ y) : quantum x ≤ quantum y := by
  unfold quantum
  have h1 : Int.log 2 |x| ≤ Int.log 2 |y| := by
    rw [abs_of_pos hx, abs_of_pos (lt_of_lt_of_le hx h)]
    exact Int.log_mono_right hx h
  have := max_le_max_right (-126) h1
  omega

theorem nearest_mono_pos (x y : ℚ) (hx : 0 < x) (h : x ≤ y) : nearest x ≤ nearest y := by
  have hy : 0 < y := lt_of_lt_of_le hx h
  have hq := quantum_mono x y hx h
  have hpx : (0 : ℚ) < 2 ^ quantum x := by positivity
  have hpy : (0 : ℚ) < 2 ^ quantum y := by positivity
  rcases eq_or_lt_of_le hq with heq | hlt
  · unfold nearest
    rw [← heq]
    apply mul_le_mul_of_nonneg_right _ (le_of_lt hpx)
    have := rne_mono (x / 2 ^ quantum x) (y / 2 ^ quantum x)
      (div_le_div_of_nonneg_right h (le_of_lt hpx))
    exact_mod_cast this
  · -- different spacings: a power of two lies between the rounded values
    have hey : quantum y = Int.log 2 |y| - 23 := by
      unfold quantum at hlt ⊢
      rcases max_cases (Int.log 2 |y|) (-126) with ⟨e, _⟩ | ⟨e, _⟩
      · rw [e]
      · exfalso
        rw [e] at hlt
        have := le_max_right (Int.log 2 |x|) (-126)
        omega
    have hex : Int.log 2 |x| + 1 ≤ quantum x + 24 := by
      unfold quantum
      have := le_max_left (Int.log 2 |x|) (-126)
      omega
    -- upper bound for nearest x
    have ux : x < (2 : ℚ) ^ (quantum x + 24) := by
      have h1 : x < (2 : ℚ) ^ (Int.log 2 |x| + 1) :=
        lt_of_le_of_lt (le_abs_self x) (lt_zpow_log x)
      exact lt_of_lt_of_le h1 (zpow_le_zpow_right₀ (by norm_num) hex)
    have ux2 : x / 2 ^ quantum x < ((2 ^ 24 : ℤ) : ℚ) := by
      rw [div_lt_iff₀ hpx]
      have : (2 : ℚ) ^ (quantum x + 24) = ((2 ^ 24 : ℤ) : ℚ) * 2 ^ quantum x := by
        rw [zpow_add₀ (by norm_num)]
        push_cast
        norm_num
        ring
      rw [← this]
      exact ux
    have rx := rne_le_int _ _ (le_of_lt ux2)
    have nx : nearest x ≤ (2 : ℚ) ^ (quantum x + 24) := by
      unfold nearest
      have : (2 : ℚ) ^ (quantum x + 24) = ((2 ^ 24 : ℤ) : ℚ) * 2 ^ quantum x := by
        rw [zpow_add₀ (by norm_num)]
        push_cast
        norm_num
        ring
      rw [this]
      apply mul_le_mul_of_nonneg_right _ (le_of_lt hpx)
      exact_mod_cast rx
    -- lower bound for nearest y
    have ly : (2 : ℚ) ^ (quantum y + 23) ≤ y := by
      have h1 : (2 : ℚ) ^ Int.log 2 |y| ≤ y :=
        le_of_le_of_eq (zpow_log_le y (ne_of_gt hy)) (abs_of_pos hy)
      have : quantum y + 23 = Int.log 2 |y| := by omega
      rw [this]
      exact h1
    have ly2 : ((2 ^ 23 : ℤ) : ℚ) ≤ y / 2 ^ quantum y := by
      rw [le_div_iff₀ hpy]
      have : (2 : ℚ) ^ (quantum y + 23) = ((2 ^ 23 : ℤ) : ℚ) * 2 ^ quantum y := by
        rw [zpow_add₀ (by norm_num)]
        push_cast
        norm_num
        ring
      rw [← this]
      exact ly
    have ry := int_le_rne _ _ ly2
    have ny : (2 : ℚ) ^ (quantum y + 23) ≤ nearest y := by
      unfold nearest
      have : (2 : ℚ) ^ (quantum y + 23) = ((2 ^ 23 : ℤ) : ℚ) * 2 ^ quantum y := by
        rw [zpow_add₀ (by norm_num)]
        push_cast
        norm_num
        ring
      rw [this]
      apply mul_le_mul_of_nonneg_right _ (le_of_lt hpy)
      exact_mod_cast ry
    calc nearest x ≤ (2 : ℚ) ^ (quantum x + 24) := nx
      _ ≤ (2 : ℚ) ^ (quantum y + 23) := zpow_le_zpow_right₀ (by norm_num) (by omega)
      _ ≤ nearest y := ny

/-- The nearest multiple of the spacing is monotone. -/
theorem nearest_mono (x y : ℚ) (h : x ≤ y) : nearest x ≤ nearest y := by
  rcases lt_trichotomy x 0 with hx | hx | hx
  · rcases lt_or_le y 0 with hy | hy
    · have := nearest_mono_pos (-y) (-x) (by linarith) (by linarith)
      rw [nearest_neg, nearest_neg] at this
      linarith
    · have h1 := nearest_nonneg (-x) (by linarith)
      rw [nearest_neg] at h1
      have h2 := nearest_nonneg y hy
      linarith
  · rw [hx, nearest_zero]
    exact nearest_nonneg y (by linarith)
  · exact nearest_mono_pos x y hx h

/-- The value of `round32` through `nearest`. -/
theorem round32_eq_nearest (x : ℚ) :
    round32 x = if (2 : ℚ) ^ (128 : ℕ) ≤ nearest x then pinf
      else if nearest x ≤ -(2 : ℚ) ^ (128 : ℕ) then ninf else fin (nearest x) := by
  have hp : (0 : ℚ) < 2 ^ (128 : ℕ) := by positivity
  by_cases h0 : x = 0
  · rw [h0, round32_zero, nearest_zero, if_neg (not_le.mpr hp), if_neg (by linarith)]
  have hr : round32 x = if (2 : ℚ) ^ (128 : ℕ) ≤ |nearest x| then
      (if 0 < x then pinf else ninf) else fin (nearest x) := by
    unfold round32 nearest
    rw [if_neg h0]
  rw [hr]
  rcases lt_or_gt_of_ne h0 with hneg | hpos
  · have hn : nearest x ≤ 0 := by
      have := nearest_nonneg (-x) (by linarith)
      rw [nearest_neg] at this
      linarith
    rw [abs_of_nonpos hn, if_neg (not_lt.mpr (le_of_lt hneg)),
      if_neg (not_le.mpr (lt_of_le_of_lt hn hp))]
    by_cases c : nearest x ≤ -(2 : ℚ) ^ (128 : ℕ)
    · rw [if_pos c, if_pos (by linarith)]
    · rw [if_neg c, if_neg (by linarith)]
  · have hn : 0 ≤ nearest x := nearest_nonneg x (le_of_lt hpos)
    rw [abs_of_nonneg hn, if_pos hpos]
    by_cases c : (2 : ℚ) ^ (128 : ℕ) ≤ nearest x
    · rw [if_pos c, if_pos c]
    · rw [if_neg c, if_neg c, if_neg (by linarith)]

/-- Rounding to binary32 is monotone. -/
theorem round32_mono (x y : ℚ) (h : x ≤ y) : key (round32 x) ≤ key (round32 y) := by
  have hn := nearest_mono x y h
  have hp : (0 : ℚ) < 2 ^ (128 : ℕ) := by positivity
  rw [round32_eq_nearest x, round32_eq_nearest y]
  by_cases c1 : (2 : ℚ) ^ (128 : ℕ) ≤ nearest y
  · rw [if_pos c1]
    show _ ≤ ((⊤ : WithTop ℚ) : WithBot (WithTop ℚ))
    rw [WithBot.coe_top]
    exact le_top
  rw [if_neg c1, if_neg (fun c => c1 (le_trans c hn))]
  by_cases c2 : nearest x ≤ -(2 : ℚ) ^ (128 : ℕ)
  · rw [if_pos c2]
    exact bot_le
  rw [if_neg c2, if_neg (fun c => c2 (le_trans hn c))]
  show ((nearest x : WithTop ℚ) : WithBot (WithTop ℚ)) ≤ ((nearest y : WithTop ℚ) : WithBot _)
  exact WithBot.coe_le_coe.mpr (WithTop.coe_le_coe.mpr hn)

end B32

/-! ## The sensor points of the default render -/

namespace B32

/-- The global ranges of `main`: the framebuffer ranges are `(0, 512)`, the
sensor ranges `(-w/2, w/2)` and `(w/2, -w/2)` with `w = 0.028f`. -/
theorem main_globals_eval :
    B32.main_globals = ⟨⟨fin 0, fin 512⟩, ⟨fin 0, fin 512⟩,
      ⟨fin (-(7516193 / 536870912)), fin (7516193 / 536870912)⟩, ⟨fin (7516193 / 536870912), fin
          (-(7516193 / 536870912))⟩⟩ := by
  have s1 : B32.ofNat 512 = fin 512 := by
      unfold B32.ofNat
      rw [Nat.cast_ofNat]
      exact round32_pos _ _ 9 8388608 (-14) (by norm_num) (by norm_num) (by norm_num) (by norm_num)
          (by norm_num) (by norm_num) (by norm_num) (by norm_num)
  have s2 : fdiv (fin 512) (fin 512) = fin 1 := by
      rw [fdiv_fin _ _ (by norm_num)]
      exact round32_pos _ _ 0 8388608 (-23) (by norm_num) (by norm_num) (by norm_num) (by norm_num)
          (by norm_num) (by norm_num) (by norm_num) (by norm_num)
  have s3 : round32 (28 / 1000) = fin (7516193 / 268435456) := by
      exact round32_pos _ _ (-6) 15032386 (-29) (by norm_num) (by norm_num) (by norm_num) (by
          norm_num) (by norm_num) (by norm_num) (by norm_num) (by norm_num)
  have s4 : fdiv (fin (7516193 / 268435456)) (fin 1) = fin (7516193 / 268435456) := by
      rw [fdiv_fin _ _ (by norm_num)]
      exact round32_pos _ _ (-6) 15032386 (-29) (by norm_num) (by norm_num) (by norm_num) (by
          norm_num) (by norm_num) (by norm_num) (by norm_num) (by norm_num)
  have s5 : (-(fin (7516193 / 268435456)) : Flt ℚ) = fin (-(7516193 / 268435456)) := by
      simp only [neg_fin, neg_neg, neg_zero]
  have s6 : fdiv (fin (-(7516193 / 268435456))) (fin 2) = fin (-(7516193 / 536870912)) := by
      rw [fdiv_fin _ _ (by norm_num)]
      exact round32_neg _ _ (-7) (-15032386) (-30) (by norm_num) (by norm_num) (by norm_num) (by
          norm_num) (by norm_num) (by norm_num) (by norm_num) (by norm_num)
  have s7 : fdiv (fin (7516193 / 268435456)) (fin 2) = fin (7516193 / 536870912) := by
      rw [fdiv_fin _ _ (by norm_num)]
      exact round32_pos _ _ (-7) 15032386 (-30) (by norm_num) (by norm_num) (by norm_num) (by
          norm_num) (by norm_num) (by norm_num) (by norm_num) (by norm_num)
  have s8 : fsub (fin (7516193 / 536870912)) (fin (-(7516193 / 536870912))) = fin (7516193 /
      268435456) := by
      rw [fsub_fin]
      exact round32_pos _ _ (-6) 15032386 (-29) (by norm_num) (by norm_num) (by norm_num) (by
          norm_num) (by norm_num) (by norm_num) (by norm_num) (by norm_num)
  have s9 : fsub (fin 512) (fin 0) = fin 512 := by
      rw [fsub_fin]
      exact round32_pos _ _ 9 8388608 (-14) (by norm_num) (by norm_num) (by norm_num) (by norm_num)
          (by norm_num) (by norm_num) (by norm_num) (by norm_num)
  have s10 : fdiv (fin (7516193 / 268435456)) (fin 512) = fin (7516193 / 137438953472) := by
      rw [fdiv_fin _ _ (by norm_num)]
      exact round32_pos _ _ (-15) 15032386 (-38) (by norm_num) (by norm_num) (by norm_num) (by
          norm_num) (by norm_num) (by norm_num) (by norm_num) (by norm_num)
  have s11 : fsub (fin (-(7516193 / 536870912))) (fin (7516193 / 536870912)) = fin (-(7516193 /
      268435456)) := by
      rw [fsub_fin]
      exact round32_neg _ _ (-6) (-15032386) (-29) (by norm_num) (by norm_num) (by norm_num) (by
          norm_num) (by norm_num) (by norm_num) (by norm_num) (by norm_num)
  have s12 : fdiv (fin (-(7516193 / 268435456))) (fin 512) = fin (-(7516193 / 137438953472)) := by
      rw [fdiv_fin _ _ (by norm_num)]
      exact round32_neg _ _ (-15) (-15032386) (-38) (by norm_num) (by norm_num) (by norm_num) (by
          norm_num) (by norm_num) (by norm_num) (by norm_num) (by norm_num)
  simp only [B32.main_globals, FB_WIDTH, FB_HEIGHT, B32.WIDTH,
      s1, s2, s3, s4, s5, s6, s7, s8, s9, s10, s11, s12]

/-- The slopes that `map` computes for the two default mappings: `w / 512`
and `-w / 512`, exactly. -/
theorem main_slopes :
    fdiv (fsub (fin (7516193 / 536870912)) (fin (-(7516193 / 536870912)))) (fsub (fin 512) (fin 0))
        = fin (7516193 / 137438953472)
    ∧ fdiv (fsub (fin (-(7516193 / 536870912))) (fin (7516193 / 536870912))) (fsub (fin 512) (fin
        0)) = fin (-(7516193 / 137438953472)) := by
  have s1 : B32.ofNat 512 = fin 512 := by
      unfold B32.ofNat
      rw [Nat.cast_ofNat]
      exact round32_pos _ _ 9 8388608 (-14) (by norm_num) (by norm_num) (by norm_num) (by norm_num)
          (by norm_num) (by norm_num) (by norm_num) (by norm_num)
  have s2 : fdiv (fin 512) (fin 512) = fin 1 := by
      rw [fdiv_fin _ _ (by norm_num)]
      exact round32_pos _ _ 0 8388608 (-23) (by norm_num) (by norm_num) (by norm_num) (by norm_num)
          (by norm_num) (by norm_num) (by norm_num) (by norm_num)
  have s3 : round32 (28 / 1000) = fin (7516193 / 268435456) := by
      exact round32_pos _ _ (-6) 15032386 (-29) (by norm_num) (by norm_num) (by norm_num) (by
          norm_num) (by norm_num) (by norm_num) (by norm_num) (by norm_num)
  have s4 : fdiv (fin (7516193 / 268435456)) (fin 1) = fin (7516193 / 268435456) := by
      rw [fdiv_fin _ _ (by norm_num)]
      exact round32_pos _ _ (-6) 15032386 (-29) (by norm_num) (by norm_num) (by norm_num) (by
          norm_num) (by norm_num) (by norm_num) (by norm_num) (by norm_num)
  have s5 : (-(fin (7516193 / 268435456)) : Flt ℚ) = fin (-(7516193 / 268435456)) := by
      simp only [neg_fin, neg_neg, neg_zero]
  have s6 : fdiv (fin (-(7516193 / 268435456))) (fin 2) = fin (-(7516193 / 536870912)) := by
      rw [fdiv_fin _ _ (by norm_num)]
      exact round32_neg _ _ (-7) (-15032386) (-30) (by norm_num) (by norm_num) (by norm_num) (by
          norm_num) (by norm_num) (by norm_num) (by norm_num) (by norm_num)
  have s7 : fdiv (fin (7516193 / 268435456)) (fin 2) = fin (7516193 / 536870912) := by
      rw [fdiv_fin _ _ (by norm_num)]
      exact round32_pos _ _ (-7) 15032386 (-30) (by norm_num) (by norm_num) (by norm_num) (by
          norm_num) (by norm_num) (by norm_num) (by norm_num) (by norm_num)
  have s8 : fsub (fin (7516193 / 536870912)) (fin (-(7516193 / 536870912))) = fin (7516193 /
      268435456) := by
      rw [fsub_fin]
      exact round32_pos _ _ (-6) 15032386 (-29) (by norm_num) (by norm_num) (by norm_num) (by
          norm_num) (by norm_num) (by norm_num) (by norm_num) (by norm_num)
  have s9 : fsub (fin 512) (fin 0) = fin 512 := by
      rw [fsub_fin]
      exact round32_pos _ _ 9 8388608 (-14) (by norm_num) (by norm_num) (by norm_num) (by norm_num)
          (by norm_num) (by norm_num) (by norm_num) (by norm_num)
  have s10 : fdiv (fin (7516193 / 268435456)) (fin 512) = fin (7516193 / 137438953472) := by
      rw [fdiv_fin _ _ (by norm_num)]
      exact round32_pos _ _ (-15) 15032386 (-38) (by norm_num) (by norm_num) (by norm_num) (by
          norm_num) (by norm_num) (by norm_num) (by norm_num) (by norm_num)
  have s11 : fsub (fin (-(7516193 / 536870912))) (fin (7516193 / 536870912)) = fin (-(7516193 /
      268435456)) := by
      rw [fsub_fin]
      exact round32_neg _ _ (-6) (-15032386) (-29) (by norm_num) (by norm_num) (by norm_num) (by
          norm_num) (by norm_num) (by norm_num) (by norm_num) (by norm_num)
  have s12 : fdiv (fin (-(7516193 / 268435456))) (fin 512) = fin (-(7516193 / 137438953472)) := by
      rw [fdiv_fin _ _ (by norm_num)]
      exact round32_neg _ _ (-15) (-15032386) (-38) (by norm_num) (by norm_num) (by norm_num) (by
          norm_num) (by norm_num) (by norm_num) (by norm_num) (by norm_num)
  constructor
  · simp only [
      s1, s2, s3, s4, s5, s6, s7, s8, s9, s10, s11, s12]
  · simp only [
      s1, s2, s3, s4, s5, s6, s7, s8, s9, s10, s11, s12]

/-- The third component of `dif` in the default render: `FOCAL_LENGTH - 0`,
the binary32 value `-0.024f`, and its square as computed. -/
theorem focal_eval :
    B32.FOCAL_LENGTH = fin (-(6442451 / 268435456)) ∧ fsub (fin (-(6442451 / 268435456))) (fin 0) =
        fin (-(6442451 / 268435456))
    ∧ fmul (fin (-(6442451 / 268435456))) (fin (-(6442451 / 268435456))) = fin (9895605 /
        17179869184) := by
  have s1 : round32 (24 / 1000) = fin (6442451 / 268435456) := by
      exact round32_pos _ _ (-6) 12884902 (-29) (by norm_num) (by norm_num) (by norm_num) (by
          norm_num) (by norm_num) (by norm_num) (by norm_num) (by norm_num)
  have s2 : (-(fin (6442451 / 268435456)) : Flt ℚ) = fin (-(6442451 / 268435456)) := by
      simp only [neg_fin, neg_neg, neg_zero]
  have s3 : fsub (fin (-(6442451 / 268435456))) (fin 0) = fin (-(6442451 / 268435456)) := by
      rw [fsub_fin]
      exact round32_neg _ _ (-6) (-12884902) (-29) (by norm_num) (by norm_num) (by norm_num) (by
          norm_num) (by norm_num) (by norm_num) (by norm_num) (by norm_num)
  have s4 : fmul (fin (-(6442451 / 268435456))) (fin (-(6442451 / 268435456))) = fin (9895605 /
      17179869184) := by
      rw [fmul_fin]
      exact round32_pos _ _ (-11) 9895605 (-34) (by norm_num) (by norm_num) (by norm_num) (by
          norm_num) (by norm_num) (by norm_num) (by norm_num) (by norm_num)
  refine ⟨?_, s3, s4⟩
  simp only [B32.FOCAL_LENGTH,
      s1, s2, s3, s4]

/-- The argument `x + rr->pos[0] + 0.5f` of `map` is exact: the centre of the
pixel column. -/
theorem pixel_centre (X px : ℕ) (h : X + px < 512) :
    fadd (fadd (B32.ofNat px) (B32.ofNat X)) (fin (1 / 2)) = fin (((X + px : ℕ) : ℚ) + 1 / 2)
    ∧ IsFloat (((X + px : ℕ) : ℚ) + 1 / 2) := by
  have h1 : IsFloat (px : ℚ) := isFloat_nat px (by omega)
  have h2 : IsFloat (X : ℚ) := isFloat_nat X (by omega)
  have h3 : IsFloat (((px + X : ℕ) : ℚ)) := isFloat_nat (px + X) (by omega)
  have h4 : IsFloat (((px + X : ℕ) : ℚ) + 1 / 2) := isFloat_nat_half (px + X) (by omega)
  have e : ((X + px : ℕ) : ℚ) = ((px + X : ℕ) : ℚ) := by rw [Nat.add_comm]
  rw [e]
  refine ⟨?_, h4⟩
  unfold B32.ofNat
  rw [h1, h2, fadd_fin]
  have e2 : (px : ℚ) + (X : ℚ) = ((px + X : ℕ) : ℚ) := by push_cast; ring
  rw [e2, h3, fadd_fin]
  exact h4

/-- The value of `map` from the source range `(0, a1)` at a binary32 value
`c`, when the computed slope is `σ`, the product `c * σ` is below `2^(-5)` and
the sum with `b0` below `2^(-6)`: it differs from `c * σ + b0` by at most
`3 * 2^(-31)`. -/
theorem map_bound (a1 b0 b1 σ c : ℚ)
    (hs : fdiv (fsub (fin b1) (fin b0)) (fsub (fin a1) (fin 0)) = fin σ)
    (hc : IsFloat c) (h1 : |c * σ| < 1 / 32)
    (h2 : ∀ u : ℚ, |u - c * σ| ≤ 1 / 1073741824 → |u + b0| < 1 / 64) :
    ∃ p : ℚ, B32.map ⟨fin 0, fin a1⟩ ⟨fin b0, fin b1⟩ (fin c) = fin p
      ∧ |p - (c * σ + b0)| ≤ 3 / 2147483648 ∧ |p| ≤ 1 / 64 := by
  have e5 : (2 : ℚ) ^ (-5 : ℤ) = 1 / 32 := by norm_num
  have e6 : (2 : ℚ) ^ (-6 : ℤ) = 1 / 64 := by norm_num
  have e30 : (2 : ℚ) ^ ((-5 : ℤ) - 25) = 1 / 1073741824 := by norm_num
  have e31 : (2 : ℚ) ^ ((-6 : ℤ) - 25) = 1 / 2147483648 := by norm_num
  obtain ⟨u, hu, eu, -⟩ := round32_error (c * σ) (-5) (by norm_num) (by norm_num)
    (by rw [e5]; exact h1)
  rw [e30] at eu
  obtain ⟨p, hp, ep, bp⟩ := round32_error (u + b0) (-6) (by norm_num) (by norm_num)
    (by rw [e6]; exact h2 u eu)
  rw [e31] at ep
  rw [e6] at bp
  refine ⟨p, ?_, ?_, bp⟩
  · simp only [B32.map]
    rw [hs, fsub_fin, sub_zero, hc, fmul_fin, hu, fadd_fin, hp]
  · rw [abs_le] at eu ep ⊢
    constructor <;> linarith [eu.1, eu.2, ep.1, ep.2]

/-- The sensor x coordinate of a pixel column of the default render: within
`3 * 2^(-31)` of `(g + 1/2) * (w / 512) - w / 2`. -/
theorem sensor_x_bound (X Y i px : ℕ) (h : X + px < 512) :
    ∃ p : ℚ, (B32.pixel_proj B32.main_globals (B32.main_rr X Y) i px).e0 = fin p
      ∧ |p - ((((X + px : ℕ) : ℚ) + 1 / 2) * (7516193 / 137438953472) + -(7516193 / 536870912))| ≤
          3 / 2147483648
      ∧ |p| ≤ 1 / 64 := by
  obtain ⟨hc, hf⟩ := pixel_centre X px h
  have hg0 : (0 : ℚ) ≤ ((X + px : ℕ) : ℚ) := Nat.cast_nonneg _
  have hg1 : ((X + px : ℕ) : ℚ) ≤ 511 := by
    have : X + px ≤ 511 := by omega
    exact_mod_cast this
  have hm := map_bound 512 (-(7516193 / 536870912)) (7516193 / 536870912) (7516193 / 137438953472)
      (((X + px : ℕ) : ℚ) + 1 / 2)
    main_slopes.1 hf
    (by rw [abs_lt]; constructor <;> linarith)
    (by
      intro u hu
      rw [abs_le] at hu
      rw [abs_lt]
      constructor <;> linarith [hu.1, hu.2])
  simp only [B32.pixel_proj, main_globals_eval, B32.main_rr, hc]
  exact hm

/-- The sensor y coordinate of a pixel row of the default render: within
`3 * 2^(-31)` of `w / 2 - (g + 1/2) * (w / 512)`. -/
theorem sensor_y_bound (X Y i px : ℕ) (h : Y + i < 512) :
    ∃ p : ℚ, (B32.pixel_proj B32.main_globals (B32.main_rr X Y) i px).e1 = fin p
      ∧ |p - ((((Y + i : ℕ) : ℚ) + 1 / 2) * (-(7516193 / 137438953472)) + 7516193 / 536870912)| ≤ 3
          / 2147483648
      ∧ |p| ≤ 1 / 64 := by
  obtain ⟨hc, hf⟩ := pixel_centre Y i h
  have hg0 : (0 : ℚ) ≤ ((Y + i : ℕ) : ℚ) := Nat.cast_nonneg _
  have hg1 : ((Y + i : ℕ) : ℚ) ≤ 511 := by
    have : Y + i ≤ 511 := by omega
    exact_mod_cast this
  have hm := map_bound 512 (7516193 / 536870912) (-(7516193 / 536870912)) (-(7516193 /
      137438953472)) (((Y + i : ℕ) : ℚ) + 1 / 2)
    main_slopes.2 hf
    (by rw [abs_lt]; constructor <;> linarith)
    (by
      intro u hu
      rw [abs_le] at hu
      rw [abs_lt]
      constructor <;> linarith [hu.1, hu.2])
  simp only [B32.pixel_proj, main_globals_eval, B32.main_rr, hc]
  exact hm

end B32

/-! ## Correctly rounded square roots -/

namespace B32

/-- The rounded square root of a value is unique. -/
theorem isRoot32_unique (v r r' : ℚ) (h : IsRoot32 v r) (h' : IsRoot32 v r') : r = r' := by
  obtain ⟨lo, hi, l0, h0, l1, h1, rl, rh⟩ := h
  obtain ⟨lo', hi', l0', h0', l1', h1', rl', rh'⟩ := h'
  have key_fin : ∀ a b : ℚ, key (fin a) ≤ key (fin b) → a ≤ b := by
    intro a b hab
    have h2 : ((a : WithTop ℚ) : WithBot (WithTop ℚ)) ≤ ((b : WithTop ℚ) : WithBot _) := hab
    rwa [WithBot.coe_le_coe, WithTop.coe_le_coe] at h2
  have le_of_sq : ∀ a b : ℚ, 0 ≤ a → 0 ≤ b → a * a ≤ b * b → a ≤ b := by
    intro a b ha hb hab
    by_contra hc
    have hlt : b < a := not_le.mp hc
    have : b * b < a * a := mul_self_lt_mul_self hb hlt
    linarith
  have a1 : lo ≤ hi' := le_of_sq lo hi' l0 h0' (le_trans l1 h1')
  have a2 : lo' ≤ hi := le_of_sq lo' hi l0' h0 (le_trans l1' h1)
  have b1 := round32_mono lo hi' a1
  have b2 := round32_mono lo' hi a2
  rw [rl, rh'] at b1
  rw [rl', rh] at b2
  exact le_antisymm (key_fin _ _ b1) (key_fin _ _ b2)

end B32

/-! ## C4: the roots of the sphere routine -/

section SphereRoots
open B32

/-- C4, counterexample: the sphere of `main` (centre `(0, 0, -3)`, radius 1),
the origin as ray origin and the direction `(0, 1, -3)`.  Exactly and as
computed, `q = (0, 0, 3)`, `a = dot(dir, dir) = 10 > 0`, `dot(dir, q) = -9` and
the discriminant is `81 - 10 * 8 = 1 ≥ 0`, with the square root 1.  The routine
returns `fl(8 / 10) = 0.800000011920929`, which is not `(-dot(dir, q) - sqrt(D)) / a
= 4 / 5`; the squared distance of the point `origin + t * dir` to the centre is
not `radius^2 = 1`, and neither is it when the point and the distance are
computed in binary32 (`0.9999999403953552`). -/
theorem C4_sphere_roots_counterexample :
    B32.vec3_norm2 ⟨fin 0, fin 1, fin (-3)⟩ = fin 10
    ∧ B32.sphere_delta B32.main_s ⟨fin 0, fin 0, fin 0⟩ ⟨fin 0, fin 1, fin (-3)⟩ = fin 1
    ∧ (0 < Pt.dot (⟨0, 1, -3⟩ : Pt ℚ) (⟨0, 1, -3⟩ : Pt ℚ)
      ∧ Pt.dot (⟨0, 1, -3⟩ : Pt ℚ) (Pt.sub (⟨0, 0, 0⟩ : Pt ℚ) (⟨0, 0, -3⟩ : Pt ℚ)) ^ 2 - Pt.dot
          (⟨0, 1, -3⟩ : Pt ℚ) (⟨0, 1, -3⟩ : Pt ℚ)
          * (Pt.dot (Pt.sub (⟨0, 0, 0⟩ : Pt ℚ) (⟨0, 0, -3⟩ : Pt ℚ)) (Pt.sub (⟨0, 0, 0⟩ : Pt ℚ) (⟨0,
              0, -3⟩ : Pt ℚ)) - 1 ^ 2) = 1)
    ∧ B32.intersect_sphere ratLibm B32.main_s ⟨fin 0, fin 0, fin 0⟩ ⟨fin 0, fin 1, fin (-3)⟩ = fin
        (13421773 / 16777216)
    ∧ (13421773 / 16777216 : ℚ) ≠ (-Pt.dot (⟨0, 1, -3⟩ : Pt ℚ) (Pt.sub (⟨0, 0, 0⟩ : Pt ℚ) (⟨0, 0,
        -3⟩ : Pt ℚ)) - 1) / Pt.dot (⟨0, 1, -3⟩ : Pt ℚ) (⟨0, 1, -3⟩ : Pt ℚ)
    ∧ Pt.dot (Pt.sub (Pt.ray (⟨0, 0, 0⟩ : Pt ℚ) (⟨0, 1, -3⟩ : Pt ℚ) (13421773 / 16777216)) (⟨0, 0,
        -3⟩ : Pt ℚ))
        (Pt.sub (Pt.ray (⟨0, 0, 0⟩ : Pt ℚ) (⟨0, 1, -3⟩ : Pt ℚ) (13421773 / 16777216)) (⟨0, 0, -3⟩ :
            Pt ℚ)) ≠ 1 ^ 2
    ∧ B32.vec3_norm2 (B32.vec3_sub (B32.ray ⟨fin 0, fin 0, fin 0⟩ ⟨fin 0, fin 1, fin (-3)⟩ (fin
        (13421773 / 16777216)))
        B32.main_s.pos) = fin (16777215 / 16777216)
    ∧ fmul B32.main_s.radius B32.main_s.radius = fin 1
    ∧ (16777215 / 16777216 : ℚ) ≠ 1 := by
  have s1 : fsub (fin 0) (fin 0) = fin 0 := by
      rw [fsub_fin]
      rw [show ((0 : ℚ) - (0) = 0) by norm_num]
      exact round32_zero
  have s2 : fsub (fin 0) (fin (-3)) = fin 3 := by
      rw [fsub_fin]
      exact round32_pos _ _ 1 12582912 (-22) (by norm_num) (by norm_num) (by norm_num) (by
          norm_num) (by norm_num) (by norm_num) (by norm_num) (by norm_num)
  have s3 : fmul (fin 0) (fin 0) = fin 0 := by
      rw [fmul_fin]
      rw [show ((0 : ℚ) * (0) = 0) by norm_num]
      exact round32_zero
  have s4 : fmul (fin 1) (fin 1) = fin 1 := by
      rw [fmul_fin]
      exact round32_pos _ _ 0 8388608 (-23) (by norm_num) (by norm_num) (by norm_num) (by norm_num)
          (by norm_num) (by norm_num) (by norm_num) (by norm_num)
  have s5 : fadd (fin 0) (fin 1) = fin 1 := by
      rw [fadd_fin]
      exact round32_pos _ _ 0 8388608 (-23) (by norm_num) (by norm_num) (by norm_num) (by norm_num)
          (by norm_num) (by norm_num) (by norm_num) (by norm_num)
  have s6 : fmul (fin (-3)) (fin (-3)) = fin 9 := by
      rw [fmul_fin]
      exact round32_pos _ _ 3 9437184 (-20) (by norm_num) (by norm_num) (by norm_num) (by norm_num)
          (by norm_num) (by norm_num) (by norm_num) (by norm_num)
  have s7 : fadd (fin 1) (fin 9) = fin 10 := by
      rw [fadd_fin]
      exact round32_pos _ _ 3 10485760 (-20) (by norm_num) (by norm_num) (by norm_num) (by
          norm_num) (by norm_num) (by norm_num) (by norm_num) (by norm_num)
  have s8 : fmul (fin 1) (fin 0) = fin 0 := by
      rw [fmul_fin]
      rw [show ((1 : ℚ) * (0) = 0) by norm_num]
      exact round32_zero
  have s9 : fadd (fin 0) (fin 0) = fin 0 := by
      rw [fadd_fin]
      rw [show ((0 : ℚ) + (0) = 0) by norm_num]
      exact round32_zero
  have s10 : fmul (fin (-3)) (fin 3) = fin (-9) := by
      rw [fmul_fin]
      exact round32_neg _ _ 3 (-9437184) (-20) (by norm_num) (by norm_num) (by norm_num) (by
          norm_num) (by norm_num) (by norm_num) (by norm_num) (by norm_num)
  have s11 : fadd (fin 0) (fin (-9)) = fin (-9) := by
      rw [fadd_fin]
      exact round32_neg _ _ 3 (-9437184) (-20) (by norm_num) (by norm_num) (by norm_num) (by
          norm_num) (by norm_num) (by norm_num) (by norm_num) (by norm_num)
  have s12 : fmul (fin (-9)) (fin (-9)) = fin 81 := by
      rw [fmul_fin]
      exact round32_pos _ _ 6 10616832 (-17) (by norm_num) (by norm_num) (by norm_num) (by
          norm_num) (by norm_num) (by norm_num) (by norm_num) (by norm_num)
  have s13 : fmul (fin 3) (fin 3) = fin 9 := by
      rw [fmul_fin]
      exact round32_pos _ _ 3 9437184 (-20) (by norm_num) (by norm_num) (by norm_num) (by norm_num)
          (by norm_num) (by norm_num) (by norm_num) (by norm_num)
  have s14 : fadd (fin 0) (fin 9) = fin 9 := by
      rw [fadd_fin]
      exact round32_pos _ _ 3 9437184 (-20) (by norm_num) (by norm_num) (by norm_num) (by norm_num)
          (by norm_num) (by norm_num) (by norm_num) (by norm_num)
  have s15 : fsub (fin 9) (fin 1) = fin 8 := by
      rw [fsub_fin]
      exact round32_pos _ _ 3 8388608 (-20) (by norm_num) (by norm_num) (by norm_num) (by norm_num)
          (by norm_num) (by norm_num) (by norm_num) (by norm_num)
  have s16 : fmul (fin 10) (fin 8) = fin 80 := by
      rw [fmul_fin]
      exact round32_pos _ _ 6 10485760 (-17) (by norm_num) (by norm_num) (by norm_num) (by
          norm_num) (by norm_num) (by norm_num) (by norm_num) (by norm_num)
  have s17 : fsub (fin 81) (fin 80) = fin 1 := by
      rw [fsub_fin]
      exact round32_pos _ _ 0 8388608 (-23) (by norm_num) (by norm_num) (by norm_num) (by norm_num)
          (by norm_num) (by norm_num) (by norm_num) (by norm_num)
  have s18 : ratLibm.sqrt (fin 1) = fin 1 := by
      show ratSqrt (fin 1) = fin 1
      simp only [ratSqrt]
      have h1 : Rat.sqrt ((1) * (1)) = 1 := rat_sqrt_sq (1) (by norm_num)
      have h2 : ((1) * (1) : ℚ) = 1 := by norm_num
      rw [h2] at h1
      rw [if_neg (by norm_num), h1]
  have s19 : (-(fin (-9)) : Flt ℚ) = fin 9 := by
      simp only [neg_fin, neg_neg, neg_zero]
  have s20 : fadd (fin 9) (fin 1) = fin 10 := by
      rw [fadd_fin]
      exact round32_pos _ _ 3 10485760 (-20) (by norm_num) (by norm_num) (by norm_num) (by
          norm_num) (by norm_num) (by norm_num) (by norm_num) (by norm_num)
  have s21 : fdiv (fin 10) (fin 10) = fin 1 := by
      rw [fdiv_fin _ _ (by norm_num)]
      exact round32_pos _ _ 0 8388608 (-23) (by norm_num) (by norm_num) (by norm_num) (by norm_num)
          (by norm_num) (by norm_num) (by norm_num) (by norm_num)
  have s22 : fdiv (fin 8) (fin 10) = fin (13421773 / 16777216) := by
      rw [fdiv_fin _ _ (by norm_num)]
      exact round32_pos _ _ (-1) 13421773 (-24) (by norm_num) (by norm_num) (by norm_num) (by
          norm_num) (by norm_num) (by norm_num) (by norm_num) (by norm_num)
  have s23 : Flt.lt (fin 1 : Flt ℚ) (fin (13421773 / 16777216)) = false := by
      rw [lt_fin_fin]
      exact decide_eq_false (by norm_num)
  have s24 : fmul (fin (13421773 / 16777216)) (fin 0) = fin 0 := by
      rw [fmul_fin]
      rw [show ((13421773 / 16777216 : ℚ) * (0) = 0) by norm_num]
      exact round32_zero
  have s25 : fmul (fin (13421773 / 16777216)) (fin 1) = fin (13421773 / 16777216) := by
      rw [fmul_fin]
      exact round32_pos _ _ (-1) 13421773 (-24) (by norm_num) (by norm_num) (by norm_num) (by
          norm_num) (by norm_num) (by norm_num) (by norm_num) (by norm_num)
  have s26 : fadd (fin 0) (fin (13421773 / 16777216)) = fin (13421773 / 16777216) := by
      rw [fadd_fin]
      exact round32_pos _ _ (-1) 13421773 (-24) (by norm_num) (by norm_num) (by norm_num) (by
          norm_num) (by norm_num) (by norm_num) (by norm_num) (by norm_num)
  have s27 : fmul (fin (13421773 / 16777216)) (fin (-3)) = fin (-(5033165 / 2097152)) := by
      rw [fmul_fin]
      exact round32_neg _ _ 1 (-10066330) (-22) (by norm_num) (by norm_num) (by norm_num) (by
          norm_num) (by norm_num) (by norm_num) (by norm_num) (by norm_num)
  have s28 : fadd (fin 0) (fin (-(5033165 / 2097152))) = fin (-(5033165 / 2097152)) := by
      rw [fadd_fin]
      exact round32_neg _ _ 1 (-10066330) (-22) (by norm_num) (by norm_num) (by norm_num) (by
          norm_num) (by norm_num) (by norm_num) (by norm_num) (by norm_num)
  have s29 : fsub (fin (13421773 / 16777216)) (fin 0) = fin (13421773 / 16777216) := by
      rw [fsub_fin]
      exact round32_pos _ _ (-1) 13421773 (-24) (by norm_num) (by norm_num) (by norm_num) (by
          norm_num) (by norm_num) (by norm_num) (by norm_num) (by norm_num)
  have s30 : fsub (fin (-(5033165 / 2097152))) (fin (-3)) = fin (1258291 / 2097152) := by
      rw [fsub_fin]
      exact round32_pos _ _ (-1) 10066328 (-24) (by norm_num) (by norm_num) (by norm_num) (by
          norm_num) (by norm_num) (by norm_num) (by norm_num) (by norm_num)
  have s31 : fmul (fin (13421773 / 16777216)) (fin (13421773 / 16777216)) = fin (10737419 /
      16777216) := by
      rw [fmul_fin]
      exact round32_pos _ _ (-1) 10737419 (-24) (by norm_num) (by norm_num) (by norm_num) (by
          norm_num) (by norm_num) (by norm_num) (by norm_num) (by norm_num)
  have s32 : fadd (fin 0) (fin (10737419 / 16777216)) = fin (10737419 / 16777216) := by
      rw [fadd_fin]
      exact round32_pos _ _ (-1) 10737419 (-24) (by norm_num) (by norm_num) (by norm_num) (by
          norm_num) (by norm_num) (by norm_num) (by norm_num) (by norm_num)
  have s33 : fmul (fin (1258291 / 2097152)) (fin (1258291 / 2097152)) = fin (1509949 / 4194304) :=
      by
      rw [fmul_fin]
      exact round32_pos _ _ (-2) 12079592 (-25) (by norm_num) (by norm_num) (by norm_num) (by
          norm_num) (by norm_num) (by norm_num) (by norm_num) (by norm_num)
  have s34 : fadd (fin (10737419 / 16777216)) (fin (1509949 / 4194304)) = fin (16777215 / 16777216)
      := by
      rw [fadd_fin]
      exact round32_pos _ _ (-1) 16777215 (-24) (by norm_num) (by norm_num) (by norm_num) (by
          norm_num) (by norm_num) (by norm_num) (by norm_num) (by norm_num)
  refine ⟨?_, ?_, ?_, ?_, ?_, ?_, ?_, ?_, ?_⟩
  · simp only [B32.vec3_norm2, B32.vec3_dot,
      s1, s2, s3, s4, s5, s6, s7, s8, s9, s10, s11, s12, s13, s14, s15, s16, s17, s18,
      s19, s20, s21, s22, s23, s24, s25, s26, s27, s28, s29, s30, s31, s32, s33, s34]
  · simp only [B32.sphere_delta, B32.main_s, B32.vec3_norm2, B32.vec3_dot, B32.vec3_sub,
      s1, s2, s3, s4, s5, s6, s7, s8, s9, s10, s11, s12, s13, s14, s15, s16, s17, s18,
      s19, s20, s21, s22, s23, s24, s25, s26, s27, s28, s29, s30, s31, s32, s33, s34]
  · norm_num [Pt.dot, Pt.sub]
  · simp only [B32.intersect_sphere, B32.main_s, B32.vec3_norm2, B32.vec3_dot, B32.vec3_sub,
      Raytracer.min, if_true, if_false, Bool.false_eq_true,
      s1, s2, s3, s4, s5, s6, s7, s8, s9, s10, s11, s12, s13, s14, s15, s16, s17, s18,
      s19, s20, s21, s22, s23, s24, s25, s26, s27, s28, s29, s30, s31, s32, s33, s34]
  · norm_num [Pt.dot, Pt.sub]
  · norm_num [Pt.dot, Pt.sub, Pt.ray]
  · simp only [B32.ray, B32.main_s, B32.vec3_norm2, B32.vec3_dot, B32.vec3_sub,
      s1, s2, s3, s4, s5, s6, s7, s8, s9, s10, s11, s12, s13, s14, s15, s16, s17, s18,
      s19, s20, s21, s22, s23, s24, s25, s26, s27, s28, s29, s30, s31, s32, s33, s34]
  · simp only [B32.main_s,
      s1, s2, s3, s4, s5, s6, s7, s8, s9, s10, s11, s12, s13, s14, s15, s16, s17, s18,
      s19, s20, s21, s22, s23, s24, s25, s26, s27, s28, s29, s30, s31, s32, s33, s34]
  · norm_num

/-- C4 (amended): with `q = origin - center`, `a = dot(dir, dir) > 0`,
discriminant `D = dot(dir, q)^2 - a * (dot(q, q) - radius^2) ≥ 0`, `sqrt`
returning a square root `s ≥ 0` of `D`, and no operation of
`intersect_sphere` rounding, the routine returns `t = (-dot(dir, q) - s) / a`;
this is the smaller of the two roots `(-dot(dir, q) ± s) / a`, and the points
of the ray at both roots are at squared distance `radius^2` from the center.
In general the returned value is that root, and the point is on the sphere,
only up to rounding, see the counterexample. -/
theorem C4_sphere_roots (L : Libm ℚ) (center origin dir : Pt ℚ) (radius s : ℚ)
    (ha : 0 < Pt.dot dir dir)
    (hD : 0 ≤ Pt.dot dir (Pt.sub origin center) * Pt.dot dir (Pt.sub origin center)
      - Pt.dot dir dir
        * (Pt.dot (Pt.sub origin center) (Pt.sub origin center) - radius * radius))
    (hsqrt : L.sqrt (fin (Pt.dot dir (Pt.sub origin center) * Pt.dot dir (Pt.sub origin center)
      - Pt.dot dir dir
        * (Pt.dot (Pt.sub origin center) (Pt.sub origin center) - radius * radius))) = fin s)
    (hs0 : 0 ≤ s)
    (hss : s * s = Pt.dot dir (Pt.sub origin center) * Pt.dot dir (Pt.sub origin center)
      - Pt.dot dir dir
        * (Pt.dot (Pt.sub origin center) (Pt.sub origin center) - radius * radius))
    (hexact : SphereExact center origin dir radius s) :
    B32.intersect_sphere L ⟨center.toVec3, fin radius⟩ origin.toVec3 dir.toVec3
        = fin ((-Pt.dot dir (Pt.sub origin center) - s) / Pt.dot dir dir)
      ∧ (-Pt.dot dir (Pt.sub origin center) - s) / Pt.dot dir dir
          ≤ (-Pt.dot dir (Pt.sub origin center) + s) / Pt.dot dir dir
      ∧ Pt.dot
          (Pt.sub (Pt.ray origin dir
            ((-Pt.dot dir (Pt.sub origin center) - s) / Pt.dot dir dir)) center)
          (Pt.sub (Pt.ray origin dir
            ((-Pt.dot dir (Pt.sub origin center) - s) / Pt.dot dir dir)) center)
        = radius ^ 2
      ∧ Pt.dot
          (Pt.sub (Pt.ray origin dir
            ((-Pt.dot dir (Pt.sub origin center) + s) / Pt.dot dir dir)) center)
          (Pt.sub (Pt.ray origin dir
            ((-Pt.dot dir (Pt.sub origin center) + s) / Pt.dot dir dir)) center)
        = radius ^ 2 := by
  have e : Pt.dot dir (Pt.sub origin center) ^ 2 - Pt.dot dir dir
        * (Pt.dot (Pt.sub origin center) (Pt.sub origin center) - radius ^ 2)
      = Pt.dot dir (Pt.sub origin center) * Pt.dot dir (Pt.sub origin center)
        - Pt.dot dir dir
          * (Pt.dot (Pt.sub origin center) (Pt.sub origin center) - radius * radius) := by
    ring
  have h := sphere_roots_exact L center origin dir radius s ha (by rw [e]; exact hD)
    (by rw [e]; exact hsqrt) hs0 (by rw [e]; exact hss)
  rw [← intersect_sphere_exact L center origin dir radius s (ne_of_gt ha) hsqrt hexact] at h
  exact h

/-- No operation of `intersect_sphere` rounds for the sphere of `main`, the
origin as ray origin, the direction `(0, 0, -1)` and the square root 1 of the
discriminant 1. -/
theorem sphereExact_axis : SphereExact ⟨0, 0, -3⟩ ⟨0, 0, 0⟩ ⟨0, 0, -1⟩ 1 1 :=
  ⟨⟨isFloat_of_eq_int _ 0 (by norm_num [Pt.dot, Pt.sub, Pt.smul]) (by norm_num),
      isFloat_of_eq_int _ 0 (by norm_num [Pt.dot, Pt.sub, Pt.smul]) (by norm_num),
      isFloat_of_eq_int _ 3 (by norm_num [Pt.dot, Pt.sub, Pt.smul]) (by norm_num)⟩,
     ⟨isFloat_of_eq_int _ 0 (by norm_num [Pt.dot, Pt.sub, Pt.smul]) (by norm_num),
      isFloat_of_eq_int _ 0 (by norm_num [Pt.dot, Pt.sub, Pt.smul]) (by norm_num),
      isFloat_of_eq_int _ 1 (by norm_num [Pt.dot, Pt.sub, Pt.smul]) (by norm_num),
      isFloat_of_eq_int _ 0 (by norm_num [Pt.dot, Pt.sub, Pt.smul]) (by norm_num),
      isFloat_of_eq_int _ 1 (by norm_num [Pt.dot, Pt.sub, Pt.smul]) (by norm_num)⟩,
     ⟨isFloat_of_eq_int _ 0 (by norm_num [Pt.dot, Pt.sub, Pt.smul]) (by norm_num),
      isFloat_of_eq_int _ 0 (by norm_num [Pt.dot, Pt.sub, Pt.smul]) (by norm_num),
      isFloat_of_eq_int _ (-3) (by norm_num [Pt.dot, Pt.sub, Pt.smul]) (by norm_num),
      isFloat_of_eq_int _ 0 (by norm_num [Pt.dot, Pt.sub, Pt.smul]) (by norm_num),
      isFloat_of_eq_int _ (-3) (by norm_num [Pt.dot, Pt.sub, Pt.smul]) (by norm_num)⟩,
     ⟨isFloat_of_eq_int _ 0 (by norm_num [Pt.dot, Pt.sub, Pt.smul]) (by norm_num),
      isFloat_of_eq_int _ 0 (by norm_num [Pt.dot, Pt.sub, Pt.smul]) (by norm_num),
      isFloat_of_eq_int _ 9 (by norm_num [Pt.dot, Pt.sub, Pt.smul]) (by norm_num),
      isFloat_of_eq_int _ 0 (by norm_num [Pt.dot, Pt.sub, Pt.smul]) (by norm_num),
      isFloat_of_eq_int _ 9 (by norm_num [Pt.dot, Pt.sub, Pt.smul]) (by norm_num)⟩,
     isFloat_of_eq_int _ 9 (by norm_num [Pt.dot, Pt.sub, Pt.smul]) (by norm_num),
     isFloat_of_eq_int _ 1 (by norm_num [Pt.dot, Pt.sub, Pt.smul]) (by norm_num),
     isFloat_of_eq_int _ 8 (by norm_num [Pt.dot, Pt.sub, Pt.smul]) (by norm_num),
     isFloat_of_eq_int _ 8 (by norm_num [Pt.dot, Pt.sub, Pt.smul]) (by norm_num),
     isFloat_of_eq_int _ 1 (by norm_num [Pt.dot, Pt.sub, Pt.smul]) (by norm_num),
     isFloat_of_eq_int _ 4 (by norm_num [Pt.dot, Pt.sub, Pt.smul]) (by norm_num),
     isFloat_of_eq_int _ 2 (by norm_num [Pt.dot, Pt.sub, Pt.smul]) (by norm_num),
     isFloat_of_eq_int _ 4 (by norm_num [Pt.dot, Pt.sub, Pt.smul]) (by norm_num),
     isFloat_of_eq_int _ 2 (by norm_num [Pt.dot, Pt.sub, Pt.smul]) (by norm_num)⟩

/-- The square roots of `ratLibm` at 1 and at 4. -/
theorem ratLibm_sqrt_one : ratLibm.sqrt (fin 1) = fin 1 := by
  show ratSqrt (fin 1) = fin 1
  simp only [ratSqrt]
  have h1 : Rat.sqrt (1 * 1) = 1 := rat_sqrt_sq 1 (by norm_num)
  rw [mul_one] at h1
  rw [if_neg (by norm_num), h1]

theorem ratLibm_sqrt_four : ratLibm.sqrt (fin 4) = fin 2 := by
  show ratSqrt (fin 4) = fin 2
  simp only [ratSqrt]
  rw [if_neg (by norm_num), show (4 : ℚ) = 2 * 2 by norm_num, rat_sqrt_sq 2 (by norm_num)]

/-- C4 at the sphere of `main` along the optical axis: no operation rounds,
the discriminant is 1, and the routine returns the smaller root 2. -/
theorem C4_sphere_roots_witness :
    B32.intersect_sphere ratLibm ⟨(⟨0, 0, -3⟩ : Pt ℚ).toVec3, fin 1⟩
        (⟨0, 0, 0⟩ : Pt ℚ).toVec3 (⟨0, 0, -1⟩ : Pt ℚ).toVec3 = fin 2 := by
  have hD : Pt.dot (⟨0, 0, -1⟩ : Pt ℚ) (Pt.sub ⟨0, 0, 0⟩ ⟨0, 0, -3⟩)
        * Pt.dot (⟨0, 0, -1⟩ : Pt ℚ) (Pt.sub ⟨0, 0, 0⟩ ⟨0, 0, -3⟩)
      - Pt.dot (⟨0, 0, -1⟩ : Pt ℚ) ⟨0, 0, -1⟩
        * (Pt.dot (Pt.sub (⟨0, 0, 0⟩ : Pt ℚ) ⟨0, 0, -3⟩) (Pt.sub ⟨0, 0, 0⟩ ⟨0, 0, -3⟩)
          - 1 * 1) = 1 := by norm_num [Pt.dot, Pt.sub]
  have h := (C4_sphere_roots ratLibm ⟨0, 0, -3⟩ ⟨0, 0, 0⟩ ⟨0, 0, -1⟩ 1 1
    (by norm_num [Pt.dot]) (by rw [hD]; norm_num) (by rw [hD]; exact ratLibm_sqrt_one)
    (by norm_num) (by rw [hD]; norm_num) sphereExact_axis).1
  rw [h]
  norm_num [Pt.dot, Pt.sub]

end SphereRoots

/-! ## C5: the plane equation -/

section PlaneEquation
open B32

/-- C5, counterexample: the plane `p` of `main` (point `(1, -2, -3)`, normal
`(-1, 1.5, 0.8f)`), the origin as ray origin and the direction `(1, 0, -1)`.
The computed `dot(normal, dir)` is `-1.8f ≠ 0`, and `intersect_plane` returns
`3.555555820465088`.  This is not the quotient of the dot products (`3.5555555518...`), the
point at that parameter does not satisfy the plane equation, and the plane
equation also fails when both of its sides are evaluated in binary32. -/
theorem C5_plane_equation_counterexample :
    B32.main_p = ⟨(⟨1, -2, -3⟩ : Pt ℚ).toVec3, (⟨-1, 3 / 2, 13421773 / 16777216⟩ : Pt ℚ).toVec3⟩
    ∧ B32.vec3_dot B32.main_p.normal ⟨fin 1, fin 0, fin (-1)⟩ = fin (-(7549747 / 4194304))
    ∧ B32.intersect_plane B32.main_p ⟨fin 0, fin 0, fin 0⟩ ⟨fin 1, fin 0, fin (-1)⟩ = fin (7456541
        / 2097152)
    ∧ (7456541 / 2097152 : ℚ) ≠ (Pt.dot (⟨-1, 3 / 2, 13421773 / 16777216⟩ : Pt ℚ) ⟨1, -2, -3⟩
          - Pt.dot (⟨-1, 3 / 2, 13421773 / 16777216⟩ : Pt ℚ) ⟨0, 0, 0⟩)
        / Pt.dot (⟨-1, 3 / 2, 13421773 / 16777216⟩ : Pt ℚ) ⟨1, 0, -1⟩
    ∧ Pt.dot (⟨-1, 3 / 2, 13421773 / 16777216⟩ : Pt ℚ) (Pt.ray ⟨0, 0, 0⟩ ⟨1, 0, -1⟩ (7456541 /
        2097152))
        ≠ Pt.dot (⟨-1, 3 / 2, 13421773 / 16777216⟩ : Pt ℚ) ⟨1, -2, -3⟩
    ∧ B32.vec3_dot B32.main_p.normal (B32.ray ⟨fin 0, fin 0, fin 0⟩ ⟨fin 1, fin 0, fin (-1)⟩ (fin
        (7456541 / 2097152)))
        ≠ B32.vec3_dot B32.main_p.normal B32.main_p.pos := by
  have s1 : round32 (15 / 10) = fin (3 / 2) := by
      exact round32_pos _ _ 0 12582912 (-23) (by norm_num) (by norm_num) (by norm_num) (by
          norm_num) (by norm_num) (by norm_num) (by norm_num) (by norm_num)
  have s2 : round32 (8 / 10) = fin (13421773 / 16777216) := by
      exact round32_pos _ _ (-1) 13421773 (-24) (by norm_num) (by norm_num) (by norm_num) (by
          norm_num) (by norm_num) (by norm_num) (by norm_num) (by norm_num)
  have s3 : fmul (fin (-1)) (fin 1) = fin (-1) := by
      rw [fmul_fin]
      exact round32_neg _ _ 0 (-8388608) (-23) (by norm_num) (by norm_num) (by norm_num) (by
          norm_num) (by norm_num) (by norm_num) (by norm_num) (by norm_num)
  have s4 : fmul (fin (3 / 2)) (fin 0) = fin 0 := by
      rw [fmul_fin]
      rw [show ((3 / 2 : ℚ) * (0) = 0) by norm_num]
      exact round32_zero
  have s5 : fadd (fin (-1)) (fin 0) = fin (-1) := by
      rw [fadd_fin]
      exact round32_neg _ _ 0 (-8388608) (-23) (by norm_num) (by norm_num) (by norm_num) (by
          norm_num) (by norm_num) (by norm_num) (by norm_num) (by norm_num)
  have s6 : fmul (fin (13421773 / 16777216)) (fin (-1)) = fin (-(13421773 / 16777216)) := by
      rw [fmul_fin]
      exact round32_neg _ _ (-1) (-13421773) (-24) (by norm_num) (by norm_num) (by norm_num) (by
          norm_num) (by norm_num) (by norm_num) (by norm_num) (by norm_num)
  have s7 : fadd (fin (-1)) (fin (-(13421773 / 16777216))) = fin (-(7549747 / 4194304)) := by
      rw [fadd_fin]
      exact round32_neg_tie _ _ 0 (-15099494) (-23) (by norm_num) (by norm_num) (by norm_num) (by
          norm_num) (Or.inr (by norm_num)) (by norm_num) (by norm_num) (by norm_num)
  have s8 : fmul (fin (3 / 2)) (fin (-2)) = fin (-3) := by
      rw [fmul_fin]
      exact round32_neg _ _ 1 (-12582912) (-22) (by norm_num) (by norm_num) (by norm_num) (by
          norm_num) (by norm_num) (by norm_num) (by norm_num) (by norm_num)
  have s9 : fadd (fin (-1)) (fin (-3)) = fin (-4) := by
      rw [fadd_fin]
      exact round32_neg _ _ 2 (-8388608) (-21) (by norm_num) (by norm_num) (by norm_num) (by
          norm_num) (by norm_num) (by norm_num) (by norm_num) (by norm_num)
  have s10 : fmul (fin (13421773 / 16777216)) (fin (-3)) = fin (-(5033165 / 2097152)) := by
      rw [fmul_fin]
      exact round32_neg _ _ 1 (-10066330) (-22) (by norm_num) (by norm_num) (by norm_num) (by
          norm_num) (by norm_num) (by norm_num) (by norm_num) (by norm_num)
  have s11 : fadd (fin (-4)) (fin (-(5033165 / 2097152))) = fin (-(13421773 / 2097152)) := by
      rw [fadd_fin]
      exact round32_neg _ _ 2 (-13421773) (-21) (by norm_num) (by norm_num) (by norm_num) (by
          norm_num) (by norm_num) (by norm_num) (by norm_num) (by norm_num)
  have s12 : fmul (fin 0) (fin (-1)) = fin 0 := by
      rw [fmul_fin]
      rw [show ((0 : ℚ) * (-1) = 0) by norm_num]
      exact round32_zero
  have s13 : fmul (fin 0) (fin (3 / 2)) = fin 0 := by
      rw [fmul_fin]
      rw [show ((0 : ℚ) * (3 / 2) = 0) by norm_num]
      exact round32_zero
  have s14 : fadd (fin 0) (fin 0) = fin 0 := by
      rw [fadd_fin]
      rw [show ((0 : ℚ) + (0) = 0) by norm_num]
      exact round32_zero
  have s15 : fmul (fin 0) (fin (13421773 / 16777216)) = fin 0 := by
      rw [fmul_fin]
      rw [show ((0 : ℚ) * (13421773 / 16777216) = 0) by norm_num]
      exact round32_zero
  have s16 : fsub (fin (-(13421773 / 2097152))) (fin 0) = fin (-(13421773 / 2097152)) := by
      rw [fsub_fin]
      exact round32_neg _ _ 2 (-13421773) (-21) (by norm_num) (by norm_num) (by norm_num) (by
          norm_num) (by norm_num) (by norm_num) (by norm_num) (by norm_num)
  have s17 : fdiv (fin (-(13421773 / 2097152))) (fin (-(7549747 / 4194304))) = fin (7456541 /
      2097152) := by
      rw [fdiv_fin _ _ (by norm_num)]
      exact round32_pos _ _ 1 14913082 (-22) (by norm_num) (by norm_num) (by norm_num) (by
          norm_num) (by norm_num) (by norm_num) (by norm_num) (by norm_num)
  have s18 : fmul (fin (7456541 / 2097152)) (fin 1) = fin (7456541 / 2097152) := by
      rw [fmul_fin]
      exact round32_pos _ _ 1 14913082 (-22) (by norm_num) (by norm_num) (by norm_num) (by
          norm_num) (by norm_num) (by norm_num) (by norm_num) (by norm_num)
  have s19 : fadd (fin 0) (fin (7456541 / 2097152)) = fin (7456541 / 2097152) := by
      rw [fadd_fin]
      exact round32_pos _ _ 1 14913082 (-22) (by norm_num) (by norm_num) (by norm_num) (by
          norm_num) (by norm_num) (by norm_num) (by norm_num) (by norm_num)
  have s20 : fmul (fin (7456541 / 2097152)) (fin 0) = fin 0 := by
      rw [fmul_fin]
      rw [show ((7456541 / 2097152 : ℚ) * (0) = 0) by norm_num]
      exact round32_zero
  have s21 : fmul (fin (7456541 / 2097152)) (fin (-1)) = fin (-(7456541 / 2097152)) := by
      rw [fmul_fin]
      exact round32_neg _ _ 1 (-14913082) (-22) (by norm_num) (by norm_num) (by norm_num) (by
          norm_num) (by norm_num) (by norm_num) (by norm_num) (by norm_num)
  have s22 : fadd (fin 0) (fin (-(7456541 / 2097152))) = fin (-(7456541 / 2097152)) := by
      rw [fadd_fin]
      exact round32_neg _ _ 1 (-14913082) (-22) (by norm_num) (by norm_num) (by norm_num) (by
          norm_num) (by norm_num) (by norm_num) (by norm_num) (by norm_num)
  have s23 : fmul (fin (-1)) (fin (7456541 / 2097152)) = fin (-(7456541 / 2097152)) := by
      rw [fmul_fin]
      exact round32_neg _ _ 1 (-14913082) (-22) (by norm_num) (by norm_num) (by norm_num) (by
          norm_num) (by norm_num) (by norm_num) (by norm_num) (by norm_num)
  have s24 : fadd (fin (-(7456541 / 2097152))) (fin 0) = fin (-(7456541 / 2097152)) := by
      rw [fadd_fin]
      exact round32_neg _ _ 1 (-14913082) (-22) (by norm_num) (by norm_num) (by norm_num) (by
          norm_num) (by norm_num) (by norm_num) (by norm_num) (by norm_num)
  have s25 : fmul (fin (13421773 / 16777216)) (fin (-(7456541 / 2097152))) = fin (-(5965233 /
      2097152)) := by
      rw [fmul_fin]
      exact round32_neg _ _ 1 (-11930466) (-22) (by norm_num) (by norm_num) (by norm_num) (by
          norm_num) (by norm_num) (by norm_num) (by norm_num) (by norm_num)
  have s26 : fadd (fin (-(7456541 / 2097152))) (fin (-(5965233 / 2097152))) = fin (-(6710887 /
      1048576)) := by
      rw [fadd_fin]
      exact round32_neg _ _ 2 (-13421774) (-21) (by norm_num) (by norm_num) (by norm_num) (by
          norm_num) (by norm_num) (by norm_num) (by norm_num) (by norm_num)
  refine ⟨?_, ?_, ?_, ?_, ?_, ?_⟩
  · simp only [B32.main_p, Pt.toVec3,
      s1, s2, s3, s4, s5, s6, s7, s8, s9, s10, s11, s12, s13, s14, s15, s16, s17, s18,
      s19, s20, s21, s22, s23, s24, s25, s26]
  · simp only [B32.main_p, B32.vec3_dot,
      s1, s2, s3, s4, s5, s6, s7, s8, s9, s10, s11, s12, s13, s14, s15, s16, s17, s18,
      s19, s20, s21, s22, s23, s24, s25, s26]
  · simp only [B32.intersect_plane, B32.main_p, B32.vec3_dot,
      s1, s2, s3, s4, s5, s6, s7, s8, s9, s10, s11, s12, s13, s14, s15, s16, s17, s18,
      s19, s20, s21, s22, s23, s24, s25, s26]
  · norm_num [Pt.dot]
  · norm_num [Pt.dot, Pt.ray]
  · simp only [B32.main_p, B32.vec3_dot, B32.ray,
      s1, s2, s3, s4, s5, s6, s7, s8, s9, s10, s11, s12, s13, s14, s15, s16, s17, s18,
      s19, s20, s21, s22, s23, s24, s25, s26]
    intro h
    have h2 := Flt.fin.inj h
    norm_num at h2

/-- C5 (amended): when `dot(normal, dir) ≠ 0` and no operation of
`intersect_plane` rounds, the routine returns
`t = (dot(normal, planePos) - dot(normal, origin)) / dot(normal, dir)`, and the
point `origin + t * dir` satisfies the plane equation
`dot(normal, origin + t * dir) = dot(normal, planePos)`.  In general the
returned value is that quotient only up to the rounding of the eleven
binary32 operations, see the counterexample. -/
theorem C5_plane_equation (planePos normal origin dir : Pt ℚ)
    (hdn : Pt.dot normal dir ≠ 0) (hexact : PlaneExact planePos normal origin dir) :
    B32.intersect_plane ⟨planePos.toVec3, normal.toVec3⟩ origin.toVec3 dir.toVec3
        = fin ((Pt.dot normal planePos - Pt.dot normal origin) / Pt.dot normal dir)
      ∧ Pt.dot normal (Pt.ray origin dir
          ((Pt.dot normal planePos - Pt.dot normal origin) / Pt.dot normal dir))
        = Pt.dot normal planePos :=
  ⟨intersect_plane_exact planePos normal origin dir hdn hexact,
    (plane_equation_exact planePos normal origin dir hdn).2⟩

/-- No operation of `intersect_plane` rounds for the plane through
`(0, 0, -c)` with normal `(0, 0, 1)`, the origin as ray origin and the
direction `(0, 0, -k)`, for small integers `c`, `k` with `k` dividing `c`. -/
theorem planeExact_axis (c k m : ℤ) (hc : |c| < 2 ^ 24) (hk : |k| < 2 ^ 24) (hm : |m| < 2 ^ 24)
    (hk0 : k ≠ 0) (hckm : c = k * m) :
    PlaneExact ⟨0, 0, -(c : ℚ)⟩ ⟨0, 0, 1⟩ ⟨0, 0, 0⟩ ⟨0, 0, -(k : ℚ)⟩ := by
  have hk' : (k : ℚ) ≠ 0 := by exact_mod_cast hk0
  have a0 : |(-k : ℤ)| < 2 ^ 24 := by rwa [abs_neg]
  have c0 : |(-c : ℤ)| < 2 ^ 24 := by rwa [abs_neg]
  refine ⟨⟨?_, ?_, ?_, ?_, ?_⟩, ⟨?_, ?_, ?_, ?_, ?_⟩, ⟨?_, ?_, ?_, ?_, ?_⟩, ?_, ?_⟩
  · exact isFloat_of_eq_int _ 0 (by norm_num) (by norm_num)
  · exact isFloat_of_eq_int _ 0 (by norm_num) (by norm_num)
  · exact isFloat_of_eq_int _ (-k) (by push_cast; ring) a0
  · exact isFloat_of_eq_int _ 0 (by norm_num) (by norm_num)
  · exact isFloat_of_eq_int _ (-k) (by push_cast; ring) a0
  · exact isFloat_of_eq_int _ 0 (by norm_num) (by norm_num)
  · exact isFloat_of_eq_int _ 0 (by norm_num) (by norm_num)
  · exact isFloat_of_eq_int _ (-c) (by push_cast; ring) c0
  · exact isFloat_of_eq_int _ 0 (by norm_num) (by norm_num)
  · exact isFloat_of_eq_int _ (-c) (by push_cast; ring) c0
  · exact isFloat_of_eq_int _ 0 (by norm_num) (by norm_num)
  · exact isFloat_of_eq_int _ 0 (by norm_num) (by norm_num)
  · exact isFloat_of_eq_int _ 0 (by norm_num) (by norm_num)
  · exact isFloat_of_eq_int _ 0 (by norm_num) (by norm_num)
  · exact isFloat_of_eq_int _ 0 (by norm_num) (by norm_num)
  · exact isFloat_of_eq_int _ (-c) (by simp only [Pt.dot]; push_cast; ring) c0
  · refine isFloat_of_eq_int _ m ?_ hm
    simp only [Pt.dot]
    rw [hckm]
    push_cast
    field_simp

/-- C5 at the plane through `(0, 0, -3)` with normal `(0, 0, 1)` and the ray
from the origin in the direction `(0, 0, -1)`: no operation rounds, `t = 3`
and the point `(0, 0, -3)` is on the plane. -/
theorem C5_plane_equation_witness :
    B32.intersect_plane ⟨(⟨0, 0, -3⟩ : Pt ℚ).toVec3, (⟨0, 0, 1⟩ : Pt ℚ).toVec3⟩
        (⟨0, 0, 0⟩ : Pt ℚ).toVec3 (⟨0, 0, -1⟩ : Pt ℚ).toVec3 = fin 3
      ∧ Pt.dot (⟨0, 0, 1⟩ : Pt ℚ) (Pt.ray ⟨0, 0, 0⟩ ⟨0, 0, -1⟩ 3) = -3 := by
  have hp : PlaneExact ⟨0, 0, -3⟩ ⟨0, 0, 1⟩ ⟨0, 0, 0⟩ ⟨0, 0, -1⟩ := by
    have := planeExact_axis 3 1 3 (by norm_num) (by norm_num) (by norm_num) (by norm_num)
      (by norm_num)
    simpa using this
  have h := C5_plane_equation ⟨0, 0, -3⟩ ⟨0, 0, 1⟩ ⟨0, 0, 0⟩ ⟨0, 0, -1⟩
    (by norm_num [Pt.dot]) hp
  have e : (Pt.dot (⟨0, 0, 1⟩ : Pt ℚ) ⟨0, 0, -3⟩ - Pt.dot (⟨0, 0, 1⟩ : Pt ℚ) ⟨0, 0, 0⟩)
      / Pt.dot (⟨0, 0, 1⟩ : Pt ℚ) ⟨0, 0, -1⟩ = 3 := by norm_num [Pt.dot]
  rw [e] at h
  refine ⟨h.1, ?_⟩
  rw [h.2]
  norm_num [Pt.dot]

end PlaneEquation

/-! ## C7: the miss sentinel of the box routine -/

section BoxMiss
open B32

/-- C7 (box miss sentinel): for every box and every ray with finite
coordinates whose three direction components are not zero, if the three
parameter intervals `[tmin_x, tmax_x]`, `[tmin_y, tmax_y]`, `[tmin_z, tmax_z]`
that `intersect_box` computes in binary32 have no point in common, the routine
returns exactly `-1`. -/
theorem C7_box_miss_sentinel (bmin bmax cam dir : Pt ℚ)
    (hx : dir.x ≠ 0) (hy : dir.y ≠ 0) (hz : dir.z ≠ 0)
    (hnone : ¬ ∃ t : Flt ℚ,
      le (box_tmin (fin bmin.x) (fin bmax.x) (fin cam.x) (fin dir.x)) t = true ∧
      le t (box_tmax (fin bmin.x) (fin bmax.x) (fin cam.x) (fin dir.x)) = true ∧
      le (box_tmin (fin bmin.y) (fin bmax.y) (fin cam.y) (fin dir.y)) t = true ∧
      le t (box_tmax (fin bmin.y) (fin bmax.y) (fin cam.y) (fin dir.y)) = true ∧
      le (box_tmin (fin bmin.z) (fin bmax.z) (fin cam.z) (fin dir.z)) t = true ∧
      le t (box_tmax (fin bmin.z) (fin bmax.z) (fin cam.z) (fin dir.z)) = true) :
    B32.intersect_box ⟨bmin.toVec3, bmax.toVec3⟩ cam.toVec3 dir.toVec3 = fin (-1) := by
  rcases intersect_box_cases ⟨bmin.toVec3, bmax.toVec3⟩ cam.toVec3 dir.toVec3
      (slab_ne_nan _ _ _ hx) (slab_ne_nan _ _ _ hx) (slab_ne_nan _ _ _ hy)
      (slab_ne_nan _ _ _ hy) (slab_ne_nan _ _ _ hz) (slab_ne_nan _ _ _ hz) with h | h
  · exact h.1
  · exact absurd ⟨_, h.2⟩ hnone

/-- No operation of `intersect_box` rounds on an axis of the box of `main`
with the camera coordinate 0 and the direction component 1. -/
theorem slabExact_unit_xy : SlabExact (-(1 / 2)) (1 / 2) 0 1 :=
  ⟨isFloat_of_eq_quarters _ (-2) (by norm_num) (by norm_num),
   isFloat_of_eq_quarters _ 2 (by norm_num) (by norm_num),
   isFloat_of_eq_quarters _ (-2) (by norm_num) (by norm_num),
   isFloat_of_eq_quarters _ 2 (by norm_num) (by norm_num)⟩

/-- C7 at the box of `main`, the camera at the origin and the direction
`(1, 1, 1)`: the computed intervals are `[-1/2, 1/2]` on the x axis and
`[-3, -2]` on the z axis, they have no common point, and the routine returns
`-1`. -/
theorem C7_box_miss_sentinel_witness :
    box_tmin (fin (-(1 / 2))) (fin (1 / 2)) (fin 0) (fin 1) = fin (-(1 / 2)) ∧
    box_tmax (fin (-3)) (fin (-2)) (fin 0) (fin 1) = fin (-2) ∧
    B32.intersect_box B32.main_b ⟨fin 0, fin 0, fin 0⟩ ⟨fin 1, fin 1, fin 1⟩ = fin (-1) := by
  have ez : SlabExact (-3) (-2) 0 1 :=
    ⟨isFloat_of_eq_int _ (-3) (by norm_num) (by norm_num),
     isFloat_of_eq_int _ (-2) (by norm_num) (by norm_num),
     isFloat_of_eq_int _ (-3) (by norm_num) (by norm_num),
     isFloat_of_eq_int _ (-2) (by norm_num) (by norm_num)⟩
  have ix := box_interval_exact _ _ _ _ (by norm_num) slabExact_unit_xy
  have iz := box_interval_exact _ _ _ _ (by norm_num) ez
  have ex : slabNear (-(1 / 2) : ℚ) (1 / 2) 0 1 = -(1 / 2) := by norm_num [slabNear]
  have efz : slabFar (-3 : ℚ) (-2) 0 1 = -2 := by norm_num [slabFar]
  rw [ex] at ix
  rw [efz] at iz
  refine ⟨ix.1, iz.2, ?_⟩
  refine C7_box_miss_sentinel ⟨-(1 / 2), -(1 / 2), -3⟩ ⟨1 / 2, 1 / 2, -2⟩ ⟨0, 0, 0⟩ ⟨1, 1, 1⟩
    (by norm_num) (by norm_num) (by norm_num) ?_
  rintro ⟨t, a1, -, -, -, -, a6⟩
  rw [ix.1] at a1
  rw [iz.2] at a6
  cases t with
  | nan => simp [le] at a1
  | pinf => simp [le] at a6
  | ninf => simp [le] at a1
  | fin v =>
    rw [le_fin_fin, decide_eq_true_eq] at a1 a6
    linarith

end BoxMiss

/-! ## C6: the near hit of the box routine -/

section BoxNearHit
open B32

/-- C6, counterexample: the box of `main` (`min ≤ max` on each axis), the
camera at the origin and the direction `(1, 1, -41)`.  The computed intervals
are `[-1/2, 1/2]` on the x and y axes and `[fl(2/41), fl(3/41)]` on the z axis;
they have the common point `fl(2/41) = 0.04878048598766327`, which the routine returns
(the exact intervals have the common point `1/20`).  The point of the ray at
the returned parameter has `z = -41 * fl(2/41) = -1.99999992...`, above the
face `z = -2`: the point is outside the box and on none of its faces, and so
is the point computed in binary32 (`z = -1.9999998807907104`). -/
theorem C6_box_near_hit_counterexample :
    B32.intersect_box B32.main_b ⟨fin 0, fin 0, fin 0⟩ ⟨fin 1, fin 1, fin (-41)⟩ = fin (3273603 /
        67108864)
    ∧ box_tmin (fin (-(1 / 2))) (fin (1 / 2)) (fin 0) (fin 1) = fin (-(1 / 2))
    ∧ box_tmax (fin (-(1 / 2))) (fin (1 / 2)) (fin 0) (fin 1) = fin (1 / 2)
    ∧ box_tmin (fin (-3)) (fin (-2)) (fin 0) (fin (-41)) = fin (3273603 / 67108864)
    ∧ box_tmax (fin (-3)) (fin (-2)) (fin 0) (fin (-41)) = fin (9820809 / 134217728)
    ∧ (slabNear (-(1 / 2) : ℚ) (1 / 2) 0 1 ≤ 1 / 20 ∧ (1 / 20 : ℚ) ≤ slabFar (-(1 / 2)) (1 / 2) 0 1
      ∧ slabNear (-3 : ℚ) (-2) 0 (-41) ≤ 1 / 20 ∧ (1 / 20 : ℚ) ≤ slabFar (-3) (-2) 0 (-41))
    ∧ (-2 : ℚ) < (Pt.ray (⟨0, 0, 0⟩ : Pt ℚ) ⟨1, 1, -41⟩ (3273603 / 67108864)).z
    ∧ (Pt.ray (⟨0, 0, 0⟩ : Pt ℚ) ⟨1, 1, -41⟩ (3273603 / 67108864)).x ≠ -(1 / 2)
    ∧ (Pt.ray (⟨0, 0, 0⟩ : Pt ℚ) ⟨1, 1, -41⟩ (3273603 / 67108864)).x ≠ 1 / 2
    ∧ (Pt.ray (⟨0, 0, 0⟩ : Pt ℚ) ⟨1, 1, -41⟩ (3273603 / 67108864)).y ≠ -(1 / 2)
    ∧ (Pt.ray (⟨0, 0, 0⟩ : Pt ℚ) ⟨1, 1, -41⟩ (3273603 / 67108864)).y ≠ 1 / 2
    ∧ B32.ray ⟨fin 0, fin 0, fin 0⟩ ⟨fin 1, fin 1, fin (-41)⟩ (fin (3273603 / 67108864)) = ⟨fin
        (3273603 / 67108864), fin (3273603 / 67108864), fin (-(16777215 / 8388608))⟩
    ∧ (-2 : ℚ) < -(16777215 / 8388608) := by
  have s1 : fsub (fin (-(1 / 2))) (fin 0) = fin (-(1 / 2)) := by
      rw [fsub_fin]
      exact round32_neg _ _ (-1) (-8388608) (-24) (by norm_num) (by norm_num) (by norm_num) (by
          norm_num) (by norm_num) (by norm_num) (by norm_num) (by norm_num)
  have s2 : fdiv (fin (-(1 / 2))) (fin 1) = fin (-(1 / 2)) := by
      rw [fdiv_fin _ _ (by norm_num)]
      exact round32_neg _ _ (-1) (-8388608) (-24) (by norm_num) (by norm_num) (by norm_num) (by
          norm_num) (by norm_num) (by norm_num) (by norm_num) (by norm_num)
  have s3 : fsub (fin (1 / 2)) (fin 0) = fin (1 / 2) := by
      rw [fsub_fin]
      exact round32_pos _ _ (-1) 8388608 (-24) (by norm_num) (by norm_num) (by norm_num) (by
          norm_num) (by norm_num) (by norm_num) (by norm_num) (by norm_num)
  have s4 : fdiv (fin (1 / 2)) (fin 1) = fin (1 / 2) := by
      rw [fdiv_fin _ _ (by norm_num)]
      exact round32_pos _ _ (-1) 8388608 (-24) (by norm_num) (by norm_num) (by norm_num) (by
          norm_num) (by norm_num) (by norm_num) (by norm_num) (by norm_num)
  have s5 : Flt.lt (fin (-(1 / 2)) : Flt ℚ) (fin (1 / 2)) = true := by
      rw [lt_fin_fin]
      exact decide_eq_true (by norm_num)
  have s6 : Flt.gt (fin (-(1 / 2)) : Flt ℚ) (fin (1 / 2)) = false := by
      rw [gt_fin_fin]
      exact decide_eq_false (by norm_num)
  have s7 : Flt.gt (fin (-(1 / 2)) : Flt ℚ) (fin (-(1 / 2))) = false := by
      rw [gt_fin_fin]
      exact decide_eq_false (by norm_num)
  have s8 : Flt.lt (fin (1 / 2) : Flt ℚ) (fin (1 / 2)) = false := by
      rw [lt_fin_fin]
      exact decide_eq_false (by norm_num)
  have s9 : fsub (fin (-3)) (fin 0) = fin (-3) := by
      rw [fsub_fin]
      exact round32_neg _ _ 1 (-12582912) (-22) (by norm_num) (by norm_num) (by norm_num) (by
          norm_num) (by norm_num) (by norm_num) (by norm_num) (by norm_num)
  have s10 : fdiv (fin (-3)) (fin (-41)) = fin (9820809 / 134217728) := by
      rw [fdiv_fin _ _ (by norm_num)]
      exact round32_pos _ _ (-4) 9820809 (-27) (by norm_num) (by norm_num) (by norm_num) (by
          norm_num) (by norm_num) (by norm_num) (by norm_num) (by norm_num)
  have s11 : fsub (fin (-2)) (fin 0) = fin (-2) := by
      rw [fsub_fin]
      exact round32_neg _ _ 1 (-8388608) (-22) (by norm_num) (by norm_num) (by norm_num) (by
          norm_num) (by norm_num) (by norm_num) (by norm_num) (by norm_num)
  have s12 : fdiv (fin (-2)) (fin (-41)) = fin (3273603 / 67108864) := by
      rw [fdiv_fin _ _ (by norm_num)]
      exact round32_pos _ _ (-5) 13094412 (-28) (by norm_num) (by norm_num) (by norm_num) (by
          norm_num) (by norm_num) (by norm_num) (by norm_num) (by norm_num)
  have s13 : Flt.lt (fin (9820809 / 134217728) : Flt ℚ) (fin (3273603 / 67108864)) = false := by
      rw [lt_fin_fin]
      exact decide_eq_false (by norm_num)
  have s14 : Flt.gt (fin (9820809 / 134217728) : Flt ℚ) (fin (3273603 / 67108864)) = true := by
      rw [gt_fin_fin]
      exact decide_eq_true (by norm_num)
  have s15 : Flt.gt (fin (-(1 / 2)) : Flt ℚ) (fin (9820809 / 134217728)) = false := by
      rw [gt_fin_fin]
      exact decide_eq_false (by norm_num)
  have s16 : Flt.gt (fin (3273603 / 67108864) : Flt ℚ) (fin (1 / 2)) = false := by
      rw [gt_fin_fin]
      exact decide_eq_false (by norm_num)
  have s17 : Flt.gt (fin (-(1 / 2)) : Flt ℚ) (fin (3273603 / 67108864)) = false := by
      rw [gt_fin_fin]
      exact decide_eq_false (by norm_num)
  have s18 : Flt.lt (fin (1 / 2) : Flt ℚ) (fin (9820809 / 134217728)) = false := by
      rw [lt_fin_fin]
      exact decide_eq_false (by norm_num)
  have s19 : Flt.lt (fin (3273603 / 67108864) : Flt ℚ) (fin (9820809 / 134217728)) = true := by
      rw [lt_fin_fin]
      exact decide_eq_true (by norm_num)
  have s20 : fmul (fin (3273603 / 67108864)) (fin 1) = fin (3273603 / 67108864) := by
      rw [fmul_fin]
      exact round32_pos _ _ (-5) 13094412 (-28) (by norm_num) (by norm_num) (by norm_num) (by
          norm_num) (by norm_num) (by norm_num) (by norm_num) (by norm_num)
  have s21 : fadd (fin 0) (fin (3273603 / 67108864)) = fin (3273603 / 67108864) := by
      rw [fadd_fin]
      exact round32_pos _ _ (-5) 13094412 (-28) (by norm_num) (by norm_num) (by norm_num) (by
          norm_num) (by norm_num) (by norm_num) (by norm_num) (by norm_num)
  have s22 : fmul (fin (3273603 / 67108864)) (fin (-41)) = fin (-(16777215 / 8388608)) := by
      rw [fmul_fin]
      exact round32_neg _ _ 0 (-16777215) (-23) (by norm_num) (by norm_num) (by norm_num) (by
          norm_num) (by norm_num) (by norm_num) (by norm_num) (by norm_num)
  have s23 : fadd (fin 0) (fin (-(16777215 / 8388608))) = fin (-(16777215 / 8388608)) := by
      rw [fadd_fin]
      exact round32_neg _ _ 0 (-16777215) (-23) (by norm_num) (by norm_num) (by norm_num) (by
          norm_num) (by norm_num) (by norm_num) (by norm_num) (by norm_num)
  refine ⟨?_, ?_, ?_, ?_, ?_, ?_, ?_, ?_, ?_, ?_, ?_, ?_, ?_⟩
  · simp only [B32.intersect_box, B32.main_b, Raytracer.min, Raytracer.max,
      s1, s2, s3, s4, s5, s6, s7, s8, s9, s10, s11, s12, s13, s14, s15, s16, s17, s18,
      s19, s20, s21, s22, s23,
      Bool.or_false, Bool.false_eq_true, if_false, if_true]
  · simp only [box_tmin, Raytracer.min, if_true, if_false, Bool.false_eq_true,
      s1, s2, s3, s4, s5, s6, s7, s8, s9, s10, s11, s12, s13, s14, s15, s16, s17, s18,
      s19, s20, s21, s22, s23]
  · simp only [box_tmax, Raytracer.max, if_true, if_false, Bool.false_eq_true,
      s1, s2, s3, s4, s5, s6, s7, s8, s9, s10, s11, s12, s13, s14, s15, s16, s17, s18,
      s19, s20, s21, s22, s23]
  · simp only [box_tmin, Raytracer.min, if_true, if_false, Bool.false_eq_true,
      s1, s2, s3, s4, s5, s6, s7, s8, s9, s10, s11, s12, s13, s14, s15, s16, s17, s18,
      s19, s20, s21, s22, s23]
  · simp only [box_tmax, Raytracer.max, if_true, if_false, Bool.false_eq_true,
      s1, s2, s3, s4, s5, s6, s7, s8, s9, s10, s11, s12, s13, s14, s15, s16, s17, s18,
      s19, s20, s21, s22, s23]
  · norm_num [slabNear, slabFar]
  · norm_num [Pt.ray]
  · norm_num [Pt.ray]
  · norm_num [Pt.ray]
  · norm_num [Pt.ray]
  · norm_num [Pt.ray]
  · simp only [B32.ray,
      s1, s2, s3, s4, s5, s6, s7, s8, s9, s10, s11, s12, s13, s14, s15, s16, s17, s18,
      s19, s20, s21, s22, s23]
  · norm_num

/-- C6 (amended): for a box with `min ≤ max` on each axis and a ray with
finite coordinates and no zero direction component, if the three intervals
`[tmin_i, tmax_i]` that `intersect_box` computes in binary32 have a common
point, the routine returns `t = max(tmin_x, tmin_y, tmin_z)` of the computed
near ends, and this `t` lies in each of the three computed intervals (so the
reduced pair satisfies `tmin ≤ tmax`).  When moreover none of the twelve
subtractions and divisions rounds, the point `cam + t * dir` is in the box and
on one of its faces.  In general the point is in the box and on a face only up
to rounding, see the counterexample. -/
theorem C6_box_near_hit (bmin bmax cam dir : Pt ℚ)
    (hbx : bmin.x ≤ bmax.x) (hby : bmin.y ≤ bmax.y) (hbz : bmin.z ≤ bmax.z)
    (hx : dir.x ≠ 0) (hy : dir.y ≠ 0) (hz : dir.z ≠ 0)
    (hcommon : ∃ t : Flt ℚ,
      le (box_tmin (fin bmin.x) (fin bmax.x) (fin cam.x) (fin dir.x)) t = true ∧
      le t (box_tmax (fin bmin.x) (fin bmax.x) (fin cam.x) (fin dir.x)) = true ∧
      le (box_tmin (fin bmin.y) (fin bmax.y) (fin cam.y) (fin dir.y)) t = true ∧
      le t (box_tmax (fin bmin.y) (fin bmax.y) (fin cam.y) (fin dir.y)) = true ∧
      le (box_tmin (fin bmin.z) (fin bmax.z) (fin cam.z) (fin dir.z)) t = true ∧
      le t (box_tmax (fin bmin.z) (fin bmax.z) (fin cam.z) (fin dir.z)) = true) :
    B32.intersect_box ⟨bmin.toVec3, bmax.toVec3⟩ cam.toVec3 dir.toVec3
      = max (max (box_tmin (fin bmin.x) (fin bmax.x) (fin cam.x) (fin dir.x))
            (box_tmin (fin bmin.y) (fin bmax.y) (fin cam.y) (fin dir.y)))
          (box_tmin (fin bmin.z) (fin bmax.z) (fin cam.z) (fin dir.z))
    ∧ (le (box_tmin (fin bmin.x) (fin bmax.x) (fin cam.x) (fin dir.x))
          (B32.intersect_box ⟨bmin.toVec3, bmax.toVec3⟩ cam.toVec3 dir.toVec3) = true
      ∧ le (B32.intersect_box ⟨bmin.toVec3, bmax.toVec3⟩ cam.toVec3 dir.toVec3)
          (box_tmax (fin bmin.x) (fin bmax.x) (fin cam.x) (fin dir.x)) = true
      ∧ le (box_tmin (fin bmin.y) (fin bmax.y) (fin cam.y) (fin dir.y))
          (B32.intersect_box ⟨bmin.toVec3, bmax.toVec3⟩ cam.toVec3 dir.toVec3) = true
      ∧ le (B32.intersect_box ⟨bmin.toVec3, bmax.toVec3⟩ cam.toVec3 dir.toVec3)
          (box_tmax (fin bmin.y) (fin bmax.y) (fin cam.y) (fin dir.y)) = true
      ∧ le (box_tmin (fin bmin.z) (fin bmax.z) (fin cam.z) (fin dir.z))
          (B32.intersect_box ⟨bmin.toVec3, bmax.toVec3⟩ cam.toVec3 dir.toVec3) = true
      ∧ le (B32.intersect_box ⟨bmin.toVec3, bmax.toVec3⟩ cam.toVec3 dir.toVec3)
          (box_tmax (fin bmin.z) (fin bmax.z) (fin cam.z) (fin dir.z)) = true)
    ∧ (SlabExact bmin.x bmax.x cam.x dir.x → SlabExact bmin.y bmax.y cam.y dir.y →
        SlabExact bmin.z bmax.z cam.z dir.z →
        B32.intersect_box ⟨bmin.toVec3, bmax.toVec3⟩ cam.toVec3 dir.toVec3
          = fin (Max.max (Max.max (slabNear bmin.x bmax.x cam.x dir.x)
              (slabNear bmin.y bmax.y cam.y dir.y)) (slabNear bmin.z bmax.z cam.z dir.z))
        ∧ ∀ p : Pt ℚ,
          p = Pt.ray cam dir (Max.max (Max.max (slabNear bmin.x bmax.x cam.x dir.x)
            (slabNear bmin.y bmax.y cam.y dir.y)) (slabNear bmin.z bmax.z cam.z dir.z)) →
          (bmin.x ≤ p.x ∧ p.x ≤ bmax.x ∧ bmin.y ≤ p.y ∧ p.y ≤ bmax.y
            ∧ bmin.z ≤ p.z ∧ p.z ≤ bmax.z)
          ∧ (p.x = bmin.x ∨ p.x = bmax.x ∨ p.y = bmin.y ∨ p.y = bmax.y
            ∨ p.z = bmin.z ∨ p.z = bmax.z)) := by
  rcases intersect_box_cases ⟨bmin.toVec3, bmax.toVec3⟩ cam.toVec3 dir.toVec3
      (slab_ne_nan _ _ _ hx) (slab_ne_nan _ _ _ hx) (slab_ne_nan _ _ _ hy)
      (slab_ne_nan _ _ _ hy) (slab_ne_nan _ _ _ hz) (slab_ne_nan _ _ _ hz) with h | h
  · obtain ⟨t, ht⟩ := hcommon
    exact absurd ht (h.2 t)
  refine ⟨h.1, h.2, ?_⟩
  intro ex ey ez
  obtain ⟨nx, fx⟩ := box_interval_exact _ _ _ _ hx ex
  obtain ⟨ny, fy⟩ := box_interval_exact _ _ _ _ hy ey
  obtain ⟨nz, fz⟩ := box_interval_exact _ _ _ _ hz ez
  have hres := h.1
  have h2 := h.2
  simp only [Pt.toVec3] at hres h2
  rw [hres, nx, ny, nz, fx, fy, fz, max_fin_fin, max_fin_fin] at h2
  simp only [le_fin_fin, decide_eq_true_eq] at h2
  have hex := box_near_hit_exact bmin bmax cam dir hbx hby hbz hx hy hz
    ⟨_, h2.1, h2.2.1, h2.2.2.1, h2.2.2.2.1, h2.2.2.2.2.1, h2.2.2.2.2.2⟩
  refine ⟨?_, hex.2.2⟩
  simp only [Pt.toVec3]
  rw [hres, nx, ny, nz, max_fin_fin, max_fin_fin]

/-- C6 at the box of `main`, the camera at the origin and the direction
`(1, 1, -4)`: no operation rounds, the computed intervals `[-1/2, 1/2]`,
`[-1/2, 1/2]` and `[1/2, 3/4]` have the common point `1/2`, the routine returns
`1/2`, and the point `(1/2, 1/2, -2)` is a corner of the box. -/
theorem C6_box_near_hit_witness :
    SlabExact (-3) (-2) 0 (-4)
    ∧ B32.intersect_box B32.main_b ⟨fin 0, fin 0, fin 0⟩ ⟨fin 1, fin 1, fin (-4)⟩ = fin (1 / 2)
    ∧ Pt.ray (⟨0, 0, 0⟩ : Pt ℚ) ⟨1, 1, -4⟩ (1 / 2) = ⟨1 / 2, 1 / 2, -2⟩ := by
  have ez : SlabExact (-3) (-2) 0 (-4) :=
    ⟨isFloat_of_eq_int _ (-3) (by norm_num) (by norm_num),
     isFloat_of_eq_int _ (-2) (by norm_num) (by norm_num),
     isFloat_of_eq_quarters _ 3 (by norm_num) (by norm_num),
     isFloat_of_eq_quarters _ 2 (by norm_num) (by norm_num)⟩
  have ix := box_interval_exact _ _ _ _ (by norm_num) slabExact_unit_xy
  have iz := box_interval_exact _ _ _ _ (by norm_num) ez
  have e1 : slabNear (-(1 / 2) : ℚ) (1 / 2) 0 1 = -(1 / 2) := by norm_num [slabNear]
  have e2 : slabFar (-(1 / 2) : ℚ) (1 / 2) 0 1 = 1 / 2 := by norm_num [slabFar]
  have e3 : slabNear (-3 : ℚ) (-2) 0 (-4) = 1 / 2 := by norm_num [slabNear]
  have e4 : slabFar (-3 : ℚ) (-2) 0 (-4) = 3 / 4 := by norm_num [slabFar]
  rw [e1, e2] at ix
  rw [e3, e4] at iz
  have h := C6_box_near_hit ⟨-(1 / 2), -(1 / 2), -3⟩ ⟨1 / 2, 1 / 2, -2⟩ ⟨0, 0, 0⟩ ⟨1, 1, -4⟩
    (by norm_num) (by norm_num) (by norm_num) (by norm_num) (by norm_num) (by norm_num)
    ⟨fin (1 / 2), by rw [ix.1, le_fin_fin, decide_eq_true_eq]; norm_num,
      by rw [ix.2, le_fin_fin, decide_eq_true_eq],
      by rw [ix.1, le_fin_fin, decide_eq_true_eq]; norm_num,
      by rw [ix.2, le_fin_fin, decide_eq_true_eq],
      by rw [iz.1, le_fin_fin, decide_eq_true_eq],
      by rw [iz.2, le_fin_fin, decide_eq_true_eq]; norm_num⟩
  have h3 := (h.2.2 slabExact_unit_xy slabExact_unit_xy ez).1
  rw [e1, e3] at h3
  refine ⟨ez, ?_, ?_⟩
  · rw [show B32.main_b = ⟨(⟨-(1 / 2), -(1 / 2), -3⟩ : Pt ℚ).toVec3,
        (⟨1 / 2, 1 / 2, -2⟩ : Pt ℚ).toVec3⟩ from rfl,
      show (⟨fin 0, fin 0, fin 0⟩ : Vec3 ℚ) = (⟨0, 0, 0⟩ : Pt ℚ).toVec3 from rfl,
      show (⟨fin 1, fin 1, fin (-4)⟩ : Vec3 ℚ) = (⟨1, 1, -4⟩ : Pt ℚ).toVec3 from rfl, h3]
    norm_num
  · norm_num [Pt.ray]

end BoxNearHit

/-! ## C10: the endpoints of `map` -/

section MapEndpoints
open B32

/-- C10, counterexample: with `a = (0, 7)` and `b = (0, 31)`, so `a[0] ≠ a[1]`,
the binary32 value of `map(a, b, a[1])` is `16252927 / 2^19 = 30.99999809...`
and not `b[1] = 31`: the slope `31 / 7` is rounded to `9287387 / 2^21`, and
its product with 7 is rounded again. -/
theorem C10_map_endpoints_counterexample :
    (0 : ℚ) ≠ 7 ∧
    B32.map ⟨fin 0, fin 7⟩ ⟨fin 0, fin 31⟩ (fin 7) = fin (16252927 / 524288) ∧
    B32.map ⟨fin 0, fin 7⟩ ⟨fin 0, fin 31⟩ (fin 7) ≠ fin 31 := by
  have s1 : fsub (fin 7) (fin 0) = fin 7 := by
      rw [fsub_fin]
      exact round32_pos _ _ 2 14680064 (-21) (by norm_num) (by norm_num) (by norm_num) (by
          norm_num) (by norm_num) (by norm_num) (by norm_num) (by norm_num)
  have s2 : fsub (fin 31) (fin 0) = fin 31 := by
      rw [fsub_fin]
      exact round32_pos _ _ 4 16252928 (-19) (by norm_num) (by norm_num) (by norm_num) (by
          norm_num) (by norm_num) (by norm_num) (by norm_num) (by norm_num)
  have s3 : fdiv (fin 31) (fin 7) = fin (9287387 / 2097152) := by
      rw [fdiv_fin _ _ (by norm_num)]
      exact round32_pos _ _ 2 9287387 (-21) (by norm_num) (by norm_num) (by norm_num) (by norm_num)
          (by norm_num) (by norm_num) (by norm_num) (by norm_num)
  have s4 : fmul (fin 7) (fin (9287387 / 2097152)) = fin (16252927 / 524288) := by
      rw [fmul_fin]
      exact round32_pos _ _ 4 16252927 (-19) (by norm_num) (by norm_num) (by norm_num) (by
          norm_num) (by norm_num) (by norm_num) (by norm_num) (by norm_num)
  have s5 : fadd (fin (16252927 / 524288)) (fin 0) = fin (16252927 / 524288) := by
      rw [fadd_fin]
      exact round32_pos _ _ 4 16252927 (-19) (by norm_num) (by norm_num) (by norm_num) (by
          norm_num) (by norm_num) (by norm_num) (by norm_num) (by norm_num)
  have e : B32.map ⟨fin 0, fin 7⟩ ⟨fin 0, fin 31⟩ (fin 7) = fin (16252927 / 524288) := by
    simp only [B32.map,
      s1, s2, s3, s4, s5]
  refine ⟨by norm_num, e, ?_⟩
  rw [e]
  intro h
  have h2 := Flt.fin.inj h
  norm_num at h2

/-- C10 (amended): let the slope `(b[1] - b[0]) / (a[1] - a[0])` computed by
`map` be finite and `b[0]` a binary32 value.  Then `map(a, b, a[0]) = b[0]`
exactly.  When no operation of `map(a, b, a[1])` rounds, its value is `b[1]`;
and for every `x` such that no operation of `map(a, b, x)` rounds, the value is
`b[0] + (x - a[0]) * slope` with the exact slope, inside and outside the
source range (no clamping).  In general the second endpoint and the affine
form hold only up to rounding, see the counterexample. -/
theorem C10_map_endpoints (a0 a1 b0 b1 σ : ℚ) (ha : a0 ≠ a1) (hb0 : IsFloat b0)
    (hs : fdiv (fsub (fin b1) (fin b0)) (fsub (fin a1) (fin a0)) = fin σ) :
    B32.map ⟨fin a0, fin a1⟩ ⟨fin b0, fin b1⟩ (fin a0) = fin b0
    ∧ (MapExact a0 a1 b0 b1 a1 →
        B32.map ⟨fin a0, fin a1⟩ ⟨fin b0, fin b1⟩ (fin a1) = fin b1)
    ∧ (∀ x : ℚ, MapExact a0 a1 b0 b1 x →
        B32.map ⟨fin a0, fin a1⟩ ⟨fin b0, fin b1⟩ (fin x)
          = fin (b0 + (x - a0) * ((b1 - b0) / (a1 - a0)))) := by
  refine ⟨?_, ?_, ?_⟩
  · simp only [B32.map]
    rw [hs, fsub_fin, sub_self, round32_zero, fmul_fin, zero_mul, round32_zero, fadd_fin,
      zero_add]
    exact hb0
  · intro h
    rw [map_exact a0 a1 b0 b1 a1 ha h]
    have hne : a1 - a0 ≠ 0 := sub_ne_zero.mpr (Ne.symm ha)
    congr 1
    field_simp
  · intro x h
    exact map_exact a0 a1 b0 b1 x ha h

/-- C10 at `a = (0, 4)`, `b = (0, 8)`: the slope is 2, no operation rounds at
`x = 4` and at `x = 6`, and `map` sends 0 to 0, 4 to 8 and 6 to 12 (outside
the source range). -/
theorem C10_map_endpoints_witness :
    MapExact 0 4 0 8 4 ∧ MapExact 0 4 0 8 6 ∧
    B32.map ⟨fin 0, fin 4⟩ ⟨fin 0, fin 8⟩ (fin 0) = fin 0 ∧
    B32.map ⟨fin 0, fin 4⟩ ⟨fin 0, fin 8⟩ (fin 4) = fin 8 ∧
    B32.map ⟨fin 0, fin 4⟩ ⟨fin 0, fin 8⟩ (fin 6) = fin 12 := by
  have m4 : MapExact 0 4 0 8 4 :=
    ⟨isFloat_of_eq_int _ 4 (by norm_num) (by norm_num),
     isFloat_of_eq_int _ 8 (by norm_num) (by norm_num),
     isFloat_of_eq_int _ 4 (by norm_num) (by norm_num),
     isFloat_of_eq_int _ 2 (by norm_num) (by norm_num),
     isFloat_of_eq_int _ 8 (by norm_num) (by norm_num),
     isFloat_of_eq_int _ 8 (by norm_num) (by norm_num)⟩
  have m6 : MapExact 0 4 0 8 6 :=
    ⟨isFloat_of_eq_int _ 6 (by norm_num) (by norm_num),
     isFloat_of_eq_int _ 8 (by norm_num) (by norm_num),
     isFloat_of_eq_int _ 4 (by norm_num) (by norm_num),
     isFloat_of_eq_int _ 2 (by norm_num) (by norm_num),
     isFloat_of_eq_int _ 12 (by norm_num) (by norm_num),
     isFloat_of_eq_int _ 12 (by norm_num) (by norm_num)⟩
  have hs : fdiv (fsub (fin (8 : ℚ)) (fin 0)) (fsub (fin 4) (fin 0)) = fin 2 := by
    rw [fsub_exact _ _ m4.2.1, fsub_exact _ _ m4.2.2.1,
      fdiv_exact _ _ (by norm_num) m4.2.2.2.1]
    norm_num
  have h := C10_map_endpoints 0 4 0 8 2 (by norm_num) isFloat_zero hs
  refine ⟨m4, m6, h.1, h.2.1 m4, ?_⟩
  rw [h.2.2 6 m6]
  norm_num

end MapEndpoints

/-! ## C11: the order of the values of `map` -/

section MapOrder
open B32

theorem key_rnd_mono (a b : Flt ℚ) (ha : a ≠ nan) (hb : b ≠ nan) (h : key a ≤ key b) :
    key (rnd a) ≤ key (rnd b) := by
  cases a with
  | nan => exact absurd rfl ha
  | ninf => exact bot_le
  | pinf =>
    cases b with
    | nan => exact absurd rfl hb
    | pinf => exact le_refl _
    | ninf => simp [key] at h
    | fin y =>
      exfalso
      have h2 : ((⊤ : WithTop ℚ) : WithBot (WithTop ℚ)) ≤ ((y : WithTop ℚ) : WithBot _) := h
      rw [WithBot.coe_le_coe, top_le_iff] at h2
      exact WithTop.coe_ne_top h2
  | fin x =>
    cases b with
    | nan => exact absurd rfl hb
    | pinf =>
      show _ ≤ ((⊤ : WithTop ℚ) : WithBot (WithTop ℚ))
      rw [WithBot.coe_top]
      exact le_top
    | ninf => simp [key] at h
    | fin y =>
      have h2 : ((x : WithTop ℚ) : WithBot (WithTop ℚ)) ≤ ((y : WithTop ℚ) : WithBot _) := h
      rw [WithBot.coe_le_coe, WithTop.coe_le_coe] at h2
      exact round32_mono x y h2

/-- Multiplication by a positive finite value keeps the order. -/
theorem key_mul_pos_mono (a b : Flt ℚ) (σ : ℚ) (hσ : 0 < σ) (ha : a ≠ nan) (hb : b ≠ nan)
    (h : key a ≤ key b) :
    a * fin σ ≠ nan ∧ b * fin σ ≠ nan ∧ key (a * fin σ) ≤ key (b * fin σ) := by
  have hσ0 : σ ≠ 0 := ne_of_gt hσ
  have e1 : (pinf * fin σ : Flt ℚ) = pinf := by
    show Flt.mul pinf (fin σ) = pinf
    simp [Flt.mul, Flt.infTimes, hσ0, hσ]
  have e2 : (ninf * fin σ : Flt ℚ) = ninf := by
    show Flt.mul ninf (fin σ) = ninf
    simp [Flt.mul, Flt.infTimes, hσ0, hσ]
  cases a with
  | nan => exact absurd rfl ha
  | ninf =>
    rw [e2]
    cases b with
    | nan => exact absurd rfl hb
    | pinf => rw [e1]; exact ⟨by simp, by simp, bot_le⟩
    | ninf => rw [e2]; exact ⟨by simp, by simp, bot_le⟩
    | fin y => rw [fin_mul_fin]; exact ⟨by simp, by simp, bot_le⟩
  | pinf =>
    cases b with
    | nan => exact absurd rfl hb
    | pinf => rw [e1]; exact ⟨by simp, by simp, le_refl _⟩
    | ninf => simp [key] at h
    | fin y =>
      exfalso
      have h2 : ((⊤ : WithTop ℚ) : WithBot (WithTop ℚ)) ≤ ((y : WithTop ℚ) : WithBot _) := h
      rw [WithBot.coe_le_coe, top_le_iff] at h2
      exact WithTop.coe_ne_top h2
  | fin x =>
    cases b with
    | nan => exact absurd rfl hb
    | pinf =>
      rw [e1, fin_mul_fin]
      refine ⟨by simp, by simp, ?_⟩
      show _ ≤ ((⊤ : WithTop ℚ) : WithBot (WithTop ℚ))
      rw [WithBot.coe_top]
      exact le_top
    | ninf => simp [key] at h
    | fin y =>
      have h2 : ((x : WithTop ℚ) : WithBot (WithTop ℚ)) ≤ ((y : WithTop ℚ) : WithBot _) := h
      rw [WithBot.coe_le_coe, WithTop.coe_le_coe] at h2
      rw [fin_mul_fin, fin_mul_fin]
      refine ⟨by simp, by simp, ?_⟩
      show ((_ : WithTop ℚ) : WithBot (WithTop ℚ)) ≤ ((_ : WithTop ℚ) : WithBot _)
      rw [WithBot.coe_le_coe, WithTop.coe_le_coe]
      exact mul_le_mul_of_nonneg_right h2 (le_of_lt hσ)

/-- Multiplication by a negative finite value reverses the order. -/
theorem key_mul_neg_anti (a b : Flt ℚ) (σ : ℚ) (hσ : σ < 0) (ha : a ≠ nan) (hb : b ≠ nan)
    (h : key a ≤ key b) :
    a * fin σ ≠ nan ∧ b * fin σ ≠ nan ∧ key (b * fin σ) ≤ key (a * fin σ) := by
  have hσ0 : σ ≠ 0 := ne_of_lt hσ
  have hn : ¬ 0 < σ := not_lt.mpr (le_of_lt hσ)
  have e1 : (pinf * fin σ : Flt ℚ) = ninf := by
    show Flt.mul pinf (fin σ) = ninf
    simp [Flt.mul, Flt.infTimes, hσ0, hn]
  have e2 : (ninf * fin σ : Flt ℚ) = pinf := by
    show Flt.mul ninf (fin σ) = pinf
    simp [Flt.mul, Flt.infTimes, hσ0, hn]
  have top : ∀ v : Flt ℚ, key v ≤ key pinf := by
    intro v
    show _ ≤ ((⊤ : WithTop ℚ) : WithBot (WithTop ℚ))
    rw [WithBot.coe_top]
    exact le_top
  cases a with
  | nan => exact absurd rfl ha
  | ninf =>
    rw [e2]
    exact ⟨by simp, by cases b <;> simp_all [fin_mul_fin], top _⟩
  | pinf =>
    cases b with
    | nan => exact absurd rfl hb
    | pinf => rw [e1]; exact ⟨by simp, by simp, le_refl _⟩
    | ninf => simp [key] at h
    | fin y =>
      exfalso
      have h2 : ((⊤ : WithTop ℚ) : WithBot (WithTop ℚ)) ≤ ((y : WithTop ℚ) : WithBot _) := h
      rw [WithBot.coe_le_coe, top_le_iff] at h2
      exact WithTop.coe_ne_top h2
  | fin x =>
    cases b with
    | nan => exact absurd rfl hb
    | pinf =>
      rw [e1, fin_mul_fin]
      exact ⟨by simp, by simp, bot_le⟩
    | ninf => simp [key] at h
    | fin y =>
      have h2 : ((x : WithTop ℚ) : WithBot (WithTop ℚ)) ≤ ((y : WithTop ℚ) : WithBot _) := h
      rw [WithBot.coe_le_coe, WithTop.coe_le_coe] at h2
      rw [fin_mul_fin, fin_mul_fin]
      refine ⟨by simp, by simp, ?_⟩
      show ((_ : WithTop ℚ) : WithBot (WithTop ℚ)) ≤ ((_ : WithTop ℚ) : WithBot _)
      rw [WithBot.coe_le_coe, WithTop.coe_le_coe]
      exact mul_le_mul_of_nonpos_right h2 (le_of_lt hσ)

/-- Addition of a finite value keeps the order. -/
theorem key_add_fin_mono (a b : Flt ℚ) (c : ℚ) (ha : a ≠ nan) (hb : b ≠ nan)
    (h : key a ≤ key b) :
    a + fin c ≠ nan ∧ b + fin c ≠ nan ∧ key (a + fin c) ≤ key (b + fin c) := by
  have e1 : (pinf + fin c : Flt ℚ) = pinf := rfl
  have e2 : (ninf + fin c : Flt ℚ) = ninf := rfl
  cases a with
  | nan => exact absurd rfl ha
  | ninf =>
    rw [e2]
    exact ⟨by simp, by cases b <;> simp_all [fin_add_fin], bot_le⟩
  | pinf =>
    cases b with
    | nan => exact absurd rfl hb
    | pinf => rw [e1]; exact ⟨by simp, by simp, le_refl _⟩
    | ninf => simp [key] at h
    | fin y =>
      exfalso
      have h2 : ((⊤ : WithTop ℚ) : WithBot (WithTop ℚ)) ≤ ((y : WithTop ℚ) : WithBot _) := h
      rw [WithBot.coe_le_coe, top_le_iff] at h2
      exact WithTop.coe_ne_top h2
  | fin x =>
    cases b with
    | nan => exact absurd rfl hb
    | pinf =>
      rw [e1, fin_add_fin]
      refine ⟨by simp, by simp, ?_⟩
      show _ ≤ ((⊤ : WithTop ℚ) : WithBot (WithTop ℚ))
      rw [WithBot.coe_top]
      exact le_top
    | ninf => simp [key] at h
    | fin y =>
      have h2 : ((x : WithTop ℚ) : WithBot (WithTop ℚ)) ≤ ((y : WithTop ℚ) : WithBot _) := h
      rw [WithBot.coe_le_coe, WithTop.coe_le_coe] at h2
      rw [fin_add_fin, fin_add_fin]
      refine ⟨by simp, by simp, ?_⟩
      show ((_ : WithTop ℚ) : WithBot (WithTop ℚ)) ≤ ((_ : WithTop ℚ) : WithBot _)
      rw [WithBot.coe_le_coe, WithTop.coe_le_coe]
      linarith

/-- With a finite positive computed slope `map` is order-preserving. -/
theorem map_mono_pos (a0 a1 b0 b1 σ x y : ℚ)
    (hs : fdiv (fsub (fin b1) (fin b0)) (fsub (fin a1) (fin a0)) = fin σ)
    (hσ : 0 < σ) (hxy : x ≤ y) :
    le (B32.map ⟨fin a0, fin a1⟩ ⟨fin b0, fin b1⟩ (fin x))
      (B32.map ⟨fin a0, fin a1⟩ ⟨fin b0, fin b1⟩ (fin y)) = true := by
  simp only [B32.map]
  rw [hs]
  have u1 : fsub (fin x) (fin a0) ≠ nan := by rw [fsub_fin]; exact round32_ne_nan _
  have u2 : fsub (fin y) (fin a0) ≠ nan := by rw [fsub_fin]; exact round32_ne_nan _
  have u3 : key (fsub (fin x) (fin a0)) ≤ key (fsub (fin y) (fin a0)) := by
    rw [fsub_fin, fsub_fin]
    exact round32_mono _ _ (by linarith)
  obtain ⟨v1, v2, v3⟩ := key_mul_pos_mono _ _ σ hσ u1 u2 u3
  have w1 := rnd_ne_nan _ v1
  have w2 := rnd_ne_nan _ v2
  have w3 := key_rnd_mono _ _ v1 v2 v3
  obtain ⟨z1, z2, z3⟩ := key_add_fin_mono _ _ b0 w1 w2 w3
  show le (rnd (rnd (fsub (fin x) (fin a0) * fin σ) + fin b0))
    (rnd (rnd (fsub (fin y) (fin a0) * fin σ) + fin b0)) = true
  rw [le_iff_key _ _ (rnd_ne_nan _ z1) (rnd_ne_nan _ z2)]
  exact key_rnd_mono _ _ z1 z2 z3

/-- With a finite negative computed slope `map` is order-reversing. -/
theorem map_anti_neg (a0 a1 b0 b1 σ x y : ℚ)
    (hs : fdiv (fsub (fin b1) (fin b0)) (fsub (fin a1) (fin a0)) = fin σ)
    (hσ : σ < 0) (hxy : x ≤ y) :
    le (B32.map ⟨fin a0, fin a1⟩ ⟨fin b0, fin b1⟩ (fin y))
      (B32.map ⟨fin a0, fin a1⟩ ⟨fin b0, fin b1⟩ (fin x)) = true := by
  simp only [B32.map]
  rw [hs]
  have u1 : fsub (fin x) (fin a0) ≠ nan := by rw [fsub_fin]; exact round32_ne_nan _
  have u2 : fsub (fin y) (fin a0) ≠ nan := by rw [fsub_fin]; exact round32_ne_nan _
  have u3 : key (fsub (fin x) (fin a0)) ≤ key (fsub (fin y) (fin a0)) := by
    rw [fsub_fin, fsub_fin]
    exact round32_mono _ _ (by linarith)
  obtain ⟨v1, v2, v3⟩ := key_mul_neg_anti _ _ σ hσ u1 u2 u3
  have w1 := rnd_ne_nan _ v1
  have w2 := rnd_ne_nan _ v2
  have w3 := key_rnd_mono _ _ v2 v1 v3
  obtain ⟨z2, z1, z3⟩ := key_add_fin_mono _ _ b0 w2 w1 w3
  show le (rnd (rnd (fsub (fin y) (fin a0) * fin σ) + fin b0))
    (rnd (rnd (fsub (fin x) (fin a0) * fin σ) + fin b0)) = true
  rw [le_iff_key _ _ (rnd_ne_nan _ z2) (rnd_ne_nan _ z1)]
  exact key_rnd_mono _ _ z2 z1 z3

/-- C11, counterexample: with `a = (0, 1)` and `b = (1, 2)` the computed slope
is `1 > 0`, and for `x = 2^(-30) < y = 2^(-29)` the binary32 values of
`map(a, b, x)` and `map(a, b, y)` are both 1: the sums `1 + x` and `1 + y` round
to 1.  So `map(a, b, x) < map(a, b, y)` fails. -/
theorem C11_map_monotonicity_counterexample :
    fdiv (fsub (fin (2 : ℚ)) (fin 1)) (fsub (fin 1) (fin 0)) = fin 1
    ∧ (1 / 1073741824 : ℚ) < 1 / 536870912
    ∧ B32.map ⟨fin 0, fin 1⟩ ⟨fin 1, fin 2⟩ (fin (1 / 1073741824)) = fin 1
    ∧ B32.map ⟨fin 0, fin 1⟩ ⟨fin 1, fin 2⟩ (fin (1 / 536870912)) = fin 1
    ∧ Flt.lt (B32.map ⟨fin 0, fin 1⟩ ⟨fin 1, fin 2⟩ (fin (1 / 1073741824)))
        (B32.map ⟨fin 0, fin 1⟩ ⟨fin 1, fin 2⟩ (fin (1 / 536870912))) = false := by
  have s1 : fsub (fin 2) (fin 1) = fin 1 := by
      rw [fsub_fin]
      exact round32_pos _ _ 0 8388608 (-23) (by norm_num) (by norm_num) (by norm_num) (by norm_num)
          (by norm_num) (by norm_num) (by norm_num) (by norm_num)
  have s2 : fsub (fin 1) (fin 0) = fin 1 := by
      rw [fsub_fin]
      exact round32_pos _ _ 0 8388608 (-23) (by norm_num) (by norm_num) (by norm_num) (by norm_num)
          (by norm_num) (by norm_num) (by norm_num) (by norm_num)
  have s3 : fdiv (fin 1) (fin 1) = fin 1 := by
      rw [fdiv_fin _ _ (by norm_num)]
      exact round32_pos _ _ 0 8388608 (-23) (by norm_num) (by norm_num) (by norm_num) (by norm_num)
          (by norm_num) (by norm_num) (by norm_num) (by norm_num)
  have s4 : fsub (fin (1 / 1073741824)) (fin 0) = fin (1 / 1073741824) := by
      rw [fsub_fin]
      exact round32_pos _ _ (-30) 8388608 (-53) (by norm_num) (by norm_num) (by norm_num) (by
          norm_num) (by norm_num) (by norm_num) (by norm_num) (by norm_num)
  have s5 : fmul (fin (1 / 1073741824)) (fin 1) = fin (1 / 1073741824) := by
      rw [fmul_fin]
      exact round32_pos _ _ (-30) 8388608 (-53) (by norm_num) (by norm_num) (by norm_num) (by
          norm_num) (by norm_num) (by norm_num) (by norm_num) (by norm_num)
  have s6 : fadd (fin (1 / 1073741824)) (fin 1) = fin 1 := by
      rw [fadd_fin]
      exact round32_pos _ _ 0 8388608 (-23) (by norm_num) (by norm_num) (by norm_num) (by norm_num)
          (by norm_num) (by norm_num) (by norm_num) (by norm_num)
  have s7 : fsub (fin (1 / 536870912)) (fin 0) = fin (1 / 536870912) := by
      rw [fsub_fin]
      exact round32_pos _ _ (-29) 8388608 (-52) (by norm_num) (by norm_num) (by norm_num) (by
          norm_num) (by norm_num) (by norm_num) (by norm_num) (by norm_num)
  have s8 : fmul (fin (1 / 536870912)) (fin 1) = fin (1 / 536870912) := by
      rw [fmul_fin]
      exact round32_pos _ _ (-29) 8388608 (-52) (by norm_num) (by norm_num) (by norm_num) (by
          norm_num) (by norm_num) (by norm_num) (by norm_num) (by norm_num)
  have s9 : fadd (fin (1 / 536870912)) (fin 1) = fin 1 := by
      rw [fadd_fin]
      exact round32_pos _ _ 0 8388608 (-23) (by norm_num) (by norm_num) (by norm_num) (by norm_num)
          (by norm_num) (by norm_num) (by norm_num) (by norm_num)
  have s10 : Flt.lt (fin 1 : Flt ℚ) (fin 1) = false := by
      rw [lt_fin_fin]
      exact decide_eq_false (by norm_num)
  have e1 : B32.map ⟨fin 0, fin 1⟩ ⟨fin 1, fin 2⟩ (fin (1 / 1073741824)) = fin 1 := by
    simp only [B32.map,
      s1, s2, s3, s4, s5, s6, s7, s8, s9, s10]
  have e2 : B32.map ⟨fin 0, fin 1⟩ ⟨fin 1, fin 2⟩ (fin (1 / 536870912)) = fin 1 := by
    simp only [B32.map,
      s1, s2, s3, s4, s5, s6, s7, s8, s9, s10]
  refine ⟨?_, by norm_num, e1, e2, ?_⟩
  · simp only [
      s1, s2, s3, s4, s5, s6, s7, s8, s9, s10]
  · rw [e1, e2]
    exact s10

/-- C11 (amended): let the slope that `map` computes be a finite value `σ`
and `x < y`.  When `σ > 0`, `map(a, b, x) ≤ map(a, b, y)`, and when `σ < 0`,
`map(a, b, x) ≥ map(a, b, y)`; the inequalities need not be strict, see the
counterexample.  With the default ranges of `main` they are strict on the
pixels: the sensor x coordinate strictly increases with the pixel column, and
the sensor y coordinate strictly decreases with the pixel row, over the 512
columns and rows, whatever the tiles the pixels are in. -/
theorem C11_map_monotonicity (a0 a1 b0 b1 σ x y : ℚ)
    (hs : fdiv (fsub (fin b1) (fin b0)) (fsub (fin a1) (fin a0)) = fin σ) (hxy : x < y) :
    (0 < σ → le (B32.map ⟨fin a0, fin a1⟩ ⟨fin b0, fin b1⟩ (fin x))
        (B32.map ⟨fin a0, fin a1⟩ ⟨fin b0, fin b1⟩ (fin y)) = true)
    ∧ (σ < 0 → le (B32.map ⟨fin a0, fin a1⟩ ⟨fin b0, fin b1⟩ (fin y))
        (B32.map ⟨fin a0, fin a1⟩ ⟨fin b0, fin b1⟩ (fin x)) = true)
    ∧ (∀ X Y i px X' Y' i' px' : ℕ, X + px < X' + px' → X' + px' < 512 →
        ∃ u v : ℚ,
          (B32.pixel_proj B32.main_globals (B32.main_rr X Y) i px).e0 = fin u
          ∧ (B32.pixel_proj B32.main_globals (B32.main_rr X' Y') i' px').e0 = fin v
          ∧ u < v)
    ∧ (∀ X Y i px X' Y' i' px' : ℕ, Y + i < Y' + i' → Y' + i' < 512 →
        ∃ u v : ℚ,
          (B32.pixel_proj B32.main_globals (B32.main_rr X Y) i px).e1 = fin u
          ∧ (B32.pixel_proj B32.main_globals (B32.main_rr X' Y') i' px').e1 = fin v
          ∧ v < u) := by
  refine ⟨fun hσ => map_mono_pos a0 a1 b0 b1 σ x y hs hσ (le_of_lt hxy),
    fun hσ => map_anti_neg a0 a1 b0 b1 σ x y hs hσ (le_of_lt hxy), ?_, ?_⟩
  · intro X Y i px X' Y' i' px' h1 h2
    obtain ⟨u, hu, eu, -⟩ := sensor_x_bound X Y i px (by omega)
    obtain ⟨v, hv, ev, -⟩ := sensor_x_bound X' Y' i' px' h2
    refine ⟨u, v, hu, hv, ?_⟩
    have hg : ((X + px : ℕ) : ℚ) + 1 ≤ ((X' + px' : ℕ) : ℚ) := by
      have : X + px + 1 ≤ X' + px' := by omega
      exact_mod_cast this
    rw [abs_le] at eu ev
    linarith [eu.1, eu.2, ev.1, ev.2]
  · intro X Y i px X' Y' i' px' h1 h2
    obtain ⟨u, hu, eu, -⟩ := sensor_y_bound X Y i px (by omega)
    obtain ⟨v, hv, ev, -⟩ := sensor_y_bound X' Y' i' px' h2
    refine ⟨u, v, hu, hv, ?_⟩
    have hg : ((Y + i : ℕ) : ℚ) + 1 ≤ ((Y' + i' : ℕ) : ℚ) := by
      have : Y + i + 1 ≤ Y' + i' := by omega
      exact_mod_cast this
    rw [abs_le] at eu ev
    linarith [eu.1, eu.2, ev.1, ev.2]

/-- C11 at `a = (0, 4)`, `b = (0, 8)`, where the computed slope is 2, and
`x = 1 < y = 3`: `map(a, b, 1) ≤ map(a, b, 3)`. -/
theorem C11_map_monotonicity_witness :
    fdiv (fsub (fin (8 : ℚ)) (fin 0)) (fsub (fin 4) (fin 0)) = fin 2
    ∧ le (B32.map ⟨fin 0, fin 4⟩ ⟨fin 0, fin 8⟩ (fin 1))
        (B32.map ⟨fin 0, fin 4⟩ ⟨fin 0, fin 8⟩ (fin 3)) = true := by
  have hs : fdiv (fsub (fin (8 : ℚ)) (fin 0)) (fsub (fin 4) (fin 0)) = fin 2 := by
    rw [fsub_exact _ _ (isFloat_of_eq_int _ 8 (by norm_num) (by norm_num)),
      fsub_exact _ _ (isFloat_of_eq_int _ 4 (by norm_num) (by norm_num)),
      fdiv_exact _ _ (by norm_num) (isFloat_of_eq_int _ 2 (by norm_num) (by norm_num))]
    norm_num
  exact ⟨hs, (C11_map_monotonicity 0 4 0 8 2 1 3 hs (by norm_num)).1 (by norm_num)⟩

end MapOrder

/-! ## C12: the sphere at the image centre -/

section SphereCentre
open B32

/-- The squared norm of `dif` for the pixel `(256, 256)` of the default
render. -/
theorem centre_norm2 :
    B32.vec3_norm2 (B32.pixel_dif B32.main_globals (B32.main_rr 256 256) 0 0) = fin (9895631 /
        17179869184) := by
  have s1 : B32.ofNat 256 = fin 256 := by
      unfold B32.ofNat
      rw [Nat.cast_ofNat]
      exact round32_pos _ _ 8 8388608 (-15) (by norm_num) (by norm_num) (by norm_num) (by norm_num)
          (by norm_num) (by norm_num) (by norm_num) (by norm_num)
  have s2 : B32.ofNat 0 = fin 0 := by
      unfold B32.ofNat
      rw [Nat.cast_zero]
      exact round32_zero
  have s3 : fadd (fin 0) (fin 256) = fin 256 := by
      rw [fadd_fin]
      exact round32_pos _ _ 8 8388608 (-15) (by norm_num) (by norm_num) (by norm_num) (by norm_num)
          (by norm_num) (by norm_num) (by norm_num) (by norm_num)
  have s4 : fadd (fin 256) (fin (1 / 2)) = fin (513 / 2) := by
      rw [fadd_fin]
      exact round32_pos _ _ 8 8404992 (-15) (by norm_num) (by norm_num) (by norm_num) (by norm_num)
          (by norm_num) (by norm_num) (by norm_num) (by norm_num)
  have s5 : fsub (fin (513 / 2)) (fin 0) = fin (513 / 2) := by
      rw [fsub_fin]
      exact round32_pos _ _ 8 8404992 (-15) (by norm_num) (by norm_num) (by norm_num) (by norm_num)
          (by norm_num) (by norm_num) (by norm_num) (by norm_num)
  have s6 : fsub (fin (7516193 / 536870912)) (fin (-(7516193 / 536870912))) = fin (7516193 /
      268435456) := by
      rw [fsub_fin]
      exact round32_pos _ _ (-6) 15032386 (-29) (by norm_num) (by norm_num) (by norm_num) (by
          norm_num) (by norm_num) (by norm_num) (by norm_num) (by norm_num)
  have s7 : fsub (fin 512) (fin 0) = fin 512 := by
      rw [fsub_fin]
      exact round32_pos _ _ 9 8388608 (-14) (by norm_num) (by norm_num) (by norm_num) (by norm_num)
          (by norm_num) (by norm_num) (by norm_num) (by norm_num)
  have s8 : fdiv (fin (7516193 / 268435456)) (fin 512) = fin (7516193 / 137438953472) := by
      rw [fdiv_fin _ _ (by norm_num)]
      exact round32_pos _ _ (-15) 15032386 (-38) (by norm_num) (by norm_num) (by norm_num) (by
          norm_num) (by norm_num) (by norm_num) (by norm_num) (by norm_num)
  have s9 : fmul (fin (513 / 2)) (fin (7516193 / 137438953472)) = fin (7530873 / 536870912) := by
      rw [fmul_fin]
      exact round32_pos _ _ (-7) 15061746 (-30) (by norm_num) (by norm_num) (by norm_num) (by
          norm_num) (by norm_num) (by norm_num) (by norm_num) (by norm_num)
  have s10 : fadd (fin (7530873 / 536870912)) (fin (-(7516193 / 536870912))) = fin (1835 /
      67108864) := by
      rw [fadd_fin]
      exact round32_pos _ _ (-16) 15032320 (-39) (by norm_num) (by norm_num) (by norm_num) (by
          norm_num) (by norm_num) (by norm_num) (by norm_num) (by norm_num)
  have s11 : fsub (fin (-(7516193 / 536870912))) (fin (7516193 / 536870912)) = fin (-(7516193 /
      268435456)) := by
      rw [fsub_fin]
      exact round32_neg _ _ (-6) (-15032386) (-29) (by norm_num) (by norm_num) (by norm_num) (by
          norm_num) (by norm_num) (by norm_num) (by norm_num) (by norm_num)
  have s12 : fdiv (fin (-(7516193 / 268435456))) (fin 512) = fin (-(7516193 / 137438953472)) := by
      rw [fdiv_fin _ _ (by norm_num)]
      exact round32_neg _ _ (-15) (-15032386) (-38) (by norm_num) (by norm_num) (by norm_num) (by
          norm_num) (by norm_num) (by norm_num) (by norm_num) (by norm_num)
  have s13 : fmul (fin (513 / 2)) (fin (-(7516193 / 137438953472))) = fin (-(7530873 / 536870912))
      := by
      rw [fmul_fin]
      exact round32_neg _ _ (-7) (-15061746) (-30) (by norm_num) (by norm_num) (by norm_num) (by
          norm_num) (by norm_num) (by norm_num) (by norm_num) (by norm_num)
  have s14 : fadd (fin (-(7530873 / 536870912))) (fin (7516193 / 536870912)) = fin (-(1835 /
      67108864)) := by
      rw [fadd_fin]
      exact round32_neg _ _ (-16) (-15032320) (-39) (by norm_num) (by norm_num) (by norm_num) (by
          norm_num) (by norm_num) (by norm_num) (by norm_num) (by norm_num)
  have s15 : round32 (24 / 1000) = fin (6442451 / 268435456) := by
      exact round32_pos _ _ (-6) 12884902 (-29) (by norm_num) (by norm_num) (by norm_num) (by
          norm_num) (by norm_num) (by norm_num) (by norm_num) (by norm_num)
  have s16 : (-(fin (6442451 / 268435456)) : Flt ℚ) = fin (-(6442451 / 268435456)) := by
      simp only [neg_fin, neg_neg, neg_zero]
  have s17 : fsub (fin (1835 / 67108864)) (fin 0) = fin (1835 / 67108864) := by
      rw [fsub_fin]
      exact round32_pos _ _ (-16) 15032320 (-39) (by norm_num) (by norm_num) (by norm_num) (by
          norm_num) (by norm_num) (by norm_num) (by norm_num) (by norm_num)
  have s18 : fsub (fin (-(1835 / 67108864))) (fin 0) = fin (-(1835 / 67108864)) := by
      rw [fsub_fin]
      exact round32_neg _ _ (-16) (-15032320) (-39) (by norm_num) (by norm_num) (by norm_num) (by
          norm_num) (by norm_num) (by norm_num) (by norm_num) (by norm_num)
  have s19 : fsub (fin (-(6442451 / 268435456))) (fin 0) = fin (-(6442451 / 268435456)) := by
      rw [fsub_fin]
      exact round32_neg _ _ (-6) (-12884902) (-29) (by norm_num) (by norm_num) (by norm_num) (by
          norm_num) (by norm_num) (by norm_num) (by norm_num) (by norm_num)
  have s20 : fmul (fin (1835 / 67108864)) (fin (1835 / 67108864)) = fin (3367225 /
      4503599627370496) := by
      rw [fmul_fin]
      exact round32_pos _ _ (-31) 13468900 (-54) (by norm_num) (by norm_num) (by norm_num) (by
          norm_num) (by norm_num) (by norm_num) (by norm_num) (by norm_num)
  have s21 : fmul (fin (-(1835 / 67108864))) (fin (-(1835 / 67108864))) = fin (3367225 /
      4503599627370496) := by
      rw [fmul_fin]
      exact round32_pos _ _ (-31) 13468900 (-54) (by norm_num) (by norm_num) (by norm_num) (by
          norm_num) (by norm_num) (by norm_num) (by norm_num) (by norm_num)
  have s22 : fadd (fin (3367225 / 4503599627370496)) (fin (3367225 / 4503599627370496)) = fin
      (3367225 / 2251799813685248) := by
      rw [fadd_fin]
      exact round32_pos _ _ (-30) 13468900 (-53) (by norm_num) (by norm_num) (by norm_num) (by
          norm_num) (by norm_num) (by norm_num) (by norm_num) (by norm_num)
  have s23 : fmul (fin (-(6442451 / 268435456))) (fin (-(6442451 / 268435456))) = fin (9895605 /
      17179869184) := by
      rw [fmul_fin]
      exact round32_pos _ _ (-11) 9895605 (-34) (by norm_num) (by norm_num) (by norm_num) (by
          norm_num) (by norm_num) (by norm_num) (by norm_num) (by norm_num)
  have s24 : fadd (fin (3367225 / 2251799813685248)) (fin (9895605 / 17179869184)) = fin (9895631 /
      17179869184) := by
      rw [fadd_fin]
      exact round32_pos _ _ (-11) 9895631 (-34) (by norm_num) (by norm_num) (by norm_num) (by
          norm_num) (by norm_num) (by norm_num) (by norm_num) (by norm_num)
  simp only [B32.pixel_dir, B32.pixel_dif, B32.pixel_proj, B32.vec3_normalize, B32.vec3_norm,
      B32.vec3_norm2, B32.vec3_scale, B32.vec3_dot, B32.vec3_sub, B32.map, B32.main_rr,
      main_globals_eval, B32.FOCAL_LENGTH,
      s1, s2, s3, s4, s5, s6, s7, s8, s9, s10, s11, s12, s13, s14, s15, s16, s17, s18,
      s19, s20, s21, s22, s23, s24]

/-- Its square root rounded to binary32. -/
theorem centre_root : IsRoot32 (9895631 / 17179869184) (12884919 / 536870912) :=
  ⟨12884919 / 536870912, 51539677 / 2147483648, by norm_num, by norm_num, by norm_num, by norm_num,
    (by
      exact round32_pos _ _ (-6) 12884919 (-29) (by norm_num) (by norm_num) (by norm_num) (by
          norm_num) (by norm_num) (by norm_num) (by norm_num) (by norm_num)),
    (by
      exact round32_pos _ _ (-6) 12884919 (-29) (by norm_num) (by norm_num) (by norm_num) (by
          norm_num) (by norm_num) (by norm_num) (by norm_num) (by norm_num))⟩

/-- The direction of the ray of the pixel `(256, 256)`. -/
theorem centre_dir (L : Libm ℚ) (h : L.sqrtf (fin (9895631 / 17179869184)) = fin (12884919 /
    536870912)) :
    B32.pixel_dir B32.main_globals L (B32.main_rr 256 256) 0 0 = ⟨fin (4893327 / 4294967296), fin
        (-(4893327 / 4294967296)), fin (-(8388597 / 8388608))⟩ := by
  have s1 : B32.ofNat 256 = fin 256 := by
      unfold B32.ofNat
      rw [Nat.cast_ofNat]
      exact round32_pos _ _ 8 8388608 (-15) (by norm_num) (by norm_num) (by norm_num) (by norm_num)
          (by norm_num) (by norm_num) (by norm_num) (by norm_num)
  have s2 : B32.ofNat 0 = fin 0 := by
      unfold B32.ofNat
      rw [Nat.cast_zero]
      exact round32_zero
  have s3 : fadd (fin 0) (fin 256) = fin 256 := by
      rw [fadd_fin]
      exact round32_pos _ _ 8 8388608 (-15) (by norm_num) (by norm_num) (by norm_num) (by norm_num)
          (by norm_num) (by norm_num) (by norm_num) (by norm_num)
  have s4 : fadd (fin 256) (fin (1 / 2)) = fin (513 / 2) := by
      rw [fadd_fin]
      exact round32_pos _ _ 8 8404992 (-15) (by norm_num) (by norm_num) (by norm_num) (by norm_num)
          (by norm_num) (by norm_num) (by norm_num) (by norm_num)
  have s5 : fsub (fin (513 / 2)) (fin 0) = fin (513 / 2) := by
      rw [fsub_fin]
      exact round32_pos _ _ 8 8404992 (-15) (by norm_num) (by norm_num) (by norm_num) (by norm_num)
          (by norm_num) (by norm_num) (by norm_num) (by norm_num)
  have s6 : fsub (fin (7516193 / 536870912)) (fin (-(7516193 / 536870912))) = fin (7516193 /
      268435456) := by
      rw [fsub_fin]
      exact round32_pos _ _ (-6) 15032386 (-29) (by norm_num) (by norm_num) (by norm_num) (by
          norm_num) (by norm_num) (by norm_num) (by norm_num) (by norm_num)
  have s7 : fsub (fin 512) (fin 0) = fin 512 := by
      rw [fsub_fin]
      exact round32_pos _ _ 9 8388608 (-14) (by norm_num) (by norm_num) (by norm_num) (by norm_num)
          (by norm_num) (by norm_num) (by norm_num) (by norm_num)
  have s8 : fdiv (fin (7516193 / 268435456)) (fin 512) = fin (7516193 / 137438953472) := by
      rw [fdiv_fin _ _ (by norm_num)]
      exact round32_pos _ _ (-15) 15032386 (-38) (by norm_num) (by norm_num) (by norm_num) (by
          norm_num) (by norm_num) (by norm_num) (by norm_num) (by norm_num)
  have s9 : fmul (fin (513 / 2)) (fin (7516193 / 137438953472)) = fin (7530873 / 536870912) := by
      rw [fmul_fin]
      exact round32_pos _ _ (-7) 15061746 (-30) (by norm_num) (by norm_num) (by norm_num) (by
          norm_num) (by norm_num) (by norm_num) (by norm_num) (by norm_num)
  have s10 : fadd (fin (7530873 / 536870912)) (fin (-(7516193 / 536870912))) = fin (1835 /
      67108864) := by
      rw [fadd_fin]
      exact round32_pos _ _ (-16) 15032320 (-39) (by norm_num) (by norm_num) (by norm_num) (by
          norm_num) (by norm_num) (by norm_num) (by norm_num) (by norm_num)
  have s11 : fsub (fin (-(7516193 / 536870912))) (fin (7516193 / 536870912)) = fin (-(7516193 /
      268435456)) := by
      rw [fsub_fin]
      exact round32_neg _ _ (-6) (-15032386) (-29) (by norm_num) (by norm_num) (by norm_num) (by
          norm_num) (by norm_num) (by norm_num) (by norm_num) (by norm_num)
  have s12 : fdiv (fin (-(7516193 / 268435456))) (fin 512) = fin (-(7516193 / 137438953472)) := by
      rw [fdiv_fin _ _ (by norm_num)]
      exact round32_neg _ _ (-15) (-15032386) (-38) (by norm_num) (by norm_num) (by norm_num) (by
          norm_num) (by norm_num) (by norm_num) (by norm_num) (by norm_num)
  have s13 : fmul (fin (513 / 2)) (fin (-(7516193 / 137438953472))) = fin (-(7530873 / 536870912))
      := by
      rw [fmul_fin]
      exact round32_neg _ _ (-7) (-15061746) (-30) (by norm_num) (by norm_num) (by norm_num) (by
          norm_num) (by norm_num) (by norm_num) (by norm_num) (by norm_num)
  have s14 : fadd (fin (-(7530873 / 536870912))) (fin (7516193 / 536870912)) = fin (-(1835 /
      67108864)) := by
      rw [fadd_fin]
      exact round32_neg _ _ (-16) (-15032320) (-39) (by norm_num) (by norm_num) (by norm_num) (by
          norm_num) (by norm_num) (by norm_num) (by norm_num) (by norm_num)
  have s15 : round32 (24 / 1000) = fin (6442451 / 268435456) := by
      exact round32_pos _ _ (-6) 12884902 (-29) (by norm_num) (by norm_num) (by norm_num) (by
          norm_num) (by norm_num) (by norm_num) (by norm_num) (by norm_num)
  have s16 : (-(fin (6442451 / 268435456)) : Flt ℚ) = fin (-(6442451 / 268435456)) := by
      simp only [neg_fin, neg_neg, neg_zero]
  have s17 : fsub (fin (1835 / 67108864)) (fin 0) = fin (1835 / 67108864) := by
      rw [fsub_fin]
      exact round32_pos _ _ (-16) 15032320 (-39) (by norm_num) (by norm_num) (by norm_num) (by
          norm_num) (by norm_num) (by norm_num) (by norm_num) (by norm_num)
  have s18 : fsub (fin (-(1835 / 67108864))) (fin 0) = fin (-(1835 / 67108864)) := by
      rw [fsub_fin]
      exact round32_neg _ _ (-16) (-15032320) (-39) (by norm_num) (by norm_num) (by norm_num) (by
          norm_num) (by norm_num) (by norm_num) (by norm_num) (by norm_num)
  have s19 : fsub (fin (-(6442451 / 268435456))) (fin 0) = fin (-(6442451 / 268435456)) := by
      rw [fsub_fin]
      exact round32_neg _ _ (-6) (-12884902) (-29) (by norm_num) (by norm_num) (by norm_num) (by
          norm_num) (by norm_num) (by norm_num) (by norm_num) (by norm_num)
  have s20 : fmul (fin (1835 / 67108864)) (fin (1835 / 67108864)) = fin (3367225 /
      4503599627370496) := by
      rw [fmul_fin]
      exact round32_pos _ _ (-31) 13468900 (-54) (by norm_num) (by norm_num) (by norm_num) (by
          norm_num) (by norm_num) (by norm_num) (by norm_num) (by norm_num)
  have s21 : fmul (fin (-(1835 / 67108864))) (fin (-(1835 / 67108864))) = fin (3367225 /
      4503599627370496) := by
      rw [fmul_fin]
      exact round32_pos _ _ (-31) 13468900 (-54) (by norm_num) (by norm_num) (by norm_num) (by
          norm_num) (by norm_num) (by norm_num) (by norm_num) (by norm_num)
  have s22 : fadd (fin (3367225 / 4503599627370496)) (fin (3367225 / 4503599627370496)) = fin
      (3367225 / 2251799813685248) := by
      rw [fadd_fin]
      exact round32_pos _ _ (-30) 13468900 (-53) (by norm_num) (by norm_num) (by norm_num) (by
          norm_num) (by norm_num) (by norm_num) (by norm_num) (by norm_num)
  have s23 : fmul (fin (-(6442451 / 268435456))) (fin (-(6442451 / 268435456))) = fin (9895605 /
      17179869184) := by
      rw [fmul_fin]
      exact round32_pos _ _ (-11) 9895605 (-34) (by norm_num) (by norm_num) (by norm_num) (by
          norm_num) (by norm_num) (by norm_num) (by norm_num) (by norm_num)
  have s24 : fadd (fin (3367225 / 2251799813685248)) (fin (9895605 / 17179869184)) = fin (9895631 /
      17179869184) := by
      rw [fadd_fin]
      exact round32_pos _ _ (-11) 9895631 (-34) (by norm_num) (by norm_num) (by norm_num) (by
          norm_num) (by norm_num) (by norm_num) (by norm_num) (by norm_num)
  have s25 : fdiv (fin 1) (fin (12884919 / 536870912)) = fin (2730663 / 65536) := by
      rw [fdiv_fin _ _ (by norm_num)]
      exact round32_pos _ _ 5 10922652 (-18) (by norm_num) (by norm_num) (by norm_num) (by
          norm_num) (by norm_num) (by norm_num) (by norm_num) (by norm_num)
  have s26 : fmul (fin (1835 / 67108864)) (fin (2730663 / 65536)) = fin (4893327 / 4294967296) := by
      rw [fmul_fin]
      exact round32_pos _ _ (-10) 9786654 (-33) (by norm_num) (by norm_num) (by norm_num) (by
          norm_num) (by norm_num) (by norm_num) (by norm_num) (by norm_num)
  have s27 : fmul (fin (-(1835 / 67108864))) (fin (2730663 / 65536)) = fin (-(4893327 /
      4294967296)) := by
      rw [fmul_fin]
      exact round32_neg _ _ (-10) (-9786654) (-33) (by norm_num) (by norm_num) (by norm_num) (by
          norm_num) (by norm_num) (by norm_num) (by norm_num) (by norm_num)
  have s28 : fmul (fin (-(6442451 / 268435456))) (fin (2730663 / 65536)) = fin (-(8388597 /
      8388608)) := by
      rw [fmul_fin]
      exact round32_neg _ _ (-1) (-16777194) (-24) (by norm_num) (by norm_num) (by norm_num) (by
          norm_num) (by norm_num) (by norm_num) (by norm_num) (by norm_num)
  simp only [B32.pixel_dir, B32.pixel_dif, B32.pixel_proj, B32.vec3_normalize, B32.vec3_norm,
      B32.vec3_norm2, B32.vec3_scale, B32.vec3_dot, B32.vec3_sub, B32.map, B32.main_rr,
      main_globals_eval, B32.FOCAL_LENGTH, h,
      s1, s2, s3, s4, s5, s6, s7, s8, s9, s10, s11, s12, s13, s14, s15, s16, s17, s18,
      s19, s20, s21, s22, s23, s24, s25, s26, s27, s28]

/-- The discriminant that `intersect_sphere` computes for that ray and the
sphere of `main`. -/
theorem centre_delta :
    B32.sphere_delta B32.main_s ⟨fin 0, fin 0, fin 0⟩ ⟨fin (4893327 / 4294967296), fin (-(4893327 /
        4294967296)), fin (-(8388597 / 8388608))⟩ = fin (131069 / 131072) := by
  have s1 : fsub (fin 0) (fin 0) = fin 0 := by
      rw [fsub_fin]
      rw [show ((0 : ℚ) - (0) = 0) by norm_num]
      exact round32_zero
  have s2 : fsub (fin 0) (fin (-3)) = fin 3 := by
      rw [fsub_fin]
      exact round32_pos _ _ 1 12582912 (-22) (by norm_num) (by norm_num) (by norm_num) (by
          norm_num) (by norm_num) (by norm_num) (by norm_num) (by norm_num)
  have s3 : fmul (fin (4893327 / 4294967296)) (fin (4893327 / 4294967296)) = fin (5708849 /
      4398046511104) := by
      rw [fmul_fin]
      exact round32_pos _ _ (-20) 11417698 (-43) (by norm_num) (by norm_num) (by norm_num) (by
          norm_num) (by norm_num) (by norm_num) (by norm_num) (by norm_num)
  have s4 : fmul (fin (-(4893327 / 4294967296))) (fin (-(4893327 / 4294967296))) = fin (5708849 /
      4398046511104) := by
      rw [fmul_fin]
      exact round32_pos _ _ (-20) 11417698 (-43) (by norm_num) (by norm_num) (by norm_num) (by
          norm_num) (by norm_num) (by norm_num) (by norm_num) (by norm_num)
  have s5 : fadd (fin (5708849 / 4398046511104)) (fin (5708849 / 4398046511104)) = fin (5708849 /
      2199023255552) := by
      rw [fadd_fin]
      exact round32_pos _ _ (-19) 11417698 (-42) (by norm_num) (by norm_num) (by norm_num) (by
          norm_num) (by norm_num) (by norm_num) (by norm_num) (by norm_num)
  have s6 : fmul (fin (-(8388597 / 8388608))) (fin (-(8388597 / 8388608))) = fin (4194293 /
      4194304) := by
      rw [fmul_fin]
      exact round32_pos _ _ (-1) 16777172 (-24) (by norm_num) (by norm_num) (by norm_num) (by
          norm_num) (by norm_num) (by norm_num) (by norm_num) (by norm_num)
  have s7 : fadd (fin (5708849 / 2199023255552)) (fin (4194293 / 4194304)) = fin 1 := by
      rw [fadd_fin]
      exact round32_pos _ _ (-1) 16777216 (-24) (by norm_num) (by norm_num) (by norm_num) (by
          norm_num) (by norm_num) (by norm_num) (by norm_num) (by norm_num)
  have s8 : fmul (fin (4893327 / 4294967296)) (fin 0) = fin 0 := by
      rw [fmul_fin]
      rw [show ((4893327 / 4294967296 : ℚ) * (0) = 0) by norm_num]
      exact round32_zero
  have s9 : fmul (fin (-(4893327 / 4294967296))) (fin 0) = fin 0 := by
      rw [fmul_fin]
      rw [show ((-(4893327 / 4294967296) : ℚ) * (0) = 0) by norm_num]
      exact round32_zero
  have s10 : fadd (fin 0) (fin 0) = fin 0 := by
      rw [fadd_fin]
      rw [show ((0 : ℚ) + (0) = 0) by norm_num]
      exact round32_zero
  have s11 : fmul (fin (-(8388597 / 8388608))) (fin 3) = fin (-(786431 / 262144)) := by
      rw [fmul_fin]
      exact round32_neg_tie _ _ 1 (-12582896) (-22) (by norm_num) (by norm_num) (by norm_num) (by
          norm_num) (Or.inl (by norm_num)) (by norm_num) (by norm_num) (by norm_num)
  have s12 : fadd (fin 0) (fin (-(786431 / 262144))) = fin (-(786431 / 262144)) := by
      rw [fadd_fin]
      exact round32_neg _ _ 1 (-12582896) (-22) (by norm_num) (by norm_num) (by norm_num) (by
          norm_num) (by norm_num) (by norm_num) (by norm_num) (by norm_num)
  have s13 : fmul (fin (-(786431 / 262144))) (fin (-(786431 / 262144))) = fin (1179645 / 131072) :=
      by
      rw [fmul_fin]
      exact round32_pos _ _ 3 9437160 (-20) (by norm_num) (by norm_num) (by norm_num) (by norm_num)
          (by norm_num) (by norm_num) (by norm_num) (by norm_num)
  have s14 : fmul (fin 0) (fin 0) = fin 0 := by
      rw [fmul_fin]
      rw [show ((0 : ℚ) * (0) = 0) by norm_num]
      exact round32_zero
  have s15 : fmul (fin 3) (fin 3) = fin 9 := by
      rw [fmul_fin]
      exact round32_pos _ _ 3 9437184 (-20) (by norm_num) (by norm_num) (by norm_num) (by norm_num)
          (by norm_num) (by norm_num) (by norm_num) (by norm_num)
  have s16 : fadd (fin 0) (fin 9) = fin 9 := by
      rw [fadd_fin]
      exact round32_pos _ _ 3 9437184 (-20) (by norm_num) (by norm_num) (by norm_num) (by norm_num)
          (by norm_num) (by norm_num) (by norm_num) (by norm_num)
  have s17 : fmul (fin 1) (fin 1) = fin 1 := by
      rw [fmul_fin]
      exact round32_pos _ _ 0 8388608 (-23) (by norm_num) (by norm_num) (by norm_num) (by norm_num)
          (by norm_num) (by norm_num) (by norm_num) (by norm_num)
  have s18 : fsub (fin 9) (fin 1) = fin 8 := by
      rw [fsub_fin]
      exact round32_pos _ _ 3 8388608 (-20) (by norm_num) (by norm_num) (by norm_num) (by norm_num)
          (by norm_num) (by norm_num) (by norm_num) (by norm_num)
  have s19 : fmul (fin 1) (fin 8) = fin 8 := by
      rw [fmul_fin]
      exact round32_pos _ _ 3 8388608 (-20) (by norm_num) (by norm_num) (by norm_num) (by norm_num)
          (by norm_num) (by norm_num) (by norm_num) (by norm_num)
  have s20 : fsub (fin (1179645 / 131072)) (fin 8) = fin (131069 / 131072) := by
      rw [fsub_fin]
      exact round32_pos _ _ (-1) 16776832 (-24) (by norm_num) (by norm_num) (by norm_num) (by
          norm_num) (by norm_num) (by norm_num) (by norm_num) (by norm_num)
  simp only [B32.sphere_delta, B32.main_s, B32.vec3_norm2, B32.vec3_dot, B32.vec3_sub,
      s1, s2, s3, s4, s5, s6, s7, s8, s9, s10, s11, s12, s13, s14, s15, s16, s17, s18,
      s19, s20]

/-- Its square root rounded to binary32. -/
theorem centre_delta_root : IsRoot32 (131069 / 131072) (262141 / 262144) :=
  ⟨67108095 / 67108864, 262141 / 262144, by norm_num, by norm_num, by norm_num, by norm_num,
    (by
      exact round32_pos _ _ (-1) 16777024 (-24) (by norm_num) (by norm_num) (by norm_num) (by
          norm_num) (by norm_num) (by norm_num) (by norm_num) (by norm_num)),
    (by
      exact round32_pos _ _ (-1) 16777024 (-24) (by norm_num) (by norm_num) (by norm_num) (by
          norm_num) (by norm_num) (by norm_num) (by norm_num) (by norm_num))⟩

/-- The value of `intersect_sphere` for that ray. -/
theorem centre_t (L : Libm ℚ) (h : L.sqrt (fin (131069 / 131072)) = fin (262141 / 262144)) :
    B32.intersect_sphere L B32.main_s ⟨fin 0, fin 0, fin 0⟩ ⟨fin (4893327 / 4294967296), fin
        (-(4893327 / 4294967296)), fin (-(8388597 / 8388608))⟩ = fin (262145 / 131072) := by
  have s1 : fsub (fin 0) (fin 0) = fin 0 := by
      rw [fsub_fin]
      rw [show ((0 : ℚ) - (0) = 0) by norm_num]
      exact round32_zero
  have s2 : fsub (fin 0) (fin (-3)) = fin 3 := by
      rw [fsub_fin]
      exact round32_pos _ _ 1 12582912 (-22) (by norm_num) (by norm_num) (by norm_num) (by
          norm_num) (by norm_num) (by norm_num) (by norm_num) (by norm_num)
  have s3 : fmul (fin (4893327 / 4294967296)) (fin (4893327 / 4294967296)) = fin (5708849 /
      4398046511104) := by
      rw [fmul_fin]
      exact round32_pos _ _ (-20) 11417698 (-43) (by norm_num) (by norm_num) (by norm_num) (by
          norm_num) (by norm_num) (by norm_num) (by norm_num) (by norm_num)
  have s4 : fmul (fin (-(4893327 / 4294967296))) (fin (-(4893327 / 4294967296))) = fin (5708849 /
      4398046511104) := by
      rw [fmul_fin]
      exact round32_pos _ _ (-20) 11417698 (-43) (by norm_num) (by norm_num) (by norm_num) (by
          norm_num) (by norm_num) (by norm_num) (by norm_num) (by norm_num)
  have s5 : fadd (fin (5708849 / 4398046511104)) (fin (5708849 / 4398046511104)) = fin (5708849 /
      2199023255552) := by
      rw [fadd_fin]
      exact round32_pos _ _ (-19) 11417698 (-42) (by norm_num) (by norm_num) (by norm_num) (by
          norm_num) (by norm_num) (by norm_num) (by norm_num) (by norm_num)
  have s6 : fmul (fin (-(8388597 / 8388608))) (fin (-(8388597 / 8388608))) = fin (4194293 /
      4194304) := by
      rw [fmul_fin]
      exact round32_pos _ _ (-1) 16777172 (-24) (by norm_num) (by norm_num) (by norm_num) (by
          norm_num) (by norm_num) (by norm_num) (by norm_num) (by norm_num)
  have s7 : fadd (fin (5708849 / 2199023255552)) (fin (4194293 / 4194304)) = fin 1 := by
      rw [fadd_fin]
      exact round32_pos _ _ (-1) 16777216 (-24) (by norm_num) (by norm_num) (by norm_num) (by
          norm_num) (by norm_num) (by norm_num) (by norm_num) (by norm_num)
  have s8 : fmul (fin (4893327 / 4294967296)) (fin 0) = fin 0 := by
      rw [fmul_fin]
      rw [show ((4893327 / 4294967296 : ℚ) * (0) = 0) by norm_num]
      exact round32_zero
  have s9 : fmul (fin (-(4893327 / 4294967296))) (fin 0) = fin 0 := by
      rw [fmul_fin]
      rw [show ((-(4893327 / 4294967296) : ℚ) * (0) = 0) by norm_num]
      exact round32_zero
  have s10 : fadd (fin 0) (fin 0) = fin 0 := by
      rw [fadd_fin]
      rw [show ((0 : ℚ) + (0) = 0) by norm_num]
      exact round32_zero
  have s11 : fmul (fin (-(8388597 / 8388608))) (fin 3) = fin (-(786431 / 262144)) := by
      rw [fmul_fin]
      exact round32_neg_tie _ _ 1 (-12582896) (-22) (by norm_num) (by norm_num) (by norm_num) (by
          norm_num) (Or.inl (by norm_num)) (by norm_num) (by norm_num) (by norm_num)
  have s12 : fadd (fin 0) (fin (-(786431 / 262144))) = fin (-(786431 / 262144)) := by
      rw [fadd_fin]
      exact round32_neg _ _ 1 (-12582896) (-22) (by norm_num) (by norm_num) (by norm_num) (by
          norm_num) (by norm_num) (by norm_num) (by norm_num) (by norm_num)
  have s13 : fmul (fin (-(786431 / 262144))) (fin (-(786431 / 262144))) = fin (1179645 / 131072) :=
      by
      rw [fmul_fin]
      exact round32_pos _ _ 3 9437160 (-20) (by norm_num) (by norm_num) (by norm_num) (by norm_num)
          (by norm_num) (by norm_num) (by norm_num) (by norm_num)
  have s14 : fmul (fin 0) (fin 0) = fin 0 := by
      rw [fmul_fin]
      rw [show ((0 : ℚ) * (0) = 0) by norm_num]
      exact round32_zero
  have s15 : fmul (fin 3) (fin 3) = fin 9 := by
      rw [fmul_fin]
      exact round32_pos _ _ 3 9437184 (-20) (by norm_num) (by norm_num) (by norm_num) (by norm_num)
          (by norm_num) (by norm_num) (by norm_num) (by norm_num)
  have s16 : fadd (fin 0) (fin 9) = fin 9 := by
      rw [fadd_fin]
      exact round32_pos _ _ 3 9437184 (-20) (by norm_num) (by norm_num) (by norm_num) (by norm_num)
          (by norm_num) (by norm_num) (by norm_num) (by norm_num)
  have s17 : fmul (fin 1) (fin 1) = fin 1 := by
      rw [fmul_fin]
      exact round32_pos _ _ 0 8388608 (-23) (by norm_num) (by norm_num) (by norm_num) (by norm_num)
          (by norm_num) (by norm_num) (by norm_num) (by norm_num)
  have s18 : fsub (fin 9) (fin 1) = fin 8 := by
      rw [fsub_fin]
      exact round32_pos _ _ 3 8388608 (-20) (by norm_num) (by norm_num) (by norm_num) (by norm_num)
          (by norm_num) (by norm_num) (by norm_num) (by norm_num)
  have s19 : fmul (fin 1) (fin 8) = fin 8 := by
      rw [fmul_fin]
      exact round32_pos _ _ 3 8388608 (-20) (by norm_num) (by norm_num) (by norm_num) (by norm_num)
          (by norm_num) (by norm_num) (by norm_num) (by norm_num)
  have s20 : fsub (fin (1179645 / 131072)) (fin 8) = fin (131069 / 131072) := by
      rw [fsub_fin]
      exact round32_pos _ _ (-1) 16776832 (-24) (by norm_num) (by norm_num) (by norm_num) (by
          norm_num) (by norm_num) (by norm_num) (by norm_num) (by norm_num)
  have s21 : (-(fin (-(786431 / 262144))) : Flt ℚ) = fin (786431 / 262144) := by
      simp only [neg_fin, neg_neg, neg_zero]
  have s22 : fadd (fin (786431 / 262144)) (fin (262141 / 262144)) = fin (262143 / 65536) := by
      rw [fadd_fin]
      exact round32_pos _ _ 1 16777152 (-22) (by norm_num) (by norm_num) (by norm_num) (by
          norm_num) (by norm_num) (by norm_num) (by norm_num) (by norm_num)
  have s23 : fdiv (fin (262143 / 65536)) (fin 1) = fin (262143 / 65536) := by
      rw [fdiv_fin _ _ (by norm_num)]
      exact round32_pos _ _ 1 16777152 (-22) (by norm_num) (by norm_num) (by norm_num) (by
          norm_num) (by norm_num) (by norm_num) (by norm_num) (by norm_num)
  have s24 : fsub (fin (786431 / 262144)) (fin (262141 / 262144)) = fin (262145 / 131072) := by
      rw [fsub_fin]
      exact round32_pos _ _ 1 8388640 (-22) (by norm_num) (by norm_num) (by norm_num) (by norm_num)
          (by norm_num) (by norm_num) (by norm_num) (by norm_num)
  have s25 : fdiv (fin (262145 / 131072)) (fin 1) = fin (262145 / 131072) := by
      rw [fdiv_fin _ _ (by norm_num)]
      exact round32_pos _ _ 1 8388640 (-22) (by norm_num) (by norm_num) (by norm_num) (by norm_num)
          (by norm_num) (by norm_num) (by norm_num) (by norm_num)
  have s26 : Flt.lt (fin (262143 / 65536) : Flt ℚ) (fin (262145 / 131072)) = false := by
      rw [lt_fin_fin]
      exact decide_eq_false (by norm_num)
  have s27 : Flt.gt (fin (262145 / 131072) : Flt ℚ) (fin 0) = true := by
      rw [gt_fin_fin]
      exact decide_eq_true (by norm_num)
  simp only [B32.intersect_sphere, B32.main_s, B32.vec3_norm2, B32.vec3_dot, B32.vec3_sub, h,
      Raytracer.min, if_true, if_false, Bool.false_eq_true,
      s1, s2, s3, s4, s5, s6, s7, s8, s9, s10, s11, s12, s13, s14, s15, s16, s17, s18,
      s19, s20, s21, s22, s23, s24, s25, s26, s27]

/-- C12 (sphere hit at the image centre): in the default scene, evaluated in
binary32, for the pixel with global coordinates `(256, 256)` (row 0 and column
0 of the tile with origin `(256, 256)`).  Let `sqrtf` return the correctly
rounded square root of the squared norm of `dif`, and `sqrt`, with the
conversion of its result to `float`, the correctly rounded square root of the
discriminant.  Then the squared norm is `0.0005760015337727964` with the root
`0.024000031873583794`, the discriminant is `0.9999771118164062` with the root
`0.9999885559082031`, and `intersect_sphere` returns `t = 2.0000076293945312`: `t > 0`,
`|t - 2| < 1e-3`, and the pixel passes the test `t > 0`. -/
theorem C12_sphere_centre_hit (L : Libm ℚ)
    (hsqrtf : ∀ v r : ℚ,
      B32.vec3_norm2 (B32.pixel_dif B32.main_globals (B32.main_rr 256 256) 0 0) = fin v →
      IsRoot32 v r → L.sqrtf (fin v) = fin r)
    (hsqrt : ∀ v r : ℚ,
      B32.sphere_delta B32.main_s (B32.main_rr 256 256).cam (B32.pixel_dir B32.main_globals L
          (B32.main_rr 256 256) 0 0) = fin v →
      IsRoot32 v r → L.sqrt (fin v) = fin r) :
    B32.vec3_norm L (B32.pixel_dif B32.main_globals (B32.main_rr 256 256) 0 0) = fin (12884919 /
        536870912)
    ∧ B32.pixel_dir B32.main_globals L (B32.main_rr 256 256) 0 0 = ⟨fin (4893327 / 4294967296), fin
        (-(4893327 / 4294967296)), fin (-(8388597 / 8388608))⟩
    ∧ B32.sphere_delta B32.main_s (B32.main_rr 256 256).cam (B32.pixel_dir B32.main_globals L
        (B32.main_rr 256 256) 0 0) = fin (131069 / 131072)
    ∧ B32.intersect L (Object.SPHERE B32.main_s) (B32.main_rr 256 256).cam (B32.pixel_dir
        B32.main_globals L (B32.main_rr 256 256) 0 0) = fin (262145 / 131072)
    ∧ (0 : ℚ) < 262145 / 131072
    ∧ |(262145 / 131072 : ℚ) - 2| < 1 / 1000
    ∧ Flt.gt (B32.intersect L (Object.SPHERE B32.main_s) (B32.main_rr 256 256).cam (B32.pixel_dir
        B32.main_globals L (B32.main_rr 256 256) 0 0)) (fin 0) = true := by
  have h1 := hsqrtf _ _ centre_norm2 centre_root
  have hdir := centre_dir L h1
  have hcam : (B32.main_rr 256 256).cam = ⟨fin 0, fin 0, fin 0⟩ := rfl
  have hdelta : B32.sphere_delta B32.main_s (B32.main_rr 256 256).cam (B32.pixel_dir
      B32.main_globals L (B32.main_rr 256 256) 0 0) = fin (131069 / 131072) := by
    rw [hdir, hcam]
    exact centre_delta
  have h2 := hsqrt _ _ hdelta centre_delta_root
  have ht : B32.intersect L (Object.SPHERE B32.main_s) (B32.main_rr 256 256).cam (B32.pixel_dir
      B32.main_globals L (B32.main_rr 256 256) 0 0) = fin (262145 / 131072) := by
    rw [hdir, hcam]
    exact centre_t L h2
  refine ⟨?_, hdir, hdelta, ht, by norm_num, ?_, ?_⟩
  · simp only [B32.vec3_norm]
    rw [centre_norm2, h1]
  · rw [abs_lt]
    constructor <;> norm_num
  · rw [ht, gt_fin_fin]
    exact decide_eq_true (by norm_num)

/-- C12 with a libm that returns the two correctly rounded roots. -/
theorem C12_sphere_centre_hit_witness :
    B32.intersect (constLibm (12884919 / 536870912) (262141 / 262144)) (Object.SPHERE B32.main_s)
        (B32.main_rr 256 256).cam
        (B32.pixel_dir B32.main_globals (constLibm (12884919 / 536870912) (262141 / 262144))
            (B32.main_rr 256 256) 0 0) = fin (262145 / 131072) := by
  have hdir := centre_dir (constLibm (12884919 / 536870912) (262141 / 262144)) rfl
  refine (C12_sphere_centre_hit (constLibm (12884919 / 536870912) (262141 / 262144)) ?_ ?_).2.2.2.1
  · intro v r hv hr
    rw [centre_norm2] at hv
    have e := Flt.fin.inj hv
    rw [← e] at hr
    rw [isRoot32_unique _ _ _ hr centre_root]
    rfl
  · intro v r hv hr
    rw [hdir] at hv
    have hv2 : B32.sphere_delta B32.main_s ⟨fin 0, fin 0, fin 0⟩ ⟨fin (4893327 / 4294967296), fin
        (-(4893327 / 4294967296)), fin (-(8388597 / 8388608))⟩ = fin v := hv
    rw [centre_delta] at hv2
    have e := Flt.fin.inj hv2
    rw [← e] at hr
    rw [isRoot32_unique _ _ _ hr centre_delta_root]
    rfl

end SphereCentre

/-! ## C14: the box at the image corner -/

section BoxCorner
open B32

/-- The squared norm of `dif` for the corner pixel `(0, 0)` of the default
render. -/
theorem corner_norm2 :
    B32.vec3_norm2 (B32.pixel_dif B32.main_globals (B32.main_rr 0 0) 0 0) = fin (8301917 /
        8589934592) := by
  have s1 : B32.ofNat 0 = fin 0 := by
      unfold B32.ofNat
      rw [Nat.cast_zero]
      exact round32_zero
  have s2 : fadd (fin 0) (fin 0) = fin 0 := by
      rw [fadd_fin]
      rw [show ((0 : ℚ) + (0) = 0) by norm_num]
      exact round32_zero
  have s3 : fadd (fin 0) (fin (1 / 2)) = fin (1 / 2) := by
      rw [fadd_fin]
      exact round32_pos _ _ (-1) 8388608 (-24) (by norm_num) (by norm_num) (by norm_num) (by
          norm_num) (by norm_num) (by norm_num) (by norm_num) (by norm_num)
  have s4 : fsub (fin (1 / 2)) (fin 0) = fin (1 / 2) := by
      rw [fsub_fin]
      exact round32_pos _ _ (-1) 8388608 (-24) (by norm_num) (by norm_num) (by norm_num) (by
          norm_num) (by norm_num) (by norm_num) (by norm_num) (by norm_num)
  have s5 : fsub (fin (7516193 / 536870912)) (fin (-(7516193 / 536870912))) = fin (7516193 /
      268435456) := by
      rw [fsub_fin]
      exact round32_pos _ _ (-6) 15032386 (-29) (by norm_num) (by norm_num) (by norm_num) (by
          norm_num) (by norm_num) (by norm_num) (by norm_num) (by norm_num)
  have s6 : fsub (fin 512) (fin 0) = fin 512 := by
      rw [fsub_fin]
      exact round32_pos _ _ 9 8388608 (-14) (by norm_num) (by norm_num) (by norm_num) (by norm_num)
          (by norm_num) (by norm_num) (by norm_num) (by norm_num)
  have s7 : fdiv (fin (7516193 / 268435456)) (fin 512) = fin (7516193 / 137438953472) := by
      rw [fdiv_fin _ _ (by norm_num)]
      exact round32_pos _ _ (-15) 15032386 (-38) (by norm_num) (by norm_num) (by norm_num) (by
          norm_num) (by norm_num) (by norm_num) (by norm_num) (by norm_num)
  have s8 : fmul (fin (1 / 2)) (fin (7516193 / 137438953472)) = fin (7516193 / 274877906944) := by
      rw [fmul_fin]
      exact round32_pos _ _ (-16) 15032386 (-39) (by norm_num) (by norm_num) (by norm_num) (by
          norm_num) (by norm_num) (by norm_num) (by norm_num) (by norm_num)
  have s9 : fadd (fin (7516193 / 274877906944)) (fin (-(7516193 / 536870912))) = fin (-(7501513 /
      536870912)) := by
      rw [fadd_fin]
      exact round32_neg _ _ (-7) (-15003026) (-30) (by norm_num) (by norm_num) (by norm_num) (by
          norm_num) (by norm_num) (by norm_num) (by norm_num) (by norm_num)
  have s10 : fsub (fin (-(7516193 / 536870912))) (fin (7516193 / 536870912)) = fin (-(7516193 /
      268435456)) := by
      rw [fsub_fin]
      exact round32_neg _ _ (-6) (-15032386) (-29) (by norm_num) (by norm_num) (by norm_num) (by
          norm_num) (by norm_num) (by norm_num) (by norm_num) (by norm_num)
  have s11 : fdiv (fin (-(7516193 / 268435456))) (fin 512) = fin (-(7516193 / 137438953472)) := by
      rw [fdiv_fin _ _ (by norm_num)]
      exact round32_neg _ _ (-15) (-15032386) (-38) (by norm_num) (by norm_num) (by norm_num) (by
          norm_num) (by norm_num) (by norm_num) (by norm_num) (by norm_num)
  have s12 : fmul (fin (1 / 2)) (fin (-(7516193 / 137438953472))) = fin (-(7516193 / 274877906944))
      := by
      rw [fmul_fin]
      exact round32_neg _ _ (-16) (-15032386) (-39) (by norm_num) (by norm_num) (by norm_num) (by
          norm_num) (by norm_num) (by norm_num) (by norm_num) (by norm_num)
  have s13 : fadd (fin (-(7516193 / 274877906944))) (fin (7516193 / 536870912)) = fin (7501513 /
      536870912) := by
      rw [fadd_fin]
      exact round32_pos _ _ (-7) 15003026 (-30) (by norm_num) (by norm_num) (by norm_num) (by
          norm_num) (by norm_num) (by norm_num) (by norm_num) (by norm_num)
  have s14 : round32 (24 / 1000) = fin (6442451 / 268435456) := by
      exact round32_pos _ _ (-6) 12884902 (-29) (by norm_num) (by norm_num) (by norm_num) (by
          norm_num) (by norm_num) (by norm_num) (by norm_num) (by norm_num)
  have s15 : (-(fin (6442451 / 268435456)) : Flt ℚ) = fin (-(6442451 / 268435456)) := by
      simp only [neg_fin, neg_neg, neg_zero]
  have s16 : fsub (fin (-(7501513 / 536870912))) (fin 0) = fin (-(7501513 / 536870912)) := by
      rw [fsub_fin]
      exact round32_neg _ _ (-7) (-15003026) (-30) (by norm_num) (by norm_num) (by norm_num) (by
          norm_num) (by norm_num) (by norm_num) (by norm_num) (by norm_num)
  have s17 : fsub (fin (7501513 / 536870912)) (fin 0) = fin (7501513 / 536870912) := by
      rw [fsub_fin]
      exact round32_pos _ _ (-7) 15003026 (-30) (by norm_num) (by norm_num) (by norm_num) (by
          norm_num) (by norm_num) (by norm_num) (by norm_num) (by norm_num)
  have s18 : fsub (fin (-(6442451 / 268435456))) (fin 0) = fin (-(6442451 / 268435456)) := by
      rw [fsub_fin]
      exact round32_neg _ _ (-6) (-12884902) (-29) (by norm_num) (by norm_num) (by norm_num) (by
          norm_num) (by norm_num) (by norm_num) (by norm_num) (by norm_num)
  have s19 : fmul (fin (-(7501513 / 536870912))) (fin (-(7501513 / 536870912))) = fin (13416457 /
      68719476736) := by
      rw [fmul_fin]
      exact round32_pos _ _ (-13) 13416457 (-36) (by norm_num) (by norm_num) (by norm_num) (by
          norm_num) (by norm_num) (by norm_num) (by norm_num) (by norm_num)
  have s20 : fmul (fin (7501513 / 536870912)) (fin (7501513 / 536870912)) = fin (13416457 /
      68719476736) := by
      rw [fmul_fin]
      exact round32_pos _ _ (-13) 13416457 (-36) (by norm_num) (by norm_num) (by norm_num) (by
          norm_num) (by norm_num) (by norm_num) (by norm_num) (by norm_num)
  have s21 : fadd (fin (13416457 / 68719476736)) (fin (13416457 / 68719476736)) = fin (13416457 /
      34359738368) := by
      rw [fadd_fin]
      exact round32_pos _ _ (-12) 13416457 (-35) (by norm_num) (by norm_num) (by norm_num) (by
          norm_num) (by norm_num) (by norm_num) (by norm_num) (by norm_num)
  have s22 : fmul (fin (-(6442451 / 268435456))) (fin (-(6442451 / 268435456))) = fin (9895605 /
      17179869184) := by
      rw [fmul_fin]
      exact round32_pos _ _ (-11) 9895605 (-34) (by norm_num) (by norm_num) (by norm_num) (by
          norm_num) (by norm_num) (by norm_num) (by norm_num) (by norm_num)
  have s23 : fadd (fin (13416457 / 34359738368)) (fin (9895605 / 17179869184)) = fin (8301917 /
      8589934592) := by
      rw [fadd_fin]
      exact round32_pos_tie _ _ (-11) 16603834 (-34) (by norm_num) (by norm_num) (by norm_num) (by
          norm_num) (Or.inr (by norm_num)) (by norm_num) (by norm_num) (by norm_num)
  simp only [B32.pixel_dir, B32.pixel_dif, B32.pixel_proj, B32.vec3_normalize, B32.vec3_norm,
      B32.vec3_norm2, B32.vec3_scale, B32.vec3_dot, B32.vec3_sub, B32.map, B32.main_rr,
      main_globals_eval, B32.FOCAL_LENGTH,
      s1, s2, s3, s4, s5, s6, s7, s8, s9, s10, s11, s12, s13, s14, s15, s16, s17, s18,
      s19, s20, s21, s22, s23]

/-- Its square root rounded to binary32. -/
theorem corner_root : IsRoot32 (8301917 / 8589934592) (4172575 / 134217728) :=
  ⟨66761199 / 2147483648, 4172575 / 134217728, by norm_num, by norm_num, by norm_num, by norm_num,
    (by
      exact round32_pos _ _ (-6) 16690300 (-29) (by norm_num) (by norm_num) (by norm_num) (by
          norm_num) (by norm_num) (by norm_num) (by norm_num) (by norm_num)),
    (by
      exact round32_pos _ _ (-6) 16690300 (-29) (by norm_num) (by norm_num) (by norm_num) (by
          norm_num) (by norm_num) (by norm_num) (by norm_num) (by norm_num))⟩

/-- The direction of the ray of the corner pixel `(0, 0)`. -/
theorem corner_dir (L : Libm ℚ) (h : L.sqrtf (fin (8301917 / 8589934592)) = fin (4172575 /
    134217728)) :
    B32.pixel_dir B32.main_globals L (B32.main_rr 0 0) 0 0 = ⟨fin (-(15081155 / 33554432)), fin
        (15081155 / 33554432), fin (-(12952001 / 16777216))⟩ := by
  have s1 : B32.ofNat 0 = fin 0 := by
      unfold B32.ofNat
      rw [Nat.cast_zero]
      exact round32_zero
  have s2 : fadd (fin 0) (fin 0) = fin 0 := by
      rw [fadd_fin]
      rw [show ((0 : ℚ) + (0) = 0) by norm_num]
      exact round32_zero
  have s3 : fadd (fin 0) (fin (1 / 2)) = fin (1 / 2) := by
      rw [fadd_fin]
      exact round32_pos _ _ (-1) 8388608 (-24) (by norm_num) (by norm_num) (by norm_num) (by
          norm_num) (by norm_num) (by norm_num) (by norm_num) (by norm_num)
  have s4 : fsub (fin (1 / 2)) (fin 0) = fin (1 / 2) := by
      rw [fsub_fin]
      exact round32_pos _ _ (-1) 8388608 (-24) (by norm_num) (by norm_num) (by norm_num) (by
          norm_num) (by norm_num) (by norm_num) (by norm_num) (by norm_num)
  have s5 : fsub (fin (7516193 / 536870912)) (fin (-(7516193 / 536870912))) = fin (7516193 /
      268435456) := by
      rw [fsub_fin]
      exact round32_pos _ _ (-6) 15032386 (-29) (by norm_num) (by norm_num) (by norm_num) (by
          norm_num) (by norm_num) (by norm_num) (by norm_num) (by norm_num)
  have s6 : fsub (fin 512) (fin 0) = fin 512 := by
      rw [fsub_fin]
      exact round32_pos _ _ 9 8388608 (-14) (by norm_num) (by norm_num) (by norm_num) (by norm_num)
          (by norm_num) (by norm_num) (by norm_num) (by norm_num)
  have s7 : fdiv (fin (7516193 / 268435456)) (fin 512) = fin (7516193 / 137438953472) := by
      rw [fdiv_fin _ _ (by norm_num)]
      exact round32_pos _ _ (-15) 15032386 (-38) (by norm_num) (by norm_num) (by norm_num) (by
          norm_num) (by norm_num) (by norm_num) (by norm_num) (by norm_num)
  have s8 : fmul (fin (1 / 2)) (fin (7516193 / 137438953472)) = fin (7516193 / 274877906944) := by
      rw [fmul_fin]
      exact round32_pos _ _ (-16) 15032386 (-39) (by norm_num) (by norm_num) (by norm_num) (by
          norm_num) (by norm_num) (by norm_num) (by norm_num) (by norm_num)
  have s9 : fadd (fin (7516193 / 274877906944)) (fin (-(7516193 / 536870912))) = fin (-(7501513 /
      536870912)) := by
      rw [fadd_fin]
      exact round32_neg _ _ (-7) (-15003026) (-30) (by norm_num) (by norm_num) (by norm_num) (by
          norm_num) (by norm_num) (by norm_num) (by norm_num) (by norm_num)
  have s10 : fsub (fin (-(7516193 / 536870912))) (fin (7516193 / 536870912)) = fin (-(7516193 /
      268435456)) := by
      rw [fsub_fin]
      exact round32_neg _ _ (-6) (-15032386) (-29) (by norm_num) (by norm_num) (by norm_num) (by
          norm_num) (by norm_num) (by norm_num) (by norm_num) (by norm_num)
  have s11 : fdiv (fin (-(7516193 / 268435456))) (fin 512) = fin (-(7516193 / 137438953472)) := by
      rw [fdiv_fin _ _ (by norm_num)]
      exact round32_neg _ _ (-15) (-15032386) (-38) (by norm_num) (by norm_num) (by norm_num) (by
          norm_num) (by norm_num) (by norm_num) (by norm_num) (by norm_num)
  have s12 : fmul (fin (1 / 2)) (fin (-(7516193 / 137438953472))) = fin (-(7516193 / 274877906944))
      := by
      rw [fmul_fin]
      exact round32_neg _ _ (-16) (-15032386) (-39) (by norm_num) (by norm_num) (by norm_num) (by
          norm_num) (by norm_num) (by norm_num) (by norm_num) (by norm_num)
  have s13 : fadd (fin (-(7516193 / 274877906944))) (fin (7516193 / 536870912)) = fin (7501513 /
      536870912) := by
      rw [fadd_fin]
      exact round32_pos _ _ (-7) 15003026 (-30) (by norm_num) (by norm_num) (by norm_num) (by
          norm_num) (by norm_num) (by norm_num) (by norm_num) (by norm_num)
  have s14 : round32 (24 / 1000) = fin (6442451 / 268435456) := by
      exact round32_pos _ _ (-6) 12884902 (-29) (by norm_num) (by norm_num) (by norm_num) (by
          norm_num) (by norm_num) (by norm_num) (by norm_num) (by norm_num)
  have s15 : (-(fin (6442451 / 268435456)) : Flt ℚ) = fin (-(6442451 / 268435456)) := by
      simp only [neg_fin, neg_neg, neg_zero]
  have s16 : fsub (fin (-(7501513 / 536870912))) (fin 0) = fin (-(7501513 / 536870912)) := by
      rw [fsub_fin]
      exact round32_neg _ _ (-7) (-15003026) (-30) (by norm_num) (by norm_num) (by norm_num) (by
          norm_num) (by norm_num) (by norm_num) (by norm_num) (by norm_num)
  have s17 : fsub (fin (7501513 / 536870912)) (fin 0) = fin (7501513 / 536870912) := by
      rw [fsub_fin]
      exact round32_pos _ _ (-7) 15003026 (-30) (by norm_num) (by norm_num) (by norm_num) (by
          norm_num) (by norm_num) (by norm_num) (by norm_num) (by norm_num)
  have s18 : fsub (fin (-(6442451 / 268435456))) (fin 0) = fin (-(6442451 / 268435456)) := by
      rw [fsub_fin]
      exact round32_neg _ _ (-6) (-12884902) (-29) (by norm_num) (by norm_num) (by norm_num) (by
          norm_num) (by norm_num) (by norm_num) (by norm_num) (by norm_num)
  have s19 : fmul (fin (-(7501513 / 536870912))) (fin (-(7501513 / 536870912))) = fin (13416457 /
      68719476736) := by
      rw [fmul_fin]
      exact round32_pos _ _ (-13) 13416457 (-36) (by norm_num) (by norm_num) (by norm_num) (by
          norm_num) (by norm_num) (by norm_num) (by norm_num) (by norm_num)
  have s20 : fmul (fin (7501513 / 536870912)) (fin (7501513 / 536870912)) = fin (13416457 /
      68719476736) := by
      rw [fmul_fin]
      exact round32_pos _ _ (-13) 13416457 (-36) (by norm_num) (by norm_num) (by norm_num) (by
          norm_num) (by norm_num) (by norm_num) (by norm_num) (by norm_num)
  have s21 : fadd (fin (13416457 / 68719476736)) (fin (13416457 / 68719476736)) = fin (13416457 /
      34359738368) := by
      rw [fadd_fin]
      exact round32_pos _ _ (-12) 13416457 (-35) (by norm_num) (by norm_num) (by norm_num) (by
          norm_num) (by norm_num) (by norm_num) (by norm_num) (by norm_num)
  have s22 : fmul (fin (-(6442451 / 268435456))) (fin (-(6442451 / 268435456))) = fin (9895605 /
      17179869184) := by
      rw [fmul_fin]
      exact round32_pos _ _ (-11) 9895605 (-34) (by norm_num) (by norm_num) (by norm_num) (by
          norm_num) (by norm_num) (by norm_num) (by norm_num) (by norm_num)
  have s23 : fadd (fin (13416457 / 34359738368)) (fin (9895605 / 17179869184)) = fin (8301917 /
      8589934592) := by
      rw [fadd_fin]
      exact round32_pos_tie _ _ (-11) 16603834 (-34) (by norm_num) (by norm_num) (by norm_num) (by
          norm_num) (Or.inr (by norm_num)) (by norm_num) (by norm_num) (by norm_num)
  have s24 : fdiv (fin 1) (fin (4172575 / 134217728)) = fin (2108073 / 65536) := by
      rw [fdiv_fin _ _ (by norm_num)]
      exact round32_pos _ _ 5 8432292 (-18) (by norm_num) (by norm_num) (by norm_num) (by norm_num)
          (by norm_num) (by norm_num) (by norm_num) (by norm_num)
  have s25 : fmul (fin (-(7501513 / 536870912))) (fin (2108073 / 65536)) = fin (-(15081155 /
      33554432)) := by
      rw [fmul_fin]
      exact round32_neg _ _ (-2) (-15081155) (-25) (by norm_num) (by norm_num) (by norm_num) (by
          norm_num) (by norm_num) (by norm_num) (by norm_num) (by norm_num)
  have s26 : fmul (fin (7501513 / 536870912)) (fin (2108073 / 65536)) = fin (15081155 / 33554432)
      := by
      rw [fmul_fin]
      exact round32_pos _ _ (-2) 15081155 (-25) (by norm_num) (by norm_num) (by norm_num) (by
          norm_num) (by norm_num) (by norm_num) (by norm_num) (by norm_num)
  have s27 : fmul (fin (-(6442451 / 268435456))) (fin (2108073 / 65536)) = fin (-(12952001 /
      16777216)) := by
      rw [fmul_fin]
      exact round32_neg _ _ (-1) (-12952001) (-24) (by norm_num) (by norm_num) (by norm_num) (by
          norm_num) (by norm_num) (by norm_num) (by norm_num) (by norm_num)
  simp only [B32.pixel_dir, B32.pixel_dif, B32.pixel_proj, B32.vec3_normalize, B32.vec3_norm,
      B32.vec3_norm2, B32.vec3_scale, B32.vec3_dot, B32.vec3_sub, B32.map, B32.main_rr,
      main_globals_eval, B32.FOCAL_LENGTH, h,
      s1, s2, s3, s4, s5, s6, s7, s8, s9, s10, s11, s12, s13, s14, s15, s16, s17, s18,
      s19, s20, s21, s22, s23, s24, s25, s26, s27]

/-- The value of `intersect_box` for that ray and the box of `main`: the
intervals of the x and z axes are disjoint. -/
theorem corner_t :
    B32.intersect_box B32.main_b ⟨fin 0, fin 0, fin 0⟩ ⟨fin (-(15081155 / 33554432)), fin (15081155
        / 33554432), fin (-(12952001 / 16777216))⟩ = fin (-1) := by
  have s1 : fsub (fin (-(1 / 2))) (fin 0) = fin (-(1 / 2)) := by
      rw [fsub_fin]
      exact round32_neg _ _ (-1) (-8388608) (-24) (by norm_num) (by norm_num) (by norm_num) (by
          norm_num) (by norm_num) (by norm_num) (by norm_num) (by norm_num)
  have s2 : fdiv (fin (-(1 / 2))) (fin (-(15081155 / 33554432))) = fin (4666005 / 4194304) := by
      rw [fdiv_fin _ _ (by norm_num)]
      exact round32_pos _ _ 0 9332010 (-23) (by norm_num) (by norm_num) (by norm_num) (by norm_num)
          (by norm_num) (by norm_num) (by norm_num) (by norm_num)
  have s3 : fsub (fin (1 / 2)) (fin 0) = fin (1 / 2) := by
      rw [fsub_fin]
      exact round32_pos _ _ (-1) 8388608 (-24) (by norm_num) (by norm_num) (by norm_num) (by
          norm_num) (by norm_num) (by norm_num) (by norm_num) (by norm_num)
  have s4 : fdiv (fin (1 / 2)) (fin (-(15081155 / 33554432))) = fin (-(4666005 / 4194304)) := by
      rw [fdiv_fin _ _ (by norm_num)]
      exact round32_neg _ _ 0 (-9332010) (-23) (by norm_num) (by norm_num) (by norm_num) (by
          norm_num) (by norm_num) (by norm_num) (by norm_num) (by norm_num)
  have s5 : Flt.lt (fin (4666005 / 4194304) : Flt ℚ) (fin (-(4666005 / 4194304))) = false := by
      rw [lt_fin_fin]
      exact decide_eq_false (by norm_num)
  have s6 : Flt.gt (fin (4666005 / 4194304) : Flt ℚ) (fin (-(4666005 / 4194304))) = true := by
      rw [gt_fin_fin]
      exact decide_eq_true (by norm_num)
  have s7 : fdiv (fin (-(1 / 2))) (fin (15081155 / 33554432)) = fin (-(4666005 / 4194304)) := by
      rw [fdiv_fin _ _ (by norm_num)]
      exact round32_neg _ _ 0 (-9332010) (-23) (by norm_num) (by norm_num) (by norm_num) (by
          norm_num) (by norm_num) (by norm_num) (by norm_num) (by norm_num)
  have s8 : fdiv (fin (1 / 2)) (fin (15081155 / 33554432)) = fin (4666005 / 4194304) := by
      rw [fdiv_fin _ _ (by norm_num)]
      exact round32_pos _ _ 0 9332010 (-23) (by norm_num) (by norm_num) (by norm_num) (by norm_num)
          (by norm_num) (by norm_num) (by norm_num) (by norm_num)
  have s9 : Flt.lt (fin (-(4666005 / 4194304)) : Flt ℚ) (fin (4666005 / 4194304)) = true := by
      rw [lt_fin_fin]
      exact decide_eq_true (by norm_num)
  have s10 : Flt.gt (fin (-(4666005 / 4194304)) : Flt ℚ) (fin (4666005 / 4194304)) = false := by
      rw [gt_fin_fin]
      exact decide_eq_false (by norm_num)
  have s11 : Flt.gt (fin (-(4666005 / 4194304)) : Flt ℚ) (fin (-(4666005 / 4194304))) = false := by
      rw [gt_fin_fin]
      exact decide_eq_false (by norm_num)
  have s12 : Flt.lt (fin (4666005 / 4194304) : Flt ℚ) (fin (4666005 / 4194304)) = false := by
      rw [lt_fin_fin]
      exact decide_eq_false (by norm_num)
  have s13 : fsub (fin (-3)) (fin 0) = fin (-3) := by
      rw [fsub_fin]
      exact round32_neg _ _ 1 (-12582912) (-22) (by norm_num) (by norm_num) (by norm_num) (by
          norm_num) (by norm_num) (by norm_num) (by norm_num) (by norm_num)
  have s14 : fdiv (fin (-3)) (fin (-(12952001 / 16777216))) = fin (16299121 / 4194304) := by
      rw [fdiv_fin _ _ (by norm_num)]
      exact round32_pos _ _ 1 16299121 (-22) (by norm_num) (by norm_num) (by norm_num) (by
          norm_num) (by norm_num) (by norm_num) (by norm_num) (by norm_num)
  have s15 : fsub (fin (-2)) (fin 0) = fin (-2) := by
      rw [fsub_fin]
      exact round32_neg _ _ 1 (-8388608) (-22) (by norm_num) (by norm_num) (by norm_num) (by
          norm_num) (by norm_num) (by norm_num) (by norm_num) (by norm_num)
  have s16 : fdiv (fin (-2)) (fin (-(12952001 / 16777216))) = fin (10866081 / 4194304) := by
      rw [fdiv_fin _ _ (by norm_num)]
      exact round32_pos _ _ 1 10866081 (-22) (by norm_num) (by norm_num) (by norm_num) (by
          norm_num) (by norm_num) (by norm_num) (by norm_num) (by norm_num)
  have s17 : Flt.lt (fin (16299121 / 4194304) : Flt ℚ) (fin (10866081 / 4194304)) = false := by
      rw [lt_fin_fin]
      exact decide_eq_false (by norm_num)
  have s18 : Flt.gt (fin (16299121 / 4194304) : Flt ℚ) (fin (10866081 / 4194304)) = true := by
      rw [gt_fin_fin]
      exact decide_eq_true (by norm_num)
  have s19 : Flt.gt (fin (-(4666005 / 4194304)) : Flt ℚ) (fin (16299121 / 4194304)) = false := by
      rw [gt_fin_fin]
      exact decide_eq_false (by norm_num)
  have s20 : Flt.gt (fin (10866081 / 4194304) : Flt ℚ) (fin (4666005 / 4194304)) = true := by
      rw [gt_fin_fin]
      exact decide_eq_true (by norm_num)
  simp only [B32.intersect_box, B32.main_b,
      Raytracer.min, Raytracer.max, if_true, if_false, Bool.false_eq_true,
      Bool.or_false, Bool.or_true, Bool.true_or, Bool.false_or,
      s1, s2, s3, s4, s5, s6, s7, s8, s9, s10, s11, s12, s13, s14, s15, s16, s17, s18,
      s19, s20]

/-- C14 (box miss at the image corner): for the box of `main`, the camera at
the origin and the default mapping, evaluated in binary32, for the corner
pixel `(0, 0)`.  Let `sqrtf` return the correctly rounded square root of the
squared norm of `dif` (`0.0009664703393355012`, with the root `0.031088106334209442`).  Then
`intersect_box` returns `-1` for the ray of the pixel, the test `t > 0` fails,
and the pixel is written as `(0, 0, 0)`: the bytes 0, 1 and 2 of the
framebuffer get the value 0. -/
theorem C14_box_corner_miss (L : Libm ℚ)
    (hsqrtf : ∀ v r : ℚ,
      B32.vec3_norm2 (B32.pixel_dif B32.main_globals (B32.main_rr 0 0) 0 0) = fin v →
      IsRoot32 v r → L.sqrtf (fin v) = fin r) :
    B32.vec3_norm L (B32.pixel_dif B32.main_globals (B32.main_rr 0 0) 0 0) = fin (4172575 /
        134217728)
    ∧ B32.pixel_dir B32.main_globals L (B32.main_rr 0 0) 0 0 = ⟨fin (-(15081155 / 33554432)), fin
        (15081155 / 33554432), fin (-(12952001 / 16777216))⟩
    ∧ B32.intersect L (Object.BOX B32.main_b) (B32.main_rr 0 0).cam (B32.pixel_dir B32.main_globals
        L (B32.main_rr 0 0) 0 0) = fin (-1)
    ∧ Flt.gt (B32.intersect L (Object.BOX B32.main_b) (B32.main_rr 0 0).cam (B32.pixel_dir
        B32.main_globals L (B32.main_rr 0 0) 0 0)) (fin 0) = false
    ∧ B32.render_pixel B32.main_globals L (B32.main_rr 0 0) (Object.BOX B32.main_b) 0 0
        = [(0, 0), (1, 0), (2, 0)] := by
  have h1 := hsqrtf _ _ corner_norm2 corner_root
  have hdir := corner_dir L h1
  have hcam : (B32.main_rr 0 0).cam = ⟨fin 0, fin 0, fin 0⟩ := rfl
  have ht : B32.intersect L (Object.BOX B32.main_b) (B32.main_rr 0 0).cam (B32.pixel_dir
      B32.main_globals L (B32.main_rr 0 0) 0 0) = fin (-1) := by
    rw [hdir, hcam]
    exact corner_t
  have hgt : Flt.gt (fin (-1) : Flt ℚ) (fin 0) = false := by
    rw [gt_fin_fin]
    exact decide_eq_false (by norm_num)
  refine ⟨?_, hdir, ht, ?_, ?_⟩
  · simp only [B32.vec3_norm]
    rw [corner_norm2, h1]
  · rw [ht]
    exact hgt
  · simp only [B32.render_pixel]
    rw [ht, hgt]
    simp [B32.main_rr, FB_BYTES, FB_WIDTH]

/-- C14 with a libm whose `sqrtf` returns the correctly rounded root. -/
theorem C14_box_corner_miss_witness :
    B32.render_pixel B32.main_globals (constLibm (4172575 / 134217728) 0) (B32.main_rr 0 0)
        (Object.BOX B32.main_b) 0 0
      = [(0, 0), (1, 0), (2, 0)] := by
  refine (C14_box_corner_miss (constLibm (4172575 / 134217728) 0) ?_).2.2.2.2
  intro v r hv hr
  rw [corner_norm2] at hv
  have e := Flt.fin.inj hv
  rw [← e] at hr
  rw [isRoot32_unique _ _ _ hr corner_root]
  rfl

end BoxCorner

/-! ## C15 and C16: rays that miss -/

section Misses
open B32

/-- The stores of a pixel whose `t` is `nan`, infinite or a finite value
`≤ 0`, given `powf(0, y) = 0` for the case `t = +∞`. -/
theorem B32.render_pixel_miss (G : Globals ℚ) (L : Libm ℚ) (rr : RenderRegion ℚ)
    (object : Object ℚ) (y x : Nat)
    (hpow : L.powf (fin 0) (fdiv (fin 1) (round32 (22 / 10))) = fin 0)
    (ht : B32.intersect L object rr.cam (B32.pixel_dir G L rr y x) = nan
      ∨ B32.intersect L object rr.cam (B32.pixel_dir G L rr y x) = pinf
      ∨ B32.intersect L object rr.cam (B32.pixel_dir G L rr y x) = ninf
      ∨ ∃ v : ℚ, v ≤ 0 ∧ B32.intersect L object rr.cam (B32.pixel_dir G L rr y x) = fin v) :
    B32.render_pixel G L rr object y x
      = [(rr.framebuffer y + (x * FB_BYTES + 0), 0),
         (rr.framebuffer y + (x * FB_BYTES + 1), 0),
         (rr.framebuffer y + (x * FB_BYTES + 2), 0)] := by
  rcases ht with h | h | h | ⟨v, hv, h⟩
  · simp [B32.render_pixel, h, Flt.gt, Flt.lt]
  · have h0 : fdiv (fin 1) pinf = fin 0 := by
      show rnd (Flt.div (fin 1) pinf) = fin 0
      simp only [Flt.div, rnd]
      exact round32_zero
    have hc : clamp (fin 0) (fin 1) (fin (0 : ℚ)) = fin 0 := by
      rw [clamp, min_fin_fin, max_fin_fin]; simp
    have hm : fmul (fin 0) (fin 255) = fin 0 := by
      rw [fmul_fin, zero_mul]
      exact round32_zero
    have hb : Flt.toUChar (fin (0 : ℚ)) = 0 := by
      simp [Flt.toUChar]
    simp [B32.render_pixel, h, Flt.gt, Flt.lt, h0, hpow, hc, hm, hb]
  · simp [B32.render_pixel, h, Flt.gt, Flt.lt]
  · simp [B32.render_pixel, h, not_lt.mpr hv]

/-- C15 (parallel ray misses the plane): for every plane, camera position and
ray direction, when the value `dot(normal, dir)` that `intersect_plane`
computes in binary32 is 0, the routine returns `nan`, `+∞` or `-∞`, never a
finite value; and a pixel whose ray is such a direction gets the three bytes
`0, 0, 0`.  For `t = +∞` the test `t > 0` succeeds and the bytes are `0`
because `powf(0, y) = 0`, the fact about libm that is assumed. -/
theorem C15_parallel_ray_miss (plane : Plane ℚ) (cam raydir : Vec3 ℚ)
    (hpar : B32.vec3_dot plane.normal raydir = fin 0) :
    (B32.intersect_plane plane cam raydir = nan
      ∨ B32.intersect_plane plane cam raydir = pinf
      ∨ B32.intersect_plane plane cam raydir = ninf)
    ∧ (∀ (G : Globals ℚ) (L : Libm ℚ) (rr : RenderRegion ℚ) (y x : Nat),
        rr.cam = cam → B32.pixel_dir G L rr y x = raydir →
        L.powf (fin 0) (fdiv (fin 1) (round32 (22 / 10))) = fin 0 →
        B32.render_pixel G L rr (Object.PLANE plane) y x
          = [(rr.framebuffer y + (x * FB_BYTES + 0), 0),
             (rr.framebuffer y + (x * FB_BYTES + 1), 0),
             (rr.framebuffer y + (x * FB_BYTES + 2), 0)]) := by
  have ht : B32.intersect_plane plane cam raydir = nan
      ∨ B32.intersect_plane plane cam raydir = pinf
      ∨ B32.intersect_plane plane cam raydir = ninf := by
    simp only [B32.intersect_plane, hpar]
    generalize fsub (B32.vec3_dot plane.normal plane.pos) (B32.vec3_dot cam plane.normal) = num
    show rnd (Flt.div num (fin 0)) = nan ∨ rnd (Flt.div num (fin 0)) = pinf
      ∨ rnd (Flt.div num (fin 0)) = ninf
    cases num with
    | nan => exact Or.inl rfl
    | pinf =>
      simp only [Flt.div, lt_irrefl, if_false]
      exact Or.inr (Or.inl rfl)
    | ninf =>
      simp only [Flt.div, lt_irrefl, if_false]
      exact Or.inr (Or.inr rfl)
    | fin v =>
      simp only [Flt.div, if_true]
      split_ifs
      · exact Or.inl rfl
      · exact Or.inr (Or.inl rfl)
      · exact Or.inr (Or.inr rfl)
  refine ⟨ht, ?_⟩
  intro G L rr y x hcam hdir hpow
  apply B32.render_pixel_miss G L rr _ y x hpow
  simp only [B32.intersect, hcam, hdir]
  rcases ht with h | h | h
  · exact Or.inl h
  · exact Or.inr (Or.inl h)
  · exact Or.inr (Or.inr (Or.inl h))

/-- C15 at the plane of `main` (normal `(-1, 1.5, 0.8f)`), the camera at the
origin and the direction `(1.5, 1, 0)`: the computed `dot(normal, dir)` is 0. -/
theorem C15_parallel_ray_miss_witness :
    B32.vec3_dot B32.main_p.normal ⟨fin (3 / 2), fin 1, fin 0⟩ = fin 0
      ∧ (B32.intersect_plane B32.main_p ⟨fin 0, fin 0, fin 0⟩ ⟨fin (3 / 2), fin 1, fin 0⟩ = nan
        ∨ B32.intersect_plane B32.main_p ⟨fin 0, fin 0, fin 0⟩ ⟨fin (3 / 2), fin 1, fin 0⟩ = pinf
        ∨ B32.intersect_plane B32.main_p ⟨fin 0, fin 0, fin 0⟩ ⟨fin (3 / 2), fin 1, fin 0⟩ = ninf)
            := by
  have s1 : round32 (15 / 10) = fin (3 / 2) := by
      exact round32_pos _ _ 0 12582912 (-23) (by norm_num) (by norm_num) (by norm_num) (by
          norm_num) (by norm_num) (by norm_num) (by norm_num) (by norm_num)
  have s2 : round32 (8 / 10) = fin (13421773 / 16777216) := by
      exact round32_pos _ _ (-1) 13421773 (-24) (by norm_num) (by norm_num) (by norm_num) (by
          norm_num) (by norm_num) (by norm_num) (by norm_num) (by norm_num)
  have s3 : fmul (fin (-1)) (fin (3 / 2)) = fin (-(3 / 2)) := by
      rw [fmul_fin]
      exact round32_neg _ _ 0 (-12582912) (-23) (by norm_num) (by norm_num) (by norm_num) (by
          norm_num) (by norm_num) (by norm_num) (by norm_num) (by norm_num)
  have s4 : fmul (fin (3 / 2)) (fin 1) = fin (3 / 2) := by
      rw [fmul_fin]
      exact round32_pos _ _ 0 12582912 (-23) (by norm_num) (by norm_num) (by norm_num) (by
          norm_num) (by norm_num) (by norm_num) (by norm_num) (by norm_num)
  have s5 : fadd (fin (-(3 / 2))) (fin (3 / 2)) = fin 0 := by
      rw [fadd_fin]
      rw [show ((-(3 / 2) : ℚ) + (3 / 2) = 0) by norm_num]
      exact round32_zero
  have s6 : fmul (fin (13421773 / 16777216)) (fin 0) = fin 0 := by
      rw [fmul_fin]
      rw [show ((13421773 / 16777216 : ℚ) * (0) = 0) by norm_num]
      exact round32_zero
  have s7 : fadd (fin 0) (fin 0) = fin 0 := by
      rw [fadd_fin]
      rw [show ((0 : ℚ) + (0) = 0) by norm_num]
      exact round32_zero
  have hpar : B32.vec3_dot B32.main_p.normal ⟨fin (3 / 2), fin 1, fin 0⟩ = fin 0 := by
    simp only [B32.main_p, B32.vec3_dot,
      s1, s2, s3, s4, s5, s6, s7]
  exact ⟨hpar, (C15_parallel_ray_miss B32.main_p ⟨fin 0, fin 0, fin 0⟩ ⟨fin (3 / 2), fin 1, fin 0⟩
      hpar).1⟩

/-- C16 (sphere no-intersection signal): for every sphere, ray origin and ray
direction with finite coordinates, when the discriminant `delta` that
`intersect_sphere` computes in binary32 is negative and `sqrt` returns `nan` on
negative arguments, the routine returns `nan`, the test `t > 0` fails, and a
pixel with this ray gets the three bytes `0, 0, 0`; neither the value of
`dot(dir, dir)` nor the sign of `dot(dir, q)` plays a part. -/
theorem C16_sphere_no_intersection (L : Libm ℚ) (sphere : Sphere ℚ) (cam raydir : Vec3 ℚ)
    (_ha : Flt.gt (B32.vec3_norm2 raydir) (fin 0) = true)
    (hD : Flt.lt (B32.sphere_delta sphere cam raydir) (fin 0) = true)
    (hsqrt : ∀ v : Flt ℚ, Flt.lt v (fin 0) = true → L.sqrt v = nan) :
    B32.intersect_sphere L sphere cam raydir = nan
    ∧ Flt.gt (B32.intersect_sphere L sphere cam raydir) (fin 0) = false
    ∧ (∀ (G : Globals ℚ) (rr : RenderRegion ℚ) (y x : Nat),
        rr.cam = cam → B32.pixel_dir G L rr y x = raydir →
        B32.render_pixel G L rr (Object.SPHERE sphere) y x
          = [(rr.framebuffer y + (x * FB_BYTES + 0), 0),
             (rr.framebuffer y + (x * FB_BYTES + 1), 0),
             (rr.framebuffer y + (x * FB_BYTES + 2), 0)]) := by
  have hs := hsqrt _ hD
  have ht : B32.intersect_sphere L sphere cam raydir = nan := by
    simp only [B32.sphere_delta] at hs
    simp only [B32.intersect_sphere, hs]
    have e1 : ∀ a b : Flt ℚ, fdiv (fadd a nan) b = nan := by
      intro a b
      show rnd (Flt.div (rnd (Flt.add a nan)) b) = nan
      cases a <;> cases b <;> rfl
    have e2 : ∀ a b : Flt ℚ, fdiv (fsub a nan) b = nan := by
      intro a b
      show rnd (Flt.div (rnd (Flt.add a (Flt.neg nan))) b) = nan
      cases a <;> cases b <;> rfl
    rw [e1, e2]
    rfl
  refine ⟨ht, by rw [ht]; rfl, ?_⟩
  intro G rr y x hcam hdir
  have hi : B32.intersect L (Object.SPHERE sphere) rr.cam (B32.pixel_dir G L rr y x) = nan := by
    simp only [B32.intersect, hcam, hdir, ht]
  simp [B32.render_pixel, hi, Flt.gt, Flt.lt]

/-- C16 at the sphere of `main`, the camera at the origin and the direction
`(1, 0, -1)`: the computed `dot(dir, dir)` is 2, the sphere is in front of the
camera (computed `dot(dir, q) = -3`), the computed discriminant is `-7`, and
with a `sqrt` that returns `nan` on negative arguments the routine returns
`nan`. -/
theorem C16_sphere_no_intersection_witness :
    B32.vec3_norm2 ⟨fin 1, fin 0, fin (-1)⟩ = fin 2
      ∧ B32.vec3_dot ⟨fin 1, fin 0, fin (-1)⟩ (B32.vec3_sub ⟨fin 0, fin 0, fin 0⟩ B32.main_s.pos) =
          fin (-3)
      ∧ B32.sphere_delta B32.main_s ⟨fin 0, fin 0, fin 0⟩ ⟨fin 1, fin 0, fin (-1)⟩ = fin (-7)
      ∧ B32.intersect_sphere ratLibm B32.main_s ⟨fin 0, fin 0, fin 0⟩ ⟨fin 1, fin 0, fin (-1)⟩ =
          nan := by
  have s1 : fsub (fin 0) (fin 0) = fin 0 := by
      rw [fsub_fin]
      rw [show ((0 : ℚ) - (0) = 0) by norm_num]
      exact round32_zero
  have s2 : fsub (fin 0) (fin (-3)) = fin 3 := by
      rw [fsub_fin]
      exact round32_pos _ _ 1 12582912 (-22) (by norm_num) (by norm_num) (by norm_num) (by
          norm_num) (by norm_num) (by norm_num) (by norm_num) (by norm_num)
  have s3 : fmul (fin 1) (fin 1) = fin 1 := by
      rw [fmul_fin]
      exact round32_pos _ _ 0 8388608 (-23) (by norm_num) (by norm_num) (by norm_num) (by norm_num)
          (by norm_num) (by norm_num) (by norm_num) (by norm_num)
  have s4 : fmul (fin 0) (fin 0) = fin 0 := by
      rw [fmul_fin]
      rw [show ((0 : ℚ) * (0) = 0) by norm_num]
      exact round32_zero
  have s5 : fadd (fin 1) (fin 0) = fin 1 := by
      rw [fadd_fin]
      exact round32_pos _ _ 0 8388608 (-23) (by norm_num) (by norm_num) (by norm_num) (by norm_num)
          (by norm_num) (by norm_num) (by norm_num) (by norm_num)
  have s6 : fmul (fin (-1)) (fin (-1)) = fin 1 := by
      rw [fmul_fin]
      exact round32_pos _ _ 0 8388608 (-23) (by norm_num) (by norm_num) (by norm_num) (by norm_num)
          (by norm_num) (by norm_num) (by norm_num) (by norm_num)
  have s7 : fadd (fin 1) (fin 1) = fin 2 := by
      rw [fadd_fin]
      exact round32_pos _ _ 1 8388608 (-22) (by norm_num) (by norm_num) (by norm_num) (by norm_num)
          (by norm_num) (by norm_num) (by norm_num) (by norm_num)
  have s8 : fmul (fin 1) (fin 0) = fin 0 := by
      rw [fmul_fin]
      rw [show ((1 : ℚ) * (0) = 0) by norm_num]
      exact round32_zero
  have s9 : fadd (fin 0) (fin 0) = fin 0 := by
      rw [fadd_fin]
      rw [show ((0 : ℚ) + (0) = 0) by norm_num]
      exact round32_zero
  have s10 : fmul (fin (-1)) (fin 3) = fin (-3) := by
      rw [fmul_fin]
      exact round32_neg _ _ 1 (-12582912) (-22) (by norm_num) (by norm_num) (by norm_num) (by
          norm_num) (by norm_num) (by norm_num) (by norm_num) (by norm_num)
  have s11 : fadd (fin 0) (fin (-3)) = fin (-3) := by
      rw [fadd_fin]
      exact round32_neg _ _ 1 (-12582912) (-22) (by norm_num) (by norm_num) (by norm_num) (by
          norm_num) (by norm_num) (by norm_num) (by norm_num) (by norm_num)
  have s12 : fmul (fin (-3)) (fin (-3)) = fin 9 := by
      rw [fmul_fin]
      exact round32_pos _ _ 3 9437184 (-20) (by norm_num) (by norm_num) (by norm_num) (by norm_num)
          (by norm_num) (by norm_num) (by norm_num) (by norm_num)
  have s13 : fmul (fin 3) (fin 3) = fin 9 := by
      rw [fmul_fin]
      exact round32_pos _ _ 3 9437184 (-20) (by norm_num) (by norm_num) (by norm_num) (by norm_num)
          (by norm_num) (by norm_num) (by norm_num) (by norm_num)
  have s14 : fadd (fin 0) (fin 9) = fin 9 := by
      rw [fadd_fin]
      exact round32_pos _ _ 3 9437184 (-20) (by norm_num) (by norm_num) (by norm_num) (by norm_num)
          (by norm_num) (by norm_num) (by norm_num) (by norm_num)
  have s15 : fsub (fin 9) (fin 1) = fin 8 := by
      rw [fsub_fin]
      exact round32_pos _ _ 3 8388608 (-20) (by norm_num) (by norm_num) (by norm_num) (by norm_num)
          (by norm_num) (by norm_num) (by norm_num) (by norm_num)
  have s16 : fmul (fin 2) (fin 8) = fin 16 := by
      rw [fmul_fin]
      exact round32_pos _ _ 4 8388608 (-19) (by norm_num) (by norm_num) (by norm_num) (by norm_num)
          (by norm_num) (by norm_num) (by norm_num) (by norm_num)
  have s17 : fsub (fin 9) (fin 16) = fin (-7) := by
      rw [fsub_fin]
      exact round32_neg _ _ 2 (-14680064) (-21) (by norm_num) (by norm_num) (by norm_num) (by
          norm_num) (by norm_num) (by norm_num) (by norm_num) (by norm_num)
  have s18 : Flt.gt (fin 2 : Flt ℚ) (fin 0) = true := by
      rw [gt_fin_fin]
      exact decide_eq_true (by norm_num)
  have s19 : Flt.lt (fin (-7) : Flt ℚ) (fin 0) = true := by
      rw [lt_fin_fin]
      exact decide_eq_true (by norm_num)
  have h1 : B32.vec3_norm2 ⟨fin 1, fin 0, fin (-1)⟩ = fin 2 := by
    simp only [B32.vec3_norm2, B32.vec3_dot,
      s1, s2, s3, s4, s5, s6, s7, s8, s9, s10, s11, s12, s13, s14, s15, s16, s17, s18,
      s19]
  have h2 : B32.sphere_delta B32.main_s ⟨fin 0, fin 0, fin 0⟩ ⟨fin 1, fin 0, fin (-1)⟩ = fin (-7)
      := by
    simp only [B32.sphere_delta, B32.main_s, B32.vec3_norm2, B32.vec3_dot, B32.vec3_sub,
      s1, s2, s3, s4, s5, s6, s7, s8, s9, s10, s11, s12, s13, s14, s15, s16, s17, s18,
      s19]
  refine ⟨h1, ?_, h2, ?_⟩
  · simp only [B32.main_s, B32.vec3_dot, B32.vec3_sub,
      s1, s2, s3, s4, s5, s6, s7, s8, s9, s10, s11, s12, s13, s14, s15, s16, s17, s18,
      s19]
  · refine (C16_sphere_no_intersection ratLibm B32.main_s ⟨fin 0, fin 0, fin 0⟩ ⟨fin 1, fin 0, fin
      (-1)⟩
      ?_ ?_ ?_).1
    · rw [h1]; exact s18
    · rw [h2]; exact s19
    · intro v hv
      cases v with
      | nan => rfl
      | pinf => simp [Flt.lt] at hv
      | ninf => rfl
      | fin w =>
        rw [lt_fin_fin, decide_eq_true_eq] at hv
        simp [ratLibm, ratSqrt, hv]

end Misses

/-! ## C17: scaling the direction in the plane routine -/

section PlaneScaling
open B32

/-- C17, counterexample: for the plane `p` of `main`, the origin as ray
origin, the direction `(0, 0, -1)` (computed `dot(normal, dir) = -0.8f ≠ 0`)
and `k = 2`, `intersect_plane` returns 8 for `dir` and 4 for `k * dir`. -/
theorem C17_plane_scaling_counterexample :
    B32.vec3_dot B32.main_p.normal ⟨fin 0, fin 0, fin (-1)⟩ = fin (-(13421773 / 16777216))
    ∧ B32.intersect_plane B32.main_p ⟨fin 0, fin 0, fin 0⟩ ⟨fin 0, fin 0, fin (-1)⟩ = fin 8
    ∧ B32.intersect_plane B32.main_p ⟨fin 0, fin 0, fin 0⟩ ⟨fin 0, fin 0, fin (-2)⟩ = fin 4
    ∧ B32.intersect_plane B32.main_p ⟨fin 0, fin 0, fin 0⟩ ⟨fin 0, fin 0, fin (-2)⟩
      ≠ B32.intersect_plane B32.main_p ⟨fin 0, fin 0, fin 0⟩ ⟨fin 0, fin 0, fin (-1)⟩ := by
  have s1 : round32 (15 / 10) = fin (3 / 2) := by
      exact round32_pos _ _ 0 12582912 (-23) (by norm_num) (by norm_num) (by norm_num) (by
          norm_num) (by norm_num) (by norm_num) (by norm_num) (by norm_num)
  have s2 : round32 (8 / 10) = fin (13421773 / 16777216) := by
      exact round32_pos _ _ (-1) 13421773 (-24) (by norm_num) (by norm_num) (by norm_num) (by
          norm_num) (by norm_num) (by norm_num) (by norm_num) (by norm_num)
  have s3 : fmul (fin (-1)) (fin 0) = fin 0 := by
      rw [fmul_fin]
      rw [show ((-1 : ℚ) * (0) = 0) by norm_num]
      exact round32_zero
  have s4 : fmul (fin (3 / 2)) (fin 0) = fin 0 := by
      rw [fmul_fin]
      rw [show ((3 / 2 : ℚ) * (0) = 0) by norm_num]
      exact round32_zero
  have s5 : fadd (fin 0) (fin 0) = fin 0 := by
      rw [fadd_fin]
      rw [show ((0 : ℚ) + (0) = 0) by norm_num]
      exact round32_zero
  have s6 : fmul (fin (13421773 / 16777216)) (fin (-1)) = fin (-(13421773 / 16777216)) := by
      rw [fmul_fin]
      exact round32_neg _ _ (-1) (-13421773) (-24) (by norm_num) (by norm_num) (by norm_num) (by
          norm_num) (by norm_num) (by norm_num) (by norm_num) (by norm_num)
  have s7 : fadd (fin 0) (fin (-(13421773 / 16777216))) = fin (-(13421773 / 16777216)) := by
      rw [fadd_fin]
      exact round32_neg _ _ (-1) (-13421773) (-24) (by norm_num) (by norm_num) (by norm_num) (by
          norm_num) (by norm_num) (by norm_num) (by norm_num) (by norm_num)
  have s8 : fmul (fin (-1)) (fin 1) = fin (-1) := by
      rw [fmul_fin]
      exact round32_neg _ _ 0 (-8388608) (-23) (by norm_num) (by norm_num) (by norm_num) (by
          norm_num) (by norm_num) (by norm_num) (by norm_num) (by norm_num)
  have s9 : fmul (fin (3 / 2)) (fin (-2)) = fin (-3) := by
      rw [fmul_fin]
      exact round32_neg _ _ 1 (-12582912) (-22) (by norm_num) (by norm_num) (by norm_num) (by
          norm_num) (by norm_num) (by norm_num) (by norm_num) (by norm_num)
  have s10 : fadd (fin (-1)) (fin (-3)) = fin (-4) := by
      rw [fadd_fin]
      exact round32_neg _ _ 2 (-8388608) (-21) (by norm_num) (by norm_num) (by norm_num) (by
          norm_num) (by norm_num) (by norm_num) (by norm_num) (by norm_num)
  have s11 : fmul (fin (13421773 / 16777216)) (fin (-3)) = fin (-(5033165 / 2097152)) := by
      rw [fmul_fin]
      exact round32_neg _ _ 1 (-10066330) (-22) (by norm_num) (by norm_num) (by norm_num) (by
          norm_num) (by norm_num) (by norm_num) (by norm_num) (by norm_num)
  have s12 : fadd (fin (-4)) (fin (-(5033165 / 2097152))) = fin (-(13421773 / 2097152)) := by
      rw [fadd_fin]
      exact round32_neg _ _ 2 (-13421773) (-21) (by norm_num) (by norm_num) (by norm_num) (by
          norm_num) (by norm_num) (by norm_num) (by norm_num) (by norm_num)
  have s13 : fmul (fin 0) (fin (-1)) = fin 0 := by
      rw [fmul_fin]
      rw [show ((0 : ℚ) * (-1) = 0) by norm_num]
      exact round32_zero
  have s14 : fmul (fin 0) (fin (3 / 2)) = fin 0 := by
      rw [fmul_fin]
      rw [show ((0 : ℚ) * (3 / 2) = 0) by norm_num]
      exact round32_zero
  have s15 : fmul (fin 0) (fin (13421773 / 16777216)) = fin 0 := by
      rw [fmul_fin]
      rw [show ((0 : ℚ) * (13421773 / 16777216) = 0) by norm_num]
      exact round32_zero
  have s16 : fsub (fin (-(13421773 / 2097152))) (fin 0) = fin (-(13421773 / 2097152)) := by
      rw [fsub_fin]
      exact round32_neg _ _ 2 (-13421773) (-21) (by norm_num) (by norm_num) (by norm_num) (by
          norm_num) (by norm_num) (by norm_num) (by norm_num) (by norm_num)
  have s17 : fdiv (fin (-(13421773 / 2097152))) (fin (-(13421773 / 16777216))) = fin 8 := by
      rw [fdiv_fin _ _ (by norm_num)]
      exact round32_pos _ _ 3 8388608 (-20) (by norm_num) (by norm_num) (by norm_num) (by norm_num)
          (by norm_num) (by norm_num) (by norm_num) (by norm_num)
  have s18 : fmul (fin (13421773 / 16777216)) (fin (-2)) = fin (-(13421773 / 8388608)) := by
      rw [fmul_fin]
      exact round32_neg _ _ 0 (-13421773) (-23) (by norm_num) (by norm_num) (by norm_num) (by
          norm_num) (by norm_num) (by norm_num) (by norm_num) (by norm_num)
  have s19 : fadd (fin 0) (fin (-(13421773 / 8388608))) = fin (-(13421773 / 8388608)) := by
      rw [fadd_fin]
      exact round32_neg _ _ 0 (-13421773) (-23) (by norm_num) (by norm_num) (by norm_num) (by
          norm_num) (by norm_num) (by norm_num) (by norm_num) (by norm_num)
  have s20 : fdiv (fin (-(13421773 / 2097152))) (fin (-(13421773 / 8388608))) = fin 4 := by
      rw [fdiv_fin _ _ (by norm_num)]
      exact round32_pos _ _ 2 8388608 (-21) (by norm_num) (by norm_num) (by norm_num) (by norm_num)
          (by norm_num) (by norm_num) (by norm_num) (by norm_num)
  have e1 : B32.intersect_plane B32.main_p ⟨fin 0, fin 0, fin 0⟩ ⟨fin 0, fin 0, fin (-1)⟩ = fin 8
      := by
    simp only [B32.intersect_plane, B32.main_p, B32.vec3_dot,
      s1, s2, s3, s4, s5, s6, s7, s8, s9, s10, s11, s12, s13, s14, s15, s16, s17, s18,
      s19, s20]
  have e2 : B32.intersect_plane B32.main_p ⟨fin 0, fin 0, fin 0⟩ ⟨fin 0, fin 0, fin (-2)⟩ = fin 4
      := by
    simp only [B32.intersect_plane, B32.main_p, B32.vec3_dot,
      s1, s2, s3, s4, s5, s6, s7, s8, s9, s10, s11, s12, s13, s14, s15, s16, s17, s18,
      s19, s20]
  refine ⟨?_, e1, e2, ?_⟩
  · simp only [B32.main_p, B32.vec3_dot,
      s1, s2, s3, s4, s5, s6, s7, s8, s9, s10, s11, s12, s13, s14, s15, s16, s17, s18,
      s19, s20]
  · rw [e1, e2]
    intro h
    have h2 := Flt.fin.inj h
    norm_num at h2

/-- C17 (amended): for `dot(normal, dir) ≠ 0` and `k > 0`, when no operation
of `intersect_plane` rounds for `dir` and for `k * dir`, the routine returns
for `k * dir` the value for `dir` divided by `k`: not the same value, but the
same point of the ray and the same sign.  In general this relation holds only
up to rounding. -/
theorem C17_plane_scaling (planePos normal origin dir : Pt ℚ) (k : ℚ)
    (hdn : Pt.dot normal dir ≠ 0) (hk : 0 < k)
    (hexact : PlaneExact planePos normal origin dir)
    (hexact_k : PlaneExact planePos normal origin (Pt.smul k dir)) :
    B32.intersect_plane ⟨planePos.toVec3, normal.toVec3⟩ origin.toVec3 dir.toVec3
      = fin ((Pt.dot normal planePos - Pt.dot normal origin) / Pt.dot normal dir)
    ∧ B32.intersect_plane ⟨planePos.toVec3, normal.toVec3⟩ origin.toVec3
        (Pt.smul k dir).toVec3
      = fin ((Pt.dot normal planePos - Pt.dot normal origin) / Pt.dot normal dir / k)
    ∧ Pt.ray origin (Pt.smul k dir)
        ((Pt.dot normal planePos - Pt.dot normal origin) / Pt.dot normal dir / k)
      = Pt.ray origin dir
        ((Pt.dot normal planePos - Pt.dot normal origin) / Pt.dot normal dir)
    ∧ (0 < (Pt.dot normal planePos - Pt.dot normal origin) / Pt.dot normal dir / k
      ↔ 0 < (Pt.dot normal planePos - Pt.dot normal origin) / Pt.dot normal dir) := by
  have hk0 : k ≠ 0 := ne_of_gt hk
  have hdk : Pt.dot normal (Pt.smul k dir) ≠ 0 := by
    rw [Pt.dot_smul_right]
    exact mul_ne_zero hk0 hdn
  have h := plane_scaling_exact planePos normal origin dir k hdn hk
  refine ⟨intersect_plane_exact planePos normal origin dir hdn hexact, ?_, h.2.2.2.1,
    h.2.2.2.2⟩
  rw [intersect_plane_exact planePos normal origin (Pt.smul k dir) hdk hexact_k,
    Pt.dot_smul_right]
  congr 1
  field_simp
  left
  ring

/-- C17 at the plane through `(0, 0, -8)` with normal `(0, 0, 1)`, the ray
from the origin in the direction `(0, 0, -1)` and `k = 2`: no operation
rounds, and the routine returns 8 for `dir` and 4 for `k * dir`. -/
theorem C17_plane_scaling_witness :
    B32.intersect_plane ⟨(⟨0, 0, -8⟩ : Pt ℚ).toVec3, (⟨0, 0, 1⟩ : Pt ℚ).toVec3⟩
        (⟨0, 0, 0⟩ : Pt ℚ).toVec3 (⟨0, 0, -1⟩ : Pt ℚ).toVec3 = fin 8
    ∧ B32.intersect_plane ⟨(⟨0, 0, -8⟩ : Pt ℚ).toVec3, (⟨0, 0, 1⟩ : Pt ℚ).toVec3⟩
        (⟨0, 0, 0⟩ : Pt ℚ).toVec3 (Pt.smul 2 (⟨0, 0, -1⟩ : Pt ℚ)).toVec3 = fin 4 := by
  have h1 : PlaneExact ⟨0, 0, -8⟩ ⟨0, 0, 1⟩ ⟨0, 0, 0⟩ ⟨0, 0, -1⟩ := by
    have := planeExact_axis 8 1 8 (by norm_num) (by norm_num) (by norm_num) (by norm_num)
      (by norm_num)
    simpa using this
  have h2 : PlaneExact ⟨0, 0, -8⟩ ⟨0, 0, 1⟩ ⟨0, 0, 0⟩ (Pt.smul 2 ⟨0, 0, -1⟩) := by
    have := planeExact_axis 8 2 4 (by norm_num) (by norm_num) (by norm_num) (by norm_num)
      (by norm_num)
    simpa [Pt.smul] using this
  have h := C17_plane_scaling ⟨0, 0, -8⟩ ⟨0, 0, 1⟩ ⟨0, 0, 0⟩ ⟨0, 0, -1⟩ 2
    (by norm_num [Pt.dot]) (by norm_num) h1 h2
  have e : (Pt.dot (⟨0, 0, 1⟩ : Pt ℚ) ⟨0, 0, -8⟩ - Pt.dot (⟨0, 0, 1⟩ : Pt ℚ) ⟨0, 0, 0⟩)
      / Pt.dot (⟨0, 0, 1⟩ : Pt ℚ) ⟨0, 0, -1⟩ = 8 := by norm_num [Pt.dot]
  rw [e] at h
  refine ⟨h.1, ?_⟩
  rw [h.2.1]
  norm_num

end PlaneScaling

/-! ## C18: the directions of the rays -/

section UnitRays
open B32

/-- C18, counterexample: the pixel `(511, 511)` of the default render (row 7
and column 7 of the tile with origin `(504, 504)`), evaluated in binary32 with
a `sqrtf` that returns the correctly rounded root `0.031088106334209442` of the
squared norm `0.0009664703393355012` of `dif`, the same values as for the pixel
`(0, 0)`.  The direction handed to `intersect` is
`(0.4494534432888031, -0.4494534432888031, -0.7719994187355042)`.  The sum of the squares
of its components is not 1, the squared norm computed in binary32 is
`0.9999998807907104`, and the correctly rounded root of that is `0.9999999403953552`,
not 1. -/
theorem C18_unit_directions_counterexample :
    B32.vec3_norm2 (B32.pixel_dif B32.main_globals (B32.main_rr 504 504) 7 7) = fin (8301917 /
        8589934592)
    ∧ IsRoot32 (8301917 / 8589934592) (4172575 / 134217728)
    ∧ B32.pixel_dir B32.main_globals (constLibm (4172575 / 134217728) 0) (B32.main_rr 504 504) 7 7
        = ⟨fin (15081155 / 33554432), fin (-(15081155 / 33554432)), fin (-(12952001 / 16777216))⟩
    ∧ (15081155 / 33554432 : ℚ) * (15081155 / 33554432) + (-(15081155 / 33554432)) * (-(15081155 /
        33554432))
        + (-(12952001 / 16777216)) * (-(12952001 / 16777216)) ≠ 1
    ∧ B32.vec3_norm2 (B32.pixel_dir B32.main_globals (constLibm (4172575 / 134217728) 0)
        (B32.main_rr 504 504) 7 7) = fin (8388607 / 8388608)
    ∧ (8388607 / 8388608 : ℚ) ≠ 1
    ∧ IsRoot32 (8388607 / 8388608) (16777215 / 16777216)
    ∧ (16777215 / 16777216 : ℚ) ≠ 1 := by
  have s1 : B32.ofNat 504 = fin 504 := by
      unfold B32.ofNat
      rw [Nat.cast_ofNat]
      exact round32_pos _ _ 8 16515072 (-15) (by norm_num) (by norm_num) (by norm_num) (by
          norm_num) (by norm_num) (by norm_num) (by norm_num) (by norm_num)
  have s2 : B32.ofNat 7 = fin 7 := by
      unfold B32.ofNat
      rw [Nat.cast_ofNat]
      exact round32_pos _ _ 2 14680064 (-21) (by norm_num) (by norm_num) (by norm_num) (by
          norm_num) (by norm_num) (by norm_num) (by norm_num) (by norm_num)
  have s3 : fadd (fin 7) (fin 504) = fin 511 := by
      rw [fadd_fin]
      exact round32_pos _ _ 8 16744448 (-15) (by norm_num) (by norm_num) (by norm_num) (by
          norm_num) (by norm_num) (by norm_num) (by norm_num) (by norm_num)
  have s4 : fadd (fin 511) (fin (1 / 2)) = fin (1023 / 2) := by
      rw [fadd_fin]
      exact round32_pos _ _ 8 16760832 (-15) (by norm_num) (by norm_num) (by norm_num) (by
          norm_num) (by norm_num) (by norm_num) (by norm_num) (by norm_num)
  have s5 : fsub (fin (1023 / 2)) (fin 0) = fin (1023 / 2) := by
      rw [fsub_fin]
      exact round32_pos _ _ 8 16760832 (-15) (by norm_num) (by norm_num) (by norm_num) (by
          norm_num) (by norm_num) (by norm_num) (by norm_num) (by norm_num)
  have s6 : fsub (fin (7516193 / 536870912)) (fin (-(7516193 / 536870912))) = fin (7516193 /
      268435456) := by
      rw [fsub_fin]
      exact round32_pos _ _ (-6) 15032386 (-29) (by norm_num) (by norm_num) (by norm_num) (by
          norm_num) (by norm_num) (by norm_num) (by norm_num) (by norm_num)
  have s7 : fsub (fin 512) (fin 0) = fin 512 := by
      rw [fsub_fin]
      exact round32_pos _ _ 9 8388608 (-14) (by norm_num) (by norm_num) (by norm_num) (by norm_num)
          (by norm_num) (by norm_num) (by norm_num) (by norm_num)
  have s8 : fdiv (fin (7516193 / 268435456)) (fin 512) = fin (7516193 / 137438953472) := by
      rw [fdiv_fin _ _ (by norm_num)]
      exact round32_pos _ _ (-15) 15032386 (-38) (by norm_num) (by norm_num) (by norm_num) (by
          norm_num) (by norm_num) (by norm_num) (by norm_num) (by norm_num)
  have s9 : fmul (fin (1023 / 2)) (fin (7516193 / 137438953472)) = fin (7508853 / 268435456) := by
      rw [fmul_fin]
      exact round32_pos _ _ (-6) 15017706 (-29) (by norm_num) (by norm_num) (by norm_num) (by
          norm_num) (by norm_num) (by norm_num) (by norm_num) (by norm_num)
  have s10 : fadd (fin (7508853 / 268435456)) (fin (-(7516193 / 536870912))) = fin (7501513 /
      536870912) := by
      rw [fadd_fin]
      exact round32_pos _ _ (-7) 15003026 (-30) (by norm_num) (by norm_num) (by norm_num) (by
          norm_num) (by norm_num) (by norm_num) (by norm_num) (by norm_num)
  have s11 : fsub (fin (-(7516193 / 536870912))) (fin (7516193 / 536870912)) = fin (-(7516193 /
      268435456)) := by
      rw [fsub_fin]
      exact round32_neg _ _ (-6) (-15032386) (-29) (by norm_num) (by norm_num) (by norm_num) (by
          norm_num) (by norm_num) (by norm_num) (by norm_num) (by norm_num)
  have s12 : fdiv (fin (-(7516193 / 268435456))) (fin 512) = fin (-(7516193 / 137438953472)) := by
      rw [fdiv_fin _ _ (by norm_num)]
      exact round32_neg _ _ (-15) (-15032386) (-38) (by norm_num) (by norm_num) (by norm_num) (by
          norm_num) (by norm_num) (by norm_num) (by norm_num) (by norm_num)
  have s13 : fmul (fin (1023 / 2)) (fin (-(7516193 / 137438953472))) = fin (-(7508853 / 268435456))
      := by
      rw [fmul_fin]
      exact round32_neg _ _ (-6) (-15017706) (-29) (by norm_num) (by norm_num) (by norm_num) (by
          norm_num) (by norm_num) (by norm_num) (by norm_num) (by norm_num)
  have s14 : fadd (fin (-(7508853 / 268435456))) (fin (7516193 / 536870912)) = fin (-(7501513 /
      536870912)) := by
      rw [fadd_fin]
      exact round32_neg _ _ (-7) (-15003026) (-30) (by norm_num) (by norm_num) (by norm_num) (by
          norm_num) (by norm_num) (by norm_num) (by norm_num) (by norm_num)
  have s15 : round32 (24 / 1000) = fin (6442451 / 268435456) := by
      exact round32_pos _ _ (-6) 12884902 (-29) (by norm_num) (by norm_num) (by norm_num) (by
          norm_num) (by norm_num) (by norm_num) (by norm_num) (by norm_num)
  have s16 : (-(fin (6442451 / 268435456)) : Flt ℚ) = fin (-(6442451 / 268435456)) := by
      simp only [neg_fin, neg_neg, neg_zero]
  have s17 : fsub (fin (7501513 / 536870912)) (fin 0) = fin (7501513 / 536870912) := by
      rw [fsub_fin]
      exact round32_pos _ _ (-7) 15003026 (-30) (by norm_num) (by norm_num) (by norm_num) (by
          norm_num) (by norm_num) (by norm_num) (by norm_num) (by norm_num)
  have s18 : fsub (fin (-(7501513 / 536870912))) (fin 0) = fin (-(7501513 / 536870912)) := by
      rw [fsub_fin]
      exact round32_neg _ _ (-7) (-15003026) (-30) (by norm_num) (by norm_num) (by norm_num) (by
          norm_num) (by norm_num) (by norm_num) (by norm_num) (by norm_num)
  have s19 : fsub (fin (-(6442451 / 268435456))) (fin 0) = fin (-(6442451 / 268435456)) := by
      rw [fsub_fin]
      exact round32_neg _ _ (-6) (-12884902) (-29) (by norm_num) (by norm_num) (by norm_num) (by
          norm_num) (by norm_num) (by norm_num) (by norm_num) (by norm_num)
  have s20 : fmul (fin (7501513 / 536870912)) (fin (7501513 / 536870912)) = fin (13416457 /
      68719476736) := by
      rw [fmul_fin]
      exact round32_pos _ _ (-13) 13416457 (-36) (by norm_num) (by norm_num) (by norm_num) (by
          norm_num) (by norm_num) (by norm_num) (by norm_num) (by norm_num)
  have s21 : fmul (fin (-(7501513 / 536870912))) (fin (-(7501513 / 536870912))) = fin (13416457 /
      68719476736) := by
      rw [fmul_fin]
      exact round32_pos _ _ (-13) 13416457 (-36) (by norm_num) (by norm_num) (by norm_num) (by
          norm_num) (by norm_num) (by norm_num) (by norm_num) (by norm_num)
  have s22 : fadd (fin (13416457 / 68719476736)) (fin (13416457 / 68719476736)) = fin (13416457 /
      34359738368) := by
      rw [fadd_fin]
      exact round32_pos _ _ (-12) 13416457 (-35) (by norm_num) (by norm_num) (by norm_num) (by
          norm_num) (by norm_num) (by norm_num) (by norm_num) (by norm_num)
  have s23 : fmul (fin (-(6442451 / 268435456))) (fin (-(6442451 / 268435456))) = fin (9895605 /
      17179869184) := by
      rw [fmul_fin]
      exact round32_pos _ _ (-11) 9895605 (-34) (by norm_num) (by norm_num) (by norm_num) (by
          norm_num) (by norm_num) (by norm_num) (by norm_num) (by norm_num)
  have s24 : fadd (fin (13416457 / 34359738368)) (fin (9895605 / 17179869184)) = fin (8301917 /
      8589934592) := by
      rw [fadd_fin]
      exact round32_pos_tie _ _ (-11) 16603834 (-34) (by norm_num) (by norm_num) (by norm_num) (by
          norm_num) (Or.inr (by norm_num)) (by norm_num) (by norm_num) (by norm_num)
  have s25 : fdiv (fin 1) (fin (4172575 / 134217728)) = fin (2108073 / 65536) := by
      rw [fdiv_fin _ _ (by norm_num)]
      exact round32_pos _ _ 5 8432292 (-18) (by norm_num) (by norm_num) (by norm_num) (by norm_num)
          (by norm_num) (by norm_num) (by norm_num) (by norm_num)
  have s26 : fmul (fin (7501513 / 536870912)) (fin (2108073 / 65536)) = fin (15081155 / 33554432)
      := by
      rw [fmul_fin]
      exact round32_pos _ _ (-2) 15081155 (-25) (by norm_num) (by norm_num) (by norm_num) (by
          norm_num) (by norm_num) (by norm_num) (by norm_num) (by norm_num)
  have s27 : fmul (fin (-(7501513 / 536870912))) (fin (2108073 / 65536)) = fin (-(15081155 /
      33554432)) := by
      rw [fmul_fin]
      exact round32_neg _ _ (-2) (-15081155) (-25) (by norm_num) (by norm_num) (by norm_num) (by
          norm_num) (by norm_num) (by norm_num) (by norm_num) (by norm_num)
  have s28 : fmul (fin (-(6442451 / 268435456))) (fin (2108073 / 65536)) = fin (-(12952001 /
      16777216)) := by
      rw [fmul_fin]
      exact round32_neg _ _ (-1) (-12952001) (-24) (by norm_num) (by norm_num) (by norm_num) (by
          norm_num) (by norm_num) (by norm_num) (by norm_num) (by norm_num)
  have s29 : fmul (fin (15081155 / 33554432)) (fin (15081155 / 33554432)) = fin (6778277 /
      33554432) := by
      rw [fmul_fin]
      exact round32_pos _ _ (-3) 13556554 (-26) (by norm_num) (by norm_num) (by norm_num) (by
          norm_num) (by norm_num) (by norm_num) (by norm_num) (by norm_num)
  have s30 : fmul (fin (-(15081155 / 33554432))) (fin (-(15081155 / 33554432))) = fin (6778277 /
      33554432) := by
      rw [fmul_fin]
      exact round32_pos _ _ (-3) 13556554 (-26) (by norm_num) (by norm_num) (by norm_num) (by
          norm_num) (by norm_num) (by norm_num) (by norm_num) (by norm_num)
  have s31 : fadd (fin (6778277 / 33554432)) (fin (6778277 / 33554432)) = fin (6778277 / 16777216)
      := by
      rw [fadd_fin]
      exact round32_pos _ _ (-2) 13556554 (-25) (by norm_num) (by norm_num) (by norm_num) (by
          norm_num) (by norm_num) (by norm_num) (by norm_num) (by norm_num)
  have s32 : fmul (fin (-(12952001 / 16777216))) (fin (-(12952001 / 16777216))) = fin (9998937 /
      16777216) := by
      rw [fmul_fin]
      exact round32_pos _ _ (-1) 9998937 (-24) (by norm_num) (by norm_num) (by norm_num) (by
          norm_num) (by norm_num) (by norm_num) (by norm_num) (by norm_num)
  have s33 : fadd (fin (6778277 / 16777216)) (fin (9998937 / 16777216)) = fin (8388607 / 8388608)
      := by
      rw [fadd_fin]
      exact round32_pos _ _ (-1) 16777214 (-24) (by norm_num) (by norm_num) (by norm_num) (by
          norm_num) (by norm_num) (by norm_num) (by norm_num) (by norm_num)
  have hL : ∀ v : Flt ℚ, (constLibm (4172575 / 134217728) 0).sqrtf v = fin (4172575 / 134217728) :=
      fun _ => rfl
  have hdir : B32.pixel_dir B32.main_globals (constLibm (4172575 / 134217728) 0) (B32.main_rr 504
      504) 7 7 = ⟨fin (15081155 / 33554432), fin (-(15081155 / 33554432)), fin (-(12952001 /
      16777216))⟩ := by
    simp only [B32.pixel_dir, B32.pixel_dif, B32.pixel_proj, B32.vec3_normalize, B32.vec3_norm,
      B32.vec3_norm2, B32.vec3_scale, B32.vec3_dot, B32.vec3_sub, B32.map, B32.main_rr,
      main_globals_eval, B32.FOCAL_LENGTH, hL,
      s1, s2, s3, s4, s5, s6, s7, s8, s9, s10, s11, s12, s13, s14, s15, s16, s17, s18,
      s19, s20, s21, s22, s23, s24, s25, s26, s27, s28, s29, s30, s31, s32, s33]
  refine ⟨?_, corner_root, hdir, by norm_num, ?_, by norm_num, ?_, by norm_num⟩
  · simp only [B32.pixel_dir, B32.pixel_dif, B32.pixel_proj, B32.vec3_normalize, B32.vec3_norm,
      B32.vec3_norm2, B32.vec3_scale, B32.vec3_dot, B32.vec3_sub, B32.map, B32.main_rr,
      main_globals_eval, B32.FOCAL_LENGTH,
      s1, s2, s3, s4, s5, s6, s7, s8, s9, s10, s11, s12, s13, s14, s15, s16, s17, s18,
      s19, s20, s21, s22, s23, s24, s25, s26, s27, s28, s29, s30, s31, s32, s33]
  · rw [hdir]
    simp only [B32.vec3_norm2, B32.vec3_dot,
      s1, s2, s3, s4, s5, s6, s7, s8, s9, s10, s11, s12, s13, s14, s15, s16, s17, s18,
      s19, s20, s21, s22, s23, s24, s25, s26, s27, s28, s29, s30, s31, s32, s33]
  · exact ⟨67108859 / 67108864, 16777215 / 16777216, by norm_num, by norm_num, by norm_num, by
      norm_num,
    (by
      exact round32_pos _ _ (-1) 16777215 (-24) (by norm_num) (by norm_num) (by norm_num) (by
          norm_num) (by norm_num) (by norm_num) (by norm_num) (by norm_num)),
    (by
      exact round32_pos _ _ (-1) 16777215 (-24) (by norm_num) (by norm_num) (by norm_num) (by
          norm_num) (by norm_num) (by norm_num) (by norm_num) (by norm_num))⟩

/-- The squared norm of `dif` for a pixel of the default render is finite and
between `1/2000` and `1/100`. -/
theorem dif_norm2_bound (X Y i px : ℕ) (hx : X + px < 512) (hy : Y + i < 512) :
    (B32.pixel_dif B32.main_globals (B32.main_rr X Y) i px).e2 = fin (-(6442451 / 268435456))
    ∧ ∃ v : ℚ, B32.vec3_norm2 (B32.pixel_dif B32.main_globals (B32.main_rr X Y) i px) = fin v
      ∧ 1 / 2000 < v ∧ v < 1 / 100 := by
  obtain ⟨p, hp, -, bp⟩ := sensor_x_bound X Y i px hx
  obtain ⟨q, hq, -, bq⟩ := sensor_y_bound X Y i px hy
  obtain ⟨hf1, hf2, hf3⟩ := focal_eval
  have e5 : (2 : ℚ) ^ (-5 : ℤ) = 1 / 32 := by norm_num
  have e7 : (2 : ℚ) ^ (-7 : ℤ) = 1 / 128 := by norm_num
  have e8 : (2 : ℚ) ^ (-8 : ℤ) = 1 / 256 := by norm_num
  have e9 : (2 : ℚ) ^ (-9 : ℤ) = 1 / 512 := by norm_num
  have e32 : (2 : ℚ) ^ ((-7 : ℤ) - 25) = 1 / 4294967296 := by norm_num
  have e33 : (2 : ℚ) ^ ((-8 : ℤ) - 25) = 1 / 8589934592 := by norm_num
  have e34 : (2 : ℚ) ^ ((-9 : ℤ) - 25) = 1 / 17179869184 := by norm_num
  -- the components of `dif`
  obtain ⟨x, hx', -, bx⟩ := round32_error p (-5) (by norm_num) (by norm_num)
    (by rw [e5]; exact lt_of_le_of_lt bp (by norm_num))
  obtain ⟨y, hy', -, by'⟩ := round32_error q (-5) (by norm_num) (by norm_num)
    (by rw [e5]; exact lt_of_le_of_lt bq (by norm_num))
  rw [e5] at bx by'
  have sq_bound : ∀ z : ℚ, |z| ≤ 1 / 32 → 0 ≤ z * z ∧ z * z ≤ 1 / 1024 := by
    intro z hz
    refine ⟨mul_self_nonneg z, ?_⟩
    have h1 : z * z = |z| * |z| := (abs_mul_abs_self z).symm
    rw [h1]
    calc |z| * |z| ≤ 1 / 32 * (1 / 32) := mul_le_mul hz hz (abs_nonneg z) (by norm_num)
      _ = 1 / 1024 := by norm_num
  obtain ⟨x0, x1⟩ := sq_bound x bx
  obtain ⟨y0, y1⟩ := sq_bound y by'
  -- the squares
  obtain ⟨a, ha, ea, -⟩ := round32_error (x * x) (-9) (by norm_num) (by norm_num)
    (by rw [e9, abs_of_nonneg x0]; linarith)
  obtain ⟨b, hb, eb, -⟩ := round32_error (y * y) (-9) (by norm_num) (by norm_num)
    (by rw [e9, abs_of_nonneg y0]; linarith)
  rw [e34, abs_le] at ea eb
  -- their sum
  obtain ⟨c, hc, ec, -⟩ := round32_error (a + b) (-8) (by norm_num) (by norm_num)
    (by rw [e8, abs_lt]; constructor <;> linarith [ea.1, ea.2, eb.1, eb.2])
  rw [e33, abs_le] at ec
  -- the sum with the square of the focal length
  obtain ⟨v, hv, ev, -⟩ := round32_error (c + 9895605 / 17179869184) (-7) (by norm_num)
    (by norm_num)
    (by rw [e7, abs_lt]; constructor <;> linarith [ea.1, ea.2, eb.1, eb.2, ec.1, ec.2])
  rw [e32, abs_le] at ev
  have hcam : (B32.main_rr X Y).cam = ⟨fin 0, fin 0, fin 0⟩ := rfl
  have hz : (B32.pixel_proj B32.main_globals (B32.main_rr X Y) i px).e2
      = fin (-(6442451 / 268435456)) := by
    simp only [B32.pixel_proj]
    exact hf1
  refine ⟨?_, v, ?_, ?_, ?_⟩
  · simp only [B32.pixel_dif, B32.vec3_sub, hcam, hz]
    exact hf2
  · simp only [B32.pixel_dif, B32.vec3_norm2, B32.vec3_dot, B32.vec3_sub, hcam, hp, hq, hz]
    rw [hf2, hf3, fsub_fin, fsub_fin, sub_zero, sub_zero, hx', hy', fmul_fin, fmul_fin, ha, hb,
      fadd_fin, hc, fadd_fin, hv]
  · linarith [ea.1, ea.2, eb.1, eb.2, ec.1, ec.2, ev.1, ev.2]
  · linarith [ea.1, ea.2, eb.1, eb.2, ec.1, ec.2, ev.1, ev.2]

/-- C18 (amended): for every pixel `(gx, gy)` with `gx, gy < 512` of the
default render, in whatever tile, the vector `sensorPoint - camera` passed to
`vec3_normalize` has the z component `-0.024f`, not zero, and its squared norm
computed in binary32 is finite and at least `1/2000`.  So for a `sqrtf` that
returns a positive finite value on positive finite arguments, the norm is a
positive finite value `n`, the division `1 / norm` is not a division by zero,
and the direction handed to `intersect` is `dif` scaled by the binary32 value
nearest to `1 / n`.  The norm of that direction is 1 only up to rounding, see
the counterexample. -/
theorem C18_unit_directions (L : Libm ℚ) (X Y i px : ℕ) (hx : X + px < 512)
    (hy : Y + i < 512)
    (hpos : ∀ u : ℚ, 0 < u → ∃ n : ℚ, 0 < n ∧ L.sqrtf (fin u) = fin n) :
    (B32.pixel_dif B32.main_globals (B32.main_rr X Y) i px).e2 = fin (-(6442451 / 268435456))
    ∧ ∃ v n : ℚ,
      B32.vec3_norm2 (B32.pixel_dif B32.main_globals (B32.main_rr X Y) i px) = fin v
      ∧ 1 / 2000 < v
      ∧ B32.vec3_norm L (B32.pixel_dif B32.main_globals (B32.main_rr X Y) i px) = fin n
      ∧ 0 < n
      ∧ fdiv (fin 1) (B32.vec3_norm L (B32.pixel_dif B32.main_globals (B32.main_rr X Y) i px))
          = round32 (1 / n)
      ∧ B32.pixel_dir B32.main_globals L (B32.main_rr X Y) i px
          = B32.vec3_scale (B32.pixel_dif B32.main_globals (B32.main_rr X Y) i px)
              (round32 (1 / n)) := by
  obtain ⟨hz, v, hv, v0, -⟩ := dif_norm2_bound X Y i px hx hy
  obtain ⟨n, n0, hn⟩ := hpos v (by linarith)
  have hnorm : B32.vec3_norm L (B32.pixel_dif B32.main_globals (B32.main_rr X Y) i px)
      = fin n := by
    simp only [B32.vec3_norm]
    rw [hv, hn]
  have hdiv : fdiv (fin 1)
      (B32.vec3_norm L (B32.pixel_dif B32.main_globals (B32.main_rr X Y) i px))
      = round32 (1 / n) := by
    rw [hnorm, fdiv_fin _ _ (ne_of_gt n0)]
  refine ⟨hz, v, n, hv, v0, hnorm, n0, hdiv, ?_⟩
  simp only [B32.pixel_dir, B32.vec3_normalize]
  rw [hdiv]

/-- C18 at the pixel `(511, 511)` with a libm whose `sqrtf` returns the
correctly rounded root of the squared norm of `dif`. -/
theorem C18_unit_directions_witness :
    (B32.pixel_dif B32.main_globals (B32.main_rr 504 504) 7 7).e2 = fin (-(6442451 / 268435456))
    ∧ ∃ v n : ℚ,
      B32.vec3_norm2 (B32.pixel_dif B32.main_globals (B32.main_rr 504 504) 7 7) = fin v
      ∧ 1 / 2000 < v
      ∧ B32.vec3_norm (constLibm (4172575 / 134217728) 0) (B32.pixel_dif B32.main_globals
          (B32.main_rr 504 504) 7 7) = fin n
      ∧ 0 < n :=
  have h := C18_unit_directions (constLibm (4172575 / 134217728) 0) 504 504 7 7 (by norm_num) (by
      norm_num)
    (fun _ _ => ⟨4172575 / 134217728, by norm_num, rfl⟩)
  ⟨h.1, h.2.imp fun _ hv => hv.imp fun _ hn => ⟨hn.1, hn.2.1, hn.2.2.1, hn.2.2.2.1⟩⟩

end UnitRays

/-! ## C19: scaling the direction in the sphere routine -/

section SphereScaling
open B32

/-- C19, counterexample: the sphere of `main`, the origin as ray origin, the
direction `(0, 0, -7)` and `k = 5`.  For `dir` the computed `dot(dir, dir)` is
49 and the discriminant 49, for `k * dir = (0, 0, -35)` they are 1225 and 1225,
all exact, with the square roots 7 and 35.  The routine returns
`fl(14 / 49) = 0.2857142984867096` for `dir` and `fl(70 / 1225) = 0.05714285746216774` for
`k * dir`; the latter is neither the former divided by 5 exactly nor the
binary32 quotient `0.05714286118745804`. -/
theorem C19_sphere_scaling_counterexample :
    B32.vec3_scale ⟨fin 0, fin 0, fin (-7)⟩ (fin 5) = ⟨fin 0, fin 0, fin (-35)⟩
    ∧ B32.vec3_norm2 ⟨fin 0, fin 0, fin (-7)⟩ = fin 49
    ∧ B32.sphere_delta B32.main_s ⟨fin 0, fin 0, fin 0⟩ ⟨fin 0, fin 0, fin (-7)⟩ = fin 49
    ∧ B32.sphere_delta B32.main_s ⟨fin 0, fin 0, fin 0⟩ ⟨fin 0, fin 0, fin (-35)⟩ = fin 1225
    ∧ B32.intersect_sphere ratLibm B32.main_s ⟨fin 0, fin 0, fin 0⟩ ⟨fin 0, fin 0, fin (-7)⟩ = fin
        (9586981 / 33554432)
    ∧ B32.intersect_sphere ratLibm B32.main_s ⟨fin 0, fin 0, fin 0⟩ ⟨fin 0, fin 0, fin (-35)⟩ = fin
        (15339169 / 268435456)
    ∧ (15339169 / 268435456 : ℚ) ≠ 9586981 / 33554432 / 5
    ∧ fdiv (fin (9586981 / 33554432)) (fin 5) = fin (7669585 / 134217728)
    ∧ (15339169 / 268435456 : ℚ) ≠ 7669585 / 134217728 := by
  have s1 : fsub (fin 0) (fin 0) = fin 0 := by
      rw [fsub_fin]
      rw [show ((0 : ℚ) - (0) = 0) by norm_num]
      exact round32_zero
  have s2 : fsub (fin 0) (fin (-3)) = fin 3 := by
      rw [fsub_fin]
      exact round32_pos _ _ 1 12582912 (-22) (by norm_num) (by norm_num) (by norm_num) (by
          norm_num) (by norm_num) (by norm_num) (by norm_num) (by norm_num)
  have s3 : fmul (fin 0) (fin 0) = fin 0 := by
      rw [fmul_fin]
      rw [show ((0 : ℚ) * (0) = 0) by norm_num]
      exact round32_zero
  have s4 : fadd (fin 0) (fin 0) = fin 0 := by
      rw [fadd_fin]
      rw [show ((0 : ℚ) + (0) = 0) by norm_num]
      exact round32_zero
  have s5 : fmul (fin (-7)) (fin (-7)) = fin 49 := by
      rw [fmul_fin]
      exact round32_pos _ _ 5 12845056 (-18) (by norm_num) (by norm_num) (by norm_num) (by
          norm_num) (by norm_num) (by norm_num) (by norm_num) (by norm_num)
  have s6 : fadd (fin 0) (fin 49) = fin 49 := by
      rw [fadd_fin]
      exact round32_pos _ _ 5 12845056 (-18) (by norm_num) (by norm_num) (by norm_num) (by
          norm_num) (by norm_num) (by norm_num) (by norm_num) (by norm_num)
  have s7 : fmul (fin (-7)) (fin 3) = fin (-21) := by
      rw [fmul_fin]
      exact round32_neg _ _ 4 (-11010048) (-19) (by norm_num) (by norm_num) (by norm_num) (by
          norm_num) (by norm_num) (by norm_num) (by norm_num) (by norm_num)
  have s8 : fadd (fin 0) (fin (-21)) = fin (-21) := by
      rw [fadd_fin]
      exact round32_neg _ _ 4 (-11010048) (-19) (by norm_num) (by norm_num) (by norm_num) (by
          norm_num) (by norm_num) (by norm_num) (by norm_num) (by norm_num)
  have s9 : fmul (fin (-21)) (fin (-21)) = fin 441 := by
      rw [fmul_fin]
      exact round32_pos _ _ 8 14450688 (-15) (by norm_num) (by norm_num) (by norm_num) (by
          norm_num) (by norm_num) (by norm_num) (by norm_num) (by norm_num)
  have s10 : fmul (fin 3) (fin 3) = fin 9 := by
      rw [fmul_fin]
      exact round32_pos _ _ 3 9437184 (-20) (by norm_num) (by norm_num) (by norm_num) (by norm_num)
          (by norm_num) (by norm_num) (by norm_num) (by norm_num)
  have s11 : fadd (fin 0) (fin 9) = fin 9 := by
      rw [fadd_fin]
      exact round32_pos _ _ 3 9437184 (-20) (by norm_num) (by norm_num) (by norm_num) (by norm_num)
          (by norm_num) (by norm_num) (by norm_num) (by norm_num)
  have s12 : fmul (fin 1) (fin 1) = fin 1 := by
      rw [fmul_fin]
      exact round32_pos _ _ 0 8388608 (-23) (by norm_num) (by norm_num) (by norm_num) (by norm_num)
          (by norm_num) (by norm_num) (by norm_num) (by norm_num)
  have s13 : fsub (fin 9) (fin 1) = fin 8 := by
      rw [fsub_fin]
      exact round32_pos _ _ 3 8388608 (-20) (by norm_num) (by norm_num) (by norm_num) (by norm_num)
          (by norm_num) (by norm_num) (by norm_num) (by norm_num)
  have s14 : fmul (fin 49) (fin 8) = fin 392 := by
      rw [fmul_fin]
      exact round32_pos _ _ 8 12845056 (-15) (by norm_num) (by norm_num) (by norm_num) (by
          norm_num) (by norm_num) (by norm_num) (by norm_num) (by norm_num)
  have s15 : fsub (fin 441) (fin 392) = fin 49 := by
      rw [fsub_fin]
      exact round32_pos _ _ 5 12845056 (-18) (by norm_num) (by norm_num) (by norm_num) (by
          norm_num) (by norm_num) (by norm_num) (by norm_num) (by norm_num)
  have s16 : ratLibm.sqrt (fin 49) = fin 7 := by
      show ratSqrt (fin 49) = fin 7
      simp only [ratSqrt]
      have h1 : Rat.sqrt ((7) * (7)) = 7 := rat_sqrt_sq (7) (by norm_num)
      have h2 : ((7) * (7) : ℚ) = 49 := by norm_num
      rw [h2] at h1
      rw [if_neg (by norm_num), h1]
  have s17 : (-(fin (-21)) : Flt ℚ) = fin 21 := by
      simp only [neg_fin, neg_neg, neg_zero]
  have s18 : fadd (fin 21) (fin 7) = fin 28 := by
      rw [fadd_fin]
      exact round32_pos _ _ 4 14680064 (-19) (by norm_num) (by norm_num) (by norm_num) (by
          norm_num) (by norm_num) (by norm_num) (by norm_num) (by norm_num)
  have s19 : fdiv (fin 28) (fin 49) = fin (9586981 / 16777216) := by
      rw [fdiv_fin _ _ (by norm_num)]
      exact round32_pos _ _ (-1) 9586981 (-24) (by norm_num) (by norm_num) (by norm_num) (by
          norm_num) (by norm_num) (by norm_num) (by norm_num) (by norm_num)
  have s20 : fsub (fin 21) (fin 7) = fin 14 := by
      rw [fsub_fin]
      exact round32_pos _ _ 3 14680064 (-20) (by norm_num) (by norm_num) (by norm_num) (by
          norm_num) (by norm_num) (by norm_num) (by norm_num) (by norm_num)
  have s21 : fdiv (fin 14) (fin 49) = fin (9586981 / 33554432) := by
      rw [fdiv_fin _ _ (by norm_num)]
      exact round32_pos _ _ (-2) 9586981 (-25) (by norm_num) (by norm_num) (by norm_num) (by
          norm_num) (by norm_num) (by norm_num) (by norm_num) (by norm_num)
  have s22 : Flt.lt (fin (9586981 / 16777216) : Flt ℚ) (fin (9586981 / 33554432)) = false := by
      rw [lt_fin_fin]
      exact decide_eq_false (by norm_num)
  have s23 : fmul (fin (-35)) (fin (-35)) = fin 1225 := by
      rw [fmul_fin]
      exact round32_pos _ _ 10 10035200 (-13) (by norm_num) (by norm_num) (by norm_num) (by
          norm_num) (by norm_num) (by norm_num) (by norm_num) (by norm_num)
  have s24 : fadd (fin 0) (fin 1225) = fin 1225 := by
      rw [fadd_fin]
      exact round32_pos _ _ 10 10035200 (-13) (by norm_num) (by norm_num) (by norm_num) (by
          norm_num) (by norm_num) (by norm_num) (by norm_num) (by norm_num)
  have s25 : fmul (fin (-35)) (fin 3) = fin (-105) := by
      rw [fmul_fin]
      exact round32_neg _ _ 6 (-13762560) (-17) (by norm_num) (by norm_num) (by norm_num) (by
          norm_num) (by norm_num) (by norm_num) (by norm_num) (by norm_num)
  have s26 : fadd (fin 0) (fin (-105)) = fin (-105) := by
      rw [fadd_fin]
      exact round32_neg _ _ 6 (-13762560) (-17) (by norm_num) (by norm_num) (by norm_num) (by
          norm_num) (by norm_num) (by norm_num) (by norm_num) (by norm_num)
  have s27 : fmul (fin (-105)) (fin (-105)) = fin 11025 := by
      rw [fmul_fin]
      exact round32_pos _ _ 13 11289600 (-10) (by norm_num) (by norm_num) (by norm_num) (by
          norm_num) (by norm_num) (by norm_num) (by norm_num) (by norm_num)
  have s28 : fmul (fin 1225) (fin 8) = fin 9800 := by
      rw [fmul_fin]
      exact round32_pos _ _ 13 10035200 (-10) (by norm_num) (by norm_num) (by norm_num) (by
          norm_num) (by norm_num) (by norm_num) (by norm_num) (by norm_num)
  have s29 : fsub (fin 11025) (fin 9800) = fin 1225 := by
      rw [fsub_fin]
      exact round32_pos _ _ 10 10035200 (-13) (by norm_num) (by norm_num) (by norm_num) (by
          norm_num) (by norm_num) (by norm_num) (by norm_num) (by norm_num)
  have s30 : ratLibm.sqrt (fin 1225) = fin 35 := by
      show ratSqrt (fin 1225) = fin 35
      simp only [ratSqrt]
      have h1 : Rat.sqrt ((35) * (35)) = 35 := rat_sqrt_sq (35) (by norm_num)
      have h2 : ((35) * (35) : ℚ) = 1225 := by norm_num
      rw [h2] at h1
      rw [if_neg (by norm_num), h1]
  have s31 : (-(fin (-105)) : Flt ℚ) = fin 105 := by
      simp only [neg_fin, neg_neg, neg_zero]
  have s32 : fadd (fin 105) (fin 35) = fin 140 := by
      rw [fadd_fin]
      exact round32_pos _ _ 7 9175040 (-16) (by norm_num) (by norm_num) (by norm_num) (by norm_num)
          (by norm_num) (by norm_num) (by norm_num) (by norm_num)
  have s33 : fdiv (fin 140) (fin 1225) = fin (15339169 / 134217728) := by
      rw [fdiv_fin _ _ (by norm_num)]
      exact round32_pos _ _ (-4) 15339169 (-27) (by norm_num) (by norm_num) (by norm_num) (by
          norm_num) (by norm_num) (by norm_num) (by norm_num) (by norm_num)
  have s34 : fsub (fin 105) (fin 35) = fin 70 := by
      rw [fsub_fin]
      exact round32_pos _ _ 6 9175040 (-17) (by norm_num) (by norm_num) (by norm_num) (by norm_num)
          (by norm_num) (by norm_num) (by norm_num) (by norm_num)
  have s35 : fdiv (fin 70) (fin 1225) = fin (15339169 / 268435456) := by
      rw [fdiv_fin _ _ (by norm_num)]
      exact round32_pos _ _ (-5) 15339169 (-28) (by norm_num) (by norm_num) (by norm_num) (by
          norm_num) (by norm_num) (by norm_num) (by norm_num) (by norm_num)
  have s36 : Flt.lt (fin (15339169 / 134217728) : Flt ℚ) (fin (15339169 / 268435456)) = false := by
      rw [lt_fin_fin]
      exact decide_eq_false (by norm_num)
  have s37 : fmul (fin 0) (fin 5) = fin 0 := by
      rw [fmul_fin]
      rw [show ((0 : ℚ) * (5) = 0) by norm_num]
      exact round32_zero
  have s38 : fmul (fin (-7)) (fin 5) = fin (-35) := by
      rw [fmul_fin]
      exact round32_neg _ _ 5 (-9175040) (-18) (by norm_num) (by norm_num) (by norm_num) (by
          norm_num) (by norm_num) (by norm_num) (by norm_num) (by norm_num)
  have s39 : fdiv (fin (9586981 / 33554432)) (fin 5) = fin (7669585 / 134217728) := by
      rw [fdiv_fin _ _ (by norm_num)]
      exact round32_pos _ _ (-5) 15339170 (-28) (by norm_num) (by norm_num) (by norm_num) (by
          norm_num) (by norm_num) (by norm_num) (by norm_num) (by norm_num)
  refine ⟨?_, ?_, ?_, ?_, ?_, ?_, ?_, ?_, ?_⟩
  · simp only [B32.vec3_scale,
      s1, s2, s3, s4, s5, s6, s7, s8, s9, s10, s11, s12, s13, s14, s15, s16, s17, s18,
      s19, s20, s21, s22, s23, s24, s25, s26, s27, s28, s29, s30, s31, s32, s33, s34,
      s35, s36, s37, s38, s39]
  · simp only [B32.vec3_norm2, B32.vec3_dot,
      s1, s2, s3, s4, s5, s6, s7, s8, s9, s10, s11, s12, s13, s14, s15, s16, s17, s18,
      s19, s20, s21, s22, s23, s24, s25, s26, s27, s28, s29, s30, s31, s32, s33, s34,
      s35, s36, s37, s38, s39]
  · simp only [B32.sphere_delta, B32.main_s, B32.vec3_norm2, B32.vec3_dot, B32.vec3_sub,
      s1, s2, s3, s4, s5, s6, s7, s8, s9, s10, s11, s12, s13, s14, s15, s16, s17, s18,
      s19, s20, s21, s22, s23, s24, s25, s26, s27, s28, s29, s30, s31, s32, s33, s34,
      s35, s36, s37, s38, s39]
  · simp only [B32.sphere_delta, B32.main_s, B32.vec3_norm2, B32.vec3_dot, B32.vec3_sub,
      s1, s2, s3, s4, s5, s6, s7, s8, s9, s10, s11, s12, s13, s14, s15, s16, s17, s18,
      s19, s20, s21, s22, s23, s24, s25, s26, s27, s28, s29, s30, s31, s32, s33, s34,
      s35, s36, s37, s38, s39]
  · simp only [B32.intersect_sphere, B32.main_s, B32.vec3_norm2, B32.vec3_dot, B32.vec3_sub,
      Raytracer.min, if_true, if_false, Bool.false_eq_true,
      s1, s2, s3, s4, s5, s6, s7, s8, s9, s10, s11, s12, s13, s14, s15, s16, s17, s18,
      s19, s20, s21, s22, s23, s24, s25, s26, s27, s28, s29, s30, s31, s32, s33, s34,
      s35, s36, s37, s38, s39]
  · simp only [B32.intersect_sphere, B32.main_s, B32.vec3_norm2, B32.vec3_dot, B32.vec3_sub,
      Raytracer.min, if_true, if_false, Bool.false_eq_true,
      s1, s2, s3, s4, s5, s6, s7, s8, s9, s10, s11, s12, s13, s14, s15, s16, s17, s18,
      s19, s20, s21, s22, s23, s24, s25, s26, s27, s28, s29, s30, s31, s32, s33, s34,
      s35, s36, s37, s38, s39]
  · norm_num
  · exact s39
  · norm_num

/-- C19 (amended): for `dot(dir, dir) > 0`, a discriminant `D ≥ 0`, `k > 0`,
`sqrt` returning the non-negative square roots of the discriminants for `dir`
and for `k * dir`, and no operation of `intersect_sphere` rounding for `dir`
and for `k * dir`, the routine returns for `k * dir` the value for `dir`
divided by `k`; the point of the ray at the returned parameter and the sign
of the returned parameter are the same for `dir` and `k * dir`.  In general
the relation holds only up to rounding, see the counterexample. -/
theorem C19_sphere_scaling (L : Libm ℚ) (center origin dir : Pt ℚ) (radius k s s' : ℚ)
    (hk : 0 < k) (ha : 0 < Pt.dot dir dir)
    (hD : 0 ≤ Pt.dot dir (Pt.sub origin center) * Pt.dot dir (Pt.sub origin center)
      - Pt.dot dir dir
        * (Pt.dot (Pt.sub origin center) (Pt.sub origin center) - radius * radius))
    (hsqrt : L.sqrt (fin (Pt.dot dir (Pt.sub origin center) * Pt.dot dir (Pt.sub origin center)
      - Pt.dot dir dir
        * (Pt.dot (Pt.sub origin center) (Pt.sub origin center) - radius * radius))) = fin s)
    (hs0 : 0 ≤ s)
    (hss : s * s = Pt.dot dir (Pt.sub origin center) * Pt.dot dir (Pt.sub origin center)
      - Pt.dot dir dir
        * (Pt.dot (Pt.sub origin center) (Pt.sub origin center) - radius * radius))
    (hsqrt' : L.sqrt (fin (Pt.dot (Pt.smul k dir) (Pt.sub origin center) * Pt.dot (Pt.smul k dir)
        (Pt.sub origin center)
      - Pt.dot (Pt.smul k dir) (Pt.smul k dir)
        * (Pt.dot (Pt.sub origin center) (Pt.sub origin center) - radius * radius))) = fin s')
    (hs0' : 0 ≤ s')
    (hss' : s' * s' = Pt.dot (Pt.smul k dir) (Pt.sub origin center) * Pt.dot (Pt.smul k dir)
        (Pt.sub origin center)
      - Pt.dot (Pt.smul k dir) (Pt.smul k dir)
        * (Pt.dot (Pt.sub origin center) (Pt.sub origin center) - radius * radius))
    (hexact : SphereExact center origin dir radius s)
    (hexact_k : SphereExact center origin (Pt.smul k dir) radius s') :
    B32.intersect_sphere L ⟨center.toVec3, fin radius⟩ origin.toVec3 dir.toVec3
      = fin ((-Pt.dot dir (Pt.sub origin center) - s) / Pt.dot dir dir)
    ∧ B32.intersect_sphere L ⟨center.toVec3, fin radius⟩ origin.toVec3
        (Pt.smul k dir).toVec3
      = fin ((-Pt.dot dir (Pt.sub origin center) - s) / Pt.dot dir dir / k)
    ∧ Pt.ray origin (Pt.smul k dir)
        ((-Pt.dot dir (Pt.sub origin center) - s) / Pt.dot dir dir / k)
      = Pt.ray origin dir ((-Pt.dot dir (Pt.sub origin center) - s) / Pt.dot dir dir)
    ∧ (0 < (-Pt.dot dir (Pt.sub origin center) - s) / Pt.dot dir dir / k
      ↔ 0 < (-Pt.dot dir (Pt.sub origin center) - s) / Pt.dot dir dir) := by
  have h := sphere_scaling_exact L center origin dir radius k s s' hk ha hD hsqrt hs0 hss
    hsqrt' hs0' hss'
  have hak : Pt.dot (Pt.smul k dir) (Pt.smul k dir) ≠ 0 := by
    rw [Pt.dot_smul_left, Pt.dot_smul_right]
    exact mul_ne_zero (ne_of_gt hk) (mul_ne_zero (ne_of_gt hk) (ne_of_gt ha))
  refine ⟨?_, ?_, h.2.2.2.1, h.2.2.2.2⟩
  · rw [intersect_sphere_exact L center origin dir radius s (ne_of_gt ha) hsqrt hexact]
    exact h.2.1
  · rw [intersect_sphere_exact L center origin (Pt.smul k dir) radius s' hak hsqrt' hexact_k,
      ← vec3_scale_toVec3]
    exact h.2.2.1

/-- C19 at the sphere of `main`, the direction `(0, 0, -1)` and `k = 2`: no
operation rounds, the discriminants are 1 and 4, and the routine returns 2
for `dir` and 1 for `k * dir`. -/
theorem C19_sphere_scaling_witness :
    B32.intersect_sphere ratLibm ⟨(⟨0, 0, -3⟩ : Pt ℚ).toVec3, fin 1⟩
        (⟨0, 0, 0⟩ : Pt ℚ).toVec3 (⟨0, 0, -1⟩ : Pt ℚ).toVec3 = fin 2
    ∧ B32.intersect_sphere ratLibm ⟨(⟨0, 0, -3⟩ : Pt ℚ).toVec3, fin 1⟩
        (⟨0, 0, 0⟩ : Pt ℚ).toVec3 (Pt.smul 2 (⟨0, 0, -1⟩ : Pt ℚ)).toVec3 = fin 1 := by
  have hD : Pt.dot (⟨0, 0, -1⟩ : Pt ℚ) (Pt.sub ⟨0, 0, 0⟩ ⟨0, 0, -3⟩)
        * Pt.dot (⟨0, 0, -1⟩ : Pt ℚ) (Pt.sub ⟨0, 0, 0⟩ ⟨0, 0, -3⟩)
      - Pt.dot (⟨0, 0, -1⟩ : Pt ℚ) ⟨0, 0, -1⟩
        * (Pt.dot (Pt.sub (⟨0, 0, 0⟩ : Pt ℚ) ⟨0, 0, -3⟩) (Pt.sub ⟨0, 0, 0⟩ ⟨0, 0, -3⟩)
          - 1 * 1) = 1 := by norm_num [Pt.dot, Pt.sub]
  have hDk : Pt.dot (Pt.smul 2 (⟨0, 0, -1⟩ : Pt ℚ)) (Pt.sub ⟨0, 0, 0⟩ ⟨0, 0, -3⟩)
        * Pt.dot (Pt.smul 2 (⟨0, 0, -1⟩ : Pt ℚ)) (Pt.sub ⟨0, 0, 0⟩ ⟨0, 0, -3⟩)
      - Pt.dot (Pt.smul 2 (⟨0, 0, -1⟩ : Pt ℚ)) (Pt.smul 2 ⟨0, 0, -1⟩)
        * (Pt.dot (Pt.sub (⟨0, 0, 0⟩ : Pt ℚ) ⟨0, 0, -3⟩) (Pt.sub ⟨0, 0, 0⟩ ⟨0, 0, -3⟩)
          - 1 * 1) = 4 := by norm_num [Pt.dot, Pt.sub, Pt.smul]
  have hek : SphereExact ⟨0, 0, -3⟩ ⟨0, 0, 0⟩ (Pt.smul 2 ⟨0, 0, -1⟩) 1 2 :=
    ⟨⟨isFloat_of_eq_int _ 0 (by norm_num [Pt.dot, Pt.sub, Pt.smul]) (by norm_num),
      isFloat_of_eq_int _ 0 (by norm_num [Pt.dot, Pt.sub, Pt.smul]) (by norm_num),
      isFloat_of_eq_int _ 3 (by norm_num [Pt.dot, Pt.sub, Pt.smul]) (by norm_num)⟩,
     ⟨isFloat_of_eq_int _ 0 (by norm_num [Pt.dot, Pt.sub, Pt.smul]) (by norm_num),
      isFloat_of_eq_int _ 0 (by norm_num [Pt.dot, Pt.sub, Pt.smul]) (by norm_num),
      isFloat_of_eq_int _ 4 (by norm_num [Pt.dot, Pt.sub, Pt.smul]) (by norm_num),
      isFloat_of_eq_int _ 0 (by norm_num [Pt.dot, Pt.sub, Pt.smul]) (by norm_num),
      isFloat_of_eq_int _ 4 (by norm_num [Pt.dot, Pt.sub, Pt.smul]) (by norm_num)⟩,
     ⟨isFloat_of_eq_int _ 0 (by norm_num [Pt.dot, Pt.sub, Pt.smul]) (by norm_num),
      isFloat_of_eq_int _ 0 (by norm_num [Pt.dot, Pt.sub, Pt.smul]) (by norm_num),
      isFloat_of_eq_int _ (-6) (by norm_num [Pt.dot, Pt.sub, Pt.smul]) (by norm_num),
      isFloat_of_eq_int _ 0 (by norm_num [Pt.dot, Pt.sub, Pt.smul]) (by norm_num),
      isFloat_of_eq_int _ (-6) (by norm_num [Pt.dot, Pt.sub, Pt.smul]) (by norm_num)⟩,
     ⟨isFloat_of_eq_int _ 0 (by norm_num [Pt.dot, Pt.sub, Pt.smul]) (by norm_num),
      isFloat_of_eq_int _ 0 (by norm_num [Pt.dot, Pt.sub, Pt.smul]) (by norm_num),
      isFloat_of_eq_int _ 9 (by norm_num [Pt.dot, Pt.sub, Pt.smul]) (by norm_num),
      isFloat_of_eq_int _ 0 (by norm_num [Pt.dot, Pt.sub, Pt.smul]) (by norm_num),
      isFloat_of_eq_int _ 9 (by norm_num [Pt.dot, Pt.sub, Pt.smul]) (by norm_num)⟩,
     isFloat_of_eq_int _ 36 (by norm_num [Pt.dot, Pt.sub, Pt.smul]) (by norm_num),
     isFloat_of_eq_int _ 1 (by norm_num [Pt.dot, Pt.sub, Pt.smul]) (by norm_num),
     isFloat_of_eq_int _ 8 (by norm_num [Pt.dot, Pt.sub, Pt.smul]) (by norm_num),
     isFloat_of_eq_int _ 32 (by norm_num [Pt.dot, Pt.sub, Pt.smul]) (by norm_num),
     isFloat_of_eq_int _ 4 (by norm_num [Pt.dot, Pt.sub, Pt.smul]) (by norm_num),
     isFloat_of_eq_int _ 8 (by norm_num [Pt.dot, Pt.sub, Pt.smul]) (by norm_num),
     isFloat_of_eq_int _ 4 (by norm_num [Pt.dot, Pt.sub, Pt.smul]) (by norm_num),
     isFloat_of_eq_int _ 2 (by norm_num [Pt.dot, Pt.sub, Pt.smul]) (by norm_num),
     isFloat_of_eq_int _ 1 (by norm_num [Pt.dot, Pt.sub, Pt.smul]) (by norm_num)⟩
  have h := C19_sphere_scaling ratLibm ⟨0, 0, -3⟩ ⟨0, 0, 0⟩ ⟨0, 0, -1⟩ 1 2 1 2
    (by norm_num) (by norm_num [Pt.dot]) (by rw [hD]; norm_num)
    (by rw [hD]; exact ratLibm_sqrt_one) (by norm_num) (by rw [hD]; norm_num)
    (by rw [hDk]; exact ratLibm_sqrt_four) (by norm_num) (by rw [hDk]; norm_num)
    sphereExact_axis hek
  have e : (-Pt.dot (⟨0, 0, -1⟩ : Pt ℚ) (Pt.sub ⟨0, 0, 0⟩ ⟨0, 0, -3⟩) - 1)
      / Pt.dot (⟨0, 0, -1⟩ : Pt ℚ) ⟨0, 0, -1⟩ = 2 := by norm_num [Pt.dot, Pt.sub]
  rw [e] at h
  refine ⟨h.1, ?_⟩
  rw [h.2.1]
  norm_num

end SphereScaling

end Raytracer
